import Mathlib

/-!
# Davix: WebDAV property parser and request parameters

A shallow embedding of `DavPropXMLParser`
(`src/src/xmlpp/davpropxmlparser.cpp`) with the C library routines it calls,
and of `RequestParams` (`src/src/params/davixrequestparams.cpp`), followed by
theorems about the parser's callbacks and about the setters and getters of the
request parameters.

Conventions of the embedding
* a C string is the list of its characters before the terminating NUL;
* `unsigned long` is 64 bits wide (LP64), `mode_t` is 32 bits wide and
  `off_t` is a signed 64 bit integer;
* a member function becomes a function from the parser object to the pair of
  its return value and the object afterwards.
-/

namespace Davix

/-- A C string: the characters that precede the terminating NUL. -/
abbrev CStr := List Char

/-! ## Element name patterns (lines 7-17) -/

def prop_pattern : CStr := "prop".toList
def propstat_pattern : CStr := "propstat".toList
def response_pattern : CStr := "response".toList
def getlastmodified_pattern : CStr := "getlastmodified".toList
def creationdate_pattern : CStr := "creationdate".toList
def getcontentlength_pattern : CStr := "getcontentlength".toList
def mode_pattern : CStr := "mode".toList
def href_pattern : CStr := "href".toList
def resource_type_patern : CStr := "resourcetype".toList
def collection_patern : CStr := "collection".toList
def status_pattern : CStr := "status".toList

/-! ## C library: `strtoul`, `strchr`, `strrchr` -/

/-- Largest `unsigned long` on an LP64 platform. -/
def ULONG_MAX : Nat := 2 ^ 64 - 1

/-- The `S_IFDIR` file type bit of `sys/stat.h` (octal 040000). -/
def S_IFDIR : Nat := 16384

/-- C `isspace` in the "C" locale: space, `\t`, `\n`, `\v`, `\f`, `\r`. -/
def isspace (c : Char) : Bool :=
  c.toNat == 32 || (9 ≤ c.toNat && c.toNat ≤ 13)

/-- Value of a character as a digit of `strtoul` (`0-9`, then letters), if it
is one. -/
def digitValue (c : Char) : Option Nat :=
  if 48 ≤ c.toNat ∧ c.toNat ≤ 57 then some (c.toNat - 48)
  else if 97 ≤ c.toNat ∧ c.toNat ≤ 122 then some (c.toNat - 97 + 10)
  else if 65 ≤ c.toNat ∧ c.toNat ≤ 90 then some (c.toNat - 65 + 10)
  else none

/-- The digit loop of `strtoul`: consumes the longest prefix of digits that
are valid in `base`; returns the accumulated (unbounded) value and whether at
least one digit was consumed. -/
def strtoul_digits (base : Nat) : CStr → Nat → Bool → Nat × Bool
  | [], acc, any => (acc, any)
  | c :: cs, acc, any =>
    match digitValue c with
    | some d => if d < base then strtoul_digits base cs (acc * base + d) true else (acc, any)
    | none => (acc, any)

/-- C `strtoul(nptr, NULL, base)` for `base` 8 or 10: leading white space is
skipped, one optional sign is read, then the longest run of digits. Without
any digit the result is 0; a value above `ULONG_MAX` gives `ULONG_MAX`; a
leading `-` negates the value in `unsigned long` arithmetic. -/
def strtoul (nptr : CStr) (base : Nat) : Nat :=
  let s := nptr.dropWhile isspace
  let neg := s.head? == some '-'
  let s := if s.head? == some '-' || s.head? == some '+' then s.tail else s
  let r := strtoul_digits base s 0 false
  if r.1 > ULONG_MAX then ULONG_MAX
  else if neg then (2 ^ 64 - r.1) % 2 ^ 64
  else r.1

/-- C `strchr(s, c)` for `c` other than NUL: index of the first occurrence. -/
def strchr : CStr → Char → Option Nat
  | [], _ => none
  | x :: xs, c => if x == c then some 0 else (strchr xs c).map (· + 1)

/-- C `strrchr(s, c)` for `c` other than NUL: index of the last occurrence. -/
def strrchr : CStr → Char → Option Nat
  | [], _ => none
  | x :: xs, c =>
    match strrchr xs c with
    | some i => some (i + 1)
    | none => if x == c then some 0 else none

/-- The C string held by a buffer of `len` bytes followed by a NUL: what the
string functions see of `cdata` stops at its first NUL byte. -/
def c_str (cdata : List Char) : CStr :=
  cdata.takeWhile (fun c => c.toNat != 0)

/-- Conversion `(off_t) x` of an `unsigned long` to the signed 64 bit type. -/
def to_off_t (x : Nat) : Int :=
  if x % 2 ^ 64 < 2 ^ 63 then ((x % 2 ^ 64 : Nat) : Int)
  else ((x % 2 ^ 64 : Nat) : Int) - 2 ^ 64

/-- Conversion `(mode_t) x` of an `unsigned long` to the 32 bit type. -/
def to_mode_t (x : Nat) : Nat := x % 2 ^ 32

/-! ## Errors and records -/

/-- Modelled from the spec: the error codes of `StatusCode`
(`status/davixstatusrequest.hpp`); the parser only ever raises
`WebDavPropertiesParsingError`. -/
inductive StatusCode where
  | OK
  | WebDavPropertiesParsingError
  | UnknowError
  deriving DecidableEq, Repr

/-- Modelled from the spec: the typed error record `DavixError`, reduced to
its code and message. -/
structure DavixError where
  code : StatusCode
  msg : CStr
  deriving DecidableEq, Repr

/-- Modelled from the spec: `DavixError::setupError` stores an error record in
the slot. What it does with a record that the slot already holds is not told
by the sources: this definition stores the new record in every case, which
matters only where a callback is entered with an error pending. -/
def setupError (_err : Option DavixError) (code : StatusCode) (msg : CStr) :
    Option DavixError :=
  some { code := code, msg := msg }

/-- Modelled from the spec: the Property Record `FileProperties`
(`_current_props`). `size` holds an `off_t`, `mtime` and `ctime` a `time_t`,
`mode` a `mode_t`; `req_status` holds the `unsigned long` assigned to it. -/
structure FileProperties where
  filename : CStr
  req_status : Nat
  size : Int
  mode : Nat
  mtime : Int
  ctime : Int
  deriving DecidableEq, Repr

/-- Modelled from the spec: `FileProperties::clear` and the default
constructor put every field back to its default (size 0, empty name). -/
def FileProperties.clear : FileProperties :=
  { filename := [], req_status := 0, size := 0, mode := 0, mtime := 0, ctime := 0 }

/-- Modelled from the spec: `match_element` (declared in the parser's header)
matches the local name of an element against a pattern, whatever its
namespace. -/
def match_element (origin pattern : CStr) : Bool := origin == pattern

/-! ## The parser object -/

/-- Data members of `DavPropXMLParser`, with the inherited error slot `err`. -/
structure DavPropXMLParser where
  err : Option DavixError
  prop_section : Bool
  propname_section : Bool
  response_section : Bool
  lastmod_section : Bool
  creatdate_section : Bool
  contentlength_section : Bool
  mode_ext_section : Bool
  href_section : Bool
  resource_type : Bool
  status_section : Bool
  _props : List FileProperties
  _current_props : FileProperties
  last_filename : CStr
  deriving DecidableEq, Repr

/-- Constructor `DavPropXMLParser::DavPropXMLParser()` (lines 79-86). -/
def DavPropXMLParser.new : DavPropXMLParser :=
  { err := none
    prop_section := false, propname_section := false
    response_section := false, lastmod_section := false
    creatdate_section := false, contentlength_section := false
    mode_ext_section := false, href_section := false
    resource_type := false, status_section := false
    _props := [], _current_props := FileProperties.clear, last_filename := [] }

/-- Message of the error raised by `add_scope` and `remove_scope`. -/
def scope_error_msg (origin : CStr) (what : String) : CStr :=
  "parsing error in the webdav request result :".toList ++ origin ++ what.toList

/-- Function `add_scope` (lines 43-56): returns its result, the flag behind
`scope_bool` and the error slot. -/
def add_scope (scope_bool : Bool) (origin pattern : CStr)
    (enter_condition skip_condition : Bool) (err : Option DavixError) :
    Bool × Bool × Option DavixError :=
  if enter_condition && !skip_condition && match_element origin pattern then
    if scope_bool == true then
      (false, scope_bool,
        setupError err StatusCode.WebDavPropertiesParsingError (scope_error_msg origin "deplucated"))
    else
      (true, true, err)
  else
    (false, scope_bool, err)

/-- Function `remove_scope` (lines 62-75). -/
def remove_scope (scope_bool : Bool) (origin pattern : CStr)
    (enter_condition skip_condition : Bool) (err : Option DavixError) :
    Bool × Bool × Option DavixError :=
  if enter_condition && !skip_condition && match_element origin pattern then
    if scope_bool == false then
      (false, scope_bool,
        setupError err StatusCode.WebDavPropertiesParsingError (scope_error_msg origin "not opended before"))
    else
      (true, false, err)
  else
    (false, scope_bool, err)

/-! ## Member functions -/

/-- Member `compute_new_elem` (lines 94-102). -/
def compute_new_elem (p : DavPropXMLParser) : Int × DavPropXMLParser :=
  if p.prop_section && p.propname_section && p.response_section then
    (0, { p with _current_props :=
            { FileProperties.clear with filename := p.last_filename, mode := 0o777 } })
  else
    (0, p)

/-- Member `store_new_elem` (lines 104-114). -/
def store_new_elem (p : DavPropXMLParser) : Int × DavPropXMLParser :=
  if p.response_section then
    if p._current_props.req_status > 100 && p._current_props.req_status < 400 then
      (0, { p with _props := p._props ++ [p._current_props] })
    else
      (0, p)
  else
    (0, p)

/-- Member `check_last_modified` (lines 116-131); the date parser
`parse_standard_date` of `datetime_utils.h` is a parameter. -/
def check_last_modified (parse_standard_date : CStr → Int) (p : DavPropXMLParser)
    (name : CStr) : Int × DavPropXMLParser :=
  if p.response_section && p.prop_section && p.propname_section && p.lastmod_section then
    let t := parse_standard_date name
    if t == -1 then
      (-1, { p with err := setupError p.err StatusCode.WebDavPropertiesParsingError
                             "Invalid last modified date format".toList })
    else
      (0, { p with _current_props := { p._current_props with mtime := t } })
  else
    (0, p)

/-- Member `check_creation_date` (lines 133-148). -/
def check_creation_date (parse_standard_date : CStr → Int) (p : DavPropXMLParser)
    (name : CStr) : Int × DavPropXMLParser :=
  if p.response_section && p.prop_section && p.propname_section && p.creatdate_section then
    let t := parse_standard_date name
    if t == -1 then
      (-1, { p with err := setupError p.err StatusCode.WebDavPropertiesParsingError
                             "Invalid creation date format".toList })
    else
      (0, { p with _current_props := { p._current_props with ctime := t } })
  else
    (0, p)

/-- Member `check_is_directory` (lines 150-163). -/
def check_is_directory (p : DavPropXMLParser) (name : CStr) : Int × DavPropXMLParser :=
  if p.response_section && p.prop_section && p.propname_section && p.resource_type then
    let r := add_scope false name collection_patern (p.propname_section && p.resource_type)
      false p.err
    let is_dir := r.2.1
    let p := { p with err := r.2.2 }
    if p.err != none then
      (-1, p)
    else if is_dir then
      (0, { p with _current_props :=
              { p._current_props with mode := p._current_props.mode ||| S_IFDIR } })
    else
      (0, p)
  else
    (0, p)

/-- Member `check_content_length` (lines 165-179). -/
def check_content_length (p : DavPropXMLParser) (name : CStr) : Int × DavPropXMLParser :=
  if p.response_section && p.prop_section && p.propname_section && p.contentlength_section then
    let mysize := strtoul name 10
    if mysize == ULONG_MAX then
      (-1, { p with err := setupError p.err StatusCode.WebDavPropertiesParsingError
                             " Invalid content length value in dav response".toList })
    else
      (0, { p with _current_props := { p._current_props with size := to_off_t mysize } })
  else
    (0, p)

/-- Member `check_mode_ext` (lines 181-195). -/
def check_mode_ext (p : DavPropXMLParser) (name : CStr) : Int × DavPropXMLParser :=
  if p.response_section && p.prop_section && p.propname_section && p.mode_ext_section then
    let mymode := strtoul name 8
    if mymode == ULONG_MAX then
      (-1, { p with err := setupError p.err StatusCode.WebDavPropertiesParsingError
                             " Invalid mode_t value for the LCGDM extension".toList })
    else
      (0, { p with _current_props := { p._current_props with mode := to_mode_t mymode } })
  else
    (0, p)

/-- The loop of `check_href` (lines 207-210): `p_end` is the index into
`buff_name` the pointer stands at; writing NUL at `p_end` cuts the C string
down to its first `p_end` characters. The loop stops at index 0. -/
def href_strip (buff_name : CStr) : Nat → CStr
  | 0 => buff_name
  | p_end + 1 =>
    if buff_name.get? (p_end + 1) == some '/' then href_strip (buff_name.take (p_end + 1)) p_end
    else buff_name

/-- Member `check_href` (lines 197-219). The pointer `p_end` starts at index
`s_name - 1`; for an empty text the loop is not entered. -/
def check_href (p : DavPropXMLParser) (c_name : CStr) : Int × DavPropXMLParser :=
  if p.response_section && p.href_section then
    let s_name := c_name.length
    let buff_name := href_strip c_name (s_name - 1)
    match strrchr buff_name '/' with
    | some i => (0, { p with last_filename := buff_name.drop (i + 1) })
    | none => (0, { p with last_filename := buff_name })
  else
    (0, p)

/-- Member `check_status` (lines 221-251). -/
def check_status (p : DavPropXMLParser) (name : CStr) : Int × DavPropXMLParser :=
  if p.response_section && p.propname_section && p.status_section then
    let p2 := name.dropWhile (fun c => c == ' ')
    let failure : Int × DavPropXMLParser :=
      (-1, { p with err := setupError p.err StatusCode.WebDavPropertiesParsingError
                             " Invalid dav status field value".toList })
    match strchr p2 ' ' with
    | some i =>
      let p1 := p2.drop (i + 1)
      let buff := p1.takeWhile (fun c => c != ' ')
      let res := strtoul buff 10
      if res != ULONG_MAX then
        (0, { p with _current_props := { p._current_props with req_status := res } })
      else
        failure
    | none => failure
  else
    (0, p)

/-- The ten scope flags, named after the data members. -/
inductive Scope where
  | propname_section
  | prop_section
  | status_section
  | response_section
  | lastmod_section
  | creatdate_section
  | contentlength_section
  | mode_ext_section
  | href_section
  | resource_type
  deriving DecidableEq, Repr

/-- Value of a scope flag in the parser object. -/
def Scope.flag : Scope → DavPropXMLParser → Bool
  | .propname_section, p => p.propname_section
  | .prop_section, p => p.prop_section
  | .status_section, p => p.status_section
  | .response_section, p => p.response_section
  | .lastmod_section, p => p.lastmod_section
  | .creatdate_section, p => p.creatdate_section
  | .contentlength_section, p => p.contentlength_section
  | .mode_ext_section, p => p.mode_ext_section
  | .href_section, p => p.href_section
  | .resource_type, p => p.resource_type

/-- Assignment to a scope flag of the parser object. -/
def Scope.set_flag : Scope → DavPropXMLParser → Bool → DavPropXMLParser
  | .propname_section, p, b => { p with propname_section := b }
  | .prop_section, p, b => { p with prop_section := b }
  | .status_section, p, b => { p with status_section := b }
  | .response_section, p, b => { p with response_section := b }
  | .lastmod_section, p, b => { p with lastmod_section := b }
  | .creatdate_section, p, b => { p with creatdate_section := b }
  | .contentlength_section, p, b => { p with contentlength_section := b }
  | .mode_ext_section, p, b => { p with mode_ext_section := b }
  | .href_section, p, b => { p with href_section := b }
  | .resource_type, p, b => { p with resource_type := b }

/-- The pattern passed with each flag (third argument, lines 259-268 and
298-307). -/
def Scope.pattern : Scope → CStr
  | .propname_section => propstat_pattern
  | .prop_section => prop_pattern
  | .status_section => status_pattern
  | .response_section => response_pattern
  | .lastmod_section => getlastmodified_pattern
  | .creatdate_section => creationdate_pattern
  | .contentlength_section => getcontentlength_pattern
  | .mode_ext_section => mode_pattern
  | .href_section => href_pattern
  | .resource_type => resource_type_patern

/-- The `enter_condition` passed with each flag (fourth argument, lines
259-268 and 298-307). -/
def Scope.enter_condition : Scope → DavPropXMLParser → Bool
  | .propname_section, p => p.response_section
  | .prop_section, p => p.response_section && p.propname_section
  | .status_section, p => p.propname_section && p.response_section
  | .response_section, _ => true
  | .lastmod_section, p => p.propname_section
  | .creatdate_section, p => p.propname_section
  | .contentlength_section, p => p.propname_section
  | .mode_ext_section, p => p.propname_section
  | .href_section, p => p.response_section
  | .resource_type, p => p.propname_section

/-- The `skip_condition` passed with each flag (fifth argument, lines 259-268
and 298-307). -/
def Scope.skip_condition : Scope → DavPropXMLParser → Bool
  | .propname_section, _ => false
  | .prop_section, _ => false
  | .status_section, p => p.prop_section
  | .response_section, p => p.prop_section && p.propname_section
  | .lastmod_section, _ => false
  | .creatdate_section, _ => false
  | .contentlength_section, _ => false
  | .mode_ext_section, _ => false
  | .href_section, p => p.prop_section
  | .resource_type, _ => false

/-- One statement `add_scope(&flag, name, pattern, enter, skip, &err)` of
`parserStartElemCb`: the result of the call and the parser object afterwards. -/
def add_scope_call (k : Scope) (p : DavPropXMLParser) (name : CStr) :
    Bool × DavPropXMLParser :=
  let r := add_scope (k.flag p) name k.pattern (k.enter_condition p) (k.skip_condition p) p.err
  (r.1, { k.set_flag p r.2.1 with err := r.2.2 })

/-- One statement `remove_scope(&flag, name, pattern, enter, skip, &err)` of
`parserEndElemCb`. -/
def remove_scope_call (k : Scope) (p : DavPropXMLParser) (name : CStr) :
    Bool × DavPropXMLParser :=
  let r := remove_scope (k.flag p) name k.pattern (k.enter_condition p) (k.skip_condition p) p.err
  (r.1, { k.set_flag p r.2.1 with err := r.2.2 })

/-- Macro `DAVIX_XML_REPORT_ERROR(X)` (lines 23-28): the statement `X` has
run and left the pair `x` of its result and the parser object; when the error
slot is set the callback returns -1, otherwise it goes on with `rest`. -/
def DAVIX_XML_REPORT_ERROR {α : Type} (x : α × DavPropXMLParser)
    (rest : α → DavPropXMLParser → Int × DavPropXMLParser) : Int × DavPropXMLParser :=
  if x.2.err.isSome then (-1, x.2) else rest x.1 x.2

/-- Member `parserStartElemCb` (lines 254-276). -/
def parserStartElemCb (p : DavPropXMLParser) (name : CStr) : Int × DavPropXMLParser :=
  DAVIX_XML_REPORT_ERROR (add_scope_call .propname_section p name) fun _ p =>
  DAVIX_XML_REPORT_ERROR (add_scope_call .prop_section p name) fun new_prop p =>
  DAVIX_XML_REPORT_ERROR (add_scope_call .status_section p name) fun _ p =>
  DAVIX_XML_REPORT_ERROR (add_scope_call .response_section p name) fun _ p =>
  DAVIX_XML_REPORT_ERROR (add_scope_call .lastmod_section p name) fun _ p =>
  DAVIX_XML_REPORT_ERROR (add_scope_call .creatdate_section p name) fun _ p =>
  DAVIX_XML_REPORT_ERROR (add_scope_call .contentlength_section p name) fun _ p =>
  DAVIX_XML_REPORT_ERROR (add_scope_call .mode_ext_section p name) fun _ p =>
  DAVIX_XML_REPORT_ERROR (add_scope_call .href_section p name) fun _ p =>
  DAVIX_XML_REPORT_ERROR (add_scope_call .resource_type p name) fun _ p =>
  let c := check_is_directory p name
  if c.1 < 0 then c else
  let c := if new_prop then compute_new_elem c.2 else c
  (if c.1 == 0 then 1 else -1, c.2)

/-- Member `parserCdataCb` (lines 278-290): `cdata` holds the `len` bytes of
the chunk. -/
def parserCdataCb (parse_standard_date : CStr → Int) (p : DavPropXMLParser)
    (cdata : List Char) : Int × DavPropXMLParser :=
  let buff := c_str cdata
  DAVIX_XML_REPORT_ERROR (check_last_modified parse_standard_date p buff) fun _ p =>
  DAVIX_XML_REPORT_ERROR (check_creation_date parse_standard_date p buff) fun _ p =>
  DAVIX_XML_REPORT_ERROR (check_content_length p buff) fun _ p =>
  DAVIX_XML_REPORT_ERROR (check_mode_ext p buff) fun _ p =>
  DAVIX_XML_REPORT_ERROR (check_href p buff) fun _ p =>
  DAVIX_XML_REPORT_ERROR (check_status p buff) fun _ p =>
  (0, p)

/-- Member `parserEndElemCb` (lines 292-312). -/
def parserEndElemCb (p : DavPropXMLParser) (name : CStr) : Int × DavPropXMLParser :=
  DAVIX_XML_REPORT_ERROR (remove_scope_call .propname_section p name) fun end_prop p =>
  DAVIX_XML_REPORT_ERROR (remove_scope_call .prop_section p name) fun _ p =>
  DAVIX_XML_REPORT_ERROR (remove_scope_call .status_section p name) fun _ p =>
  DAVIX_XML_REPORT_ERROR (remove_scope_call .response_section p name) fun _ p =>
  DAVIX_XML_REPORT_ERROR (remove_scope_call .lastmod_section p name) fun _ p =>
  DAVIX_XML_REPORT_ERROR (remove_scope_call .creatdate_section p name) fun _ p =>
  DAVIX_XML_REPORT_ERROR (remove_scope_call .contentlength_section p name) fun _ p =>
  DAVIX_XML_REPORT_ERROR (remove_scope_call .mode_ext_section p name) fun _ p =>
  DAVIX_XML_REPORT_ERROR (remove_scope_call .href_section p name) fun _ p =>
  DAVIX_XML_REPORT_ERROR (remove_scope_call .resource_type p name) fun _ p =>
  if end_prop then store_new_elem p else (0, p)

/-! ## Vocabulary of the specification -/

/-- The character is one of `0` to `9`. -/
def is_decimal_digit (c : Char) : Bool := 48 ≤ c.toNat && c.toNat ≤ 57

/-- A decimal numeral: a non-empty run of the characters `0` to `9`. -/
def is_decimal_numeral (s : CStr) : Bool := !s.isEmpty && s.all is_decimal_digit

/-- The number a decimal numeral denotes. -/
def decimal_value (s : CStr) : Nat :=
  s.foldl (fun acc c => acc * 10 + (c.toNat - 48)) 0

/-- The status filter of the Property Record: `100 < req_status < 400`. -/
def status_in_range (n : Nat) : Bool := decide (100 < n) && decide (n < 400)

/-- The text without its trailing `/` characters. -/
def strip_trailing_slashes (s : CStr) : CStr :=
  (s.reverse.dropWhile (fun c => c == '/')).reverse

/-- The last `/`-delimited segment of the text: what follows its last `/`, or
the whole text when it holds no `/`. -/
def last_path_segment (s : CStr) : CStr :=
  (s.reverse.takeWhile (fun c => c != '/')).reverse

/-- The filename the specification derives from an href text: trailing `/`
stripped, then the last path segment. -/
def href_filename (href : CStr) : CStr :=
  last_path_segment (strip_trailing_slashes href)

/-- The events the XML reader delivers to the three callbacks. -/
inductive Event where
  | start_elem (name : CStr)
  | cdata (text : List Char)
  | end_elem (name : CStr)
  deriving DecidableEq, Repr

/-- One event handed to its callback; `none` when the callback reports failure
(a negative result of the start callback, a non-zero result of the others),
which aborts the parse. -/
def feed (parse_standard_date : CStr → Int) (p : DavPropXMLParser) :
    Event → Option DavPropXMLParser
  | .start_elem name =>
    let r := parserStartElemCb p name
    if r.1 < 0 then none else some r.2
  | .cdata text =>
    let r := parserCdataCb parse_standard_date p text
    if r.1 != 0 then none else some r.2
  | .end_elem name =>
    let r := parserEndElemCb p name
    if r.1 != 0 then none else some r.2

/-- A sequence of events fed in order, stopping at the first failure. -/
def run_events (parse_standard_date : CStr → Int) :
    DavPropXMLParser → List Event → Option DavPropXMLParser
  | p, [] => some p
  | p, e :: es =>
    match feed parse_standard_date p e with
    | some q => run_events parse_standard_date q es
    | none => none

/-- Properly nested events: text, and elements whose end event carries the
name of their start event and whose content is properly nested. -/
inductive WellNested : List Event → Prop where
  | nil : WellNested []
  | text (t : List Char) (rest : List Event) :
      WellNested rest → WellNested (Event.cdata t :: rest)
  | elem (name : CStr) (inner rest : List Event) :
      WellNested inner → WellNested rest →
      WellNested (Event.start_elem name :: (inner ++ Event.end_elem name :: rest))

/-- The element names the parser recognizes: the ten scope patterns and
`collection`. -/
def recognized_names : List CStr :=
  [propstat_pattern, prop_pattern, status_pattern, response_pattern, getlastmodified_pattern,
   creationdate_pattern, getcontentlength_pattern, mode_pattern, href_pattern,
   resource_type_patern, collection_patern]

/-- Events the parser passes over where they stand between the elements of a
multi-status body: character data, and elements whose name is none of the
recognized names and whose content is of the same kind. -/
inductive Ignorable : List Event → Prop where
  | nil : Ignorable []
  | text (t : List Char) (rest : List Event) :
      Ignorable rest → Ignorable (Event.cdata t :: rest)
  | elem (name : CStr) (inner rest : List Event) :
      name ∉ recognized_names → Ignorable inner → Ignorable rest →
      Ignorable (Event.start_elem name :: (inner ++ Event.end_elem name :: rest))

/-- A `propstat` element of a multi-status body: a `prop` child with its
content, then a `status` child whose text is one chunk of character data, the
status line `protocol code tail`. The other fields are the events that stand
before `prop`, between `prop` and `status`, after `status`, and after the
element itself (up to the next element of the response). -/
structure PropStat where
  before_prop : List Event
  prop_content : List Event
  before_status : List Event
  protocol : CStr
  code : CStr
  tail : CStr
  after_status : List Event
  after : List Event

/-- A `response` element of a multi-status body: an `href` child, whose text
comes in any number of chunks, then `propstat` children. The other fields are
the events that stand before `href`, after `href`, and after the element
itself (up to the next element of the body). -/
structure Response where
  before_href : List Event
  href : List (List Char)
  after_href : List Event
  propstats : List PropStat
  after : List Event

/-- A multi-status body: the events that stand before the first `response`,
and the `response` elements. -/
structure Body where
  before : List Event
  responses : List Response

/-- Text of the status line of a `propstat`. -/
def PropStat.status_text (ps : PropStat) : CStr :=
  ps.protocol ++ ' ' :: (ps.code ++ ps.tail)

/-- The event sequence of a `propstat` element and of what follows it. -/
def PropStat.events (ps : PropStat) : List Event :=
  Event.start_elem propstat_pattern :: ps.before_prop ++
    Event.start_elem prop_pattern :: ps.prop_content ++
    Event.end_elem prop_pattern :: ps.before_status ++
    [Event.start_elem status_pattern, Event.cdata ps.status_text,
     Event.end_elem status_pattern] ++ ps.after_status ++
    Event.end_elem propstat_pattern :: ps.after

/-- The event sequence of a `response` element and of what follows it. -/
def Response.events (r : Response) : List Event :=
  Event.start_elem response_pattern :: r.before_href ++
    Event.start_elem href_pattern :: r.href.map Event.cdata ++
    Event.end_elem href_pattern :: r.after_href ++
    (r.propstats.map PropStat.events).flatten ++
    Event.end_elem response_pattern :: r.after

/-- Name of the root element of a multi-status body. -/
def multistatus_name : CStr := "multistatus".toList

/-- The event sequence of a multi-status body. -/
def multistatus_events (doc : Body) : List Event :=
  Event.start_elem multistatus_name :: doc.before ++
    (doc.responses.map Response.events).flatten ++ [Event.end_elem multistatus_name]

/-- A well-formed `propstat`: properly nested `prop` content, a status line of
a non-empty protocol token without space or NUL, a decimal code and a tail
that is empty or starts with a space (the reason phrase follows it), and
nothing but events the parser passes over between its children and after
it. -/
def PropStat.well_formed (ps : PropStat) : Prop :=
  WellNested ps.prop_content ∧ ps.protocol ≠ [] ∧
    (∀ c ∈ ps.protocol, c ≠ ' ' ∧ c.toNat ≠ 0) ∧ is_decimal_numeral ps.code = true ∧
    (ps.tail = [] ∨ ps.tail.head? = some ' ') ∧
    Ignorable ps.before_prop ∧ Ignorable ps.before_status ∧ Ignorable ps.after_status ∧
    Ignorable ps.after

/-- A well-formed `response`: well-formed `propstat` children and nothing but
events the parser passes over between its children and after it. -/
def Response.well_formed (r : Response) : Prop :=
  Ignorable r.before_href ∧ Ignorable r.after_href ∧ Ignorable r.after ∧
    ∀ ps ∈ r.propstats, ps.well_formed

/-- A well-formed multi-status body. -/
def well_formed (doc : Body) : Prop :=
  Ignorable doc.before ∧ ∀ r ∈ doc.responses, r.well_formed

/-- Status codes of the `propstat` elements of a body, in document order. -/
def propstat_codes (doc : Body) : List Nat :=
  (doc.responses.map fun r => r.propstats.map fun ps => decimal_value ps.code).flatten

/-- Number of `response` elements holding a `propstat` whose status code lies
in the accepted range. -/
def responses_in_range (doc : Body) : Nat :=
  (doc.responses.filter fun r =>
    r.propstats.any fun ps => status_in_range (decimal_value ps.code)).length

/-! ## Concrete states and inputs used by the examples -/

/-- A date parser that rejects every text, for examples without dates. -/
def reject_date : CStr → Int := fun _ => -1

/-- The parser after the events `events` on a freshly constructed parser (the
fresh parser itself when an event fails). -/
def state_after (events : List Event) : DavPropXMLParser :=
  (run_events reject_date DavPropXMLParser.new events).getD DavPropXMLParser.new

/-- Parser state inside `response/propstat` after the status line
`HTTP/1.1 200 OK`: nothing is committed yet. -/
def state_after_status_200 : DavPropXMLParser :=
  state_after [Event.start_elem response_pattern, Event.start_elem propstat_pattern,
    Event.start_elem prop_pattern, Event.end_elem prop_pattern,
    Event.start_elem status_pattern, Event.cdata "HTTP/1.1 200 OK".toList,
    Event.end_elem status_pattern]

/-- Parser state inside `response/propstat/prop`. -/
def state_in_prop : DavPropXMLParser :=
  state_after [Event.start_elem response_pattern, Event.start_elem propstat_pattern,
    Event.start_elem prop_pattern]

/-- Parser state inside `response/propstat/prop/getcontentlength`, the
in-progress record holding size 7. -/
def state_in_getcontentlength : DavPropXMLParser :=
  state_after [Event.start_elem response_pattern, Event.start_elem propstat_pattern,
    Event.start_elem prop_pattern, Event.start_elem getcontentlength_pattern,
    Event.cdata "7".toList]

/-- Parser state inside `response/propstat/status`. -/
def state_in_status : DavPropXMLParser :=
  state_after [Event.start_elem response_pattern, Event.start_elem propstat_pattern,
    Event.start_elem prop_pattern, Event.end_elem prop_pattern,
    Event.start_elem status_pattern]

/-- Parser state inside `response/href`. -/
def state_in_href : DavPropXMLParser :=
  state_after [Event.start_elem response_pattern, Event.start_elem href_pattern]

/-- The error `add_scope` raises for an element met while its scope is open. -/
def duplicate_error (origin : CStr) : DavixError :=
  { code := StatusCode.WebDavPropertiesParsingError, msg := scope_error_msg origin "deplucated" }

/-- What a date check leaves of the parser object: the scope flags and the
size are kept, and the error slot is kept or receives a properties-parsing
error. -/
def date_check_frame (p q : DavPropXMLParser) : Prop :=
  q.response_section = p.response_section ∧ q.prop_section = p.prop_section ∧
  q.propname_section = p.propname_section ∧
  q.contentlength_section = p.contentlength_section ∧
  q._current_props.size = p._current_props.size ∧
  (q.err = p.err ∨ ∃ m, q.err = some { code := StatusCode.WebDavPropertiesParsingError, msg := m })


/-- The end of `parserStartElemCb` (lines 270-275), after the ten scope
statements: `check_is_directory`, then `compute_new_elem` for a new prop. -/
def start_tail (p : DavPropXMLParser) (name : CStr) (new_prop : Bool) :
    Int × DavPropXMLParser :=
  let c := check_is_directory p name
  if c.1 < 0 then c else
  let c := if new_prop then compute_new_elem c.2 else c
  (if c.1 == 0 then 1 else -1, c.2)

/-- The part of the parser object that the content of a `prop` element leaves
alone: the response, propstat and prop scopes stay open, the status and href
scopes closed, the result sequence is `X` and the status of the in-progress
record is `r`. -/
def inside_prop (X : List FileProperties) (r : Nat) (q : DavPropXMLParser) : Prop :=
  q.response_section = true ∧ q.propname_section = true ∧ q.prop_section = true ∧
  q.status_section = false ∧ q.href_section = false ∧ q._props = X ∧
  q._current_props.req_status = r

/-- What the checks of the record fields (dates, content length, mode) leave
of the parser object: the ten scope flags, the result sequence, the
remembered filename and the status of the in-progress record. -/
def keeps_scopes (p q : DavPropXMLParser) : Prop :=
  q.prop_section = p.prop_section ∧ q.propname_section = p.propname_section ∧
  q.response_section = p.response_section ∧ q.lastmod_section = p.lastmod_section ∧
  q.creatdate_section = p.creatdate_section ∧
  q.contentlength_section = p.contentlength_section ∧
  q.mode_ext_section = p.mode_ext_section ∧ q.href_section = p.href_section ∧
  q.resource_type = p.resource_type ∧ q.status_section = p.status_section ∧
  q._props = p._props ∧ q.last_filename = p.last_filename ∧
  q._current_props.req_status = p._current_props.req_status

/-- The error slot is empty and the five structural scope flags (response,
propstat, prop, status, href) have the given values. -/
def scopes_are (q : DavPropXMLParser) (resp ps pr st hr : Bool) : Prop :=
  q.err = none ∧ q.response_section = resp ∧ q.propname_section = ps ∧
  q.prop_section = pr ∧ q.status_section = st ∧ q.href_section = hr

/-- A `propstat` holding a `prop` with a content length and the status line
`HTTP/1.1 200 OK`. -/
def propstat_200 : PropStat :=
  { before_prop := []
    prop_content := [Event.start_elem getcontentlength_pattern, Event.cdata "12345".toList,
      Event.end_elem getcontentlength_pattern]
    before_status := []
    protocol := "HTTP/1.1".toList, code := "200".toList, tail := " OK".toList
    after_status := [], after := [] }

/-- A multi-status body of one response with an href and one `propstat`. -/
def one_response_doc : Body :=
  { before := []
    responses := [{ before_href := [], href := ["/a/b/c/".toList], after_href := [],
                    propstats := [propstat_200], after := [] }] }

/-- A multi-status body of one response holding two `propstat` elements, both
of status 200. -/
def two_propstat_doc : Body :=
  { before := []
    responses := [{ before_href := [], href := ["/a/b/c/".toList], after_href := [],
                    propstats := [propstat_200, propstat_200], after := [] }] }

/-- A line break with indentation, as it stands between the elements of an
indented body. -/
def line_break : Event := Event.cdata "\n  ".toList

/-- A multi-status body as a server sends it: line breaks between the
elements, the href text in two chunks, a `404` `propstat` after the `200` one,
and a `responsedescription` element, which the parser does not know. -/
def indented_doc : Body :=
  { before := [line_break]
    responses :=
      [{ before_href := [line_break]
         href := ["/a/b".toList, "/c/".toList]
         after_href := [line_break]
         propstats :=
           [{ propstat_200 with before_prop := [line_break], before_status := [line_break],
                                after_status := [line_break], after := [line_break] },
            { before_prop := [line_break]
              prop_content := [Event.start_elem mode_pattern, Event.end_elem mode_pattern]
              before_status := [line_break]
              protocol := "HTTP/1.1".toList, code := "404".toList, tail := " Not Found".toList
              after_status := [line_break]
              after := [line_break] }]
         after := [Event.start_elem "responsedescription".toList, Event.cdata "done".toList,
                   Event.end_elem "responsedescription".toList, line_break] }] }

/-- The events of a body of one response whose status line `HTTP/1.1 200 OK`
arrives in two chunks of character data. -/
def split_status_events : List Event :=
  [Event.start_elem multistatus_name, Event.start_elem response_pattern,
   Event.start_elem href_pattern, Event.cdata "/a/b/c/".toList, Event.end_elem href_pattern,
   Event.start_elem propstat_pattern,
   Event.start_elem prop_pattern, Event.end_elem prop_pattern,
   Event.start_elem status_pattern, Event.cdata "HTTP/1.1 2".toList,
   Event.cdata "00 OK".toList, Event.end_elem status_pattern,
   Event.end_elem propstat_pattern, Event.end_elem response_pattern,
   Event.end_elem multistatus_name]

/-- The events of a body of one response whose `propstat` holds the `status`
element before the `prop` element. -/
def status_first_events : List Event :=
  [Event.start_elem multistatus_name, Event.start_elem response_pattern,
   Event.start_elem href_pattern, Event.cdata "/a/b/c/".toList, Event.end_elem href_pattern,
   Event.start_elem propstat_pattern,
   Event.start_elem status_pattern, Event.cdata "HTTP/1.1 200 OK".toList,
   Event.end_elem status_pattern,
   Event.start_elem prop_pattern, Event.end_elem prop_pattern,
   Event.end_elem propstat_pattern, Event.end_elem response_pattern,
   Event.end_elem multistatus_name]

/-- The error `remove_scope` raises for an element ended while its scope is
closed. -/
def not_opened_error (origin : CStr) : DavixError :=
  { code := StatusCode.WebDavPropertiesParsingError,
    msg := scope_error_msg origin "not opended before" }

/-- Parser state inside `response/propstat/href/prop`: the prop scope is open
while the href scope opened before it is still open. -/
def state_in_href_prop : DavPropXMLParser :=
  state_after [Event.start_elem response_pattern, Event.start_elem propstat_pattern,
    Event.start_elem href_pattern, Event.start_elem prop_pattern]

/-- Parser state inside `response/propstat/status/prop`: the prop scope is open
while the status scope opened before it is still open. -/
def state_in_status_prop : DavPropXMLParser :=
  state_after [Event.start_elem response_pattern, Event.start_elem propstat_pattern,
    Event.start_elem status_pattern, Event.start_elem prop_pattern]

/-- Parser state inside `response/propstat`. -/
def state_in_propstat : DavPropXMLParser :=
  state_after [Event.start_elem response_pattern, Event.start_elem propstat_pattern]

/-- Parser state inside `response/propstat` after a failed end-element event
`prop` (the prop scope was not open): an error is pending. -/
def state_failed_in_propstat : DavPropXMLParser :=
  (parserEndElemCb state_in_propstat prop_pattern).2

/-- Parser state inside `response/propstat/prop/resourcetype`. -/
def state_in_resourcetype : DavPropXMLParser :=
  state_after [Event.start_elem response_pattern, Event.start_elem propstat_pattern,
    Event.start_elem prop_pattern, Event.start_elem resource_type_patern]

/-- Parser state inside `response/propstat/prop/resourcetype` after a failed
end-element event `getlastmodified` (that scope was not open): an error is
pending. -/
def state_failed_in_resourcetype : DavPropXMLParser :=
  (parserEndElemCb state_in_resourcetype getlastmodified_pattern).2

/-- A date parser for the examples: it knows one date, one second after the
epoch, and rejects every other text. -/
def sample_date : CStr → Int := fun s =>
  if s = "Thu, 01 Jan 1970 00:00:01 GMT".toList then 1 else -1

/-- Parser state inside `response/propstat/prop/creationdate`. -/
def state_in_creationdate : DavPropXMLParser :=
  state_after [Event.start_elem response_pattern, Event.start_elem propstat_pattern,
    Event.start_elem prop_pattern, Event.start_elem creationdate_pattern]

/-- Parser state inside `response/propstat/prop/creationdate` after the
character data `yesterday`, which `sample_date` rejects: an error is pending. -/
def state_failed_in_creationdate : DavPropXMLParser :=
  (parserCdataCb sample_date state_in_creationdate "yesterday".toList).2

/-- Neither date of the record is the failure value -1 of the date parser. -/
def no_failed_date (r : FileProperties) : Prop := r.mtime ≠ -1 ∧ r.ctime ≠ -1

/-- No date of the in-progress record or of a committed record is -1. -/
def dates_valid (q : DavPropXMLParser) : Prop :=
  no_failed_date q._current_props ∧ ∀ r ∈ q._props, no_failed_date r

/-- The character is one of `0` to `7`. -/
def is_octal_digit (c : Char) : Bool := 48 ≤ c.toNat && c.toNat ≤ 55

/-- An octal numeral: a non-empty run of the characters `0` to `7`. -/
def is_octal_numeral (s : CStr) : Bool := !s.isEmpty && s.all is_octal_digit

/-- The number an octal numeral denotes. -/
def octal_value (s : CStr) : Nat :=
  s.foldl (fun acc c => acc * 8 + (c.toNat - 48)) 0

/-- Parser state inside `response/propstat/prop/mode`. -/
def state_in_mode : DavPropXMLParser :=
  state_after [Event.start_elem response_pattern, Event.start_elem propstat_pattern,
    Event.start_elem prop_pattern, Event.start_elem mode_pattern]

/-- The error slot is as it was or holds a properties-parsing error. -/
def error_frame (p q : DavPropXMLParser) : Prop :=
  q.err = p.err ∨ ∃ m, q.err = some { code := StatusCode.WebDavPropertiesParsingError, msg := m }

/-- One event handed to its callback: the callback's result and the parser
object it leaves, whether it fails or not. -/
def deliver (parse_standard_date : CStr → Int) (p : DavPropXMLParser) :
    Event → Int × DavPropXMLParser
  | .start_elem name => parserStartElemCb p name
  | .cdata text => parserCdataCb parse_standard_date p text
  | .end_elem name => parserEndElemCb p name

/-- Parser state after one complete `propstat` of status 200 inside a
response: one record is committed. -/
def state_one_committed : DavPropXMLParser :=
  state_after [Event.start_elem response_pattern, Event.start_elem propstat_pattern,
    Event.start_elem prop_pattern, Event.end_elem prop_pattern,
    Event.start_elem status_pattern, Event.cdata "HTTP/1.1 200 OK".toList,
    Event.end_elem status_pattern, Event.end_elem propstat_pattern]

/-! ## Request parameters (`src/params/davixrequestparams.cpp`)

The global counter `state_value` is threaded through every function that
reads or writes it. A `RequestParams` owns its `RequestParamsInternal`
exclusively (every constructor allocates a new one), so the object is modelled
by the value of its internal record. The `X509Data` object behind the shared
pointer `_x509_data` is written only by the setter that has just allocated it
with `reset`, never through a pointer that is already shared, so the pointer
is modelled by the value it points to (`none` for the null pointer). -/

/-- Modelled from the spec: the credential value `X509Credential`, reduced to
the certificate it holds; the default-constructed credential holds none. -/
structure X509Credential where
  cert : Option String
  deriving DecidableEq, Repr

/-- The default-constructed (empty) credential. -/
def X509Credential.empty : X509Credential := { cert := none }

/-- Modelled from the spec: a function object `authFunctionClientCertX509`:
empty, one of the two member functions of `X509Data` bound to the object that
holds it (lines 272 and 296), or a function object supplied by the user,
known by an identifier. -/
inductive X509Fun where
  | empty
  | cred_callback
  | c_callback
  | user (id : Nat)
  deriving DecidableEq, Repr

/-- Structure `X509Data` (lines 45-81): the callback pair (function pointer
and user data, 0 for `NULL`), the function object and the credential. -/
structure X509Data where
  _pair : Nat × Nat
  _x509_fun : X509Fun
  _cred : X509Credential
  deriving DecidableEq, Repr

/-- Constructor `X509Data()` (line 46). -/
def X509Data.new : X509Data :=
  { _pair := (0, 0), _x509_fun := X509Fun.empty, _cred := X509Credential.empty }

/-- Static member `X509Data::instance` (lines 54-59): the object behind the
pointer, allocated first when the pointer is null; returns the object and the
pointer. -/
def X509Data.get_instance (cred_ptr : Option X509Data) : X509Data × Option X509Data :=
  match cred_ptr with
  | none => (X509Data.new, some X509Data.new)
  | some d => (d, some d)

/-- Static member `X509Data::reset` (lines 61-64): a newly allocated object
replaces what the pointer held. -/
def X509Data.reset (_cred_ptr : Option X509Data) : X509Data × Option X509Data :=
  (X509Data.new, some X509Data.new)

/-- Modelled from the spec: the enumeration `S3ListingMode`; the source names
`Hierarchical` only. -/
inductive S3ListingMode where
  | Hierarchical
  | other (tag : Nat)
  deriving DecidableEq, Repr

/-- Modelled from the spec: the enumeration `RequestProtocol::Protocol`; the
source names `Auto` only. -/
inductive RequestProtocol where
  | Auto
  | other (tag : Nat)
  deriving DecidableEq, Repr

/-- Modelled from the spec: the enumeration `MetalinkMode`; the source names
`Auto` only. -/
inductive MetalinkMode where
  | Auto
  | other (tag : Nat)
  deriving DecidableEq, Repr

/-- Modelled from the spec: the enumeration `CopyMode`; the source names
`Push` only. -/
inductive CopyMode where
  | Push
  | other (tag : Nat)
  deriving DecidableEq, Repr

/-- Modelled from the spec: `struct timespec`. -/
structure timespec where
  tv_sec : Int
  tv_nsec : Int
  deriving DecidableEq, Repr

/-- Modelled from the spec: `timespec_clear` of `libs/time_utils.h`. -/
def timespec_clear (_t : timespec) : timespec := { tv_sec := 0, tv_nsec := 0 }

/-- Modelled from the spec: `timespec_copy` of `libs/time_utils.h`. -/
def timespec_copy (_dest src : timespec) : timespec := src

/-- Constants of the build that the file takes from headers not shown:
`DAVIX_VERSION`, `DAVIX_DEFAULT_CONN_TIMEOUT`, `DAVIX_DEFAULT_OPS_TIMEOUT` and
`default_retry_number`. -/
structure BuildConstants where
  DAVIX_VERSION : String
  DAVIX_DEFAULT_CONN_TIMEOUT : Int
  DAVIX_DEFAULT_OPS_TIMEOUT : Int
  default_retry_number : Int
  deriving DecidableEq, Repr

/-- The constant `default_agent` (line 34). -/
def default_agent (c : BuildConstants) : String := "libdavix/" ++ c.DAVIX_VERSION

/-- The macro `SESSION_FLAG_KEEP_ALIVE` (line 43). -/
def SESSION_FLAG_KEEP_ALIVE : Nat := 0x01

/-- A value brought back into the range of the 32 bit `int`. -/
def to_int (x : Int) : Int := (x + 2 ^ 31) % 2 ^ 32 - 2 ^ 31

/-- Function `get_requeste_uid` (lines 37-40) on the global `state_value`:
returns the result and the new value of the global. The addition is the
addition of `int`, taken to wrap around. -/
def get_requeste_uid (state_value : Int) : Int × Int :=
  let state_value := to_int (state_value + 1)
  (state_value, state_value)

/-- Data members of `RequestParamsInternal` (lines 157-213). Function pointers
and user data are addresses, 0 for `NULL`; the session flag is the bit pattern
of the `int`; a `Uri` is its string; the transfer callback is known by an
identifier, `none` when empty. -/
structure RequestParamsInternal where
  _ssl_check : Bool
  _redirection : Bool
  _recursive_mode : Bool
  _s3_listing_mode : S3ListingMode
  _s3_max_key_entries : Nat
  _ca_path : List String
  _x509_data : Option X509Data
  _idlogpass : String × String
  _call_loginpswwd : Nat
  _call_loginpswwd_userdata : Nat
  _aws_cred : String × String
  _aws_region : String
  _aws_v2_alternate : Bool
  ops_timeout : timespec
  connexion_timeout : timespec
  agent_string : String
  _proto : RequestProtocol
  _metalink_mode : MetalinkMode
  _customhdr : List (String × String)
  _proxy_server : Option String
  _session_flag : Nat
  _state_uid : Int
  _transferCb : Option Nat
  retry_number : Int
  retry_delay : Int
  _copy_mode : CopyMode
  deriving DecidableEq, Repr

/-- Default constructor `RequestParamsInternal()` (lines 84-116): returns the
object and the new value of `state_value`. -/
def RequestParamsInternal.new (c : BuildConstants) (state_value : Int) :
    RequestParamsInternal × Int :=
  let uid := get_requeste_uid state_value
  ({ _ssl_check := true
     _redirection := true
     _recursive_mode := false
     _s3_listing_mode := S3ListingMode.Hierarchical
     _s3_max_key_entries := 10000
     _ca_path := []
     _x509_data := none
     _idlogpass := ("", "")
     _call_loginpswwd := 0
     _call_loginpswwd_userdata := 0
     _aws_cred := ("", "")
     _aws_region := ""
     _aws_v2_alternate := false
     ops_timeout :=
       { timespec_clear { tv_sec := 0, tv_nsec := 0 } with tv_sec := c.DAVIX_DEFAULT_OPS_TIMEOUT }
     connexion_timeout :=
       { timespec_clear { tv_sec := 0, tv_nsec := 0 } with tv_sec := c.DAVIX_DEFAULT_CONN_TIMEOUT }
     agent_string := default_agent c
     _proto := RequestProtocol.Auto
     _metalink_mode := MetalinkMode.Auto
     _customhdr := []
     _proxy_server := none
     _session_flag := SESSION_FLAG_KEEP_ALIVE
     _state_uid := uid.1
     _transferCb := none
     retry_number := c.default_retry_number
     retry_delay := 0
     _copy_mode := CopyMode.Push }, uid.2)

/-- Copy constructor `RequestParamsInternal(const RequestParamsInternal &)`
(lines 126-156). -/
def RequestParamsInternal.copy (param_private : RequestParamsInternal) :
    RequestParamsInternal :=
  { _ssl_check := param_private._ssl_check
    _redirection := param_private._redirection
    _recursive_mode := param_private._recursive_mode
    _s3_listing_mode := param_private._s3_listing_mode
    _s3_max_key_entries := param_private._s3_max_key_entries
    _ca_path := param_private._ca_path
    _x509_data := param_private._x509_data
    _idlogpass := param_private._idlogpass
    _call_loginpswwd := param_private._call_loginpswwd
    _call_loginpswwd_userdata := param_private._call_loginpswwd_userdata
    _aws_cred := param_private._aws_cred
    _aws_region := param_private._aws_region
    _aws_v2_alternate := param_private._aws_v2_alternate
    ops_timeout := timespec_copy { tv_sec := 0, tv_nsec := 0 } param_private.ops_timeout
    connexion_timeout :=
      timespec_copy { tv_sec := 0, tv_nsec := 0 } param_private.connexion_timeout
    agent_string := param_private.agent_string
    _proto := param_private._proto
    _metalink_mode := param_private._metalink_mode
    _customhdr := param_private._customhdr
    _proxy_server := param_private._proxy_server
    _session_flag := param_private._session_flag
    _state_uid := param_private._state_uid
    _transferCb := param_private._transferCb
    retry_number := param_private.retry_number
    retry_delay := param_private.retry_delay
    _copy_mode := param_private._copy_mode }

/-- Member `regenerateStateUid` (lines 216-218). -/
def RequestParamsInternal.regenerateStateUid (d : RequestParamsInternal) (state_value : Int) :
    RequestParamsInternal × Int :=
  let uid := get_requeste_uid state_value
  ({ d with _state_uid := uid.1 }, uid.2)

/-- Class `RequestParams`: the object behind `d_ptr`. -/
structure RequestParams where
  d_ptr : RequestParamsInternal
  deriving DecidableEq, Repr

/-- Constructor `RequestParams()` (lines 225-229). -/
def RequestParams.new (c : BuildConstants) (state_value : Int) : RequestParams × Int :=
  let d := RequestParamsInternal.new c state_value
  ({ d_ptr := d.1 }, d.2)

/-- Copy constructor `RequestParams(const RequestParams&)` (lines 231-234). -/
def RequestParams.copy (params : RequestParams) : RequestParams :=
  { d_ptr := RequestParamsInternal.copy params.d_ptr }

/-- Constructor `RequestParams(const RequestParams*)` (lines 243-246). -/
def RequestParams.from_pointer (c : BuildConstants) (params : Option RequestParams)
    (state_value : Int) : RequestParams × Int :=
  match params with
  | some p => ({ d_ptr := RequestParamsInternal.copy p.d_ptr }, state_value)
  | none => RequestParams.new c state_value

/-- Member `operator=` (lines 249-254). -/
def RequestParams.assign (_self orig : RequestParams) : RequestParams :=
  { d_ptr := RequestParamsInternal.copy orig.d_ptr }

/-- Member `getSSLCACheck` (lines 257-259). -/
def RequestParams.getSSLCACheck (self : RequestParams) : Bool := self.d_ptr._ssl_check

/-- Member `setSSLCAcheck` (lines 261-264). -/
def RequestParams.setSSLCAcheck (self : RequestParams) (chk : Bool) (state_value : Int) :
    RequestParams × Int :=
  let d := self.d_ptr.regenerateStateUid state_value
  ({ d_ptr := { d.1 with _ssl_check := chk } }, d.2)

/-- Member `setClientCertX509` (lines 267-273). -/
def RequestParams.setClientCertX509 (self : RequestParams) (cli_cert : X509Credential)
    (state_value : Int) : RequestParams × Int :=
  let d := self.d_ptr.regenerateStateUid state_value
  let x509 := (X509Data.reset d.1._x509_data).1
  let x509 := { x509 with _cred := cli_cert }
  let x509 := { x509 with _x509_fun := X509Fun.cred_callback }
  ({ d_ptr := { d.1 with _x509_data := some x509 } }, d.2)

/-- Member `setClientLoginPassword` (lines 275-278). -/
def RequestParams.setClientLoginPassword (self : RequestParams) (login password : String)
    (state_value : Int) : RequestParams × Int :=
  let d := self.d_ptr.regenerateStateUid state_value
  ({ d_ptr := { d.1 with _idlogpass := (login, password) } }, d.2)

/-- Member `getClientLoginPassword` (lines 280-282). -/
def RequestParams.getClientLoginPassword (self : RequestParams) : String × String :=
  self.d_ptr._idlogpass

/-- Member `getClientCertX509` (lines 284-287): returns the credential and the
object, whose pointer `instance` may have set. -/
def RequestParams.getClientCertX509 (self : RequestParams) : X509Credential × RequestParams :=
  let x509 := X509Data.get_instance self.d_ptr._x509_data
  (x509.1._cred, { d_ptr := { self.d_ptr with _x509_data := x509.2 } })

/-- Member `setClientCertCallbackX509` (lines 291-297). -/
def RequestParams.setClientCertCallbackX509 (self : RequestParams) (callback userdata : Nat)
    (state_value : Int) : RequestParams × Int :=
  let d := self.d_ptr.regenerateStateUid state_value
  let x509 := (X509Data.reset d.1._x509_data).1
  let x509 := { x509 with _pair := (callback, userdata) }
  let x509 := { x509 with _x509_fun := X509Fun.c_callback }
  ({ d_ptr := { d.1 with _x509_data := some x509 } }, d.2)

/-- Member `setClientCertFunctionX509` (lines 300-304). -/
def RequestParams.setClientCertFunctionX509 (self : RequestParams) (callback : X509Fun)
    (state_value : Int) : RequestParams × Int :=
  let d := self.d_ptr.regenerateStateUid state_value
  let x509 := (X509Data.reset d.1._x509_data).1
  let x509 := { x509 with _x509_fun := callback }
  ({ d_ptr := { d.1 with _x509_data := some x509 } }, d.2)

/-- Member `getClientCertFunctionX509` (lines 306-309). -/
def RequestParams.getClientCertFunctionX509 (self : RequestParams) : X509Fun × RequestParams :=
  let x509 := X509Data.get_instance self.d_ptr._x509_data
  (x509.1._x509_fun, { d_ptr := { self.d_ptr with _x509_data := x509.2 } })

/-- Member `getClientCertCallbackX509` (lines 312-315). -/
def RequestParams.getClientCertCallbackX509 (self : RequestParams) :
    (Nat × Nat) × RequestParams :=
  let x509 := X509Data.get_instance self.d_ptr._x509_data
  (x509.1._pair, { d_ptr := { self.d_ptr with _x509_data := x509.2 } })

/-- Member `setClientLoginPasswordCallback` (lines 319-323). -/
def RequestParams.setClientLoginPasswordCallback (self : RequestParams)
    (callback userdata : Nat) (state_value : Int) : RequestParams × Int :=
  let d := self.d_ptr.regenerateStateUid state_value
  ({ d_ptr := { d.1 with _call_loginpswwd := callback,
                         _call_loginpswwd_userdata := userdata } }, d.2)

/-- Member `getClientLoginPasswordCallback` (lines 326-328). -/
def RequestParams.getClientLoginPasswordCallback (self : RequestParams) : Nat × Nat :=
  (self.d_ptr._call_loginpswwd, self.d_ptr._call_loginpswwd_userdata)

/-- Member `setAwsAuthorizationKeys` (lines 331-333). -/
def RequestParams.setAwsAuthorizationKeys (self : RequestParams)
    (secret_key access_key : String) : RequestParams :=
  { d_ptr := { self.d_ptr with _aws_cred := (secret_key, access_key) } }

/-- Member `getAwsAutorizationKeys` (lines 335-337). -/
def RequestParams.getAwsAutorizationKeys (self : RequestParams) : String × String :=
  self.d_ptr._aws_cred

/-- Member `setAwsRegion` (lines 339-341). -/
def RequestParams.setAwsRegion (self : RequestParams) (region : String) : RequestParams :=
  { d_ptr := { self.d_ptr with _aws_region := region } }

/-- Member `getAwsRegion` (lines 343-345). -/
def RequestParams.getAwsRegion (self : RequestParams) : String := self.d_ptr._aws_region

/-- Member `setAwsv2Alternate` (lines 347-349). -/
def RequestParams.setAwsv2Alternate (self : RequestParams) (alternate : Bool) : RequestParams :=
  { d_ptr := { self.d_ptr with _aws_v2_alternate := alternate } }

/-- Member `getAwsv2Alternate` (lines 351-353). -/
def RequestParams.getAwsv2Alternate (self : RequestParams) : Bool :=
  self.d_ptr._aws_v2_alternate

/-- Member `setS3ListingMode` (lines 355-357). -/
def RequestParams.setS3ListingMode (self : RequestParams) (s3_listing_mode : S3ListingMode) :
    RequestParams :=
  { d_ptr := { self.d_ptr with _s3_listing_mode := s3_listing_mode } }

/-- Member `getS3ListingMode` (lines 359-361). -/
def RequestParams.getS3ListingMode (self : RequestParams) : S3ListingMode :=
  self.d_ptr._s3_listing_mode

/-- Member `setS3MaxKey` (lines 363-365); the argument is an `unsigned long`. -/
def RequestParams.setS3MaxKey (self : RequestParams) (s3_max_key_entries : Nat) :
    RequestParams :=
  { d_ptr := { self.d_ptr with _s3_max_key_entries := s3_max_key_entries } }

/-- Member `getS3MaxKey` (lines 367-369). -/
def RequestParams.getS3MaxKey (self : RequestParams) : Nat := self.d_ptr._s3_max_key_entries

/-- Member `addCertificateAuthorityPath` (lines 371-374). -/
def RequestParams.addCertificateAuthorityPath (self : RequestParams) (path : String)
    (state_value : Int) : RequestParams × Int :=
  let d := self.d_ptr.regenerateStateUid state_value
  ({ d_ptr := { d.1 with _ca_path := d.1._ca_path ++ [path] } }, d.2)

/-- Member `listCertificateAuthorityPath` (lines 376-378). -/
def RequestParams.listCertificateAuthorityPath (self : RequestParams) : List String :=
  self.d_ptr._ca_path

/-- Member `setConnectionTimeout` (lines 381-383). -/
def RequestParams.setConnectionTimeout (self : RequestParams) (conn_timeout1 : timespec) :
    RequestParams :=
  { d_ptr := { self.d_ptr with
      connexion_timeout := timespec_copy self.d_ptr.connexion_timeout conn_timeout1 } }

/-- Member `setOperationTimeout` (lines 385-387). -/
def RequestParams.setOperationTimeout (self : RequestParams) (ops_timeout1 : timespec) :
    RequestParams :=
  { d_ptr := { self.d_ptr with
      ops_timeout := timespec_copy self.d_ptr.ops_timeout ops_timeout1 } }

/-- Member `getConnectionTimeout` (lines 389-391): the value pointed to. -/
def RequestParams.getConnectionTimeout (self : RequestParams) : timespec :=
  self.d_ptr.connexion_timeout

/-- Member `getOperationTimeout` (lines 393-395): the value pointed to. -/
def RequestParams.getOperationTimeout (self : RequestParams) : timespec :=
  self.d_ptr.ops_timeout

/-- Member `setTransparentRedirectionSupport` (lines 397-400). -/
def RequestParams.setTransparentRedirectionSupport (self : RequestParams) (redirection : Bool)
    (state_value : Int) : RequestParams × Int :=
  let d := self.d_ptr.regenerateStateUid state_value
  ({ d_ptr := { d.1 with _redirection := redirection } }, d.2)

/-- Member `getTransparentRedirectionSupport` (lines 403-405). -/
def RequestParams.getTransparentRedirectionSupport (self : RequestParams) : Bool :=
  self.d_ptr._redirection

/-- Member `setOperationRetry` (lines 407-409). -/
def RequestParams.setOperationRetry (self : RequestParams) (number_retry : Int) :
    RequestParams :=
  { d_ptr := { self.d_ptr with retry_number := number_retry } }

/-- Member `getOperationRetry` (lines 411-413). -/
def RequestParams.getOperationRetry (self : RequestParams) : Int := self.d_ptr.retry_number

/-- Member `setOperationRetryDelay` (lines 415-417). -/
def RequestParams.setOperationRetryDelay (self : RequestParams) (delay_retry : Int) :
    RequestParams :=
  { d_ptr := { self.d_ptr with retry_delay := delay_retry } }

/-- Member `getOperationRetryDelay` (lines 419-421). -/
def RequestParams.getOperationRetryDelay (self : RequestParams) : Int := self.d_ptr.retry_delay

/-- Member `setTransfertMonitorCb` (lines 423-425). -/
def RequestParams.setTransfertMonitorCb (self : RequestParams) (cb : Option Nat) :
    RequestParams :=
  { d_ptr := { self.d_ptr with _transferCb := cb } }

/-- Member `getTransferMonitorCb` (lines 427-429). -/
def RequestParams.getTransferMonitorCb (self : RequestParams) : Option Nat :=
  self.d_ptr._transferCb

/-- Member `getUserAgent` (lines 431-433). -/
def RequestParams.getUserAgent (self : RequestParams) : String := self.d_ptr.agent_string

/-- Member `setUserAgent` (lines 435-438). -/
def RequestParams.setUserAgent (self : RequestParams) (user_agent : String)
    (state_value : Int) : RequestParams × Int :=
  let d := self.d_ptr.regenerateStateUid state_value
  ({ d_ptr := { d.1 with agent_string := user_agent } }, d.2)

/-- Member `getProtocol` (lines 441-443). -/
def RequestParams.getProtocol (self : RequestParams) : RequestProtocol := self.d_ptr._proto

/-- Member `setProtocol` (lines 445-447). -/
def RequestParams.setProtocol (self : RequestParams) (proto : RequestProtocol) :
    RequestParams :=
  { d_ptr := { self.d_ptr with _proto := proto } }

/-- Member `getMetalinkMode` (lines 449-451). -/
def RequestParams.getMetalinkMode (self : RequestParams) : MetalinkMode :=
  self.d_ptr._metalink_mode

/-- Member `setMetalinkMode` (lines 453-455). -/
def RequestParams.setMetalinkMode (self : RequestParams) (mode : MetalinkMode) :
    RequestParams :=
  { d_ptr := { self.d_ptr with _metalink_mode := mode } }

/-- Member `setKeepAlive` (lines 458-464), on the 32 bit pattern of the
session flag. -/
def RequestParams.setKeepAlive (self : RequestParams) (keep_alive_flag : Bool)
    (state_value : Int) : RequestParams × Int :=
  let d := self.d_ptr.regenerateStateUid state_value
  if keep_alive_flag then
    ({ d_ptr := { d.1 with _session_flag := d.1._session_flag ||| SESSION_FLAG_KEEP_ALIVE } },
      d.2)
  else
    ({ d_ptr := { d.1 with
        _session_flag := d.1._session_flag &&& (2 ^ 32 - 1 - SESSION_FLAG_KEEP_ALIVE) } }, d.2)

/-- Member `getKeepAlive` (lines 467-469). -/
def RequestParams.getKeepAlive (self : RequestParams) : Bool :=
  (self.d_ptr._session_flag &&& SESSION_FLAG_KEEP_ALIVE) != 0

/-- Member `addHeader` (lines 473-476). -/
def RequestParams.addHeader (self : RequestParams) (key val : String) : RequestParams :=
  { d_ptr := { self.d_ptr with _customhdr := self.d_ptr._customhdr ++ [(key, val)] } }

/-- Member `getHeaders` (lines 478-480). -/
def RequestParams.getHeaders (self : RequestParams) : List (String × String) :=
  self.d_ptr._customhdr

/-- Member `setProxyServer` (lines 482-484). -/
def RequestParams.setProxyServer (self : RequestParams) (proxy_url : String) : RequestParams :=
  { d_ptr := { self.d_ptr with _proxy_server := some proxy_url } }

/-- Member `getProxyServer` (lines 486-488): `none` for the null pointer. -/
def RequestParams.getProxyServer (self : RequestParams) : Option String :=
  self.d_ptr._proxy_server

/-- Member `setCopyMode` (lines 491-493). -/
def RequestParams.setCopyMode (self : RequestParams) (copy_mode : CopyMode) : RequestParams :=
  { d_ptr := { self.d_ptr with _copy_mode := copy_mode } }

/-- Member `getCopyMode` (lines 495-497). -/
def RequestParams.getCopyMode (self : RequestParams) : CopyMode := self.d_ptr._copy_mode

/-- Member `setRecursiveMode` (lines 499-501). -/
def RequestParams.setRecursiveMode (self : RequestParams) (recursive_mode : Bool) :
    RequestParams :=
  { d_ptr := { self.d_ptr with _recursive_mode := recursive_mode } }

/-- Member `getRecursiveMode` (lines 503-505). -/
def RequestParams.getRecursiveMode (self : RequestParams) : Bool :=
  self.d_ptr._recursive_mode

/-- Member `getParmState` (lines 509-512): the `int` converted to a 64 bit
pointer value. -/
def RequestParams.getParmState (self : RequestParams) : Nat :=
  (self.d_ptr._state_uid % 2 ^ 64).toNat

/-- Member `swap` (lines 514-516). -/
def RequestParams.swap (self p : RequestParams) : RequestParams × RequestParams := (p, self)

/-- Build constants for the examples. -/
def sample_constants : BuildConstants :=
  { DAVIX_VERSION := "0.4.0", DAVIX_DEFAULT_CONN_TIMEOUT := 30,
    DAVIX_DEFAULT_OPS_TIMEOUT := 180, default_retry_number := 3 }

/-! ## Vocabulary for the invariants of the parser -/

/-- The ten scope flags of `q` are those of `p`. -/
def same_flags (p q : DavPropXMLParser) : Prop := ∀ k : Scope, k.flag q = k.flag p

/-- Events handed to their callbacks one after the other whatever the results
(a caller that goes on after a failure): the results of the callbacks and the
parser object at the end. -/
def deliver_all (parse_standard_date : CStr → Int) :
    DavPropXMLParser → List Event → List Int × DavPropXMLParser
  | p, [] => ([], p)
  | p, e :: es =>
    let r := deliver parse_standard_date p e
    let rs := deliver_all parse_standard_date r.2 es
    (r.1 :: rs.1, rs.2)

/-- Parser state inside `response/propstat/prop` after a complete
`resourcetype` element holding `collection`: the directory bit is set. -/
def state_after_collection : DavPropXMLParser :=
  state_after [Event.start_elem response_pattern, Event.start_elem propstat_pattern,
    Event.start_elem prop_pattern, Event.start_elem resource_type_patern,
    Event.start_elem collection_patern, Event.end_elem collection_patern,
    Event.end_elem resource_type_patern]

/-- Parser state inside `response/propstat/prop/resourcetype` after a complete
`mode` element with the text `755`. -/
def state_mode_then_resourcetype : DavPropXMLParser :=
  state_after [Event.start_elem response_pattern, Event.start_elem propstat_pattern,
    Event.start_elem prop_pattern, Event.start_elem mode_pattern, Event.cdata "755".toList,
    Event.end_elem mode_pattern, Event.start_elem resource_type_patern]

/-- The ten scope flags in the order of the statements of the start and end
callbacks (lines 259-268 and 298-307). -/
def scope_order : List Scope :=
  [Scope.propname_section, Scope.prop_section, Scope.status_section, Scope.response_section,
    Scope.lastmod_section, Scope.creatdate_section, Scope.contentlength_section,
    Scope.mode_ext_section, Scope.href_section, Scope.resource_type]

/-- The scope statements of the start callback evaluated as the specification
words them: `add_scope` for each of the ten flags, the flag and its enter and
skip conditions read from the parser object `p` as it was before the event. -/
def add_scopes_before_event (p : DavPropXMLParser) (name : CStr) : DavPropXMLParser :=
  scope_order.foldl (fun q k =>
    let r := add_scope (k.flag p) name k.pattern (k.enter_condition p) (k.skip_condition p) q.err
    { k.set_flag q r.2.1 with err := r.2.2 }) p

/-- The scope statements of the end callback evaluated as the specification
words them: `remove_scope` for each of the ten flags, the flag and its enter
and skip conditions read from the parser object `p` as it was before the
event. -/
def remove_scopes_before_event (p : DavPropXMLParser) (name : CStr) : DavPropXMLParser :=
  scope_order.foldl (fun q k =>
    let r := remove_scope (k.flag p) name k.pattern (k.enter_condition p) (k.skip_condition p)
      q.err
    { k.set_flag q r.2.1 with err := r.2.2 }) p

/-- The outcome of the scope statements of a callback `r` agrees with the
parser object `s`: same ten flags, same error slot, and the callback fails
(-1) exactly when `s` holds an error. -/
def scopes_agree (r : Int × DavPropXMLParser) (s : DavPropXMLParser) : Prop :=
  (∀ k : Scope, k.flag r.2 = k.flag s) ∧ r.2.err = s.err ∧ (r.1 = -1 ↔ s.err.isSome = true)

/-! ## Client programs over request parameters -/

/-- The ten setters that call `regenerateStateUid`, with their arguments. -/
inductive RegenSetter where
  | setSSLCAcheck (chk : Bool)
  | setClientCertX509 (cli_cert : X509Credential)
  | setClientLoginPassword (login password : String)
  | setClientCertCallbackX509 (callback userdata : Nat)
  | setClientCertFunctionX509 (callback : X509Fun)
  | setClientLoginPasswordCallback (callback userdata : Nat)
  | addCertificateAuthorityPath (path : String)
  | setTransparentRedirectionSupport (redirection : Bool)
  | setUserAgent (user_agent : String)
  | setKeepAlive (keep_alive_flag : Bool)
  deriving DecidableEq, Repr

/-- The call of one of these setters on the object `p`. -/
def RegenSetter.call (s : RegenSetter) (p : RequestParams) (state_value : Int) :
    RequestParams × Int :=
  match s with
  | .setSSLCAcheck chk => p.setSSLCAcheck chk state_value
  | .setClientCertX509 cli_cert => p.setClientCertX509 cli_cert state_value
  | .setClientLoginPassword login password =>
    p.setClientLoginPassword login password state_value
  | .setClientCertCallbackX509 callback userdata =>
    p.setClientCertCallbackX509 callback userdata state_value
  | .setClientCertFunctionX509 callback => p.setClientCertFunctionX509 callback state_value
  | .setClientLoginPasswordCallback callback userdata =>
    p.setClientLoginPasswordCallback callback userdata state_value
  | .addCertificateAuthorityPath path => p.addCertificateAuthorityPath path state_value
  | .setTransparentRedirectionSupport redirection =>
    p.setTransparentRedirectionSupport redirection state_value
  | .setUserAgent user_agent => p.setUserAgent user_agent state_value
  | .setKeepAlive keep_alive_flag => p.setKeepAlive keep_alive_flag state_value

/-- The setters that do not call `regenerateStateUid`, with their arguments. -/
inductive PlainSetter where
  | setAwsAuthorizationKeys (secret_key access_key : String)
  | setAwsRegion (region : String)
  | setAwsv2Alternate (alternate : Bool)
  | setS3ListingMode (s3_listing_mode : S3ListingMode)
  | setS3MaxKey (s3_max_key_entries : Nat)
  | setConnectionTimeout (conn_timeout1 : timespec)
  | setOperationTimeout (ops_timeout1 : timespec)
  | setOperationRetry (number_retry : Int)
  | setOperationRetryDelay (delay_retry : Int)
  | setTransfertMonitorCb (cb : Option Nat)
  | setProtocol (proto : RequestProtocol)
  | setMetalinkMode (mode : MetalinkMode)
  | addHeader (key val : String)
  | setProxyServer (proxy_url : String)
  | setCopyMode (copy_mode : CopyMode)
  | setRecursiveMode (recursive_mode : Bool)
  deriving DecidableEq, Repr

/-- The call of one of these setters on the object `p`. -/
def PlainSetter.call (s : PlainSetter) (p : RequestParams) : RequestParams :=
  match s with
  | .setAwsAuthorizationKeys secret_key access_key =>
    p.setAwsAuthorizationKeys secret_key access_key
  | .setAwsRegion region => p.setAwsRegion region
  | .setAwsv2Alternate alternate => p.setAwsv2Alternate alternate
  | .setS3ListingMode s3_listing_mode => p.setS3ListingMode s3_listing_mode
  | .setS3MaxKey s3_max_key_entries => p.setS3MaxKey s3_max_key_entries
  | .setConnectionTimeout conn_timeout1 => p.setConnectionTimeout conn_timeout1
  | .setOperationTimeout ops_timeout1 => p.setOperationTimeout ops_timeout1
  | .setOperationRetry number_retry => p.setOperationRetry number_retry
  | .setOperationRetryDelay delay_retry => p.setOperationRetryDelay delay_retry
  | .setTransfertMonitorCb cb => p.setTransfertMonitorCb cb
  | .setProtocol proto => p.setProtocol proto
  | .setMetalinkMode mode => p.setMetalinkMode mode
  | .addHeader key val => p.addHeader key val
  | .setProxyServer proxy_url => p.setProxyServer proxy_url
  | .setCopyMode copy_mode => p.setCopyMode copy_mode
  | .setRecursiveMode recursive_mode => p.setRecursiveMode recursive_mode

/-- One statement of a client program; objects are named by their position in
the list of the objects that exist. -/
inductive Command where
  | construct
  | copy (i : Nat)
  | from_pointer (i : Option Nat)
  | assign (i j : Nat)
  | regen (i : Nat) (s : RegenSetter)
  | plain (i : Nat) (s : PlainSetter)
  | get_x509 (i : Nat)
  | swap (i j : Nat)
  | destroy (i : Nat)
  deriving DecidableEq, Repr

/-- The state of a client program: the global `state_value`, the
`RequestParams` objects that exist, and `calls`, the number of calls of
`get_requeste_uid` made so far (kept for the statements about overflow; the
program has no such variable). -/
structure World where
  state_value : Int
  calls : Nat
  objects : List RequestParams
  deriving DecidableEq, Repr

/-- The program starts with `state_value` 0 (line 35) and no object. -/
def World.init : World := { state_value := 0, calls := 0, objects := [] }

/-- One statement executed; a statement that names an object that does not
exist is left out. `get_x509` stands for the getters of the X.509 data, which
may allocate the `X509Data` object. -/
def World.step (c : BuildConstants) (w : World) : Command → World
  | .construct =>
    let r := RequestParams.new c w.state_value
    { state_value := r.2, calls := w.calls + 1, objects := w.objects ++ [r.1] }
  | .copy i =>
    match w.objects[i]? with
    | some p => { w with objects := w.objects ++ [RequestParams.copy p] }
    | none => w
  | .from_pointer none =>
    let r := RequestParams.from_pointer c none w.state_value
    { state_value := r.2, calls := w.calls + 1, objects := w.objects ++ [r.1] }
  | .from_pointer (some i) =>
    match w.objects[i]? with
    | some p =>
      let r := RequestParams.from_pointer c (some p) w.state_value
      { w with state_value := r.2, objects := w.objects ++ [r.1] }
    | none => w
  | .assign i j =>
    match w.objects[i]?, w.objects[j]? with
    | some a, some b => { w with objects := w.objects.set i (RequestParams.assign a b) }
    | _, _ => w
  | .regen i s =>
    match w.objects[i]? with
    | some p =>
      let r := s.call p w.state_value
      { state_value := r.2, calls := w.calls + 1, objects := w.objects.set i r.1 }
    | none => w
  | .plain i s =>
    match w.objects[i]? with
    | some p => { w with objects := w.objects.set i (s.call p) }
    | none => w
  | .get_x509 i =>
    match w.objects[i]? with
    | some p => { w with objects := w.objects.set i (p.getClientCertX509).2 }
    | none => w
  | .swap i j =>
    match w.objects[i]?, w.objects[j]? with
    | some a, some b =>
      let r := RequestParams.swap a b
      { w with objects := (w.objects.set i r.1).set j r.2 }
    | _, _ => w
  | .destroy i => { w with objects := w.objects.eraseIdx i }

/-- A program executed from the state `w`. -/
def World.run (c : BuildConstants) (w : World) (cmds : List Command) : World :=
  cmds.foldl (World.step c) w

/-- The values returned by `n` successive calls of `get_requeste_uid`, the
first with the global at `state_value`. -/
def uid_sequence : Int → Nat → List Int
  | _, 0 => []
  | state_value, n + 1 =>
    (get_requeste_uid state_value).1 :: uid_sequence (get_requeste_uid state_value).2 n

/-- The state uid of every object is positive and at most `state_value`, and
`state_value` is the number of calls made. -/
def World.uids_bounded (w : World) : Prop :=
  w.state_value = (w.calls : Int) ∧
  ∀ o ∈ w.objects, 1 ≤ o.d_ptr._state_uid ∧ o.d_ptr._state_uid ≤ w.state_value

/-! ## Partial and vector reads (`DavFile`, declared in `davfile.hpp`)

The header declares `readPartial` and `readPartialBufferVec`; their bodies and
the HTTP layer below them are not among the sources, so the read emulation is
modelled from the specification (section 4.3). File contents and buffers are
lists of bytes. -/

/-- Modelled from the spec: a request for the content of the file, for one
byte range (`offset`, `count`) or for the full content. -/
inductive FileRequest where
  | range (offset count : Nat)
  | full
  deriving DecidableEq, Repr

/-- Modelled from the spec: what the emulation reads of a response: the status
code, whether a `Content-Range` header is present, and the body. -/
structure FileResponse where
  status : Nat
  content_range : Bool
  body : List Nat
  deriving DecidableEq, Repr

/-- Modelled from the spec: a server, as the response it gives to each
request. -/
abbrev Server := FileRequest → FileResponse

/-- The bytes at `[offset, offset + count)` of a content, clipped at the end
of the file. -/
def window (content : List Nat) (offset count : Nat) : List Nat :=
  (content.drop offset).take count

/-- Modelled from the spec: a server without range support: it answers every
request with 200 and the full content. -/
def plain_server (content : List Nat) : Server :=
  fun _ => { status := 200, content_range := false, body := content }

/-- Modelled from the spec: a range-capable server: 206 with `Content-Range`
and the bytes of the range clipped at the end of the file, 416 for a range
that starts at or beyond the end of the file, 200 with the full content for a
full request. -/
def range_server (content : List Nat) : Server
  | .range offset count =>
    if offset < content.length then
      { status := 206, content_range := true, body := window content offset count }
    else
      { status := 416, content_range := false, body := [] }
  | .full => { status := 200, content_range := false, body := content }

/-- Modelled from the spec: `DavFile::readPartial` (declared in `davfile.hpp`,
lines 83-101; its body is missing): a single-range request; when the server
answers 206 with `Content-Range` the body fills the buffer; when it rejects
range semantics (a full 200 response instead of 206, or no `Content-Range`)
the full content is fetched and the requested window is sliced locally; any
other answer is a failure. Returns the result (bytes read, or -1) and the
bytes put in the buffer. -/
def readPartial (server : Server) (count offset : Nat) : Int × List Nat :=
  let r := server (FileRequest.range offset count)
  if r.status == 206 && r.content_range then
    ((r.body.take count).length, r.body.take count)
  else if r.status == 200 || r.status == 206 then
    let full := server FileRequest.full
    ((window full.body offset count).length, window full.body offset count)
  else
    (-1, [])

/-- Modelled from the spec: an input descriptor `DavIOVecInput` of a vector
read: offset and size of the chunk asked for. -/
structure DavIOVecInput where
  diov_offset : Nat
  diov_size : Nat
  deriving DecidableEq, Repr

/-- Modelled from the spec: an output descriptor `DavIOVecOuput`: the bytes
delivered into the buffer and their number. -/
structure DavIOVecOuput where
  diov_buffer : List Nat
  diov_size : Nat
  deriving DecidableEq, Repr

/-- Modelled from the spec: one part of a multipart (byteranges) response: its
declared range, `bytes first-(first+length-1)/total`, and its bytes. -/
structure BytePart where
  first : Nat
  total : Nat
  bytes : List Nat
  deriving DecidableEq, Repr

/-- The chunk can be satisfied: its offset lies before the end of a file of
`size` bytes. -/
def DavIOVecInput.in_range (x : DavIOVecInput) (size : Nat) : Bool :=
  decide (x.diov_offset < size)

/-- Modelled from the spec: the part a multi-range server sends for a chunk. -/
def part_of (content : List Nat) (x : DavIOVecInput) : BytePart :=
  { first := x.diov_offset, total := content.length,
    bytes := window content x.diov_offset x.diov_size }

/-- Modelled from the spec: the parts a multi-range server has to send for the
chunks asked for: one for each chunk in range; the order in which it sends
them is its own. -/
def multirange_parts (content : List Nat) (inputs : List DavIOVecInput) : List BytePart :=
  (inputs.filter (fun x => x.in_range content.length)).map (part_of content)

/-- Modelled from the spec: a part is matched back to an input descriptor by
its declared byte range: the range asked for, clipped at the declared total. -/
def BytePart.answers (part : BytePart) (x : DavIOVecInput) : Bool :=
  part.first == x.diov_offset &&
    part.bytes.length == min x.diov_size (part.total - part.first)

/-- Modelled from the spec: the response to the multi-range request: a
multipart body, or no support for multi-range. -/
inductive VectorResponse where
  | multipart (parts : List BytePart)
  | unsupported
  deriving DecidableEq, Repr

/-- Modelled from the spec: the output of one chunk, `none` when the chunk
could not be satisfied: from the part with its range, or, without multi-range
support, from the single-range path. -/
def read_chunk (response : VectorResponse) (server : Server) (x : DavIOVecInput) :
    Option DavIOVecOuput :=
  match response with
  | .multipart parts =>
    match parts.find? (fun part => part.answers x) with
    | some part => some { diov_buffer := part.bytes, diov_size := part.bytes.length }
    | none => none
  | .unsupported =>
    let r := readPartial server x.diov_size x.diov_offset
    if r.1 < 0 then none else some { diov_buffer := r.2, diov_size := r.2.length }

/-- The error record of a vector read in which no chunk could be satisfied. -/
def vector_read_error : DavixError :=
  { code := StatusCode.UnknowError, msg := "vector read: no chunk could be read".toList }

/-- Modelled from the spec: `DavFile::readPartialBufferVec` (declared in
`davfile.hpp`, lines 64-81; its body is missing): one multi-range request,
each part matched back to its input descriptor by range, or the single-range
path for each chunk when the server has no multi-range support; a chunk that
cannot be satisfied yields zero bytes; the result is the sum of the bytes
delivered, or -1 with an error record when every chunk fails. Returns the
result, the error slot and the output descriptors. -/
def readPartialBufferVec (response : VectorResponse) (server : Server)
    (input_vec : List DavIOVecInput) : Int × Option DavixError × List DavIOVecOuput :=
  let chunks := input_vec.map (read_chunk response server)
  let ioutput_vec := chunks.map (fun o => o.getD { diov_buffer := [], diov_size := 0 })
  if chunks.all (fun o => o.isNone) then
    (-1, some vector_read_error, ioutput_vec)
  else
    (((ioutput_vec.map (fun o => o.diov_size)).sum : Nat), none, ioutput_vec)

/-- What a chunk is owed from a file of the given content: the bytes of its
window when its offset lies in the file, nothing when it does not. -/
def expected_chunk (content : List Nat) (x : DavIOVecInput) : Option DavIOVecOuput :=
  if x.in_range content.length then
    some { diov_buffer := window content x.diov_offset x.diov_size,
           diov_size := (window content x.diov_offset x.diov_size).length }
  else
    none

/-- The output descriptors a vector read owes: for each chunk its window, of
length zero when the chunk is out of range. -/
def expected_outputs (content : List Nat) (inputs : List DavIOVecInput) : List DavIOVecOuput :=
  inputs.map (fun x => (expected_chunk content x).getD { diov_buffer := [], diov_size := 0 })

/-- A file of 100 bytes, byte `i` being `i`. -/
def sample_file : List Nat := List.range 100

/-- Three chunks asked of `sample_file`: two in the file, the third beyond its
end. -/
def sample_chunks : List DavIOVecInput :=
  [{ diov_offset := 0, diov_size := 10 }, { diov_offset := 50, diov_size := 20 },
    { diov_offset := 200, diov_size := 10 }]

/-- The multipart answer to `sample_chunks`, the second range sent first. -/
def sample_parts : List BytePart :=
  [part_of sample_file { diov_offset := 50, diov_size := 20 },
    part_of sample_file { diov_offset := 0, diov_size := 10 }]

/-- The state of a client program after a default construction, a copy of the
object and `setUserAgent` on the first object. -/
def sample_world : World :=
  World.run sample_constants World.init
    [Command.construct, Command.copy 0, Command.regen 0 (RegenSetter.setUserAgent "agent")]

/-! ## What the getters of a `RequestParams` return, and the shared X.509 data -/

/-- The values of all the getters of `RequestParams`, one field for each
getter; the timeouts are the values pointed to. -/
structure Configuration where
  getSSLCACheck : Bool
  getClientLoginPassword : String × String
  getClientCertX509 : X509Credential
  getClientCertFunctionX509 : X509Fun
  getClientCertCallbackX509 : Nat × Nat
  getClientLoginPasswordCallback : Nat × Nat
  getAwsAutorizationKeys : String × String
  getAwsRegion : String
  getAwsv2Alternate : Bool
  getS3ListingMode : S3ListingMode
  getS3MaxKey : Nat
  listCertificateAuthorityPath : List String
  getConnectionTimeout : timespec
  getOperationTimeout : timespec
  getTransparentRedirectionSupport : Bool
  getOperationRetry : Int
  getOperationRetryDelay : Int
  getTransferMonitorCb : Option Nat
  getUserAgent : String
  getProtocol : RequestProtocol
  getMetalinkMode : MetalinkMode
  getKeepAlive : Bool
  getHeaders : List (String × String)
  getProxyServer : Option String
  getCopyMode : CopyMode
  getRecursiveMode : Bool
  getParmState : Nat
  deriving DecidableEq, Repr

/-- Every getter called on the object `p`. -/
def RequestParams.configuration (p : RequestParams) : Configuration :=
  { getSSLCACheck := p.getSSLCACheck
    getClientLoginPassword := p.getClientLoginPassword
    getClientCertX509 := p.getClientCertX509.1
    getClientCertFunctionX509 := p.getClientCertFunctionX509.1
    getClientCertCallbackX509 := p.getClientCertCallbackX509.1
    getClientLoginPasswordCallback := p.getClientLoginPasswordCallback
    getAwsAutorizationKeys := p.getAwsAutorizationKeys
    getAwsRegion := p.getAwsRegion
    getAwsv2Alternate := p.getAwsv2Alternate
    getS3ListingMode := p.getS3ListingMode
    getS3MaxKey := p.getS3MaxKey
    listCertificateAuthorityPath := p.listCertificateAuthorityPath
    getConnectionTimeout := p.getConnectionTimeout
    getOperationTimeout := p.getOperationTimeout
    getTransparentRedirectionSupport := p.getTransparentRedirectionSupport
    getOperationRetry := p.getOperationRetry
    getOperationRetryDelay := p.getOperationRetryDelay
    getTransferMonitorCb := p.getTransferMonitorCb
    getUserAgent := p.getUserAgent
    getProtocol := p.getProtocol
    getMetalinkMode := p.getMetalinkMode
    getKeepAlive := p.getKeepAlive
    getHeaders := p.getHeaders
    getProxyServer := p.getProxyServer
    getCopyMode := p.getCopyMode
    getRecursiveMode := p.getRecursiveMode
    getParmState := p.getParmState }

/-- The `X509Data` objects allocated so far, for the functions below, which
follow the shared pointer `_x509_data` as an address: address `a + 1` is cell
`a` and address 0 is the null pointer. No object is freed. -/
structure X509Heap where
  cells : List X509Data
  deriving DecidableEq, Repr

/-- The expression `new X509Data()`: the address of the new object and the
heap with it. -/
def X509Heap.alloc (h : X509Heap) : Nat × X509Heap :=
  (h.cells.length + 1, { cells := h.cells ++ [X509Data.new] })

/-- The object at an address. -/
def X509Heap.read (h : X509Heap) (a : Nat) : X509Data := h.cells.getD (a - 1) X509Data.new

/-- A write to the object at an address. -/
def X509Heap.write (h : X509Heap) (a : Nat) (d : X509Data) : X509Heap :=
  { cells := h.cells.set (a - 1) d }

/-- The value a shared pointer holds: `none` for the null pointer, else the
object it points to. -/
def X509Heap.value (h : X509Heap) (cred_ptr : Nat) : Option X509Data :=
  if cred_ptr == 0 then none else some (h.read cred_ptr)

/-- Static member `X509Data::instance` (lines 54-59) on addresses: the address
held by the pointer afterwards and the heap. -/
def X509Data.instance_at (h : X509Heap) (cred_ptr : Nat) : Nat × X509Heap :=
  if cred_ptr == 0 then h.alloc else (cred_ptr, h)

/-- Static member `X509Data::reset` (lines 61-64) on addresses. -/
def X509Data.reset_at (h : X509Heap) (_cred_ptr : Nat) : Nat × X509Heap := h.alloc

/-- The X.509 statements of `setClientCertX509` (lines 270-272) on addresses:
the address held by `_x509_data` afterwards and the heap. -/
def setClientCertX509_at (h : X509Heap) (cred_ptr : Nat) (cli_cert : X509Credential) :
    Nat × X509Heap :=
  let r := X509Data.reset_at h cred_ptr
  let x509 := r.1
  let h := r.2.write x509 { r.2.read x509 with _cred := cli_cert }
  let h := h.write x509 { h.read x509 with _x509_fun := X509Fun.cred_callback }
  (x509, h)

/-- The X.509 statements of `setClientCertCallbackX509` (lines 294-296) on
addresses. -/
def setClientCertCallbackX509_at (h : X509Heap) (cred_ptr : Nat) (callback userdata : Nat) :
    Nat × X509Heap :=
  let r := X509Data.reset_at h cred_ptr
  let x509 := r.1
  let h := r.2.write x509 { r.2.read x509 with _pair := (callback, userdata) }
  let h := h.write x509 { h.read x509 with _x509_fun := X509Fun.c_callback }
  (x509, h)

/-- The X.509 statements of `setClientCertFunctionX509` (lines 302-303) on
addresses. -/
def setClientCertFunctionX509_at (h : X509Heap) (cred_ptr : Nat) (callback : X509Fun) :
    Nat × X509Heap :=
  let r := X509Data.reset_at h cred_ptr
  let x509 := r.1
  let h := r.2.write x509 { r.2.read x509 with _x509_fun := callback }
  (x509, h)

/-- Member `getClientCertX509` (lines 284-287) on addresses: the credential,
the address held by `_x509_data` afterwards and the heap. -/
def getClientCertX509_at (h : X509Heap) (cred_ptr : Nat) : X509Credential × Nat × X509Heap :=
  let r := X509Data.instance_at h cred_ptr
  ((r.2.read r.1)._cred, r.1, r.2)

/-- Member `getClientCertFunctionX509` (lines 306-309) on addresses. -/
def getClientCertFunctionX509_at (h : X509Heap) (cred_ptr : Nat) : X509Fun × Nat × X509Heap :=
  let r := X509Data.instance_at h cred_ptr
  ((r.2.read r.1)._x509_fun, r.1, r.2)

/-- Member `getClientCertCallbackX509` (lines 312-315) on addresses. -/
def getClientCertCallbackX509_at (h : X509Heap) (cred_ptr : Nat) :
    (Nat × Nat) × Nat × X509Heap :=
  let r := X509Data.instance_at h cred_ptr
  ((r.2.read r.1)._pair, r.1, r.2)

/-- A heap with one object, holding a certificate, for the examples. -/
def sample_heap : X509Heap :=
  { cells := [{ _pair := (0, 0), _x509_fun := X509Fun.cred_callback,
                _cred := X509Credential.mk (some "user.pem") }] }

/-! ## Basic facts about the scope calls -/

theorem match_element_pattern (j k : Scope) :
    match_element j.pattern k.pattern = decide (j = k) := by
  cases j <;> cases k <;> decide

theorem add_scope_call_no_match (k : Scope) (p : DavPropXMLParser) (name : CStr)
    (h : match_element name k.pattern = false) : add_scope_call k p name = (false, p) := by
  cases k <;> simp [add_scope_call, add_scope, h, Scope.set_flag, Scope.flag]

theorem remove_scope_call_no_match (k : Scope) (p : DavPropXMLParser) (name : CStr)
    (h : match_element name k.pattern = false) : remove_scope_call k p name = (false, p) := by
  cases k <;> simp [remove_scope_call, remove_scope, h, Scope.set_flag, Scope.flag]

theorem remove_scope_call_props (k : Scope) (p : DavPropXMLParser) (name : CStr) :
    (remove_scope_call k p name).2._props = p._props := by
  cases k <;> simp [remove_scope_call, Scope.set_flag]

/-- Proof rule for one `DAVIX_XML_REPORT_ERROR`: a property of the callback's
outcome holds when it holds on the early return and on the continuation. -/
theorem report_error_rule {α : Type} (Q : Int × DavPropXMLParser → Prop)
    (x : α × DavPropXMLParser) (rest : α → DavPropXMLParser → Int × DavPropXMLParser)
    (h1 : x.2.err.isSome = true → Q (-1, x.2))
    (h2 : x.2.err = none → Q (rest x.1 x.2)) : Q (DAVIX_XML_REPORT_ERROR x rest) := by
  unfold DAVIX_XML_REPORT_ERROR
  split
  · rename_i h
    exact h1 h
  · rename_i h
    exact h2 (by simpa using h)

theorem report_error_of_none {α : Type} (x : α × DavPropXMLParser)
    (rest : α → DavPropXMLParser → Int × DavPropXMLParser) (h : x.2.err = none) :
    DAVIX_XML_REPORT_ERROR x rest = rest x.1 x.2 := by
  simp [DAVIX_XML_REPORT_ERROR, h]

theorem report_error_of_some {α : Type} (x : α × DavPropXMLParser)
    (rest : α → DavPropXMLParser → Int × DavPropXMLParser) (h : x.2.err.isSome = true) :
    DAVIX_XML_REPORT_ERROR x rest = (-1, x.2) := by
  simp [DAVIX_XML_REPORT_ERROR, h]

/-- An end-element event other than `propstat` leaves the result sequence as
it was. -/
theorem parserEndElemCb_props_of_ne (p : DavPropXMLParser) (name : CStr)
    (h : name ≠ propstat_pattern) : (parserEndElemCb p name).2._props = p._props := by
  have h1 : match_element name Scope.propname_section.pattern = false := by
    simp [match_element, h, Scope.pattern]
  unfold parserEndElemCb
  rw [remove_scope_call_no_match _ _ _ h1]
  repeat (refine report_error_rule (fun r => r.2._props = p._props) _ _ (fun _ => ?_) (fun _ => ?_); · simp [remove_scope_call_props])
  simp [remove_scope_call_props]

/-- Outcome of the end-element event `propstat` in a state without pending
error where the response and propstat scopes are open. -/
theorem parserEndElemCb_propstat (p : DavPropXMLParser) (h_err : p.err = none)
    (h_resp : p.response_section = true) (h_ps : p.propname_section = true) :
    parserEndElemCb p propstat_pattern
      = store_new_elem { p with propname_section := false } := by
  have e : propstat_pattern = Scope.propname_section.pattern := rfl
  rw [e]
  simp [parserEndElemCb, DAVIX_XML_REPORT_ERROR, remove_scope_call_no_match,
    match_element_pattern]
  simp [remove_scope_call, remove_scope, match_element_pattern, Scope.flag, Scope.set_flag,
    Scope.enter_condition, Scope.skip_condition, h_err, h_resp, h_ps]

/-! ## Record commit (store_new_elem) -/

/-- C2: when an end-element event runs `store_new_elem` with the response scope
open (the event is `propstat`, closing an open propstat scope, with no pending
error), the callback returns 0, and the in-progress record is appended to the
result sequence if and only if `100 < req_status < 400`; outside that range
(100 and 400 included) the result sequence is unchanged. -/
theorem commit_iff_status_in_range (p : DavPropXMLParser) (h_err : p.err = none)
    (h_resp : p.response_section = true) (h_ps : p.propname_section = true) :
    (parserEndElemCb p propstat_pattern).1 = 0 ∧
    ((100 < p._current_props.req_status ∧ p._current_props.req_status < 400) ↔
      (parserEndElemCb p propstat_pattern).2._props = p._props ++ [p._current_props]) ∧
    (¬ (100 < p._current_props.req_status ∧ p._current_props.req_status < 400) →
      (parserEndElemCb p propstat_pattern).2._props = p._props) ∧
    (p._current_props.req_status = 100 ∨ p._current_props.req_status = 400 →
      parserEndElemCb p propstat_pattern = (0, { p with propname_section := false })) := by
  rw [parserEndElemCb_propstat p h_err h_resp h_ps]
  simp only [store_new_elem, h_resp]
  by_cases h : 100 < p._current_props.req_status ∧ p._current_props.req_status < 400
  · have h' : (decide (p._current_props.req_status > 100) &&
        decide (p._current_props.req_status < 400)) = true := by simpa using h
    simp only [h', if_true]
    refine ⟨trivial, ⟨fun _ => trivial, fun _ => h⟩, fun hn => absurd h hn, ?_⟩
    rintro (h1 | h1) <;> omega
  · have h' : (decide (p._current_props.req_status > 100) &&
        decide (p._current_props.req_status < 400)) = false := by
      simpa using h
    simp [h', h]

/-- C2 at a concrete state: status 200 is committed by the end of `propstat`. -/
theorem commit_iff_status_in_range_witness :
    (parserEndElemCb state_after_status_200 propstat_pattern).1 = 0 ∧
    ((100 < state_after_status_200._current_props.req_status ∧
        state_after_status_200._current_props.req_status < 400) ↔
      (parserEndElemCb state_after_status_200 propstat_pattern).2._props
        = state_after_status_200._props ++ [state_after_status_200._current_props]) :=
  ⟨(commit_iff_status_in_range state_after_status_200 rfl rfl rfl).1,
    (commit_iff_status_in_range state_after_status_200 rfl rfl rfl).2.1⟩

/-- C3, as stated, fails: with the response scope open and an in-progress
record of status 200, the end-element event `response` succeeds and appends
nothing, while the end-element event `propstat` appends the record. -/
theorem commit_on_response_end_counterexample :
    state_after_status_200.response_section = true ∧
    status_in_range state_after_status_200._current_props.req_status = true ∧
    (parserEndElemCb state_after_status_200 response_pattern).1 = 0 ∧
    (parserEndElemCb state_after_status_200 response_pattern).2._props = [] ∧
    (parserEndElemCb state_after_status_200 propstat_pattern).2._props
      = [state_after_status_200._current_props] := by
  decide

/-- C3 (amended): the in-progress record is committed when the `propstat` scope
is closed inside an open response: with no pending error, the response and
propstat scopes open and `100 < req_status < 400`, the end-element event
`propstat` appends the in-progress record to the result sequence; and in every
parser state no end-element event of another name changes the result
sequence. -/
theorem commit_on_propstat_end (p : DavPropXMLParser) :
    (p.err = none → p.response_section = true → p.propname_section = true →
      100 < p._current_props.req_status → p._current_props.req_status < 400 →
      (parserEndElemCb p propstat_pattern).2._props = p._props ++ [p._current_props]) ∧
    (∀ name : CStr, name ≠ propstat_pattern →
      (parserEndElemCb p name).2._props = p._props) := by
  refine ⟨fun h_err h_resp h_ps h1 h2 => ?_, fun name h => parserEndElemCb_props_of_ne p name h⟩
  rw [parserEndElemCb_propstat p h_err h_resp h_ps]
  have h' : (decide (p._current_props.req_status > 100) &&
      decide (p._current_props.req_status < 400)) = true := by simp [h1, h2]
  simp [store_new_elem, h_resp, h']

/-- C3 (amended) at a concrete state. -/
theorem commit_on_propstat_end_witness :
    (parserEndElemCb state_after_status_200 propstat_pattern).2._props
      = state_after_status_200._props ++ [state_after_status_200._current_props] ∧
    (parserEndElemCb state_after_status_200 response_pattern).2._props
      = state_after_status_200._props :=
  ⟨(commit_on_propstat_end state_after_status_200).1 rfl rfl rfl (by decide) (by decide),
    (commit_on_propstat_end state_after_status_200).2 response_pattern (by decide)⟩

/-! ## Opening a scope twice -/

theorem add_scope_call_duplicate (k : Scope) (p : DavPropXMLParser)
    (h_flag : k.flag p = true) (h_enter : k.enter_condition p = true)
    (h_skip : k.skip_condition p = false) :
    add_scope_call k p k.pattern = (false, { p with err := some (duplicate_error k.pattern) }) := by
  cases k <;>
  simp_all [add_scope_call, add_scope, match_element_pattern, Scope.flag, Scope.set_flag,
    setupError, duplicate_error]

theorem Scope.flag_with_err (k : Scope) (p : DavPropXMLParser) (e : Option DavixError) :
    k.flag { p with err := e } = k.flag p := by
  cases k <;> rfl

theorem add_scope_call_other (j k : Scope) (p : DavPropXMLParser) (h : k ≠ j) :
    add_scope_call j p k.pattern = (false, p) :=
  add_scope_call_no_match j p k.pattern (by simp [match_element_pattern, h])

/-- A start-element event for a scope that is already open returns -1. -/
theorem parserStartElemCb_duplicate (k : Scope) (p : DavPropXMLParser)
    (h_flag : k.flag p = true) (h_enter : k.enter_condition p = true)
    (h_skip : k.skip_condition p = false) :
    (parserStartElemCb p k.pattern).1 = -1 := by
  have hd := add_scope_call_duplicate k p h_flag h_enter h_skip
  cases h : p.err <;> cases k <;>
  simp [parserStartElemCb, DAVIX_XML_REPORT_ERROR, add_scope_call_other, hd, h]

/-- C10: opening the same scope twice fails. For each of the ten scope elements
whose flag is already true, a start-element event of that element's name
whose enter condition holds and whose skip condition does not returns -1,
leaves an error in the error slot (with no error pending before, the
properties-parsing error naming the element) and leaves the flag true. -/
theorem duplicate_scope_start_fails (k : Scope) (p : DavPropXMLParser)
    (h_flag : k.flag p = true) (h_enter : k.enter_condition p = true)
    (h_skip : k.skip_condition p = false) :
    (parserStartElemCb p k.pattern).1 = -1 ∧
    k.flag (parserStartElemCb p k.pattern).2 = true ∧
    (parserStartElemCb p k.pattern).2.err.isSome = true ∧
    (p.err = none → (parserStartElemCb p k.pattern).2.err
      = some { code := StatusCode.WebDavPropertiesParsingError,
               msg := scope_error_msg k.pattern "deplucated" }) := by
  have hd := add_scope_call_duplicate k p h_flag h_enter h_skip
  cases h : p.err with
  | some e =>
    cases k <;>
    simp [parserStartElemCb, DAVIX_XML_REPORT_ERROR, add_scope_call_other, hd, h, h_flag,
      Scope.flag_with_err]
  | none =>
    cases k <;>
    simp [parserStartElemCb, DAVIX_XML_REPORT_ERROR, add_scope_call_other, hd, h, h_flag,
      Scope.flag_with_err, duplicate_error]

/-- C10 at a concrete state: inside `response/propstat/prop`, a second `prop`
start with no end in between fails. -/
theorem duplicate_scope_start_fails_witness :
    (parserStartElemCb state_in_prop prop_pattern).1 = -1 ∧
    (parserStartElemCb state_in_prop prop_pattern).2.prop_section = true ∧
    (parserStartElemCb state_in_prop prop_pattern).2.err.isSome = true :=
  ⟨(duplicate_scope_start_fails Scope.prop_section state_in_prop
      (by decide) (by decide) (by decide)).1,
    (duplicate_scope_start_fails Scope.prop_section state_in_prop
      (by decide) (by decide) (by decide)).2.1,
    (duplicate_scope_start_fails Scope.prop_section state_in_prop
      (by decide) (by decide) (by decide)).2.2.1⟩

/-! ## The filename derived from an href -/

theorem dropWhile_append_singleton (q : Char → Bool) (a : Char) (l : List Char) :
    (l ++ [a]).dropWhile q =
      if l.dropWhile q = [] then (if q a then [] else [a]) else l.dropWhile q ++ [a] := by
  induction l with
  | nil => by_cases h : q a <;> simp [List.dropWhile, h]
  | cons x xs ih =>
    by_cases h : q x
    · simpa [List.dropWhile, h] using ih
    · simp [List.dropWhile, h]

theorem takeWhile_append_stop (q : Char → Bool) (l r : List Char) (x : Char)
    (hl : ∀ y ∈ l, q y = true) (hx : q x = false) :
    (l ++ x :: r).takeWhile q = l := by
  induction l with
  | nil => simp [List.takeWhile, hx]
  | cons y ys ih =>
    have hy : q y = true := hl y (List.mem_cons_self _ _)
    have : ∀ z ∈ ys, q z = true := fun z hz => hl z (List.mem_cons_of_mem _ hz)
    simp [List.takeWhile, hy, ih this]

theorem takeWhile_all (q : Char → Bool) (l : List Char) (hl : ∀ y ∈ l, q y = true) :
    l.takeWhile q = l := by
  induction l with
  | nil => rfl
  | cons y ys ih =>
    have hy : q y = true := hl y (List.mem_cons_self _ _)
    have : ∀ z ∈ ys, q z = true := fun z hz => hl z (List.mem_cons_of_mem _ hz)
    simp [List.takeWhile, hy, ih this]

/-- The last path segment of a text without `/` is the text. -/
theorem last_path_segment_of_no_slash (s : CStr) (h : '/' ∉ s) : last_path_segment s = s := by
  unfold last_path_segment
  rw [takeWhile_all]
  · simp
  · intro y hy
    have : y ≠ '/' := fun e => h (by simpa [e] using hy)
    simpa using this

/-- The last path segment is what follows the last `/`. -/
theorem last_path_segment_after_slash (pre seg : CStr) (h : '/' ∉ seg) :
    last_path_segment (pre ++ '/' :: seg) = seg := by
  unfold last_path_segment
  have e : (pre ++ '/' :: seg).reverse = seg.reverse ++ '/' :: pre.reverse := by simp
  rw [e, takeWhile_append_stop]
  · simp
  · intro y hy
    have : y ≠ '/' := fun e => h (by simpa [e] using hy)
    simpa using this
  · simp

theorem strrchr_none (b : CStr) (c : Char) (h : strrchr b c = none) : c ∉ b := by
  induction b with
  | nil => simp
  | cons x xs ih =>
    simp only [strrchr] at h
    cases hx : strrchr xs c with
    | some i => simp [hx] at h
    | none =>
      simp only [hx] at h
      have hne : ¬ (x == c) = true := by
        intro e
        simp [e] at h
      have hne' : c ≠ x := fun e => hne (by simp [e])
      simp [hne', ih hx]

theorem strrchr_some (b : CStr) (c : Char) (i : Nat) (h : strrchr b c = some i) :
    ∃ pre suf, b = pre ++ c :: suf ∧ c ∉ suf ∧ i = pre.length := by
  induction b generalizing i with
  | nil => simp [strrchr] at h
  | cons x xs ih =>
    simp only [strrchr] at h
    cases hx : strrchr xs c with
    | some j =>
      simp only [hx, Option.some.injEq] at h
      obtain ⟨pre, suf, e, hs, hj⟩ := ih j hx
      exact ⟨x :: pre, suf, by simp [e], hs, by simp [← h, hj]⟩
    | none =>
      simp only [hx] at h
      by_cases hc : (x == c) = true
      · simp only [hc, if_true, Option.some.injEq] at h
        have e : x = c := by simpa using hc
        exact ⟨[], xs, by simp [e], strrchr_none xs c hx, by simp [← h]⟩
      · simp [hc] at h

/-- What `check_href` takes from the stripped buffer (lines 211-215) is its
last path segment. -/
theorem strrchr_last_path_segment (b : CStr) :
    (match strrchr b '/' with
      | some i => b.drop (i + 1)
      | none => b) = last_path_segment b := by
  cases h : strrchr b '/' with
  | none => simp [last_path_segment_of_no_slash b (strrchr_none b '/' h)]
  | some i =>
    obtain ⟨pre, suf, e, hs, hi⟩ := strrchr_some b '/' i h
    subst e
    subst hi
    rw [last_path_segment_after_slash pre suf hs]
    simp

theorem strip_trailing_slashes_append_singleton (t : CStr) (c : Char) :
    strip_trailing_slashes (t ++ [c]) =
      if c = '/' then strip_trailing_slashes t else t ++ [c] := by
  unfold strip_trailing_slashes
  by_cases h : c = '/'
  · simp [h, List.dropWhile]
  · simp [h, List.dropWhile]

theorem strip_trailing_slashes_cons (a : Char) (t : CStr) :
    strip_trailing_slashes (a :: t) =
      if strip_trailing_slashes t = [] ∧ a = '/' then [] else a :: strip_trailing_slashes t := by
  unfold strip_trailing_slashes
  rw [List.reverse_cons, dropWhile_append_singleton]
  by_cases h1 : List.dropWhile (fun c => c == '/') t.reverse = []
  · by_cases h2 : a = '/' <;> simp [h1, h2]
  · simp [h1]

/-- The loop of `check_href` on a non-empty text: the first character stays,
the trailing `/` of the rest are cut. -/
theorem href_strip_cons (a : Char) (t : CStr) :
    href_strip (a :: t) t.length = a :: strip_trailing_slashes t := by
  induction t using List.reverseRecOn with
  | nil => simp [href_strip, strip_trailing_slashes]
  | append_singleton t c ih =>
    have hl : (t ++ [c]).length = t.length + 1 := by simp
    rw [hl, href_strip, strip_trailing_slashes_append_singleton]
    have hg : (a :: (t ++ [c])).get? (t.length + 1) = some c := by
      simp [List.get?_eq_getElem?, List.getElem?_append_right]
    have ht : List.take (t.length + 1) (a :: (t ++ [c])) = a :: t := by
      simp [List.take_append_eq_append_take]
    rw [hg, ht]
    by_cases h : c = '/'
    · simp [h, ih]
    · have h' : ¬ ((some c == some '/') = true) := by simpa using h
      simp [h, h']

/-- Outcome of `check_href` inside `response/href`: the remembered filename is
the one the specification derives. -/
theorem check_href_eq (p : DavPropXMLParser) (c_name : CStr)
    (h_resp : p.response_section = true) (h_href : p.href_section = true) :
    check_href p c_name = (0, { p with last_filename := href_filename c_name }) := by
  have key : (match strrchr (href_strip c_name (c_name.length - 1)) '/' with
      | some i => (href_strip c_name (c_name.length - 1)).drop (i + 1)
      | none => href_strip c_name (c_name.length - 1)) = href_filename c_name := by
    cases c_name with
    | nil => simp [href_strip, strrchr, href_filename, strip_trailing_slashes, last_path_segment]
    | cons a t =>
      have hl : (a :: t).length - 1 = t.length := by simp
      rw [hl, href_strip_cons, href_filename, strip_trailing_slashes_cons]
      by_cases h : strip_trailing_slashes t = [] ∧ a = '/'
      · obtain ⟨h1, h2⟩ := h
        simp [h1, h2, strrchr, last_path_segment]
      · rw [if_neg h]
        exact strrchr_last_path_segment _
  unfold check_href
  simp only [h_resp, h_href, Bool.and_self, if_true]
  rw [← key]
  cases strrchr (href_strip c_name (c_name.length - 1)) '/' <;> rfl

/-- C4: for every href text observed while the response and href scopes are
open, `check_href` succeeds and sets the remembered filename to the last
`/`-delimited segment of the text stripped of all its trailing `/` (the whole
stripped text when no `/` remains); in particular, for a text
`pre/seg` followed by any number of `/`, with `seg` non-empty and free of `/`,
the filename is `seg`. -/
theorem check_href_filename (p : DavPropXMLParser) (c_name : CStr)
    (h_resp : p.response_section = true) (h_href : p.href_section = true) :
    (check_href p c_name).1 = 0 ∧
    (check_href p c_name).2 = { p with last_filename := href_filename c_name } ∧
    (∀ (pre seg : CStr) (n : Nat), seg ≠ [] → '/' ∉ seg →
      c_name = pre ++ '/' :: seg ++ List.replicate n '/' →
      (check_href p c_name).2.last_filename = seg) ∧
    (∀ (seg : CStr) (n : Nat), seg ≠ [] → '/' ∉ seg →
      c_name = seg ++ List.replicate n '/' →
      (check_href p c_name).2.last_filename = seg) := by
  rw [check_href_eq p c_name h_resp h_href]
  have strip_rep : ∀ (s : CStr) (n : Nat), s ≠ [] → s.getLast? ≠ some '/' →
      strip_trailing_slashes (s ++ List.replicate n '/') = s := by
    intro s n hs hlast
    induction n with
    | zero =>
      induction s using List.reverseRecOn with
      | nil => exact absurd rfl hs
      | append_singleton t c _ =>
        have hc : c ≠ '/' := by simpa using hlast
        simp [strip_trailing_slashes_append_singleton, hc]
    | succ n ih =>
      have e : s ++ List.replicate (n + 1) '/' = (s ++ List.replicate n '/') ++ ['/'] := by
        rw [List.append_assoc, ← List.replicate_succ']
      rw [e, strip_trailing_slashes_append_singleton]
      simpa using ih
  have last_ne : ∀ (seg : CStr), seg ≠ [] → '/' ∉ seg → ∀ pre : CStr,
      (pre ++ seg).getLast? ≠ some '/' := by
    intro seg hseg hno pre
    rw [List.getLast?_append_of_ne_nil _ hseg]
    intro e
    exact hno (List.mem_of_getLast?_eq_some e)
  refine ⟨rfl, rfl, ?_, ?_⟩
  · intro pre seg n hseg hno e
    have e' : c_name = (pre ++ '/' :: seg) ++ List.replicate n '/' := by simpa using e
    have hl := last_ne seg hseg hno (pre ++ ['/'])
    simp only [href_filename]
    rw [e', strip_rep _ n (by simp) (by simpa using hl)]
    exact last_path_segment_after_slash pre seg hno
  · intro seg n hseg hno e
    have hl := last_ne seg hseg hno []
    simp only [href_filename]
    rw [e, strip_rep _ n hseg (by simpa using hl)]
    exact last_path_segment_of_no_slash seg hno

/-- C4 on the three examples: `/a/b/c/` gives `c`, `/onlyname` gives `onlyname`
and `noslash` gives `noslash`. -/
theorem check_href_filename_witness :
    (check_href state_in_href "/a/b/c/".toList).2.last_filename = "c".toList ∧
    (check_href state_in_href "/onlyname".toList).2.last_filename = "onlyname".toList ∧
    (check_href state_in_href "noslash".toList).2.last_filename = "noslash".toList :=
  ⟨(check_href_filename state_in_href "/a/b/c/".toList (by decide) (by decide)).2.2.1
      "/a/b".toList "c".toList 1 (by decide) (by decide) (by decide),
    (check_href_filename state_in_href "/onlyname".toList (by decide) (by decide)).2.2.1
      [] "onlyname".toList 0 (by decide) (by decide) (by decide),
    (check_href_filename state_in_href "noslash".toList (by decide) (by decide)).2.2.2
      "noslash".toList 0 (by decide) (by decide) (by decide)⟩

/-! ## `strtoul` on decimal numerals -/

theorem is_decimal_digit_bounds (c : Char) (h : is_decimal_digit c = true) :
    48 ≤ c.toNat ∧ c.toNat ≤ 57 := by
  simpa [is_decimal_digit] using h

theorem digitValue_of_decimal_digit (c : Char) (h : is_decimal_digit c = true) :
    digitValue c = some (c.toNat - 48) := by
  have hb := is_decimal_digit_bounds c h
  simp [digitValue, hb.1, hb.2]

theorem isspace_of_decimal_digit (c : Char) (h : is_decimal_digit c = true) :
    isspace c = false := by
  have hb := is_decimal_digit_bounds c h
  have h1 : c.toNat ≠ 32 := by omega
  have h2 : ¬ c.toNat ≤ 13 := by omega
  simp [isspace, h1, h2]

theorem decimal_digit_ne (c d : Char) (h : is_decimal_digit c = true)
    (hd : d.toNat < 48) : c ≠ d := by
  intro e
  subst e
  have hb := is_decimal_digit_bounds c h
  omega

theorem strtoul_digits_decimal (s : CStr) (acc : Nat) (any : Bool)
    (h : s.all is_decimal_digit = true) :
    strtoul_digits 10 s acc any
      = (s.foldl (fun a c => a * 10 + (c.toNat - 48)) acc, any || !s.isEmpty) := by
  induction s generalizing acc any with
  | nil => simp [strtoul_digits]
  | cons c cs ih =>
    have hc : is_decimal_digit c = true := by
      have := h
      simp only [List.all_cons, Bool.and_eq_true] at this
      exact this.1
    have hcs : cs.all is_decimal_digit = true := by
      have := h
      simp only [List.all_cons, Bool.and_eq_true] at this
      exact this.2
    have hb := is_decimal_digit_bounds c hc
    have hlt : c.toNat - 48 < 10 := by omega
    simp [strtoul_digits, digitValue_of_decimal_digit c hc, hlt, ih _ _ hcs]

theorem decimal_numeral_parts (s : CStr) (h : is_decimal_numeral s = true) :
    s ≠ [] ∧ s.all is_decimal_digit = true := by
  unfold is_decimal_numeral at h
  simp only [Bool.and_eq_true, Bool.not_eq_true', List.isEmpty_eq_false] at h
  exact ⟨by simpa using h.1, h.2⟩

theorem decimal_numeral_mem (s : CStr) (h : is_decimal_numeral s = true) (c : Char)
    (hc : c ∈ s) : is_decimal_digit c = true := by
  have := (decimal_numeral_parts s h).2
  rw [List.all_eq_true] at this
  exact this c hc

/-- On a decimal numeral `strtoul` in base 10 gives the numeral's value, or
`ULONG_MAX` when the value is larger. -/
theorem strtoul_decimal (s : CStr) (h : is_decimal_numeral s = true) :
    strtoul s 10 = if decimal_value s > ULONG_MAX then ULONG_MAX else decimal_value s := by
  obtain ⟨hne, hall⟩ := decimal_numeral_parts s h
  cases s with
  | nil => exact absurd rfl hne
  | cons c cs =>
    have hc : is_decimal_digit c = true := decimal_numeral_mem _ h c (List.mem_cons_self _ _)
    have h1 : (c :: cs).dropWhile isspace = c :: cs := by
      simp [List.dropWhile, isspace_of_decimal_digit c hc]
    have hm : c ≠ '-' := decimal_digit_ne c '-' hc (by decide)
    have hp : c ≠ '+' := decimal_digit_ne c '+' hc (by decide)
    unfold strtoul
    simp only [h1, List.head?_cons]
    have e1 : (some c == some '-') = false := by simpa using hm
    have e2 : (some c == some '+') = false := by simpa using hp
    simp only [e1, e2, Bool.or_self, Bool.false_eq_true, if_false]
    rw [strtoul_digits_decimal _ _ _ hall]
    rfl

/-- A chunk of decimal digits holds no NUL byte. -/
theorem c_str_of_no_nul (s : List Char) (h : ∀ c ∈ s, c.toNat ≠ 0) : c_str s = s := by
  unfold c_str
  apply takeWhile_all
  intro y hy
  simpa using h y hy

theorem c_str_decimal (s : CStr) (h : is_decimal_numeral s = true) : c_str s = s := by
  apply c_str_of_no_nul
  intro c hc
  have := is_decimal_digit_bounds c (decimal_numeral_mem s h c hc)
  omega

theorem decimal_fold_ge (s : CStr) (acc : Nat) :
    acc ≤ s.foldl (fun a c => a * 10 + (c.toNat - 48)) acc := by
  induction s generalizing acc with
  | nil => simp
  | cons c cs ih =>
    simp only [List.foldl_cons]
    exact Nat.le_trans (by omega) (ih _)

/-- Read in base 8, a run of decimal digits is worth at most its decimal
value. -/
theorem strtoul_digits_octal_le (s : CStr) (acc acc' : Nat) (any : Bool)
    (h : s.all is_decimal_digit = true) (hacc : acc ≤ acc') :
    (strtoul_digits 8 s acc any).1 ≤ s.foldl (fun a c => a * 10 + (c.toNat - 48)) acc' := by
  induction s generalizing acc acc' any with
  | nil => simpa [strtoul_digits] using hacc
  | cons c cs ih =>
    have hc : is_decimal_digit c = true := by
      have := h
      simp only [List.all_cons, Bool.and_eq_true] at this
      exact this.1
    have hcs : cs.all is_decimal_digit = true := by
      have := h
      simp only [List.all_cons, Bool.and_eq_true] at this
      exact this.2
    simp only [strtoul_digits, digitValue_of_decimal_digit c hc, List.foldl_cons]
    by_cases hd : c.toNat - 48 < 8
    · simp only [hd, if_true]
      exact ih _ _ _ hcs (by omega)
    · simp only [hd, if_false]
      exact Nat.le_trans hacc (Nat.le_trans (by omega) (decimal_fold_ge cs _))

theorem strtoul_octal_of_decimal (s : CStr) (h : is_decimal_numeral s = true)
    (hv : decimal_value s < ULONG_MAX) : strtoul s 8 ≠ ULONG_MAX := by
  obtain ⟨hne, hall⟩ := decimal_numeral_parts s h
  cases s with
  | nil => exact absurd rfl hne
  | cons c cs =>
    have hc : is_decimal_digit c = true := decimal_numeral_mem _ h c (List.mem_cons_self _ _)
    have h1 : (c :: cs).dropWhile isspace = c :: cs := by
      simp [List.dropWhile, isspace_of_decimal_digit c hc]
    have hm : c ≠ '-' := decimal_digit_ne c '-' hc (by decide)
    have hp : c ≠ '+' := decimal_digit_ne c '+' hc (by decide)
    have hle := strtoul_digits_octal_le (c :: cs) 0 0 false hall (Nat.le_refl 0)
    unfold strtoul
    simp only [h1, List.head?_cons]
    have e1 : (some c == some '-') = false := by simpa using hm
    have e2 : (some c == some '+') = false := by simpa using hp
    simp only [e1, e2, Bool.or_self, Bool.false_eq_true, if_false]
    have hv' : (c :: cs).foldl (fun a c => a * 10 + (c.toNat - 48)) 0 < ULONG_MAX := hv
    have hlt : (strtoul_digits 8 (c :: cs) 0 false).1 < ULONG_MAX := Nat.lt_of_le_of_lt hle hv'
    have hn : ¬ (strtoul_digits 8 (c :: cs) 0 false).1 > ULONG_MAX := by omega
    simp only [hn, if_false]
    omega

/-! ## Content length -/

theorem check_href_frame (p : DavPropXMLParser) (c_name : CStr) :
    ∃ f, check_href p c_name = (0, { p with last_filename := f }) := by
  unfold check_href
  by_cases h : (p.response_section && p.href_section) = true
  · simp only [h, if_true]
    cases strrchr (href_strip c_name (c_name.length - 1)) '/' with
    | none => exact ⟨_, rfl⟩
    | some i => exact ⟨_, rfl⟩
  · simp only [h]
    exact ⟨p.last_filename, rfl⟩

/-- A run of `parserCdataCb` in which no check leaves an error. -/
theorem parserCdataCb_steps (pd : CStr → Int) (p : DavPropXMLParser) (cdata : List Char)
    (p1 p2 p3 p4 p5 p6 : DavPropXMLParser)
    (h1 : (check_last_modified pd p (c_str cdata)).2 = p1) (e1 : p1.err = none)
    (h2 : (check_creation_date pd p1 (c_str cdata)).2 = p2) (e2 : p2.err = none)
    (h3 : (check_content_length p2 (c_str cdata)).2 = p3) (e3 : p3.err = none)
    (h4 : (check_mode_ext p3 (c_str cdata)).2 = p4) (e4 : p4.err = none)
    (h5 : (check_href p4 (c_str cdata)).2 = p5) (e5 : p5.err = none)
    (h6 : (check_status p5 (c_str cdata)).2 = p6) (e6 : p6.err = none) :
    parserCdataCb pd p cdata = (0, p6) := by
  unfold parserCdataCb
  simp only [DAVIX_XML_REPORT_ERROR, h1, e1, h2, e2, h3, e3, h4, e4, h5, e5, h6, e6,
    Option.isSome_none, Bool.false_eq_true, if_false]

theorem to_off_t_mod (x : Nat) (h : x < 2 ^ 64) : to_off_t x % 2 ^ 64 = (x : Int) := by
  unfold to_off_t
  have e : x % 2 ^ 64 = x := Nat.mod_eq_of_lt h
  rw [e]
  split
  · omega
  · omega

theorem to_off_t_small (x : Nat) (h : x < 2 ^ 63) : to_off_t x = (x : Int) := by
  unfold to_off_t
  have e : x % 2 ^ 64 = x := Nat.mod_eq_of_lt (by omega)
  rw [e]
  exact if_pos h

/-- C5, as stated, fails, on two numerals representable as `unsigned long`
observed inside `response/propstat/prop/getcontentlength` with no pending
error. On `18446744073709551615` (it is `ULONG_MAX`) the character-data
callback fails and leaves the size as it was. On `9223372036854775808` (it is
`2^63`) the callback succeeds and the size is not the numeral's value: the
conversion `(off_t)` stores -9223372036854775808. -/
theorem content_length_ulong_max_counterexample :
    (is_decimal_numeral "18446744073709551615".toList = true ∧
      decimal_value "18446744073709551615".toList ≤ ULONG_MAX ∧
      state_in_getcontentlength.err = none ∧
      state_in_getcontentlength.response_section = true ∧
      state_in_getcontentlength.propname_section = true ∧
      state_in_getcontentlength.prop_section = true ∧
      state_in_getcontentlength.contentlength_section = true ∧
      (parserCdataCb reject_date state_in_getcontentlength
        "18446744073709551615".toList).1 = -1 ∧
      (parserCdataCb reject_date state_in_getcontentlength
        "18446744073709551615".toList).2._current_props.size = 7) ∧
    (is_decimal_numeral "9223372036854775808".toList = true ∧
      decimal_value "9223372036854775808".toList = 2 ^ 63 ∧
      decimal_value "9223372036854775808".toList < ULONG_MAX ∧
      (parserCdataCb reject_date state_in_getcontentlength
        "9223372036854775808".toList).1 = 0 ∧
      (parserCdataCb reject_date state_in_getcontentlength
        "9223372036854775808".toList).2._current_props.size = -9223372036854775808 ∧
      (parserCdataCb reject_date state_in_getcontentlength
        "9223372036854775808".toList).2._current_props.size
        ≠ (decimal_value "9223372036854775808".toList : Int)) := by
  decide

/-- C5 (amended): for every decimal numeral of value below `ULONG_MAX`
observed as character data with no pending error while the response, propstat,
prop and getcontentlength scopes are open and the getlastmodified, creationdate
and status scopes are not, the callback succeeds, and if the value is below
`2^63` the size of the in-progress record equals the numeral's value. -/
theorem content_length_value (pd : CStr → Int) (p : DavPropXMLParser) (s : CStr)
    (h_err : p.err = none) (h_resp : p.response_section = true)
    (h_ps : p.propname_section = true) (h_prop : p.prop_section = true)
    (h_cl : p.contentlength_section = true) (h_lm : p.lastmod_section = false)
    (h_cd : p.creatdate_section = false) (h_st : p.status_section = false)
    (h_num : is_decimal_numeral s = true) (h_val : decimal_value s < ULONG_MAX) :
    (parserCdataCb pd p s).1 = 0 ∧
    (parserCdataCb pd p s).2.err = none ∧
    (decimal_value s < 2 ^ 63 →
      (parserCdataCb pd p s).2._current_props.size = (decimal_value s : Int)) := by
  have hs : strtoul s 10 = decimal_value s := by
    rw [strtoul_decimal s h_num]
    have : ¬ decimal_value s > ULONG_MAX := by omega
    simp [this]
  have hne : (decimal_value s == ULONG_MAX) = false := by
    have : decimal_value s ≠ ULONG_MAX := by omega
    simpa using this
  have ho := strtoul_octal_of_decimal s h_num h_val
  have ho' : (strtoul s 8 == ULONG_MAX) = false := by simpa using ho
  obtain ⟨p4, h4, e4, s4, z4⟩ : ∃ p4, (check_mode_ext
      { p with _current_props := { p._current_props with size := to_off_t (decimal_value s) } }
        s).2 = p4 ∧ p4.err = none ∧ p4.status_section = false ∧
      p4._current_props.size = to_off_t (decimal_value s) := by
    refine ⟨_, rfl, ?_, ?_, ?_⟩ <;>
    · unfold check_mode_ext
      simp only [ho']
      split <;> simp [h_err, h_st]
  obtain ⟨f, hf⟩ := check_href_frame p4 s
  have key : parserCdataCb pd p s = (0, { p4 with last_filename := f }) := by
    apply parserCdataCb_steps pd p s p p
      { p with _current_props := { p._current_props with size := to_off_t (decimal_value s) } }
      p4 { p4 with last_filename := f } { p4 with last_filename := f }
    · simp [check_last_modified, h_lm]
    · exact h_err
    · simp [check_creation_date, h_cd]
    · exact h_err
    · rw [c_str_decimal s h_num]
      simp [check_content_length, h_resp, h_ps, h_prop, h_cl, hs, hne]
    · exact h_err
    · rw [c_str_decimal s h_num]
      exact h4
    · exact e4
    · rw [c_str_decimal s h_num, hf]
    · exact e4
    · simp [check_status, s4]
    · exact e4
  refine ⟨by rw [key], by rw [key]; exact e4, ?_⟩
  intro h
  rw [key]
  show p4._current_props.size = _
  rw [z4]
  exact to_off_t_small _ h

/-- C5 (amended) on the example: `12345` gives size 12345. -/
theorem content_length_value_witness :
    (parserCdataCb reject_date state_in_getcontentlength "12345".toList).1 = 0 ∧
    (parserCdataCb reject_date state_in_getcontentlength "12345".toList).2._current_props.size
      = 12345 :=
  ⟨(content_length_value reject_date state_in_getcontentlength "12345".toList
      (by decide) (by decide) (by decide) (by decide) (by decide) (by decide) (by decide)
      (by decide) (by decide) (by decide)).1,
    (content_length_value reject_date state_in_getcontentlength "12345".toList
      (by decide) (by decide) (by decide) (by decide) (by decide) (by decide) (by decide)
      (by decide) (by decide) (by decide)).2.2 (by decide)⟩

/-- C6 (the code departs from it): inside
`response/propstat/prop/getcontentlength`, with size 7 in the in-progress
record and no pending error, the character data `abc` makes the callback
return 0 without error and set the size to 0. -/
theorem content_length_abc_accepted :
    is_decimal_numeral "abc".toList = false ∧
    state_in_getcontentlength.err = none ∧
    state_in_getcontentlength.response_section = true ∧
    state_in_getcontentlength.propname_section = true ∧
    state_in_getcontentlength.prop_section = true ∧
    state_in_getcontentlength.contentlength_section = true ∧
    state_in_getcontentlength._current_props.size = 7 ∧
    (parserCdataCb reject_date state_in_getcontentlength "abc".toList).1 = 0 ∧
    (parserCdataCb reject_date state_in_getcontentlength "abc".toList).2.err = none ∧
    (parserCdataCb reject_date state_in_getcontentlength "abc".toList).2._current_props.size
      = 0 := by
  decide

theorem check_last_modified_frame (pd : CStr → Int) (p : DavPropXMLParser) (s : CStr) :
    date_check_frame p (check_last_modified pd p s).2 := by
  unfold check_last_modified date_check_frame
  by_cases h1 : (p.response_section && p.prop_section && p.propname_section
      && p.lastmod_section) = true
  · by_cases h2 : pd s = -1 <;> simp [h1, h2, setupError]
  · simp [h1]

theorem check_creation_date_frame (pd : CStr → Int) (p : DavPropXMLParser) (s : CStr) :
    date_check_frame p (check_creation_date pd p s).2 := by
  unfold check_creation_date date_check_frame
  by_cases h1 : (p.response_section && p.prop_section && p.propname_section
      && p.creatdate_section) = true
  · by_cases h2 : pd s = -1 <;> simp [h1, h2, setupError]
  · simp [h1]

/-- C7: for every decimal numeral whose value exceeds `ULONG_MAX`, observed as
character data while the response, propstat, prop and getcontentlength scopes
are open, the character-data callback returns -1, leaves an error in the error
slot (a properties-parsing error when none was pending) and leaves the size of
the in-progress record unchanged. -/
theorem content_length_overflow_fails (pd : CStr → Int) (p : DavPropXMLParser) (s : CStr)
    (h_resp : p.response_section = true) (h_ps : p.propname_section = true)
    (h_prop : p.prop_section = true) (h_cl : p.contentlength_section = true)
    (h_num : is_decimal_numeral s = true) (h_val : ULONG_MAX < decimal_value s) :
    (parserCdataCb pd p s).1 = -1 ∧
    (parserCdataCb pd p s).2._current_props.size = p._current_props.size ∧
    (parserCdataCb pd p s).2.err.isSome = true ∧
    (p.err = none → ∃ e, (parserCdataCb pd p s).2.err = some e ∧
      e.code = StatusCode.WebDavPropertiesParsingError) := by
  have hs : strtoul s 10 = ULONG_MAX := by
    rw [strtoul_decimal s h_num]
    simp [h_val]
  have hfin : ∀ q : DavPropXMLParser, q.err.isSome = true → date_check_frame p q →
      (q._current_props.size = p._current_props.size ∧ q.err.isSome = true ∧
        (p.err = none → ∃ e, q.err = some e ∧
          e.code = StatusCode.WebDavPropertiesParsingError)) := by
    intro q hq hf
    refine ⟨hf.2.2.2.2.1, hq, fun hn => ?_⟩
    rcases hf.2.2.2.2.2 with h | ⟨m, h⟩
    · rw [h, hn] at hq
      simp at hq
    · exact ⟨_, h, rfl⟩
  have f1 := check_last_modified_frame pd p s
  have f2 := check_creation_date_frame pd (check_last_modified pd p s).2 s
  have f12 : date_check_frame p (check_creation_date pd (check_last_modified pd p s).2 s).2 := by
    obtain ⟨a1, a2, a3, a4, a5, a6⟩ := f1
    obtain ⟨b1, b2, b3, b4, b5, b6⟩ := f2
    refine ⟨b1.trans a1, b2.trans a2, b3.trans a3, b4.trans a4, b5.trans a5, ?_⟩
    rcases b6 with h | h
    · rcases a6 with h' | h'
      · exact Or.inl (h.trans h')
      · exact Or.inr (by rw [h]; exact h')
    · exact Or.inr h
  unfold parserCdataCb
  simp only [c_str_decimal s h_num]
  refine report_error_rule (fun r => r.1 = -1 ∧ r.2._current_props.size = p._current_props.size ∧
      r.2.err.isSome = true ∧ (p.err = none → ∃ e, r.2.err = some e ∧
        e.code = StatusCode.WebDavPropertiesParsingError)) _ _ (fun h => ?_) (fun _ => ?_)
  · exact ⟨rfl, hfin _ h f1⟩
  refine report_error_rule (fun r => r.1 = -1 ∧ r.2._current_props.size = p._current_props.size ∧
      r.2.err.isSome = true ∧ (p.err = none → ∃ e, r.2.err = some e ∧
        e.code = StatusCode.WebDavPropertiesParsingError)) _ _ (fun h => ?_) (fun _ => ?_)
  · exact ⟨rfl, hfin _ h f12⟩
  obtain ⟨b1, b2, b3, b4, b5, _⟩ := f12
  have hc : check_content_length (check_creation_date pd (check_last_modified pd p s).2 s).2 s
      = (-1, { (check_creation_date pd (check_last_modified pd p s).2 s).2 with
                err := some { code := StatusCode.WebDavPropertiesParsingError,
                              msg := " Invalid content length value in dav response".toList } }) := by
    simp [check_content_length, b1, b2, b3, b4, h_resp, h_ps, h_prop, h_cl, hs, setupError]
  rw [hc, report_error_of_some _ _ (by rfl)]
  exact ⟨rfl, b5, rfl, fun _ => ⟨_, rfl, rfl⟩⟩

/-- C7 on an example: `18446744073709551616` (`2^64`) as content length. -/
theorem content_length_overflow_fails_witness :
    (parserCdataCb reject_date state_in_getcontentlength "18446744073709551616".toList).1 = -1 ∧
    (parserCdataCb reject_date state_in_getcontentlength
      "18446744073709551616".toList).2._current_props.size = 7 :=
  ⟨(content_length_overflow_fails reject_date state_in_getcontentlength
      "18446744073709551616".toList (by decide) (by decide) (by decide) (by decide)
      (by decide) (by decide)).1,
    (content_length_overflow_fails reject_date state_in_getcontentlength
      "18446744073709551616".toList (by decide) (by decide) (by decide) (by decide)
      (by decide) (by decide)).2.1⟩

/-! ## Status line -/

theorem takeWhile_append_all (q : Char → Bool) (l r : List Char)
    (hl : ∀ y ∈ l, q y = true) : (l ++ r).takeWhile q = l ++ r.takeWhile q := by
  induction l with
  | nil => rfl
  | cons y ys ih =>
    have hy : q y = true := hl y (List.mem_cons_self _ _)
    have : ∀ z ∈ ys, q z = true := fun z hz => hl z (List.mem_cons_of_mem _ hz)
    simp [List.takeWhile, hy, ih this]

theorem strchr_append (l r : CStr) (x : Char) (hl : ∀ c ∈ l, c ≠ x) :
    strchr (l ++ x :: r) x = some l.length := by
  induction l with
  | nil => simp [strchr]
  | cons y ys ih =>
    have hy : y ≠ x := hl y (List.mem_cons_self _ _)
    have : ∀ c ∈ ys, c ≠ x := fun c hc => hl c (List.mem_cons_of_mem _ hc)
    simp [strchr, hy, ih this]

theorem status_code_token (code rest : CStr) (h_num : is_decimal_numeral code = true)
    (h_rest : rest = [] ∨ rest.head? = some ' ') :
    (code ++ rest).takeWhile (fun c => c != ' ') = code := by
  have hd : ∀ y ∈ code, (y != ' ') = true := by
    intro y hy
    have := decimal_digit_ne y ' ' (decimal_numeral_mem code h_num y hy) (by decide)
    simpa using this
  rcases h_rest with h | h
  · subst h
    rw [List.append_nil]
    exact takeWhile_all _ _ hd
  · cases rest with
    | nil => simp at h
    | cons x xs =>
      have hx : x = ' ' := by simpa using h
      subst hx
      exact takeWhile_append_stop _ _ _ _ hd (by simp)

/-- Outcome of `check_status` inside `response/propstat/status` on a text
`protocol code rest`: success with the code's value when it lies below
`ULONG_MAX`, the properties-parsing error otherwise. -/
theorem check_status_shape (p : DavPropXMLParser) (protocol code rest : CStr)
    (h_resp : p.response_section = true) (h_ps : p.propname_section = true)
    (h_st : p.status_section = true) (h_proto : protocol ≠ [])
    (h_nosp : ∀ c ∈ protocol, c ≠ ' ') (h_num : is_decimal_numeral code = true)
    (h_rest : rest = [] ∨ rest.head? = some ' ') :
    check_status p (protocol ++ ' ' :: (code ++ rest)) =
      if decimal_value code < ULONG_MAX then
        (0, { p with _current_props :=
                { p._current_props with req_status := decimal_value code } })
      else
        (-1, { p with err := some { code := StatusCode.WebDavPropertiesParsingError,
                                    msg := " Invalid dav status field value".toList } }) := by
  have h1 : (protocol ++ ' ' :: (code ++ rest)).dropWhile (fun c => c == ' ')
      = protocol ++ ' ' :: (code ++ rest) := by
    cases protocol with
    | nil => exact absurd rfl h_proto
    | cons a t =>
      have : a ≠ ' ' := h_nosp a (List.mem_cons_self _ _)
      have hb : (a == ' ') = false := by simpa using this
      rw [List.cons_append, List.dropWhile_cons, hb]
      rfl
  have h2 := strchr_append protocol (code ++ rest) ' ' h_nosp
  have h3 : List.drop (protocol.length + 1) (protocol ++ ' ' :: (code ++ rest)) = code ++ rest := by
    simp
  have h4 := status_code_token code rest h_num h_rest
  have h5 := strtoul_decimal code h_num
  unfold check_status
  simp only [h_resp, h_ps, h_st, Bool.and_self, if_true, h1, h2, h3, h4, h5, setupError]
  by_cases hv : decimal_value code < ULONG_MAX
  · have hn : ¬ decimal_value code > ULONG_MAX := by omega
    have hne : decimal_value code ≠ ULONG_MAX := by omega
    simp [hv, hn, hne]
  · by_cases hg : decimal_value code > ULONG_MAX
    · simp [hv, hg]
    · have he : decimal_value code = ULONG_MAX := by omega
      simp [hv, hg, he]

/-- C8, as stated, fails: `HTTP/1.1 18446744073709551615 OK` has the shape
`protocol code reason` with a decimal code, yet `check_status` fails on it and
leaves `req_status` as it was. -/
theorem check_status_ulong_max_counterexample :
    "HTTP/1.1 18446744073709551615 OK".toList
      = "HTTP/1.1".toList ++ ' ' :: ("18446744073709551615".toList ++ " OK".toList) ∧
    is_decimal_numeral "18446744073709551615".toList = true ∧
    state_in_status.response_section = true ∧
    state_in_status.propname_section = true ∧
    state_in_status.status_section = true ∧
    (check_status state_in_status "HTTP/1.1 18446744073709551615 OK".toList).1 = -1 ∧
    (check_status state_in_status
      "HTTP/1.1 18446744073709551615 OK".toList).2._current_props.req_status = 0 := by
  decide

/-- C8 (amended): for every status text `protocol code rest`, where `protocol`
is a non-empty token without space, `code` a decimal numeral of value below
`ULONG_MAX` and `rest` is empty or a space followed by a reason phrase,
observed while the response, propstat and status scopes are open,
`check_status` returns 0 and sets `req_status` to the value of `code`, leaving
the rest of the parser object unchanged. -/
theorem check_status_value (p : DavPropXMLParser) (protocol code rest : CStr)
    (h_resp : p.response_section = true) (h_ps : p.propname_section = true)
    (h_st : p.status_section = true) (h_proto : protocol ≠ [])
    (h_nosp : ∀ c ∈ protocol, c ≠ ' ') (h_num : is_decimal_numeral code = true)
    (h_val : decimal_value code < ULONG_MAX)
    (h_rest : rest = [] ∨ rest.head? = some ' ') :
    check_status p (protocol ++ ' ' :: (code ++ rest)) =
      (0, { p with _current_props :=
              { p._current_props with req_status := decimal_value code } }) := by
  rw [check_status_shape p protocol code rest h_resp h_ps h_st h_proto h_nosp h_num h_rest,
    if_pos h_val]

/-- C8 (amended) on the examples: `HTTP/1.1 200 OK` gives 200 and
`HTTP/1.1 404 Not Found` gives 404. -/
theorem check_status_value_witness :
    (check_status state_in_status "HTTP/1.1 200 OK".toList).1 = 0 ∧
    (check_status state_in_status "HTTP/1.1 200 OK".toList).2._current_props.req_status = 200 ∧
    (check_status state_in_status "HTTP/1.1 404 Not Found".toList).2._current_props.req_status
      = 404 :=
  ⟨congrArg Prod.fst (check_status_value state_in_status "HTTP/1.1".toList "200".toList
      " OK".toList (by decide) (by decide) (by decide) (by decide) (by decide) (by decide)
      (by decide) (by decide)),
    congrArg (fun r => r.2._current_props.req_status)
      (check_status_value state_in_status "HTTP/1.1".toList "200".toList
        " OK".toList (by decide) (by decide) (by decide) (by decide) (by decide) (by decide)
        (by decide) (by decide)),
    congrArg (fun r => r.2._current_props.req_status)
      (check_status_value state_in_status "HTTP/1.1".toList "404".toList
        " Not Found".toList (by decide) (by decide) (by decide) (by decide) (by decide)
        (by decide) (by decide) (by decide))⟩

/-- C9 (the code departs from it): inside `response/propstat/status` with no
pending error, the status texts `HTTP/1.1 abc` (a code that is no numeral) and
`HTTP/1.1  200 OK` (two spaces, an empty code token) make the character-data
callback return 0 without error and set `req_status` to 0; a text without any
space after the protocol token does fail. -/
theorem status_without_code_accepted :
    state_in_status.err = none ∧
    state_in_status.response_section = true ∧
    state_in_status.propname_section = true ∧
    state_in_status.status_section = true ∧
    (parserCdataCb reject_date state_in_status "HTTP/1.1 abc".toList).1 = 0 ∧
    (parserCdataCb reject_date state_in_status "HTTP/1.1 abc".toList).2.err = none ∧
    (parserCdataCb reject_date state_in_status "HTTP/1.1 abc".toList).2._current_props.req_status
      = 0 ∧
    (parserCdataCb reject_date state_in_status "HTTP/1.1  200 OK".toList).1 = 0 ∧
    (parserCdataCb reject_date state_in_status "HTTP/1.1  200 OK".toList).2.err = none ∧
    (parserCdataCb reject_date state_in_status
      "HTTP/1.1  200 OK".toList).2._current_props.req_status = 0 ∧
    (parserCdataCb reject_date state_in_status "HTTP/1.1".toList).1 = -1 := by
  decide

/-! ## Single events -/

theorem add_scope_call_open (k : Scope) (p : DavPropXMLParser)
    (h_flag : k.flag p = false) (h_enter : k.enter_condition p = true)
    (h_skip : k.skip_condition p = false) :
    add_scope_call k p k.pattern = (true, k.set_flag p true) := by
  cases k <;>
  simp_all [add_scope_call, add_scope, match_element_pattern, Scope.flag, Scope.set_flag]

theorem remove_scope_call_close (k : Scope) (p : DavPropXMLParser)
    (h_flag : k.flag p = true) (h_enter : k.enter_condition p = true)
    (h_skip : k.skip_condition p = false) :
    remove_scope_call k p k.pattern = (true, k.set_flag p false) := by
  cases k <;>
  simp_all [remove_scope_call, remove_scope, match_element_pattern, Scope.flag, Scope.set_flag]

theorem remove_scope_call_other (j k : Scope) (p : DavPropXMLParser) (h : k ≠ j) :
    remove_scope_call j p k.pattern = (false, p) :=
  remove_scope_call_no_match j p k.pattern (by simp [match_element_pattern, h])

theorem Scope.set_flag_err (k : Scope) (p : DavPropXMLParser) (b : Bool) :
    (k.set_flag p b).err = p.err := by
  cases k <;> rfl

theorem Scope.pattern_ne_collection (k : Scope) :
    match_element k.pattern collection_patern = false := by
  cases k <;> decide

/-- Outside an open resourcetype scope, or for a name other than `collection`,
`check_is_directory` leaves the parser object as it is. -/
theorem check_is_directory_no_match (p : DavPropXMLParser) (name : CStr)
    (h_err : p.err = none) (h : match_element name collection_patern = false) :
    check_is_directory p name = (0, p) := by
  unfold check_is_directory
  by_cases hc : (p.response_section && p.prop_section && p.propname_section
      && p.resource_type) = true
  · cases p
    simp_all [add_scope]
  · simp [hc]

theorem compute_new_elem_fst (p : DavPropXMLParser) : (compute_new_elem p).1 = 0 := by
  unfold compute_new_elem
  split <;> rfl

/-- A start-element event that opens the scope `k`: the flag is set, and for
`prop` the in-progress record is renewed by `compute_new_elem`. -/
theorem parserStartElemCb_open (k : Scope) (p : DavPropXMLParser) (h_err : p.err = none)
    (h_flag : k.flag p = false) (h_enter : k.enter_condition p = true)
    (h_skip : k.skip_condition p = false) :
    parserStartElemCb p k.pattern =
      (1, if k = Scope.prop_section then (compute_new_elem (k.set_flag p true)).2
          else k.set_flag p true) := by
  have ho := add_scope_call_open k p h_flag h_enter h_skip
  have he : (k.set_flag p true).err = none := by rw [Scope.set_flag_err, h_err]
  have hd := check_is_directory_no_match (k.set_flag p true) k.pattern he
    (Scope.pattern_ne_collection k)
  cases k <;>
  simp [parserStartElemCb, DAVIX_XML_REPORT_ERROR, add_scope_call_other, ho, h_err, hd,
    Scope.set_flag_err, compute_new_elem_fst]

/-- An end-element event that closes the scope `k`: the flag is cleared, and
for `propstat` the record is handed to `store_new_elem`. -/
theorem parserEndElemCb_close (k : Scope) (p : DavPropXMLParser) (h_err : p.err = none)
    (h_flag : k.flag p = true) (h_enter : k.enter_condition p = true)
    (h_skip : k.skip_condition p = false) :
    parserEndElemCb p k.pattern =
      if k = Scope.propname_section then store_new_elem (k.set_flag p false)
      else (0, k.set_flag p false) := by
  have ho := remove_scope_call_close k p h_flag h_enter h_skip
  cases k <;>
  simp [parserEndElemCb, DAVIX_XML_REPORT_ERROR, remove_scope_call_other, ho, h_err,
    Scope.set_flag]

/-- A start-element event whose name matches no pattern changes nothing. -/
theorem parserStartElemCb_unknown (p : DavPropXMLParser) (name : CStr) (h_err : p.err = none)
    (h : ∀ k : Scope, match_element name k.pattern = false)
    (hc : match_element name collection_patern = false) :
    parserStartElemCb p name = (1, p) := by
  simp [parserStartElemCb, DAVIX_XML_REPORT_ERROR, add_scope_call_no_match, h, h_err,
    check_is_directory_no_match p name h_err hc]

/-- An end-element event whose name matches no pattern changes nothing. -/
theorem parserEndElemCb_unknown (p : DavPropXMLParser) (name : CStr) (h_err : p.err = none)
    (h : ∀ k : Scope, match_element name k.pattern = false) :
    parserEndElemCb p name = (0, p) := by
  simp [parserEndElemCb, DAVIX_XML_REPORT_ERROR, remove_scope_call_no_match, h, h_err]

theorem not_recognized_no_match (name : CStr) (h : name ∉ recognized_names) :
    (∀ k : Scope, match_element name k.pattern = false) ∧
    match_element name collection_patern = false := by
  simp only [recognized_names, List.mem_cons, List.mem_singleton, List.not_mem_nil, or_false,
    not_or] at h
  obtain ⟨h1, h2, h3, h4, h5, h6, h7, h8, h9, h10, h11⟩ := h
  refine ⟨fun k => ?_, by simp [match_element, h11]⟩
  cases k <;> simp [match_element, Scope.pattern, *]


/-! ## Invariants along the statements of a callback -/

theorem add_scope_call_fst (k : Scope) (p : DavPropXMLParser) (name : CStr)
    (h : (add_scope_call k p name).1 = true) : match_element name k.pattern = true := by
  cases hm : match_element name k.pattern with
  | true => rfl
  | false => rw [add_scope_call_no_match k p name hm] at h; cases h

theorem remove_scope_call_fst (k : Scope) (p : DavPropXMLParser) (name : CStr)
    (h : (remove_scope_call k p name).1 = true) : match_element name k.pattern = true := by
  cases hm : match_element name k.pattern with
  | true => rfl
  | false => rw [remove_scope_call_no_match k p name hm] at h; cases h

/-- A property of the parser object kept by every scope statement that leaves
no error holds when `parserStartElemCb` reaches `check_is_directory`. -/
theorem parserStartElemCb_chain (Inv : DavPropXMLParser → Prop) (name : CStr)
    (hstep : ∀ (k : Scope) (q : DavPropXMLParser), Inv q →
      (add_scope_call k q name).2.err = none → Inv (add_scope_call k q name).2)
    (p : DavPropXMLParser) (hp : Inv p) :
    (parserStartElemCb p name).1 = -1 ∨
    ∃ (q : DavPropXMLParser) (new_prop : Bool), Inv q ∧ q.err = none ∧
      (new_prop = true → match_element name prop_pattern = true) ∧
      parserStartElemCb p name = start_tail q name new_prop := by
  unfold parserStartElemCb
  refine report_error_rule (fun r => r.1 = -1 ∨ ∃ (q : DavPropXMLParser) (new_prop : Bool),
    Inv q ∧ q.err = none ∧ (new_prop = true → match_element name prop_pattern = true) ∧
      r = start_tail q name new_prop) _ _ (fun _ => Or.inl rfl) (fun e1 => ?_)
  have i1 := hstep _ _ hp e1
  refine report_error_rule (fun r => r.1 = -1 ∨ ∃ (q : DavPropXMLParser) (new_prop : Bool),
    Inv q ∧ q.err = none ∧ (new_prop = true → match_element name prop_pattern = true) ∧
      r = start_tail q name new_prop) _ _ (fun _ => Or.inl rfl) (fun e2 => ?_)
  have i2 := hstep _ _ i1 e2
  have hnp := add_scope_call_fst Scope.prop_section
    (add_scope_call Scope.propname_section p name).2 name
  generalize (add_scope_call Scope.prop_section
    (add_scope_call Scope.propname_section p name).2 name).1 = new_prop at hnp ⊢
  refine report_error_rule (fun r => r.1 = -1 ∨ ∃ (q : DavPropXMLParser) (new_prop : Bool),
    Inv q ∧ q.err = none ∧ (new_prop = true → match_element name prop_pattern = true) ∧
      r = start_tail q name new_prop) _ _ (fun _ => Or.inl rfl) (fun e3 => ?_)
  have i3 := hstep _ _ i2 e3
  refine report_error_rule (fun r => r.1 = -1 ∨ ∃ (q : DavPropXMLParser) (new_prop : Bool),
    Inv q ∧ q.err = none ∧ (new_prop = true → match_element name prop_pattern = true) ∧
      r = start_tail q name new_prop) _ _ (fun _ => Or.inl rfl) (fun e4 => ?_)
  have i4 := hstep _ _ i3 e4
  refine report_error_rule (fun r => r.1 = -1 ∨ ∃ (q : DavPropXMLParser) (new_prop : Bool),
    Inv q ∧ q.err = none ∧ (new_prop = true → match_element name prop_pattern = true) ∧
      r = start_tail q name new_prop) _ _ (fun _ => Or.inl rfl) (fun e5 => ?_)
  have i5 := hstep _ _ i4 e5
  refine report_error_rule (fun r => r.1 = -1 ∨ ∃ (q : DavPropXMLParser) (new_prop : Bool),
    Inv q ∧ q.err = none ∧ (new_prop = true → match_element name prop_pattern = true) ∧
      r = start_tail q name new_prop) _ _ (fun _ => Or.inl rfl) (fun e6 => ?_)
  have i6 := hstep _ _ i5 e6
  refine report_error_rule (fun r => r.1 = -1 ∨ ∃ (q : DavPropXMLParser) (new_prop : Bool),
    Inv q ∧ q.err = none ∧ (new_prop = true → match_element name prop_pattern = true) ∧
      r = start_tail q name new_prop) _ _ (fun _ => Or.inl rfl) (fun e7 => ?_)
  have i7 := hstep _ _ i6 e7
  refine report_error_rule (fun r => r.1 = -1 ∨ ∃ (q : DavPropXMLParser) (new_prop : Bool),
    Inv q ∧ q.err = none ∧ (new_prop = true → match_element name prop_pattern = true) ∧
      r = start_tail q name new_prop) _ _ (fun _ => Or.inl rfl) (fun e8 => ?_)
  have i8 := hstep _ _ i7 e8
  refine report_error_rule (fun r => r.1 = -1 ∨ ∃ (q : DavPropXMLParser) (new_prop : Bool),
    Inv q ∧ q.err = none ∧ (new_prop = true → match_element name prop_pattern = true) ∧
      r = start_tail q name new_prop) _ _ (fun _ => Or.inl rfl) (fun e9 => ?_)
  have i9 := hstep _ _ i8 e9
  refine report_error_rule (fun r => r.1 = -1 ∨ ∃ (q : DavPropXMLParser) (new_prop : Bool),
    Inv q ∧ q.err = none ∧ (new_prop = true → match_element name prop_pattern = true) ∧
      r = start_tail q name new_prop) _ _ (fun _ => Or.inl rfl) (fun e10 => ?_)
  have i10 := hstep _ _ i9 e10
  exact Or.inr ⟨_, new_prop, i10, e10, hnp, rfl⟩

/-- A property of the parser object kept by every scope statement that leaves
no error holds when `parserEndElemCb` reaches `store_new_elem`. -/
theorem parserEndElemCb_chain (Inv : DavPropXMLParser → Prop) (name : CStr)
    (hstep : ∀ (k : Scope) (q : DavPropXMLParser), Inv q →
      (remove_scope_call k q name).2.err = none → Inv (remove_scope_call k q name).2)
    (p : DavPropXMLParser) (hp : Inv p) :
    (parserEndElemCb p name).1 = -1 ∨
    ∃ (q : DavPropXMLParser) (end_prop : Bool), Inv q ∧ q.err = none ∧
      (end_prop = true → match_element name propstat_pattern = true) ∧
      parserEndElemCb p name = if end_prop then store_new_elem q else (0, q) := by
  unfold parserEndElemCb
  have hnp := remove_scope_call_fst Scope.propname_section p name
  refine report_error_rule (fun r => r.1 = -1 ∨ ∃ (q : DavPropXMLParser) (end_prop : Bool),
    Inv q ∧ q.err = none ∧ (end_prop = true → match_element name propstat_pattern = true) ∧
      r = if end_prop then store_new_elem q else (0, q)) _ _
    (fun _ => Or.inl rfl) (fun e1 => ?_)
  have i1 := hstep _ _ hp e1
  refine report_error_rule (fun r => r.1 = -1 ∨ ∃ (q : DavPropXMLParser) (end_prop : Bool),
    Inv q ∧ q.err = none ∧ (end_prop = true → match_element name propstat_pattern = true) ∧
      r = if end_prop then store_new_elem q else (0, q)) _ _
    (fun _ => Or.inl rfl) (fun e2 => ?_)
  have i2 := hstep _ _ i1 e2
  refine report_error_rule (fun r => r.1 = -1 ∨ ∃ (q : DavPropXMLParser) (end_prop : Bool),
    Inv q ∧ q.err = none ∧ (end_prop = true → match_element name propstat_pattern = true) ∧
      r = if end_prop then store_new_elem q else (0, q)) _ _
    (fun _ => Or.inl rfl) (fun e3 => ?_)
  have i3 := hstep _ _ i2 e3
  refine report_error_rule (fun r => r.1 = -1 ∨ ∃ (q : DavPropXMLParser) (end_prop : Bool),
    Inv q ∧ q.err = none ∧ (end_prop = true → match_element name propstat_pattern = true) ∧
      r = if end_prop then store_new_elem q else (0, q)) _ _
    (fun _ => Or.inl rfl) (fun e4 => ?_)
  have i4 := hstep _ _ i3 e4
  refine report_error_rule (fun r => r.1 = -1 ∨ ∃ (q : DavPropXMLParser) (end_prop : Bool),
    Inv q ∧ q.err = none ∧ (end_prop = true → match_element name propstat_pattern = true) ∧
      r = if end_prop then store_new_elem q else (0, q)) _ _
    (fun _ => Or.inl rfl) (fun e5 => ?_)
  have i5 := hstep _ _ i4 e5
  refine report_error_rule (fun r => r.1 = -1 ∨ ∃ (q : DavPropXMLParser) (end_prop : Bool),
    Inv q ∧ q.err = none ∧ (end_prop = true → match_element name propstat_pattern = true) ∧
      r = if end_prop then store_new_elem q else (0, q)) _ _
    (fun _ => Or.inl rfl) (fun e6 => ?_)
  have i6 := hstep _ _ i5 e6
  refine report_error_rule (fun r => r.1 = -1 ∨ ∃ (q : DavPropXMLParser) (end_prop : Bool),
    Inv q ∧ q.err = none ∧ (end_prop = true → match_element name propstat_pattern = true) ∧
      r = if end_prop then store_new_elem q else (0, q)) _ _
    (fun _ => Or.inl rfl) (fun e7 => ?_)
  have i7 := hstep _ _ i6 e7
  refine report_error_rule (fun r => r.1 = -1 ∨ ∃ (q : DavPropXMLParser) (end_prop : Bool),
    Inv q ∧ q.err = none ∧ (end_prop = true → match_element name propstat_pattern = true) ∧
      r = if end_prop then store_new_elem q else (0, q)) _ _
    (fun _ => Or.inl rfl) (fun e8 => ?_)
  have i8 := hstep _ _ i7 e8
  refine report_error_rule (fun r => r.1 = -1 ∨ ∃ (q : DavPropXMLParser) (end_prop : Bool),
    Inv q ∧ q.err = none ∧ (end_prop = true → match_element name propstat_pattern = true) ∧
      r = if end_prop then store_new_elem q else (0, q)) _ _
    (fun _ => Or.inl rfl) (fun e9 => ?_)
  have i9 := hstep _ _ i8 e9
  refine report_error_rule (fun r => r.1 = -1 ∨ ∃ (q : DavPropXMLParser) (end_prop : Bool),
    Inv q ∧ q.err = none ∧ (end_prop = true → match_element name propstat_pattern = true) ∧
      r = if end_prop then store_new_elem q else (0, q)) _ _
    (fun _ => Or.inl rfl) (fun e10 => ?_)
  have i10 := hstep _ _ i9 e10
  exact Or.inr ⟨_, (remove_scope_call Scope.propname_section p name).1, i10, e10, hnp, rfl⟩

/-- A property of the parser object kept by every field check that leaves no
error holds after a successful `parserCdataCb`. -/
theorem parserCdataCb_chain (Inv : DavPropXMLParser → Prop) (pd : CStr → Int)
    (cdata : List Char)
    (h1 : ∀ q, Inv q → (check_last_modified pd q (c_str cdata)).2.err = none →
      Inv (check_last_modified pd q (c_str cdata)).2)
    (h2 : ∀ q, Inv q → (check_creation_date pd q (c_str cdata)).2.err = none →
      Inv (check_creation_date pd q (c_str cdata)).2)
    (h3 : ∀ q, Inv q → (check_content_length q (c_str cdata)).2.err = none →
      Inv (check_content_length q (c_str cdata)).2)
    (h4 : ∀ q, Inv q → (check_mode_ext q (c_str cdata)).2.err = none →
      Inv (check_mode_ext q (c_str cdata)).2)
    (h5 : ∀ q, Inv q → (check_href q (c_str cdata)).2.err = none →
      Inv (check_href q (c_str cdata)).2)
    (h6 : ∀ q, Inv q → (check_status q (c_str cdata)).2.err = none →
      Inv (check_status q (c_str cdata)).2)
    (p : DavPropXMLParser) (hp : Inv p) :
    (parserCdataCb pd p cdata).1 = -1 ∨
    ((parserCdataCb pd p cdata).1 = 0 ∧ Inv (parserCdataCb pd p cdata).2 ∧
      (parserCdataCb pd p cdata).2.err = none) := by
  unfold parserCdataCb
  refine report_error_rule (fun r => r.1 = -1 ∨ (r.1 = 0 ∧ Inv r.2 ∧ r.2.err = none)) _ _
    (fun _ => Or.inl rfl) (fun e1 => ?_)
  have i1 := h1 _ hp e1
  refine report_error_rule (fun r => r.1 = -1 ∨ (r.1 = 0 ∧ Inv r.2 ∧ r.2.err = none)) _ _
    (fun _ => Or.inl rfl) (fun e2 => ?_)
  have i2 := h2 _ i1 e2
  refine report_error_rule (fun r => r.1 = -1 ∨ (r.1 = 0 ∧ Inv r.2 ∧ r.2.err = none)) _ _
    (fun _ => Or.inl rfl) (fun e3 => ?_)
  have i3 := h3 _ i2 e3
  refine report_error_rule (fun r => r.1 = -1 ∨ (r.1 = 0 ∧ Inv r.2 ∧ r.2.err = none)) _ _
    (fun _ => Or.inl rfl) (fun e4 => ?_)
  have i4 := h4 _ i3 e4
  refine report_error_rule (fun r => r.1 = -1 ∨ (r.1 = 0 ∧ Inv r.2 ∧ r.2.err = none)) _ _
    (fun _ => Or.inl rfl) (fun e5 => ?_)
  have i5 := h5 _ i4 e5
  refine report_error_rule (fun r => r.1 = -1 ∨ (r.1 = 0 ∧ Inv r.2 ∧ r.2.err = none)) _ _
    (fun _ => Or.inl rfl) (fun e6 => ?_)
  have i6 := h6 _ i5 e6
  exact Or.inr ⟨rfl, i6, e6⟩

/-! ## The content of a `prop` element -/

theorem run_events_append (pd : CStr → Int) (p : DavPropXMLParser) (a b : List Event) :
    run_events pd p (a ++ b) =
      match run_events pd p a with
      | some q => run_events pd q b
      | none => none := by
  induction a generalizing p with
  | nil => rfl
  | cons e es ih =>
    simp only [List.cons_append, run_events]
    cases feed pd p e with
    | none => rfl
    | some q => exact ih q

theorem add_scope_call_inside_prop (X : List FileProperties) (r : Nat) (name : CStr)
    (h1 : name ≠ prop_pattern) (h2 : name ≠ propstat_pattern) (k : Scope)
    (q : DavPropXMLParser) (hq : inside_prop X r q) :
    inside_prop X r (add_scope_call k q name).2 := by
  have m1 : match_element name prop_pattern = false := by simp [match_element, h1]
  have m2 : match_element name propstat_pattern = false := by simp [match_element, h2]
  obtain ⟨a1, a2, a3, a4, a5, a6, a7⟩ := hq
  cases k <;>
  simp only [add_scope_call, add_scope, Scope.flag, Scope.set_flag, Scope.pattern,
    Scope.enter_condition, Scope.skip_condition, m1, m2, a1, a2, a3, a4, a5] <;>
  split_ifs <;>
  simp_all [inside_prop]

theorem remove_scope_call_inside_prop (X : List FileProperties) (r : Nat) (name : CStr)
    (h1 : name ≠ prop_pattern) (h2 : name ≠ propstat_pattern) (k : Scope)
    (q : DavPropXMLParser) (hq : inside_prop X r q) :
    inside_prop X r (remove_scope_call k q name).2 := by
  have m1 : match_element name prop_pattern = false := by simp [match_element, h1]
  have m2 : match_element name propstat_pattern = false := by simp [match_element, h2]
  obtain ⟨a1, a2, a3, a4, a5, a6, a7⟩ := hq
  cases k <;>
  simp only [remove_scope_call, remove_scope, Scope.flag, Scope.set_flag, Scope.pattern,
    Scope.enter_condition, Scope.skip_condition, m1, m2, a1, a2, a3, a4, a5] <;>
  split_ifs <;>
  simp_all [inside_prop]

/-- Without pending error `check_is_directory` succeeds and changes at most the
mode of the in-progress record. -/
theorem check_is_directory_mode (p : DavPropXMLParser) (name : CStr) (h_err : p.err = none) :
    ∃ m, check_is_directory p name
      = (0, { p with _current_props := { p._current_props with mode := m } }) := by
  unfold check_is_directory
  by_cases hc : (p.response_section && p.prop_section && p.propname_section
      && p.resource_type) = true
  · by_cases hm : match_element name collection_patern = true
    · refine ⟨p._current_props.mode ||| S_IFDIR, ?_⟩
      cases p
      simp_all [add_scope]
    · refine ⟨p._current_props.mode, ?_⟩
      cases p
      simp_all [add_scope]
  · exact ⟨p._current_props.mode, by simp [hc]⟩

theorem feed_start_inside_prop (pd : CStr → Int) (X : List FileProperties) (r : Nat)
    (name : CStr) (p q : DavPropXMLParser) (hp : inside_prop X r p)
    (h : feed pd p (Event.start_elem name) = some q) :
    name ≠ prop_pattern ∧ name ≠ propstat_pattern ∧ inside_prop X r q ∧ q.err = none := by
  obtain ⟨a1, a2, a3, a4, a5, a6, a7⟩ := hp
  have h1 : name ≠ prop_pattern := by
    intro e
    have := parserStartElemCb_duplicate Scope.prop_section p a3
      (by simp [Scope.enter_condition, a1, a2]) rfl
    rw [e] at h
    simp [feed, show parserStartElemCb p prop_pattern = parserStartElemCb p
      Scope.prop_section.pattern from rfl, this] at h
  have h2 : name ≠ propstat_pattern := by
    intro e
    have := parserStartElemCb_duplicate Scope.propname_section p a2
      (by simp [Scope.enter_condition, a1]) rfl
    rw [e] at h
    simp [feed, show parserStartElemCb p propstat_pattern = parserStartElemCb p
      Scope.propname_section.pattern from rfl, this] at h
  refine ⟨h1, h2, ?_⟩
  rcases parserStartElemCb_chain (inside_prop X r) name
    (fun k q hq _ => add_scope_call_inside_prop X r name h1 h2 k q hq) p
    ⟨a1, a2, a3, a4, a5, a6, a7⟩ with hf | ⟨q', np, hq', he', hnp, heq⟩
  · simp [feed, hf] at h
  · have hnp' : np = false := by
      cases np with
      | false => rfl
      | true =>
        have := hnp rfl
        simp [match_element, h1] at this
    subst hnp'
    obtain ⟨m, hm⟩ := check_is_directory_mode q' name he'
    have hres : parserStartElemCb p name
        = (1, { q' with _current_props := { q'._current_props with mode := m } }) := by
      rw [heq]
      simp [start_tail, hm]
    simp only [feed, hres] at h
    have hq : q = { q' with _current_props := { q'._current_props with mode := m } } := by
      simpa using h.symm
    subst hq
    obtain ⟨b1, b2, b3, b4, b5, b6, b7⟩ := hq'
    exact ⟨⟨b1, b2, b3, b4, b5, b6, b7⟩, he'⟩

theorem feed_end_inside_prop (pd : CStr → Int) (X : List FileProperties) (r : Nat)
    (name : CStr) (p q : DavPropXMLParser) (hp : inside_prop X r p)
    (h1 : name ≠ prop_pattern) (h2 : name ≠ propstat_pattern)
    (h : feed pd p (Event.end_elem name) = some q) :
    inside_prop X r q ∧ q.err = none := by
  rcases parserEndElemCb_chain (inside_prop X r) name
    (fun k q hq _ => remove_scope_call_inside_prop X r name h1 h2 k q hq) p hp
    with hf | ⟨q', ep, hq', he', hep, heq⟩
  · simp [feed, hf] at h
  · have hep' : ep = false := by
      cases ep with
      | false => rfl
      | true =>
        have := hep rfl
        simp [match_element, h2] at this
    subst hep'
    simp only [feed, heq] at h
    have hq : q = q' := by simpa using h.symm
    subst hq
    exact ⟨hq', he'⟩

theorem check_last_modified_keeps (pd : CStr → Int) (p : DavPropXMLParser) (s : CStr) :
    keeps_scopes p (check_last_modified pd p s).2 := by
  unfold check_last_modified keeps_scopes
  by_cases h1 : (p.response_section && p.prop_section && p.propname_section
      && p.lastmod_section) = true
  · by_cases h2 : pd s = -1 <;> simp [h1, h2]
  · simp [h1]

theorem check_creation_date_keeps (pd : CStr → Int) (p : DavPropXMLParser) (s : CStr) :
    keeps_scopes p (check_creation_date pd p s).2 := by
  unfold check_creation_date keeps_scopes
  by_cases h1 : (p.response_section && p.prop_section && p.propname_section
      && p.creatdate_section) = true
  · by_cases h2 : pd s = -1 <;> simp [h1, h2]
  · simp [h1]

theorem check_content_length_keeps (p : DavPropXMLParser) (s : CStr) :
    keeps_scopes p (check_content_length p s).2 := by
  unfold check_content_length keeps_scopes
  by_cases h1 : (p.response_section && p.prop_section && p.propname_section
      && p.contentlength_section) = true
  · by_cases h2 : strtoul s 10 = ULONG_MAX <;> simp [h1, h2]
  · simp [h1]

theorem check_mode_ext_keeps (p : DavPropXMLParser) (s : CStr) :
    keeps_scopes p (check_mode_ext p s).2 := by
  unfold check_mode_ext keeps_scopes
  by_cases h1 : (p.response_section && p.prop_section && p.propname_section
      && p.mode_ext_section) = true
  · by_cases h2 : strtoul s 8 = ULONG_MAX <;> simp [h1, h2]
  · simp [h1]

theorem inside_prop_of_keeps (X : List FileProperties) (r : Nat) (p q : DavPropXMLParser)
    (hk : keeps_scopes p q) (hp : inside_prop X r p) : inside_prop X r q := by
  obtain ⟨k1, k2, k3, _, _, _, _, k8, _, k10, k11, _, k13⟩ := hk
  obtain ⟨a1, a2, a3, a4, a5, a6, a7⟩ := hp
  exact ⟨k3.trans a1, k2.trans a2, k1.trans a3, k10.trans a4, k8.trans a5, k11.trans a6,
    k13.trans a7⟩

theorem check_href_closed (p : DavPropXMLParser) (s : CStr) (h : p.href_section = false) :
    check_href p s = (0, p) := by
  simp [check_href, h]

theorem check_status_closed (p : DavPropXMLParser) (s : CStr) (h : p.status_section = false) :
    check_status p s = (0, p) := by
  simp [check_status, h]

theorem feed_cdata_inside_prop (pd : CStr → Int) (X : List FileProperties) (r : Nat)
    (text : List Char) (p q : DavPropXMLParser) (hp : inside_prop X r p)
    (h : feed pd p (Event.cdata text) = some q) :
    inside_prop X r q ∧ q.err = none := by
  rcases parserCdataCb_chain (inside_prop X r) pd text
    (fun q hq _ => inside_prop_of_keeps X r q _ (check_last_modified_keeps pd q _) hq)
    (fun q hq _ => inside_prop_of_keeps X r q _ (check_creation_date_keeps pd q _) hq)
    (fun q hq _ => inside_prop_of_keeps X r q _ (check_content_length_keeps q _) hq)
    (fun q hq _ => inside_prop_of_keeps X r q _ (check_mode_ext_keeps q _) hq)
    (fun q hq _ => by rw [check_href_closed q _ hq.2.2.2.2.1]; exact hq)
    (fun q hq _ => by rw [check_status_closed q _ hq.2.2.2.1]; exact hq)
    p hp with hf | ⟨h0, hq', he'⟩
  · simp [feed, hf] at h
  · simp only [feed] at h
    have hq : q = (parserCdataCb pd p text).2 := by
      split at h
      · cases h
      · simpa using h.symm
    subst hq
    exact ⟨hq', he'⟩

/-- Properly nested content of a `prop` element, fed without failure, leaves
the response, propstat and prop scopes open, commits nothing and does not
touch the status of the in-progress record. -/
theorem run_events_inside_prop (pd : CStr → Int) (X : List FileProperties) (r : Nat)
    (body : List Event) (hb : WellNested body) :
    ∀ p q : DavPropXMLParser, inside_prop X r p → p.err = none →
      run_events pd p body = some q → inside_prop X r q ∧ q.err = none := by
  induction hb with
  | nil =>
    intro p q hp he h
    simp only [run_events, Option.some.injEq] at h
    subst h
    exact ⟨hp, he⟩
  | text t rest _ ih =>
    intro p q hp he h
    simp only [run_events] at h
    cases hf : feed pd p (Event.cdata t) with
    | none => simp [hf] at h
    | some p1 =>
      simp only [hf] at h
      obtain ⟨i1, e1⟩ := feed_cdata_inside_prop pd X r t p p1 hp hf
      exact ih p1 q i1 e1 h
  | elem name inner rest _ _ ih_inner ih_rest =>
    intro p q hp he h
    simp only [run_events] at h
    cases hf : feed pd p (Event.start_elem name) with
    | none => simp [hf] at h
    | some p1 =>
      simp only [hf] at h
      obtain ⟨n1, n2, i1, e1⟩ := feed_start_inside_prop pd X r name p p1 hp hf
      rw [run_events_append] at h
      cases hi : run_events pd p1 inner with
      | none => simp [hi] at h
      | some p2 =>
        simp only [hi, run_events] at h
        obtain ⟨i2, e2⟩ := ih_inner p1 p2 i1 e1 hi
        cases hg : feed pd p2 (Event.end_elem name) with
        | none => simp [hg] at h
        | some p3 =>
          simp only [hg] at h
          obtain ⟨i3, e3⟩ := feed_end_inside_prop pd X r name p2 p3 i2 n1 n2 hg
          exact ih_rest p3 q i3 e3 h

/-! ## One `propstat` element -/

theorem feed_open (pd : CStr → Int) (k : Scope) (p : DavPropXMLParser) (h_err : p.err = none)
    (hk : k ≠ Scope.prop_section)
    (h_flag : k.flag p = false) (h_enter : k.enter_condition p = true)
    (h_skip : k.skip_condition p = false) :
    feed pd p (Event.start_elem k.pattern) = some (k.set_flag p true) := by
  simp [feed, parserStartElemCb_open k p h_err h_flag h_enter h_skip, hk]

theorem feed_open_prop (pd : CStr → Int) (p : DavPropXMLParser) (h_err : p.err = none)
    (h_flag : p.prop_section = false) (h_resp : p.response_section = true)
    (h_ps : p.propname_section = true) :
    feed pd p (Event.start_elem prop_pattern) =
      some { p with prop_section := true,
                    _current_props :=
                      { FileProperties.clear with filename := p.last_filename, mode := 0o777 } } := by
  have := parserStartElemCb_open Scope.prop_section p h_err h_flag
    (by simp [Scope.enter_condition, h_resp, h_ps]) rfl
  simp only [Scope.pattern] at this
  simp [feed, this, Scope.set_flag, compute_new_elem, h_resp, h_ps]

theorem feed_close (pd : CStr → Int) (k : Scope) (p : DavPropXMLParser) (h_err : p.err = none)
    (hk : k ≠ Scope.propname_section)
    (h_flag : k.flag p = true) (h_enter : k.enter_condition p = true)
    (h_skip : k.skip_condition p = false) :
    feed pd p (Event.end_elem k.pattern) = some (k.set_flag p false) := by
  simp [feed, parserEndElemCb_close k p h_err h_flag h_enter h_skip, hk]

theorem feed_close_propstat (pd : CStr → Int) (p : DavPropXMLParser) (h_err : p.err = none)
    (h_flag : p.propname_section = true) (h_resp : p.response_section = true) :
    feed pd p (Event.end_elem propstat_pattern) =
      some (if status_in_range p._current_props.req_status then
              { p with propname_section := false, _props := p._props ++ [p._current_props] }
            else { p with propname_section := false }) := by
  have := parserEndElemCb_close Scope.propname_section p h_err h_flag h_resp rfl
  simp only [Scope.pattern, if_true] at this
  simp only [feed, this, Scope.set_flag, store_new_elem, h_resp, if_true]
  by_cases hr : status_in_range p._current_props.req_status = true
  · have hr' : (decide (p._current_props.req_status > 100) &&
        decide (p._current_props.req_status < 400)) = true := hr
    simp [hr, hr']
  · have hr' : (decide (p._current_props.req_status > 100) &&
        decide (p._current_props.req_status < 400)) = false := by
      simpa [status_in_range] using hr
    simp [hr, hr']

theorem report_error_pair_none {α : Type} (a : α) (p : DavPropXMLParser)
    (rest : α → DavPropXMLParser → Int × DavPropXMLParser) (h : p.err = none) :
    DAVIX_XML_REPORT_ERROR (a, p) rest = rest a p := by
  simp [DAVIX_XML_REPORT_ERROR, h]

theorem check_last_modified_no_prop (pd : CStr → Int) (p : DavPropXMLParser) (s : CStr)
    (h : p.prop_section = false) : check_last_modified pd p s = (0, p) := by
  simp [check_last_modified, h]

theorem check_creation_date_no_prop (pd : CStr → Int) (p : DavPropXMLParser) (s : CStr)
    (h : p.prop_section = false) : check_creation_date pd p s = (0, p) := by
  simp [check_creation_date, h]

theorem check_content_length_no_prop (p : DavPropXMLParser) (s : CStr)
    (h : p.prop_section = false) : check_content_length p s = (0, p) := by
  simp [check_content_length, h]

theorem check_mode_ext_no_prop (p : DavPropXMLParser) (s : CStr)
    (h : p.prop_section = false) : check_mode_ext p s = (0, p) := by
  simp [check_mode_ext, h]

/-- Character data outside `prop` and `href`: only `check_status` acts. -/
theorem parserCdataCb_status_only (pd : CStr → Int) (p : DavPropXMLParser) (cdata : List Char)
    (h_err : p.err = none) (h_prop : p.prop_section = false) (h_href : p.href_section = false) :
    parserCdataCb pd p cdata =
      DAVIX_XML_REPORT_ERROR (check_status p (c_str cdata)) fun _ p => (0, p) := by
  unfold parserCdataCb
  simp only [check_last_modified_no_prop pd p _ h_prop, check_creation_date_no_prop pd p _ h_prop,
    check_content_length_no_prop p _ h_prop, check_mode_ext_no_prop p _ h_prop,
    check_href_closed p _ h_href, report_error_pair_none _ p _ h_err]

theorem c_str_status_text (ps : PropStat) (h : ∀ c ∈ ps.protocol, c ≠ ' ' ∧ c.toNat ≠ 0)
    (h_num : is_decimal_numeral ps.code = true) :
    c_str ps.status_text = ps.protocol ++ ' ' :: (ps.code ++ c_str ps.tail) := by
  unfold PropStat.status_text c_str
  rw [takeWhile_append_all _ _ _ (by intro y hy; simpa using (h y hy).2)]
  have hd : ∀ y ∈ ps.code, (fun c : Char => c.toNat != 0) y = true := by
    intro y hy
    have := is_decimal_digit_bounds y (decimal_numeral_mem ps.code h_num y hy)
    have : y.toNat ≠ 0 := by omega
    simpa using this
  have e1 : List.takeWhile (fun c : Char => c.toNat != 0) (' ' :: (ps.code ++ ps.tail))
      = ' ' :: List.takeWhile (fun c : Char => c.toNat != 0) (ps.code ++ ps.tail) := by
    rw [List.takeWhile_cons]
    rfl
  rw [e1, takeWhile_append_all _ _ _ hd]

/-- What the string functions see of a tail that is empty or starts with a
space is empty or starts with a space. -/
theorem c_str_tail (tail : CStr) (h : tail = [] ∨ tail.head? = some ' ') :
    c_str tail = [] ∨ (c_str tail).head? = some ' ' := by
  rcases h with h | h
  · subst h
    exact Or.inl rfl
  · cases tail with
    | nil => simp at h
    | cons x xs =>
      have hx : x = ' ' := by simpa using h
      subst hx
      refine Or.inr ?_
      unfold c_str
      rw [List.takeWhile_cons]
      rfl

/-- The status line of a well-formed `propstat`, fed inside
`response/propstat/status`: when the callback succeeds, the status of the
in-progress record is the value of the code, and nothing else changes. -/
theorem feed_status_text (pd : CStr → Int) (ps : PropStat) (hw : ps.well_formed)
    (p q : DavPropXMLParser) (hp : scopes_are p true true false true false)
    (h : feed pd p (Event.cdata ps.status_text) = some q) :
    q = { p with _current_props :=
            { p._current_props with req_status := decimal_value ps.code } } := by
  obtain ⟨_, w2, w3, w4, w5, _⟩ := hw
  obtain ⟨a0, a1, a2, a3, a4, a5⟩ := hp
  have hs := check_status_shape p ps.protocol ps.code (c_str ps.tail) a1 a2 a4 w2
    (fun c hc => (w3 c hc).1) w4 (c_str_tail ps.tail w5)
  simp only [feed, parserCdataCb_status_only pd p _ a0 a3 a5, c_str_status_text ps w3 w4, hs] at h
  by_cases hv : decimal_value ps.code < ULONG_MAX
  · simp only [hv, if_true] at h
    rw [report_error_of_none _ _ (by exact a0)] at h
    simpa using h.symm
  · simp only [hv, if_false] at h
    simp [DAVIX_XML_REPORT_ERROR] at h

/-- Character data met while the prop, status and href scopes are closed
changes nothing. -/
theorem feed_cdata_between (pd : CStr → Int) (p : DavPropXMLParser) (text : List Char)
    (h_err : p.err = none) (h_prop : p.prop_section = false)
    (h_st : p.status_section = false) (h_href : p.href_section = false) :
    feed pd p (Event.cdata text) = some p := by
  simp only [feed, parserCdataCb_status_only pd p text h_err h_prop h_href,
    check_status_closed p _ h_st, report_error_pair_none _ p _ h_err]
  rfl

/-- Events of the kind `Ignorable`, met while the prop, status and href scopes
are closed and no error is pending, change nothing. -/
theorem run_events_ignorable (pd : CStr → Int) (p : DavPropXMLParser)
    (h_err : p.err = none) (h_prop : p.prop_section = false)
    (h_st : p.status_section = false) (h_href : p.href_section = false)
    (l : List Event) (hl : Ignorable l) : run_events pd p l = some p := by
  induction hl with
  | nil => rfl
  | text t rest _ ih =>
    simp only [run_events, feed_cdata_between pd p t h_err h_prop h_st h_href]
    exact ih
  | elem name inner rest hn _ _ ih1 ih2 =>
    obtain ⟨m1, m2⟩ := not_recognized_no_match name hn
    have f1 : feed pd p (Event.start_elem name) = some p := by
      simp [feed, parserStartElemCb_unknown p name h_err m1 m2]
    have f2 : feed pd p (Event.end_elem name) = some p := by
      simp [feed, parserEndElemCb_unknown p name h_err m1]
    simp only [run_events, f1]
    rw [run_events_append, ih1]
    simp only [run_events, f2]
    exact ih2

/-- The same for a state described by `scopes_are`. -/
theorem run_events_between (pd : CStr → Int) (p : DavPropXMLParser) (resp ps : Bool)
    (hp : scopes_are p resp ps false false false) (l : List Event) (hl : Ignorable l) :
    run_events pd p l = some p :=
  run_events_ignorable pd p hp.1 hp.2.2.2.1 hp.2.2.2.2.1 hp.2.2.2.2.2 l hl

/-- A well-formed `propstat` element fed inside an open response without
failure, with what follows it: the scopes are as before, and one record with
the status of the element is committed when that status lies in the accepted
range. -/
theorem run_events_propstat (pd : CStr → Int) (ps : PropStat) (hw : ps.well_formed)
    (p q : DavPropXMLParser) (hp : scopes_are p true false false false false)
    (h : run_events pd p ps.events = some q) :
    scopes_are q true false false false false ∧
    q._props.map (fun r => r.req_status) =
      p._props.map (fun r => r.req_status) ++
        [decimal_value ps.code].filter status_in_range := by
  obtain ⟨a0, a1, a2, a3, a4, a5⟩ := hp
  obtain ⟨w1, _, _, _, _, i1, i2, i3, i4⟩ := id hw
  simp only [PropStat.events, List.append_assoc, List.cons_append, List.nil_append] at h
  -- start propstat
  have f1 : feed pd p (Event.start_elem propstat_pattern)
      = some (Scope.propname_section.set_flag p true) :=
    feed_open pd Scope.propname_section p a0 (by decide) a2 a1 rfl
  generalize hs1 : Scope.propname_section.set_flag p true = s1 at f1
  have c1 : scopes_are s1 true true false false false ∧ s1._props = p._props := by
    subst hs1
    simp [scopes_are, Scope.set_flag, a0, a1, a3, a4, a5]
  obtain ⟨c1s, c16⟩ := c1
  obtain ⟨c10, c11, c12, c13, c14, c15⟩ := id c1s
  -- what stands before prop
  have g1 := run_events_between pd s1 true true c1s ps.before_prop i1
  -- start prop
  have f2 := feed_open_prop pd s1 c10 c13 c11 c12
  generalize hs2 : ({ s1 with prop_section := true,
                              _current_props :=
                                { FileProperties.clear with filename := s1.last_filename,
                                                            mode := 0o777 } } : DavPropXMLParser)
    = s2 at f2
  have c2 : inside_prop p._props 0 s2 ∧ s2.err = none := by
    subst hs2
    exact ⟨⟨c11, c12, rfl, c14, c15, c16, rfl⟩, c10⟩
  simp only [run_events, f1] at h
  rw [run_events_append, g1] at h
  simp only [run_events, f2] at h
  rw [run_events_append] at h
  -- the content of prop
  cases hb : run_events pd s2 ps.prop_content with
  | none => simp [hb] at h
  | some p3 =>
    simp only [hb] at h
    obtain ⟨⟨b1, b2, b3, b4, b5, b6, b7⟩, b0⟩ := run_events_inside_prop pd p._props 0
      ps.prop_content w1 s2 p3 c2.1 c2.2 hb
    -- end prop
    have f4 : feed pd p3 (Event.end_elem prop_pattern)
        = some (Scope.prop_section.set_flag p3 false) :=
      feed_close pd Scope.prop_section p3 b0 (by decide) b3
        (by simp [Scope.enter_condition, b1, b2]) rfl
    generalize hs4 : Scope.prop_section.set_flag p3 false = s4 at f4
    have c4 : scopes_are s4 true true false false false ∧ s4._props = p._props := by
      subst hs4
      simp [scopes_are, Scope.set_flag, b0, b1, b2, b4, b5, b6]
    obtain ⟨c4s, c46⟩ := c4
    obtain ⟨c40, c41, c42, c43, c44, c45⟩ := id c4s
    -- what stands between prop and status
    have g4 := run_events_between pd s4 true true c4s ps.before_status i2
    -- start status
    have f5 : feed pd s4 (Event.start_elem status_pattern)
        = some (Scope.status_section.set_flag s4 true) :=
      feed_open pd Scope.status_section s4 c40 (by decide) c44
        (by simp [Scope.enter_condition, c41, c42]) c43
    generalize hs5 : Scope.status_section.set_flag s4 true = s5 at f5
    have c5 : scopes_are s5 true true false true false ∧ s5._props = p._props := by
      subst hs5
      simp [scopes_are, Scope.set_flag, c40, c41, c42, c43, c45, c46]
    obtain ⟨c50, c56⟩ := c5
    simp only [run_events, f4] at h
    rw [run_events_append, g4] at h
    simp only [run_events, f5] at h
    -- the status line
    cases hc : feed pd s5 (Event.cdata ps.status_text) with
    | none => simp [hc] at h
    | some s6 =>
      simp only [hc] at h
      have e6 := feed_status_text pd ps hw s5 s6 c50 hc
      have c6 : scopes_are s6 true true false true false ∧ s6._props = p._props ∧
          s6._current_props.req_status = decimal_value ps.code := by
        obtain ⟨d0, d1, d2, d3, d4, d5⟩ := c50
        subst e6
        exact ⟨⟨d0, d1, d2, d3, d4, d5⟩, c56, rfl⟩
      obtain ⟨⟨c60, c61, c62, c63, c64, c65⟩, c66, c67⟩ := c6
      -- end status
      have f7 : feed pd s6 (Event.end_elem status_pattern)
          = some (Scope.status_section.set_flag s6 false) :=
        feed_close pd Scope.status_section s6 c60 (by decide) c64
          (by simp [Scope.enter_condition, c61, c62]) c63
      generalize hs7 : Scope.status_section.set_flag s6 false = s7 at f7
      have c7 : scopes_are s7 true true false false false ∧ s7._props = p._props ∧
          s7._current_props.req_status = decimal_value ps.code := by
        subst hs7
        simp [scopes_are, Scope.set_flag, c60, c61, c62, c63, c65, c66, c67]
      obtain ⟨c7s, c76, c77⟩ := c7
      obtain ⟨c70, c71, c72, c73, c74, c75⟩ := id c7s
      -- what stands after status
      have g7 := run_events_between pd s7 true true c7s ps.after_status i3
      -- end propstat
      have f8 := feed_close_propstat pd s7 c70 c72 c71
      simp only [f7] at h
      rw [run_events_append, g7] at h
      simp only [run_events, f8] at h
      generalize hs8 : (if status_in_range s7._current_props.req_status = true then
          ({ s7 with propname_section := false, _props := s7._props ++ [s7._current_props] }
            : DavPropXMLParser)
        else { s7 with propname_section := false }) = s8 at h
      have c8 : scopes_are s8 true false false false false ∧
          s8._props.map (fun r => r.req_status) =
            p._props.map (fun r => r.req_status) ++
              [decimal_value ps.code].filter status_in_range := by
        subst hs8
        by_cases hr : status_in_range (decimal_value ps.code) = true
        · simp [hr, scopes_are, c70, c71, c73, c74, c75, c76, c77]
        · simp [hr, scopes_are, c70, c71, c73, c74, c75, c76, c77]
      -- what follows the element
      rw [run_events_between pd s8 true false c8.1 ps.after i4] at h
      simp only [Option.some.injEq] at h
      subst h
      exact c8

/-! ## A whole multi-status body -/

theorem run_events_propstats (pd : CStr → Int) (pss : List PropStat)
    (hw : ∀ ps ∈ pss, ps.well_formed) :
    ∀ p q : DavPropXMLParser, scopes_are p true false false false false →
      run_events pd p (pss.map PropStat.events).flatten = some q →
      scopes_are q true false false false false ∧
      q._props.map (fun r => r.req_status) =
        p._props.map (fun r => r.req_status) ++
          (pss.map fun ps => decimal_value ps.code).filter status_in_range := by
  induction pss with
  | nil =>
    intro p q hp h
    simp only [List.map_nil, List.flatten_nil, run_events, Option.some.injEq] at h
    subst h
    exact ⟨hp, by simp⟩
  | cons ps rest ih =>
    intro p q hp h
    simp only [List.map_cons, List.flatten_cons] at h
    rw [run_events_append] at h
    cases h1 : run_events pd p ps.events with
    | none => simp [h1] at h
    | some p1 =>
      simp only [h1] at h
      obtain ⟨c1, e1⟩ := run_events_propstat pd ps (hw ps (List.mem_cons_self _ _)) p p1 hp h1
      obtain ⟨c2, e2⟩ := ih (fun x hx => hw x (List.mem_cons_of_mem _ hx)) p1 q c1 h
      refine ⟨c2, ?_⟩
      rw [e2, e1, List.map_cons, List.append_assoc]
      congr 1
      exact (List.filter_append [decimal_value ps.code] _).symm

/-- The text of an href, fed inside `response/href`: the callback succeeds and
only the remembered filename changes. -/
theorem feed_href_text (pd : CStr → Int) (text : List Char) (p : DavPropXMLParser)
    (hp : scopes_are p true false false false true) :
    ∃ f, feed pd p (Event.cdata text) = some { p with last_filename := f } := by
  obtain ⟨a0, a1, a2, a3, a4, a5⟩ := hp
  obtain ⟨f, hf⟩ := check_href_frame p (c_str text)
  refine ⟨f, ?_⟩
  have hc : parserCdataCb pd p text = (0, { p with last_filename := f }) := by
    apply parserCdataCb_steps pd p text p p p p { p with last_filename := f }
      { p with last_filename := f }
    · rw [check_last_modified_no_prop pd p _ a3]
    · exact a0
    · rw [check_creation_date_no_prop pd p _ a3]
    · exact a0
    · rw [check_content_length_no_prop p _ a3]
    · exact a0
    · rw [check_mode_ext_no_prop p _ a3]
    · exact a0
    · rw [hf]
    · exact a0
    · rw [check_status_closed _ _ (by exact a4)]
    · exact a0
  simp [feed, hc]

/-- The chunks of the text of an href, fed inside `response/href`: the
callbacks succeed and only the remembered filename changes. -/
theorem run_events_href_chunks (pd : CStr → Int) (chunks : List (List Char)) :
    ∀ p : DavPropXMLParser, scopes_are p true false false false true →
      ∃ f, run_events pd p (chunks.map Event.cdata) = some { p with last_filename := f } := by
  induction chunks with
  | nil =>
    intro p _
    exact ⟨p.last_filename, rfl⟩
  | cons t rest ih =>
    intro p hp
    obtain ⟨f, hf⟩ := feed_href_text pd t p hp
    obtain ⟨g, hg⟩ := ih { p with last_filename := f } hp
    exact ⟨g, by simp only [List.map_cons, run_events, hf, hg]⟩

/-- A well-formed `response` element fed at top level without failure, with
what follows it: the scopes are closed again and the records of its `propstat`
children whose status lies in the accepted range are committed, in order. -/
theorem run_events_response (pd : CStr → Int) (r : Response)
    (hw : r.well_formed) (p q : DavPropXMLParser)
    (hp : scopes_are p false false false false false)
    (h : run_events pd p r.events = some q) :
    scopes_are q false false false false false ∧
    q._props.map (fun x => x.req_status) =
      p._props.map (fun x => x.req_status) ++
        (r.propstats.map fun ps => decimal_value ps.code).filter status_in_range := by
  obtain ⟨a0, a1, a2, a3, a4, a5⟩ := hp
  obtain ⟨i1, i2, i3, hps⟩ := hw
  simp only [Response.events, List.append_assoc, List.cons_append, List.nil_append] at h
  -- start response
  have f1 : feed pd p (Event.start_elem response_pattern)
      = some (Scope.response_section.set_flag p true) :=
    feed_open pd Scope.response_section p a0 (by decide) a1 rfl
      (by simp [Scope.skip_condition, a3])
  generalize hs1 : Scope.response_section.set_flag p true = s1 at f1
  have c1 : scopes_are s1 true false false false false ∧ s1._props = p._props := by
    subst hs1
    simp [scopes_are, Scope.set_flag, a0, a2, a3, a4, a5]
  obtain ⟨c1s, c16⟩ := c1
  obtain ⟨c10, c11, c12, c13, c14, c15⟩ := id c1s
  -- what stands before href
  have g1 := run_events_between pd s1 true false c1s r.before_href i1
  -- start href
  have f2 : feed pd s1 (Event.start_elem href_pattern)
      = some (Scope.href_section.set_flag s1 true) :=
    feed_open pd Scope.href_section s1 c10 (by decide) c15 c11 c13
  generalize hs2 : Scope.href_section.set_flag s1 true = s2 at f2
  have c2 : scopes_are s2 true false false false true ∧ s2._props = p._props := by
    subst hs2
    simp [scopes_are, Scope.set_flag, c10, c11, c12, c13, c14, c16]
  obtain ⟨c20, c26⟩ := c2
  -- the href text
  obtain ⟨f, f3⟩ := run_events_href_chunks pd r.href s2 c20
  generalize hs3 : ({ s2 with last_filename := f } : DavPropXMLParser) = s3 at f3
  have c3 : scopes_are s3 true false false false true ∧ s3._props = p._props := by
    subst hs3
    exact ⟨c20, c26⟩
  obtain ⟨⟨c30, c31, c32, c33, c34, c35⟩, c36⟩ := c3
  -- end href
  have f4 : feed pd s3 (Event.end_elem href_pattern)
      = some (Scope.href_section.set_flag s3 false) :=
    feed_close pd Scope.href_section s3 c30 (by decide) c35 c31 c33
  generalize hs4 : Scope.href_section.set_flag s3 false = s4 at f4
  have c4 : scopes_are s4 true false false false false ∧ s4._props = p._props := by
    subst hs4
    simp [scopes_are, Scope.set_flag, c30, c31, c32, c33, c34, c36]
  obtain ⟨c40, c46⟩ := c4
  -- what stands after href
  have g4 := run_events_between pd s4 true false c40 r.after_href i2
  simp only [run_events, f1] at h
  rw [run_events_append, g1] at h
  simp only [run_events, f2] at h
  rw [run_events_append, f3] at h
  simp only [run_events, f4] at h
  rw [run_events_append, g4] at h
  simp only [] at h
  rw [run_events_append] at h
  -- the propstat children
  cases hb : run_events pd s4 (r.propstats.map PropStat.events).flatten with
  | none => simp [hb] at h
  | some s5 =>
    simp only [hb] at h
    obtain ⟨⟨c50, c51, c52, c53, c54, c55⟩, c56⟩ := run_events_propstats pd r.propstats hps s4 s5
      c40 hb
    -- end response
    have f6 : feed pd s5 (Event.end_elem response_pattern)
        = some (Scope.response_section.set_flag s5 false) :=
      feed_close pd Scope.response_section s5 c50 (by decide) c51 rfl
        (by simp [Scope.skip_condition, c53])
    generalize hs6 : Scope.response_section.set_flag s5 false = s6 at f6
    have c6 : scopes_are s6 false false false false false ∧ s6._props = s5._props := by
      subst hs6
      simp [scopes_are, Scope.set_flag, c50, c52, c53, c54, c55]
    obtain ⟨c6s, c66⟩ := c6
    simp only [run_events, f6] at h
    -- what follows the element
    rw [run_events_between pd s6 false false c6s r.after i3] at h
    simp only [Option.some.injEq] at h
    subst h
    refine ⟨c6s, ?_⟩
    rw [c66, c56, c46]

theorem run_events_responses (pd : CStr → Int) (rs : List Response)
    (hw : ∀ r ∈ rs, r.well_formed) :
    ∀ p q : DavPropXMLParser, scopes_are p false false false false false →
      run_events pd p (rs.map Response.events).flatten = some q →
      scopes_are q false false false false false ∧
      q._props.map (fun x => x.req_status) =
        p._props.map (fun x => x.req_status) ++
          ((rs.map fun r => r.propstats.map fun ps => decimal_value ps.code).flatten).filter
            status_in_range := by
  induction rs with
  | nil =>
    intro p q hp h
    simp only [List.map_nil, List.flatten_nil, run_events, Option.some.injEq] at h
    subst h
    exact ⟨hp, by simp⟩
  | cons r rest ih =>
    intro p q hp h
    simp only [List.map_cons, List.flatten_cons] at h
    rw [run_events_append] at h
    cases h1 : run_events pd p r.events with
    | none => simp [h1] at h
    | some p1 =>
      simp only [h1] at h
      obtain ⟨c1, e1⟩ := run_events_response pd r (hw r (List.mem_cons_self _ _)) p p1 hp h1
      obtain ⟨c2, e2⟩ := ih (fun x hx => hw x (List.mem_cons_of_mem _ hx)) p1 q c1 h
      refine ⟨c2, ?_⟩
      rw [e2, e1]
      simp [List.filter_append]

theorem multistatus_no_match (k : Scope) :
    match_element multistatus_name k.pattern = false := by
  cases k <;> decide

/-- Outcome of a well-formed multi-status body fed to a fresh parser without
failure. -/
theorem run_events_multistatus (pd : CStr → Int) (doc : Body) (hw : well_formed doc)
    (q : DavPropXMLParser)
    (h : run_events pd DavPropXMLParser.new (multistatus_events doc) = some q) :
    q._props.map (fun x => x.req_status) = (propstat_codes doc).filter status_in_range := by
  simp only [multistatus_events, List.append_assoc, List.cons_append] at h
  have f1 : feed pd DavPropXMLParser.new (Event.start_elem multistatus_name)
      = some DavPropXMLParser.new := by
    simp only [feed]
    rw [parserStartElemCb_unknown DavPropXMLParser.new multistatus_name rfl
      multistatus_no_match (by decide)]
    rfl
  have g1 := run_events_between pd DavPropXMLParser.new false false
    ⟨rfl, rfl, rfl, rfl, rfl, rfl⟩ doc.before hw.1
  simp only [run_events, f1] at h
  rw [run_events_append, g1] at h
  simp only [] at h
  rw [run_events_append] at h
  cases hb : run_events pd DavPropXMLParser.new (doc.responses.map Response.events).flatten with
  | none => simp [hb] at h
  | some s1 =>
    simp only [hb] at h
    obtain ⟨⟨c0, _⟩, c6⟩ := run_events_responses pd doc.responses hw.2 DavPropXMLParser.new s1
      ⟨rfl, rfl, rfl, rfl, rfl, rfl⟩ hb
    have f2 : feed pd s1 (Event.end_elem multistatus_name) = some s1 := by
      simp only [feed]
      rw [parserEndElemCb_unknown s1 multistatus_name c0 multistatus_no_match]
      rfl
    simp only [run_events, f2, Option.some.injEq] at h
    subst h
    simpa [DavPropXMLParser.new, propstat_codes] using c6

/-! ## Records of a multi-status body -/

theorem propstat_200_well_formed : propstat_200.well_formed := by
  refine ⟨?_, by decide, by decide, by decide, Or.inr rfl, Ignorable.nil, Ignorable.nil,
    Ignorable.nil, Ignorable.nil⟩
  exact WellNested.elem getcontentlength_pattern [Event.cdata "12345".toList] []
    (WellNested.text _ _ WellNested.nil) WellNested.nil

theorem one_response_doc_well_formed : well_formed one_response_doc := by
  refine ⟨Ignorable.nil, ?_⟩
  intro r hr
  simp only [one_response_doc, List.mem_singleton] at hr
  subst hr
  refine ⟨Ignorable.nil, Ignorable.nil, Ignorable.nil, ?_⟩
  intro ps hps
  simp only [List.mem_singleton] at hps
  subst hps
  exact propstat_200_well_formed

theorem two_propstat_doc_well_formed : well_formed two_propstat_doc := by
  refine ⟨Ignorable.nil, ?_⟩
  intro r hr
  simp only [two_propstat_doc, List.mem_singleton] at hr
  subst hr
  refine ⟨Ignorable.nil, Ignorable.nil, Ignorable.nil, ?_⟩
  intro ps hps
  simp only [List.mem_cons, List.mem_singleton, List.not_mem_nil, or_false, or_self] at hps
  subst hps
  exact propstat_200_well_formed

theorem line_break_ignorable : Ignorable [line_break] :=
  Ignorable.text _ _ Ignorable.nil

theorem indented_doc_well_formed : well_formed indented_doc := by
  refine ⟨line_break_ignorable, ?_⟩
  intro r hr
  simp only [indented_doc, List.mem_singleton] at hr
  subst hr
  refine ⟨line_break_ignorable, line_break_ignorable, ?_, ?_⟩
  · exact Ignorable.elem "responsedescription".toList [Event.cdata "done".toList] [line_break]
      (by decide) (Ignorable.text _ _ Ignorable.nil) line_break_ignorable
  · intro ps hps
    simp only [List.mem_cons, List.mem_singleton, List.not_mem_nil, or_false] at hps
    rcases hps with hps | hps
    · subst hps
      exact ⟨propstat_200_well_formed.1, by decide, by decide, by decide, Or.inr rfl,
        line_break_ignorable, line_break_ignorable, line_break_ignorable, line_break_ignorable⟩
    · subst hps
      exact ⟨WellNested.elem mode_pattern [] [] WellNested.nil WellNested.nil, by decide,
        by decide, by decide, Or.inr rfl,
        line_break_ignorable, line_break_ignorable, line_break_ignorable, line_break_ignorable⟩

/-! ### The bodies of the model are properly nested -/

theorem WellNested.append {a b : List Event} (ha : WellNested a) (hb : WellNested b) :
    WellNested (a ++ b) := by
  induction ha with
  | nil => exact hb
  | text t rest _ ih => exact WellNested.text t _ ih
  | elem name inner rest hi _ _ ih =>
    have e : Event.start_elem name :: (inner ++ Event.end_elem name :: rest) ++ b
        = Event.start_elem name :: (inner ++ Event.end_elem name :: (rest ++ b)) := by
      simp
    rw [e]
    exact WellNested.elem name inner _ hi ih

theorem Ignorable.well_nested {l : List Event} (h : Ignorable l) : WellNested l := by
  induction h with
  | nil => exact WellNested.nil
  | text t rest _ ih => exact WellNested.text t rest ih
  | elem name inner rest _ _ _ ih1 ih2 => exact WellNested.elem name inner rest ih1 ih2

theorem well_nested_chunks (chunks : List (List Char)) :
    WellNested (chunks.map Event.cdata) := by
  induction chunks with
  | nil => exact WellNested.nil
  | cons t rest ih => exact WellNested.text t _ ih

theorem well_nested_flatten (ls : List (List Event)) (h : ∀ l ∈ ls, WellNested l) :
    WellNested ls.flatten := by
  induction ls with
  | nil => exact WellNested.nil
  | cons l rest ih =>
    rw [List.flatten_cons]
    exact WellNested.append (h l (List.mem_cons_self _ _))
      (ih fun x hx => h x (List.mem_cons_of_mem _ hx))

theorem propstat_events_well_nested (ps : PropStat) (hw : ps.well_formed) :
    WellNested ps.events := by
  obtain ⟨w1, _, _, _, _, i1, i2, i3, i4⟩ := hw
  have hs : WellNested (Event.start_elem status_pattern ::
      ([Event.cdata ps.status_text] ++ Event.end_elem status_pattern ::
        (ps.after_status ++ []))) :=
    WellNested.elem _ _ _ (WellNested.text _ _ WellNested.nil)
      (WellNested.append i3.well_nested WellNested.nil)
  have hp : WellNested (Event.start_elem prop_pattern ::
      (ps.prop_content ++ Event.end_elem prop_pattern ::
        (ps.before_status ++ (Event.start_elem status_pattern ::
          ([Event.cdata ps.status_text] ++ Event.end_elem status_pattern ::
            (ps.after_status ++ [])))))) :=
    WellNested.elem _ _ _ w1 (WellNested.append i2.well_nested hs)
  have hall := WellNested.elem propstat_pattern _ _ (WellNested.append i1.well_nested hp)
    i4.well_nested
  have e : ps.events = Event.start_elem propstat_pattern ::
      ((ps.before_prop ++ (Event.start_elem prop_pattern ::
        (ps.prop_content ++ Event.end_elem prop_pattern ::
          (ps.before_status ++ (Event.start_elem status_pattern ::
            ([Event.cdata ps.status_text] ++ Event.end_elem status_pattern ::
              (ps.after_status ++ []))))))) ++ Event.end_elem propstat_pattern :: ps.after) := by
    simp [PropStat.events]
  rw [e]
  exact hall

theorem response_events_well_nested (r : Response) (hw : r.well_formed) :
    WellNested r.events := by
  obtain ⟨i1, i2, i3, hps⟩ := hw
  have hp : WellNested (r.propstats.map PropStat.events).flatten :=
    well_nested_flatten _ (by
      intro l hl
      obtain ⟨ps, hps1, rfl⟩ := List.mem_map.mp hl
      exact propstat_events_well_nested ps (hps ps hps1))
  have hh : WellNested (Event.start_elem href_pattern ::
      (r.href.map Event.cdata ++ Event.end_elem href_pattern ::
        (r.after_href ++ (r.propstats.map PropStat.events).flatten))) :=
    WellNested.elem _ _ _ (well_nested_chunks r.href) (WellNested.append i2.well_nested hp)
  have hall := WellNested.elem response_pattern _ _ (WellNested.append i1.well_nested hh)
    i3.well_nested
  have e : r.events = Event.start_elem response_pattern ::
      ((r.before_href ++ (Event.start_elem href_pattern ::
        (r.href.map Event.cdata ++ Event.end_elem href_pattern ::
          (r.after_href ++ (r.propstats.map PropStat.events).flatten)))) ++
        Event.end_elem response_pattern :: r.after) := by
    simp [Response.events]
  rw [e]
  exact hall

/-- The events of a well-formed multi-status body are properly nested. -/
theorem multistatus_events_well_nested (doc : Body) (hw : well_formed doc) :
    WellNested (multistatus_events doc) := by
  have hr : WellNested (doc.responses.map Response.events).flatten :=
    well_nested_flatten _ (by
      intro l hl
      obtain ⟨r, hr1, rfl⟩ := List.mem_map.mp hl
      exact response_events_well_nested r (hw.2 r hr1))
  have hall := WellNested.elem multistatus_name _ [] (WellNested.append hw.1.well_nested hr)
    WellNested.nil
  have e : multistatus_events doc = Event.start_elem multistatus_name ::
      ((doc.before ++ (doc.responses.map Response.events).flatten) ++
        [Event.end_elem multistatus_name]) := by
    simp [multistatus_events]
  rw [e]
  exact hall

theorem split_status_events_well_nested : WellNested split_status_events :=
  WellNested.elem multistatus_name _ []
    (WellNested.elem response_pattern _ []
      (WellNested.elem href_pattern [Event.cdata "/a/b/c/".toList] _
        (WellNested.text _ _ WellNested.nil)
        (WellNested.elem propstat_pattern
          [Event.start_elem prop_pattern, Event.end_elem prop_pattern,
           Event.start_elem status_pattern, Event.cdata "HTTP/1.1 2".toList,
           Event.cdata "00 OK".toList, Event.end_elem status_pattern] []
          (WellNested.elem prop_pattern [] _ WellNested.nil
            (WellNested.elem status_pattern
              [Event.cdata "HTTP/1.1 2".toList, Event.cdata "00 OK".toList] []
              (WellNested.text _ _ (WellNested.text _ _ WellNested.nil)) WellNested.nil))
          WellNested.nil))
      WellNested.nil)
    WellNested.nil

theorem status_first_events_well_nested : WellNested status_first_events :=
  WellNested.elem multistatus_name _ []
    (WellNested.elem response_pattern _ []
      (WellNested.elem href_pattern [Event.cdata "/a/b/c/".toList] _
        (WellNested.text _ _ WellNested.nil)
        (WellNested.elem propstat_pattern
          [Event.start_elem status_pattern, Event.cdata "HTTP/1.1 200 OK".toList,
           Event.end_elem status_pattern, Event.start_elem prop_pattern,
           Event.end_elem prop_pattern] []
          (WellNested.elem status_pattern [Event.cdata "HTTP/1.1 200 OK".toList] _
            (WellNested.text _ _ WellNested.nil)
            (WellNested.elem prop_pattern [] [] WellNested.nil WellNested.nil))
          WellNested.nil))
      WellNested.nil)
    WellNested.nil

set_option maxRecDepth 16000 in
/-- C1, as stated, fails, on three properly nested multi-status bodies that
are parsed without error. A body of one `response` element holding two
`propstat` elements of status 200 gives two records, while it has a single
response element (whose status lies in the accepted range). A body of one
response whose status line `HTTP/1.1 200 OK` arrives in the two chunks
`HTTP/1.1 2` and `00 OK` gives no record: each chunk is parsed by itself and
the second one leaves status 0. A body of one response whose `propstat` holds
the `status` element (200) before the `prop` element gives no record: the
start of `prop` renews the in-progress record. -/
theorem records_per_response_counterexample :
    (well_formed two_propstat_doc ∧
      WellNested (multistatus_events two_propstat_doc) ∧
      two_propstat_doc.responses.length = 1 ∧
      responses_in_range two_propstat_doc = 1 ∧
      (run_events reject_date DavPropXMLParser.new (multistatus_events two_propstat_doc)).map
        (fun p => (p.err, p._props.length)) = some (none, 2)) ∧
    (WellNested split_status_events ∧
      (run_events reject_date DavPropXMLParser.new split_status_events).map
        (fun p => (p.err, p._props.length, p._current_props.req_status)) = some (none, 0, 0)) ∧
    (WellNested status_first_events ∧
      (run_events reject_date DavPropXMLParser.new status_first_events).map
        (fun p => (p.err, p._props.length, p._current_props.req_status)) = some (none, 0, 0)) :=
  ⟨⟨two_propstat_doc_well_formed,
      multistatus_events_well_nested _ two_propstat_doc_well_formed, by decide, by decide,
      by decide⟩,
    ⟨split_status_events_well_nested, by decide⟩,
    ⟨status_first_events_well_nested, by decide⟩⟩

/-- C1 (amended): for every multi-status body in which each `response` element
holds an `href` element followed by `propstat` elements, each `propstat` holds
a `prop` element (with any properly nested content) followed by a `status`
element whose status line `protocol code tail` arrives as one chunk of
character data, and nothing but character data and elements of unrecognized
names stands between these elements, fed to a freshly constructed parser
without error: the result sequence holds one record for each `propstat`
element whose status code is strictly between 100 and 400, in document order.
The number of records is the number of such `propstat` elements, and no
record with a status outside that range is in the result. -/
theorem records_match_propstats (pd : CStr → Int) (doc : Body) (q : DavPropXMLParser)
    (hw : well_formed doc)
    (h : run_events pd DavPropXMLParser.new (multistatus_events doc) = some q) :
    q._props.length = ((propstat_codes doc).filter status_in_range).length ∧
    q._props.map (fun r => r.req_status) = (propstat_codes doc).filter status_in_range ∧
    ∀ r ∈ q._props, 100 < r.req_status ∧ r.req_status < 400 := by
  have key := run_events_multistatus pd doc hw q h
  refine ⟨?_, key, ?_⟩
  · rw [← key, List.length_map]
  · intro r hr
    have hm : r.req_status ∈ q._props.map (fun r => r.req_status) :=
      List.mem_map_of_mem _ hr
    rw [key] at hm
    have := (List.mem_filter.mp hm).2
    simpa [status_in_range] using this

set_option maxRecDepth 16000 in
/-- C1 (amended) on examples: one response with an href and one `propstat`
holding a `prop` and the status `HTTP/1.1 200 OK` gives exactly one record;
an indented body with line breaks between its elements, the href text in two
chunks, an unknown element, a `propstat` of status 200 and one of status 404
gives the record of status 200 only. -/
theorem records_match_propstats_witness :
    ((state_after (multistatus_events one_response_doc))._props.length = 1 ∧
      (state_after (multistatus_events one_response_doc))._props.map (fun r => r.req_status)
        = [200]) ∧
    (propstat_codes indented_doc = [200, 404] ∧
      (state_after (multistatus_events indented_doc))._props.map (fun r => r.req_status)
        = [200]) :=
  ⟨⟨(records_match_propstats reject_date one_response_doc
      (state_after (multistatus_events one_response_doc)) one_response_doc_well_formed
      (by decide)).1.trans (by decide),
    (records_match_propstats reject_date one_response_doc
      (state_after (multistatus_events one_response_doc)) one_response_doc_well_formed
      (by decide)).2.1.trans (by decide)⟩,
    ⟨by decide,
      (records_match_propstats reject_date indented_doc
        (state_after (multistatus_events indented_doc)) indented_doc_well_formed
        (by decide)).2.1.trans (by decide)⟩⟩

/-! ## Properties kept by every statement of a callback -/

/-- A property of the parser object kept by every scope statement holds at an
early return of `parserStartElemCb` and when it reaches `check_is_directory`. -/
theorem parserStartElemCb_frame (Inv : DavPropXMLParser → Prop) (name : CStr)
    (hstep : ∀ (k : Scope) (q : DavPropXMLParser), Inv q → Inv (add_scope_call k q name).2)
    (p : DavPropXMLParser) (hp : Inv p) :
    ((parserStartElemCb p name).1 = -1 ∧ Inv (parserStartElemCb p name).2) ∨
    ∃ (q : DavPropXMLParser) (new_prop : Bool), Inv q ∧ q.err = none ∧
      (new_prop = true → match_element name prop_pattern = true) ∧
      parserStartElemCb p name = start_tail q name new_prop := by
  unfold parserStartElemCb
  have i1 := hstep Scope.propname_section _ hp
  refine report_error_rule (fun r => (r.1 = -1 ∧ Inv r.2) ∨ ∃ (q : DavPropXMLParser) (new_prop : Bool),
    Inv q ∧ q.err = none ∧ (new_prop = true → match_element name prop_pattern = true) ∧
      r = start_tail q name new_prop) _ _
    (fun _ => Or.inl ⟨rfl, i1⟩) (fun e1 => ?_)
  have i2 := hstep Scope.prop_section _ i1
  refine report_error_rule (fun r => (r.1 = -1 ∧ Inv r.2) ∨ ∃ (q : DavPropXMLParser) (new_prop : Bool),
    Inv q ∧ q.err = none ∧ (new_prop = true → match_element name prop_pattern = true) ∧
      r = start_tail q name new_prop) _ _
    (fun _ => Or.inl ⟨rfl, i2⟩) (fun e2 => ?_)
  have hnp := add_scope_call_fst Scope.prop_section
    (add_scope_call Scope.propname_section p name).2 name
  have i3 := hstep Scope.status_section _ i2
  refine report_error_rule (fun r => (r.1 = -1 ∧ Inv r.2) ∨ ∃ (q : DavPropXMLParser) (new_prop : Bool),
    Inv q ∧ q.err = none ∧ (new_prop = true → match_element name prop_pattern = true) ∧
      r = start_tail q name new_prop) _ _
    (fun _ => Or.inl ⟨rfl, i3⟩) (fun e3 => ?_)
  have i4 := hstep Scope.response_section _ i3
  refine report_error_rule (fun r => (r.1 = -1 ∧ Inv r.2) ∨ ∃ (q : DavPropXMLParser) (new_prop : Bool),
    Inv q ∧ q.err = none ∧ (new_prop = true → match_element name prop_pattern = true) ∧
      r = start_tail q name new_prop) _ _
    (fun _ => Or.inl ⟨rfl, i4⟩) (fun e4 => ?_)
  have i5 := hstep Scope.lastmod_section _ i4
  refine report_error_rule (fun r => (r.1 = -1 ∧ Inv r.2) ∨ ∃ (q : DavPropXMLParser) (new_prop : Bool),
    Inv q ∧ q.err = none ∧ (new_prop = true → match_element name prop_pattern = true) ∧
      r = start_tail q name new_prop) _ _
    (fun _ => Or.inl ⟨rfl, i5⟩) (fun e5 => ?_)
  have i6 := hstep Scope.creatdate_section _ i5
  refine report_error_rule (fun r => (r.1 = -1 ∧ Inv r.2) ∨ ∃ (q : DavPropXMLParser) (new_prop : Bool),
    Inv q ∧ q.err = none ∧ (new_prop = true → match_element name prop_pattern = true) ∧
      r = start_tail q name new_prop) _ _
    (fun _ => Or.inl ⟨rfl, i6⟩) (fun e6 => ?_)
  have i7 := hstep Scope.contentlength_section _ i6
  refine report_error_rule (fun r => (r.1 = -1 ∧ Inv r.2) ∨ ∃ (q : DavPropXMLParser) (new_prop : Bool),
    Inv q ∧ q.err = none ∧ (new_prop = true → match_element name prop_pattern = true) ∧
      r = start_tail q name new_prop) _ _
    (fun _ => Or.inl ⟨rfl, i7⟩) (fun e7 => ?_)
  have i8 := hstep Scope.mode_ext_section _ i7
  refine report_error_rule (fun r => (r.1 = -1 ∧ Inv r.2) ∨ ∃ (q : DavPropXMLParser) (new_prop : Bool),
    Inv q ∧ q.err = none ∧ (new_prop = true → match_element name prop_pattern = true) ∧
      r = start_tail q name new_prop) _ _
    (fun _ => Or.inl ⟨rfl, i8⟩) (fun e8 => ?_)
  have i9 := hstep Scope.href_section _ i8
  refine report_error_rule (fun r => (r.1 = -1 ∧ Inv r.2) ∨ ∃ (q : DavPropXMLParser) (new_prop : Bool),
    Inv q ∧ q.err = none ∧ (new_prop = true → match_element name prop_pattern = true) ∧
      r = start_tail q name new_prop) _ _
    (fun _ => Or.inl ⟨rfl, i9⟩) (fun e9 => ?_)
  have i10 := hstep Scope.resource_type _ i9
  refine report_error_rule (fun r => (r.1 = -1 ∧ Inv r.2) ∨ ∃ (q : DavPropXMLParser) (new_prop : Bool),
    Inv q ∧ q.err = none ∧ (new_prop = true → match_element name prop_pattern = true) ∧
      r = start_tail q name new_prop) _ _
    (fun _ => Or.inl ⟨rfl, i10⟩) (fun e10 => ?_)
  exact Or.inr ⟨_, _, i10, e10, hnp, rfl⟩

/-- A property of the parser object kept by every scope statement holds at an
early return of `parserEndElemCb` and when it reaches `store_new_elem`. -/
theorem parserEndElemCb_frame (Inv : DavPropXMLParser → Prop) (name : CStr)
    (hstep : ∀ (k : Scope) (q : DavPropXMLParser), Inv q → Inv (remove_scope_call k q name).2)
    (p : DavPropXMLParser) (hp : Inv p) :
    ((parserEndElemCb p name).1 = -1 ∧ Inv (parserEndElemCb p name).2) ∨
    ∃ (q : DavPropXMLParser) (end_prop : Bool), Inv q ∧ q.err = none ∧
      (end_prop = true → match_element name propstat_pattern = true) ∧
      parserEndElemCb p name = if end_prop then store_new_elem q else (0, q) := by
  unfold parserEndElemCb
  have hnp := remove_scope_call_fst Scope.propname_section p name
  have i1 := hstep Scope.propname_section _ hp
  refine report_error_rule (fun r => (r.1 = -1 ∧ Inv r.2) ∨ ∃ (q : DavPropXMLParser) (end_prop : Bool),
    Inv q ∧ q.err = none ∧ (end_prop = true → match_element name propstat_pattern = true) ∧
      r = if end_prop then store_new_elem q else (0, q)) _ _
    (fun _ => Or.inl ⟨rfl, i1⟩) (fun e1 => ?_)
  have i2 := hstep Scope.prop_section _ i1
  refine report_error_rule (fun r => (r.1 = -1 ∧ Inv r.2) ∨ ∃ (q : DavPropXMLParser) (end_prop : Bool),
    Inv q ∧ q.err = none ∧ (end_prop = true → match_element name propstat_pattern = true) ∧
      r = if end_prop then store_new_elem q else (0, q)) _ _
    (fun _ => Or.inl ⟨rfl, i2⟩) (fun e2 => ?_)
  have i3 := hstep Scope.status_section _ i2
  refine report_error_rule (fun r => (r.1 = -1 ∧ Inv r.2) ∨ ∃ (q : DavPropXMLParser) (end_prop : Bool),
    Inv q ∧ q.err = none ∧ (end_prop = true → match_element name propstat_pattern = true) ∧
      r = if end_prop then store_new_elem q else (0, q)) _ _
    (fun _ => Or.inl ⟨rfl, i3⟩) (fun e3 => ?_)
  have i4 := hstep Scope.response_section _ i3
  refine report_error_rule (fun r => (r.1 = -1 ∧ Inv r.2) ∨ ∃ (q : DavPropXMLParser) (end_prop : Bool),
    Inv q ∧ q.err = none ∧ (end_prop = true → match_element name propstat_pattern = true) ∧
      r = if end_prop then store_new_elem q else (0, q)) _ _
    (fun _ => Or.inl ⟨rfl, i4⟩) (fun e4 => ?_)
  have i5 := hstep Scope.lastmod_section _ i4
  refine report_error_rule (fun r => (r.1 = -1 ∧ Inv r.2) ∨ ∃ (q : DavPropXMLParser) (end_prop : Bool),
    Inv q ∧ q.err = none ∧ (end_prop = true → match_element name propstat_pattern = true) ∧
      r = if end_prop then store_new_elem q else (0, q)) _ _
    (fun _ => Or.inl ⟨rfl, i5⟩) (fun e5 => ?_)
  have i6 := hstep Scope.creatdate_section _ i5
  refine report_error_rule (fun r => (r.1 = -1 ∧ Inv r.2) ∨ ∃ (q : DavPropXMLParser) (end_prop : Bool),
    Inv q ∧ q.err = none ∧ (end_prop = true → match_element name propstat_pattern = true) ∧
      r = if end_prop then store_new_elem q else (0, q)) _ _
    (fun _ => Or.inl ⟨rfl, i6⟩) (fun e6 => ?_)
  have i7 := hstep Scope.contentlength_section _ i6
  refine report_error_rule (fun r => (r.1 = -1 ∧ Inv r.2) ∨ ∃ (q : DavPropXMLParser) (end_prop : Bool),
    Inv q ∧ q.err = none ∧ (end_prop = true → match_element name propstat_pattern = true) ∧
      r = if end_prop then store_new_elem q else (0, q)) _ _
    (fun _ => Or.inl ⟨rfl, i7⟩) (fun e7 => ?_)
  have i8 := hstep Scope.mode_ext_section _ i7
  refine report_error_rule (fun r => (r.1 = -1 ∧ Inv r.2) ∨ ∃ (q : DavPropXMLParser) (end_prop : Bool),
    Inv q ∧ q.err = none ∧ (end_prop = true → match_element name propstat_pattern = true) ∧
      r = if end_prop then store_new_elem q else (0, q)) _ _
    (fun _ => Or.inl ⟨rfl, i8⟩) (fun e8 => ?_)
  have i9 := hstep Scope.href_section _ i8
  refine report_error_rule (fun r => (r.1 = -1 ∧ Inv r.2) ∨ ∃ (q : DavPropXMLParser) (end_prop : Bool),
    Inv q ∧ q.err = none ∧ (end_prop = true → match_element name propstat_pattern = true) ∧
      r = if end_prop then store_new_elem q else (0, q)) _ _
    (fun _ => Or.inl ⟨rfl, i9⟩) (fun e9 => ?_)
  have i10 := hstep Scope.resource_type _ i9
  refine report_error_rule (fun r => (r.1 = -1 ∧ Inv r.2) ∨ ∃ (q : DavPropXMLParser) (end_prop : Bool),
    Inv q ∧ q.err = none ∧ (end_prop = true → match_element name propstat_pattern = true) ∧
      r = if end_prop then store_new_elem q else (0, q)) _ _
    (fun _ => Or.inl ⟨rfl, i10⟩) (fun e10 => ?_)
  exact Or.inr ⟨_, (remove_scope_call Scope.propname_section p name).1, i10, e10, hnp, rfl⟩

/-- A property of the parser object kept by every field check holds after
`parserCdataCb`, whatever its result; the result is 0 or -1, and 0 only with
an empty error slot. -/
theorem parserCdataCb_frame (Inv : DavPropXMLParser → Prop) (pd : CStr → Int)
    (cdata : List Char)
    (h1 : ∀ q, Inv q → Inv (check_last_modified pd q (c_str cdata)).2)
    (h2 : ∀ q, Inv q → Inv (check_creation_date pd q (c_str cdata)).2)
    (h3 : ∀ q, Inv q → Inv (check_content_length q (c_str cdata)).2)
    (h4 : ∀ q, Inv q → Inv (check_mode_ext q (c_str cdata)).2)
    (h5 : ∀ q, Inv q → Inv (check_href q (c_str cdata)).2)
    (h6 : ∀ q, Inv q → Inv (check_status q (c_str cdata)).2)
    (p : DavPropXMLParser) (hp : Inv p) :
    Inv (parserCdataCb pd p cdata).2 ∧
    ((parserCdataCb pd p cdata).1 = -1 ∨
      ((parserCdataCb pd p cdata).1 = 0 ∧ (parserCdataCb pd p cdata).2.err = none)) := by
  unfold parserCdataCb
  have i1 := h1 _ hp
  refine report_error_rule (fun r => Inv r.2 ∧ (r.1 = -1 ∨ (r.1 = 0 ∧ r.2.err = none))) _ _
    (fun _ => ⟨i1, Or.inl rfl⟩) (fun e1 => ?_)
  have i2 := h2 _ i1
  refine report_error_rule (fun r => Inv r.2 ∧ (r.1 = -1 ∨ (r.1 = 0 ∧ r.2.err = none))) _ _
    (fun _ => ⟨i2, Or.inl rfl⟩) (fun e2 => ?_)
  have i3 := h3 _ i2
  refine report_error_rule (fun r => Inv r.2 ∧ (r.1 = -1 ∨ (r.1 = 0 ∧ r.2.err = none))) _ _
    (fun _ => ⟨i3, Or.inl rfl⟩) (fun e3 => ?_)
  have i4 := h4 _ i3
  refine report_error_rule (fun r => Inv r.2 ∧ (r.1 = -1 ∨ (r.1 = 0 ∧ r.2.err = none))) _ _
    (fun _ => ⟨i4, Or.inl rfl⟩) (fun e4 => ?_)
  have i5 := h5 _ i4
  refine report_error_rule (fun r => Inv r.2 ∧ (r.1 = -1 ∨ (r.1 = 0 ∧ r.2.err = none))) _ _
    (fun _ => ⟨i5, Or.inl rfl⟩) (fun e5 => ?_)
  have i6 := h6 _ i5
  refine report_error_rule (fun r => Inv r.2 ∧ (r.1 = -1 ∨ (r.1 = 0 ∧ r.2.err = none))) _ _
    (fun _ => ⟨i6, Or.inl rfl⟩) (fun e6 => ?_)
  exact ⟨i6, Or.inr ⟨rfl, e6⟩⟩

/-! ## Closing a closed scope; unrecognized elements -/

theorem remove_scope_call_missing (k : Scope) (p : DavPropXMLParser)
    (h_flag : k.flag p = false) (h_enter : k.enter_condition p = true)
    (h_skip : k.skip_condition p = false) :
    remove_scope_call k p k.pattern
      = (false, { p with err := some (not_opened_error k.pattern) }) := by
  cases k <;>
  simp_all [remove_scope_call, remove_scope, match_element_pattern, Scope.flag, Scope.set_flag,
    setupError, not_opened_error]

/-- C11: closing a scope that is not open fails. For each of the ten scope
elements whose flag is false, an end-element event of that element's name
whose enter condition holds and whose skip condition does not returns -1,
leaves an error in the error slot (with no error pending before, the
properties-parsing error naming the element), leaves the flag false and leaves
the result sequence as it was. -/
theorem closing_closed_scope_fails (k : Scope) (p : DavPropXMLParser)
    (h_flag : k.flag p = false) (h_enter : k.enter_condition p = true)
    (h_skip : k.skip_condition p = false) :
    (parserEndElemCb p k.pattern).1 = -1 ∧
    k.flag (parserEndElemCb p k.pattern).2 = false ∧
    (parserEndElemCb p k.pattern).2._props = p._props ∧
    (parserEndElemCb p k.pattern).2.err.isSome = true ∧
    (p.err = none → (parserEndElemCb p k.pattern).2.err
      = some { code := StatusCode.WebDavPropertiesParsingError,
               msg := scope_error_msg k.pattern "not opended before" }) := by
  have hd := remove_scope_call_missing k p h_flag h_enter h_skip
  cases h : p.err with
  | some e =>
    cases k <;>
    simp [parserEndElemCb, DAVIX_XML_REPORT_ERROR, remove_scope_call_other, hd, h, h_flag,
      Scope.flag_with_err]
  | none =>
    cases k <;>
    simp [parserEndElemCb, DAVIX_XML_REPORT_ERROR, remove_scope_call_other, hd, h, h_flag,
      Scope.flag_with_err, not_opened_error]

/-- C11 on the example: an end `response` on a freshly constructed parser. -/
theorem closing_closed_scope_fails_witness :
    (parserEndElemCb DavPropXMLParser.new response_pattern).1 = -1 ∧
    (parserEndElemCb DavPropXMLParser.new response_pattern).2.response_section = false ∧
    (parserEndElemCb DavPropXMLParser.new response_pattern).2._props = [] ∧
    (parserEndElemCb DavPropXMLParser.new response_pattern).2.err
      = some (not_opened_error response_pattern) :=
  ⟨(closing_closed_scope_fails Scope.response_section DavPropXMLParser.new rfl rfl rfl).1,
    (closing_closed_scope_fails Scope.response_section DavPropXMLParser.new rfl rfl rfl).2.1,
    (closing_closed_scope_fails Scope.response_section DavPropXMLParser.new rfl rfl rfl).2.2.1,
    (closing_closed_scope_fails Scope.response_section DavPropXMLParser.new rfl rfl
      rfl).2.2.2.2 rfl⟩

/-- C12: unrecognized elements are ignored. In every parser state with no
pending error, for every element name other than the eleven recognized names,
the start-element callback returns 1, the end-element callback returns 0, and
both leave the whole parser object (scope flags, in-progress record,
remembered filename, result sequence, error slot) as it was. -/
theorem unrecognized_element_ignored (p : DavPropXMLParser) (name : CStr)
    (h_err : p.err = none) (h : name ∉ recognized_names) :
    parserStartElemCb p name = (1, p) ∧ parserEndElemCb p name = (0, p) :=
  ⟨parserStartElemCb_unknown p name h_err (not_recognized_no_match name h).1
      (not_recognized_no_match name h).2,
    parserEndElemCb_unknown p name h_err (not_recognized_no_match name h).1⟩

/-- C12 on an example: a `displayname` element inside `response/propstat/prop`. -/
theorem unrecognized_element_ignored_witness :
    parserStartElemCb state_in_prop "displayname".toList = (1, state_in_prop) ∧
    parserEndElemCb state_in_prop "displayname".toList = (0, state_in_prop) :=
  unrecognized_element_ignored state_in_prop "displayname".toList (by decide) (by decide)

/-! ## Skip conditions -/

theorem add_scope_call_skipped (k : Scope) (p : DavPropXMLParser) (name : CStr)
    (h : k.enter_condition p = false ∨ k.skip_condition p = true) :
    add_scope_call k p name = (false, p) := by
  rcases h with h | h <;> cases k <;>
  simp_all [add_scope_call, add_scope, Scope.flag, Scope.set_flag]

theorem remove_scope_call_skipped (k : Scope) (p : DavPropXMLParser) (name : CStr)
    (h : k.enter_condition p = false ∨ k.skip_condition p = true) :
    remove_scope_call k p name = (false, p) := by
  rcases h with h | h <;> cases k <;>
  simp_all [remove_scope_call, remove_scope, Scope.flag, Scope.set_flag]

/-- A start-element event for a scope element whose enter condition fails or
whose skip condition holds changes nothing. -/
theorem parserStartElemCb_skipped (k : Scope) (p : DavPropXMLParser) (h_err : p.err = none)
    (h : k.enter_condition p = false ∨ k.skip_condition p = true) :
    parserStartElemCb p k.pattern = (1, p) := by
  have hs := add_scope_call_skipped k p k.pattern h
  have hd := check_is_directory_no_match p k.pattern h_err (Scope.pattern_ne_collection k)
  cases k <;>
  simp [parserStartElemCb, DAVIX_XML_REPORT_ERROR, add_scope_call_other, hs, h_err, hd]

/-- An end-element event for a scope element whose enter condition fails or
whose skip condition holds changes nothing. -/
theorem parserEndElemCb_skipped (k : Scope) (p : DavPropXMLParser) (h_err : p.err = none)
    (h : k.enter_condition p = false ∨ k.skip_condition p = true) :
    parserEndElemCb p k.pattern = (0, p) := by
  have hs := remove_scope_call_skipped k p k.pattern h
  cases k <;>
  simp [parserEndElemCb, DAVIX_XML_REPORT_ERROR, remove_scope_call_other, hs, h_err]

/-- What `check_status` can do to the parser object: nothing, set the error
slot, or set the status of the in-progress record. -/
theorem check_status_cases (p : DavPropXMLParser) (s : CStr) :
    (check_status p s).2 = p ∨
    (∃ e, (check_status p s).2 = { p with err := some e }) ∨
    (∃ r, (check_status p s).2
      = { p with _current_props := { p._current_props with req_status := r } }) := by
  unfold check_status
  by_cases hc : (p.response_section && p.propname_section && p.status_section) = true
  · simp only [hc, if_true]
    cases strchr (List.dropWhile (fun c => c == ' ') s) ' ' with
    | none => exact Or.inr (Or.inl ⟨_, rfl⟩)
    | some i =>
      simp only []
      split
      · exact Or.inr (Or.inr ⟨_, rfl⟩)
      · exact Or.inr (Or.inl ⟨_, rfl⟩)
  · simp [hc]

/-- With the href scope closed, character data never changes the remembered
filename. -/
theorem parserCdataCb_filename (pd : CStr → Int) (p : DavPropXMLParser) (cdata : List Char)
    (h : p.href_section = false) :
    (parserCdataCb pd p cdata).2.last_filename = p.last_filename := by
  have key := (parserCdataCb_frame
    (fun q => q.href_section = false ∧ q.last_filename = p.last_filename) pd cdata
    (fun q hq => by
      have k := check_last_modified_keeps pd q (c_str cdata)
      exact ⟨k.2.2.2.2.2.2.2.1.trans hq.1, k.2.2.2.2.2.2.2.2.2.2.2.1.trans hq.2⟩)
    (fun q hq => by
      have k := check_creation_date_keeps pd q (c_str cdata)
      exact ⟨k.2.2.2.2.2.2.2.1.trans hq.1, k.2.2.2.2.2.2.2.2.2.2.2.1.trans hq.2⟩)
    (fun q hq => by
      have k := check_content_length_keeps q (c_str cdata)
      exact ⟨k.2.2.2.2.2.2.2.1.trans hq.1, k.2.2.2.2.2.2.2.2.2.2.2.1.trans hq.2⟩)
    (fun q hq => by
      have k := check_mode_ext_keeps q (c_str cdata)
      exact ⟨k.2.2.2.2.2.2.2.1.trans hq.1, k.2.2.2.2.2.2.2.2.2.2.2.1.trans hq.2⟩)
    (fun q hq => by rw [check_href_closed q _ hq.1]; exact hq)
    (fun q hq => by
      rcases check_status_cases q (c_str cdata) with e | ⟨_, e⟩ | ⟨_, e⟩ <;> rw [e] <;> exact hq)
    p ⟨h, rfl⟩).1
  exact key.2

/-- With the status scope closed, character data never changes the status of
the in-progress record. -/
theorem parserCdataCb_req_status (pd : CStr → Int) (p : DavPropXMLParser) (cdata : List Char)
    (h : p.status_section = false) :
    (parserCdataCb pd p cdata).2._current_props.req_status = p._current_props.req_status := by
  have key := (parserCdataCb_frame
    (fun q => q.status_section = false ∧
      q._current_props.req_status = p._current_props.req_status) pd cdata
    (fun q hq => by
      have k := check_last_modified_keeps pd q (c_str cdata)
      exact ⟨k.2.2.2.2.2.2.2.2.2.1.trans hq.1, k.2.2.2.2.2.2.2.2.2.2.2.2.trans hq.2⟩)
    (fun q hq => by
      have k := check_creation_date_keeps pd q (c_str cdata)
      exact ⟨k.2.2.2.2.2.2.2.2.2.1.trans hq.1, k.2.2.2.2.2.2.2.2.2.2.2.2.trans hq.2⟩)
    (fun q hq => by
      have k := check_content_length_keeps q (c_str cdata)
      exact ⟨k.2.2.2.2.2.2.2.2.2.1.trans hq.1, k.2.2.2.2.2.2.2.2.2.2.2.2.trans hq.2⟩)
    (fun q hq => by
      have k := check_mode_ext_keeps q (c_str cdata)
      exact ⟨k.2.2.2.2.2.2.2.2.2.1.trans hq.1, k.2.2.2.2.2.2.2.2.2.2.2.2.trans hq.2⟩)
    (fun q hq => by
      obtain ⟨f, e⟩ := check_href_frame q (c_str cdata)
      rw [e]
      exact hq)
    (fun q hq => by rw [check_status_closed q _ hq.1]; exact hq)
    p ⟨h, rfl⟩).1
  exact key.2

set_option maxRecDepth 16000 in
/-- C13, as stated, fails: inside `response/propstat/href/prop` the prop scope
is open, a nested `href` start succeeds and changes nothing, and yet the
character data `/x/y` of the nested element changes the remembered filename
from the empty name to `y`; inside `response/propstat/status/prop` the
character data `HTTP/1.1 404 Not Found` of a nested `status` element changes
`req_status` from 0 to 404. -/
theorem nested_text_counterexample :
    state_in_href_prop.err = none ∧ state_in_href_prop.prop_section = true ∧
    parserStartElemCb state_in_href_prop href_pattern = (1, state_in_href_prop) ∧
    state_in_href_prop.last_filename = [] ∧
    (parserCdataCb reject_date state_in_href_prop "/x/y".toList).1 = 0 ∧
    (parserCdataCb reject_date state_in_href_prop "/x/y".toList).2.last_filename = "y".toList ∧
    state_in_status_prop.err = none ∧ state_in_status_prop.prop_section = true ∧
    parserStartElemCb state_in_status_prop status_pattern = (1, state_in_status_prop) ∧
    state_in_status_prop._current_props.req_status = 0 ∧
    (parserCdataCb reject_date state_in_status_prop
      "HTTP/1.1 404 Not Found".toList).2._current_props.req_status = 404 := by
  decide

/-- C13 (amended): in every parser state with no pending error in which the
prop scope is open, start-element and end-element events named `href` or
`status` succeed and change nothing (in particular not the href or status
flag), and so do events named `response` when the propstat scope is open too;
character data does not change the remembered filename while the href scope is
closed, and does not change `req_status` while the status scope is closed. -/
theorem nested_names_skipped (pd : CStr → Int) (p : DavPropXMLParser) (cdata : List Char)
    (h_err : p.err = none) (h_prop : p.prop_section = true) :
    parserStartElemCb p href_pattern = (1, p) ∧ parserEndElemCb p href_pattern = (0, p) ∧
    parserStartElemCb p status_pattern = (1, p) ∧ parserEndElemCb p status_pattern = (0, p) ∧
    (p.propname_section = true →
      parserStartElemCb p response_pattern = (1, p) ∧
      parserEndElemCb p response_pattern = (0, p)) ∧
    (p.href_section = false →
      (parserCdataCb pd p cdata).2.last_filename = p.last_filename) ∧
    (p.status_section = false →
      (parserCdataCb pd p cdata).2._current_props.req_status = p._current_props.req_status) :=
  ⟨parserStartElemCb_skipped Scope.href_section p h_err (Or.inr h_prop),
    parserEndElemCb_skipped Scope.href_section p h_err (Or.inr h_prop),
    parserStartElemCb_skipped Scope.status_section p h_err (Or.inr h_prop),
    parserEndElemCb_skipped Scope.status_section p h_err (Or.inr h_prop),
    fun h_ps =>
      ⟨parserStartElemCb_skipped Scope.response_section p h_err
          (Or.inr (by simp [Scope.skip_condition, h_prop, h_ps])),
        parserEndElemCb_skipped Scope.response_section p h_err
          (Or.inr (by simp [Scope.skip_condition, h_prop, h_ps]))⟩,
    parserCdataCb_filename pd p cdata, parserCdataCb_req_status pd p cdata⟩

/-- C13 (amended) on an example: inside `response/propstat/prop`, a nested
`href` with the text `/x/y`. -/
theorem nested_names_skipped_witness :
    parserStartElemCb state_in_prop href_pattern = (1, state_in_prop) ∧
    parserEndElemCb state_in_prop href_pattern = (0, state_in_prop) ∧
    (parserCdataCb reject_date state_in_prop "/x/y".toList).2.last_filename
      = state_in_prop.last_filename :=
  ⟨(nested_names_skipped reject_date state_in_prop "/x/y".toList (by decide) (by decide)).1,
    (nested_names_skipped reject_date state_in_prop "/x/y".toList (by decide) (by decide)).2.1,
    (nested_names_skipped reject_date state_in_prop "/x/y".toList (by decide)
      (by decide)).2.2.2.2.2.1 (by decide)⟩

/-! ## New records and the directory bit -/

/-- With an error pending, a start-element event of a name other than
`propstat` returns -1 at the first statement and changes nothing. -/
theorem parserStartElemCb_pending (p : DavPropXMLParser) (name : CStr)
    (h : p.err.isSome = true) (hn : match_element name propstat_pattern = false) :
    parserStartElemCb p name = (-1, p) := by
  unfold parserStartElemCb
  rw [add_scope_call_no_match Scope.propname_section p name hn]
  simp [DAVIX_XML_REPORT_ERROR, h]

theorem collection_no_scope (k : Scope) : match_element collection_patern k.pattern = false := by
  cases k <;> decide

/-- Inside an open resourcetype within a prop, `check_is_directory` sets the
directory bit for the name `collection`. -/
theorem check_is_directory_collection (p : DavPropXMLParser) (h_err : p.err = none)
    (h_resp : p.response_section = true) (h_ps : p.propname_section = true)
    (h_prop : p.prop_section = true) (h_rt : p.resource_type = true) :
    check_is_directory p collection_patern
      = (0, { p with _current_props :=
                { p._current_props with mode := p._current_props.mode ||| S_IFDIR } }) := by
  cases p
  simp_all [check_is_directory, add_scope, match_element]

/-- Outside an open resourcetype scope `check_is_directory` does nothing. -/
theorem check_is_directory_closed (p : DavPropXMLParser) (name : CStr)
    (h : p.resource_type = false) : check_is_directory p name = (0, p) := by
  simp [check_is_directory, h]

/-- C14, as stated, fails: inside `response/propstat`, after a failed
end-element event `prop`, the response and propstat scopes are open and the
prop scope is closed, yet the start-element event `prop` returns -1 and does
not open the prop scope. -/
theorem prop_start_pending_error_counterexample :
    state_failed_in_propstat.response_section = true ∧
    state_failed_in_propstat.propname_section = true ∧
    state_failed_in_propstat.prop_section = false ∧
    (parserStartElemCb state_failed_in_propstat prop_pattern).1 = -1 ∧
    (parserStartElemCb state_failed_in_propstat prop_pattern).2.prop_section = false := by
  decide

/-- C14 (amended): in every parser state with no pending error, the response
and propstat scopes open and the prop scope closed, the start-element event
`prop` returns 1 (success), opens the prop scope and replaces the in-progress
record by a fresh one (every field cleared) with mode 0777 and the remembered
filename; the other flags, the remembered filename and the result sequence are
unchanged. In every parser state where the response or the propstat scope is
closed, a `prop` start changes neither the in-progress record, nor the result
sequence, nor the prop flag. -/
theorem prop_start_renews_record (p : DavPropXMLParser)
    (h_err : p.err = none) (h_resp : p.response_section = true)
    (h_ps : p.propname_section = true) (h_prop : p.prop_section = false) :
    parserStartElemCb p prop_pattern =
      (1, { p with prop_section := true,
                   _current_props :=
                     { FileProperties.clear with filename := p.last_filename, mode := 0o777 } }) ∧
    (∀ q : DavPropXMLParser, (q.response_section = false ∨ q.propname_section = false) →
      (parserStartElemCb q prop_pattern).2._current_props = q._current_props ∧
      (parserStartElemCb q prop_pattern).2._props = q._props ∧
      (parserStartElemCb q prop_pattern).2.prop_section = q.prop_section) := by
  constructor
  · have h := parserStartElemCb_open Scope.prop_section p h_err h_prop
      (by simp [Scope.enter_condition, h_resp, h_ps]) rfl
    simp only [Scope.pattern] at h
    rw [h]
    simp [Scope.set_flag, compute_new_elem, h_resp, h_ps]
  · intro q hq
    cases he : q.err with
    | none =>
      have h := parserStartElemCb_skipped Scope.prop_section q he
        (Or.inl (by rcases hq with hq | hq <;> simp [Scope.enter_condition, hq]))
      simp only [Scope.pattern] at h
      rw [h]
      exact ⟨rfl, rfl, rfl⟩
    | some e =>
      rw [parserStartElemCb_pending q prop_pattern (by simp [he]) (by decide)]
      exact ⟨rfl, rfl, rfl⟩

/-- C14 (amended) on an example: the `prop` start inside `response/propstat`
after the href `/a/b/c/`. -/
theorem prop_start_renews_record_witness :
    (parserStartElemCb
      (state_after [Event.start_elem response_pattern, Event.start_elem href_pattern,
        Event.cdata "/a/b/c/".toList, Event.end_elem href_pattern,
        Event.start_elem propstat_pattern]) prop_pattern).1 = 1 ∧
    (parserStartElemCb
      (state_after [Event.start_elem response_pattern, Event.start_elem href_pattern,
        Event.cdata "/a/b/c/".toList, Event.end_elem href_pattern,
        Event.start_elem propstat_pattern]) prop_pattern).2._current_props
      = { FileProperties.clear with filename := "c".toList, mode := 511 } := by
  have h := (prop_start_renews_record
    (state_after [Event.start_elem response_pattern, Event.start_elem href_pattern,
        Event.cdata "/a/b/c/".toList, Event.end_elem href_pattern,
        Event.start_elem propstat_pattern]) (by decide) (by decide) (by decide) (by decide)).1
  rw [h]
  exact ⟨rfl, by decide⟩

/-- C15, as stated, fails: inside `response/propstat/prop/resourcetype`, after
a failed end-element event `getlastmodified`, the four scopes are open, yet
the start-element event `collection` returns -1 and leaves the mode at 0777,
without the directory bit. -/
theorem collection_pending_error_counterexample :
    state_failed_in_resourcetype.response_section = true ∧
    state_failed_in_resourcetype.propname_section = true ∧
    state_failed_in_resourcetype.prop_section = true ∧
    state_failed_in_resourcetype.resource_type = true ∧
    state_failed_in_resourcetype._current_props.mode = 511 ∧
    (parserStartElemCb state_failed_in_resourcetype collection_patern).1 = -1 ∧
    (parserStartElemCb state_failed_in_resourcetype collection_patern).2._current_props.mode
      = 511 := by
  decide

/-- C15 (amended): in every parser state with no pending error in which the
response, propstat, prop and resourcetype scopes are open, the start-element
event `collection` returns 1 and replaces the mode of the in-progress record
by `mode | S_IFDIR`: bit 14 (`S_IFDIR` = 040000) is set, every other bit of the
mode and everything else in the parser is unchanged. In every parser state
with the resourcetype scope closed, a `collection` start leaves the
in-progress record (so its mode) unchanged. -/
theorem collection_sets_directory_bit (p : DavPropXMLParser)
    (h_err : p.err = none) (h_resp : p.response_section = true)
    (h_ps : p.propname_section = true) (h_prop : p.prop_section = true)
    (h_rt : p.resource_type = true) :
    parserStartElemCb p collection_patern =
      (1, { p with _current_props :=
              { p._current_props with mode := p._current_props.mode ||| S_IFDIR } }) ∧
    Nat.testBit (p._current_props.mode ||| S_IFDIR) 14 = true ∧
    (∀ i : Nat, i ≠ 14 →
      Nat.testBit (p._current_props.mode ||| S_IFDIR) i = Nat.testBit p._current_props.mode i) ∧
    (∀ q : DavPropXMLParser, q.resource_type = false →
      (parserStartElemCb q collection_patern).2._current_props = q._current_props) := by
  have hS : S_IFDIR = 2 ^ 14 := by decide
  refine ⟨?_, ?_, ?_, ?_⟩
  · simp [parserStartElemCb, DAVIX_XML_REPORT_ERROR, add_scope_call_no_match,
      collection_no_scope, h_err,
      check_is_directory_collection p h_err h_resp h_ps h_prop h_rt]
  · rw [Nat.testBit_or, hS, Nat.testBit_two_pow_self]
    simp
  · intro i hi
    rw [Nat.testBit_or, hS, Nat.testBit_two_pow_of_ne (Ne.symm hi)]
    simp
  · intro q hq
    cases he : q.err with
    | none =>
      simp [parserStartElemCb, DAVIX_XML_REPORT_ERROR, add_scope_call_no_match,
        collection_no_scope, he, check_is_directory_closed q _ hq]
    | some e =>
      rw [parserStartElemCb_pending q collection_patern (by simp [he]) (by decide)]

/-- C15 (amended) on an example: `collection` inside
`response/propstat/prop/resourcetype` turns the default mode 0777 into
040777. -/
theorem collection_sets_directory_bit_witness :
    (parserStartElemCb state_in_resourcetype collection_patern).1 = 1 ∧
    (parserStartElemCb state_in_resourcetype collection_patern).2._current_props.mode
      = 0o40777 := by
  have h := (collection_sets_directory_bit state_in_resourcetype
    (by decide) (by decide) (by decide) (by decide) (by decide)).1
  rw [h]
  exact ⟨rfl, by decide⟩

/-! ## Date fields -/

theorem check_last_modified_ctime (pd : CStr → Int) (p : DavPropXMLParser) (s : CStr) :
    (check_last_modified pd p s).2._current_props.ctime = p._current_props.ctime := by
  unfold check_last_modified
  by_cases h1 : (p.response_section && p.prop_section && p.propname_section
      && p.lastmod_section) = true
  · by_cases h2 : pd s = -1 <;> simp [h1, h2]
  · simp [h1]

theorem check_creation_date_mtime (pd : CStr → Int) (p : DavPropXMLParser) (s : CStr) :
    (check_creation_date pd p s).2._current_props.mtime = p._current_props.mtime := by
  unfold check_creation_date
  by_cases h1 : (p.response_section && p.prop_section && p.propname_section
      && p.creatdate_section) = true
  · by_cases h2 : pd s = -1 <;> simp [h1, h2]
  · simp [h1]

theorem check_content_length_dates (p : DavPropXMLParser) (s : CStr) :
    (check_content_length p s).2._current_props.mtime = p._current_props.mtime ∧
    (check_content_length p s).2._current_props.ctime = p._current_props.ctime := by
  unfold check_content_length
  by_cases h1 : (p.response_section && p.prop_section && p.propname_section
      && p.contentlength_section) = true
  · by_cases h2 : strtoul s 10 = ULONG_MAX <;> simp [h1, h2]
  · simp [h1]

theorem check_mode_ext_dates (p : DavPropXMLParser) (s : CStr) :
    (check_mode_ext p s).2._current_props.mtime = p._current_props.mtime ∧
    (check_mode_ext p s).2._current_props.ctime = p._current_props.ctime := by
  unfold check_mode_ext
  by_cases h1 : (p.response_section && p.prop_section && p.propname_section
      && p.mode_ext_section) = true
  · by_cases h2 : strtoul s 8 = ULONG_MAX <;> simp [h1, h2]
  · simp [h1]

theorem check_href_current (p : DavPropXMLParser) (s : CStr) :
    (check_href p s).2._current_props = p._current_props ∧
    (check_href p s).2._props = p._props := by
  obtain ⟨f, e⟩ := check_href_frame p s
  rw [e]
  exact ⟨rfl, rfl⟩

theorem check_status_dates (p : DavPropXMLParser) (s : CStr) :
    (check_status p s).2._current_props.mtime = p._current_props.mtime ∧
    (check_status p s).2._current_props.ctime = p._current_props.ctime ∧
    (check_status p s).2._current_props.mode = p._current_props.mode ∧
    (check_status p s).2._props = p._props := by
  rcases check_status_cases p s with e | ⟨_, e⟩ | ⟨_, e⟩ <;> rw [e] <;> exact ⟨rfl, rfl, rfl, rfl⟩

/-- A date accepted inside an open getlastmodified is the mtime of the
in-progress record when the character-data callback returns, in every parser
state. -/
theorem parserCdataCb_mtime (pd : CStr → Int) (p : DavPropXMLParser) (cdata : List Char)
    (h_resp : p.response_section = true) (h_ps : p.propname_section = true)
    (h_prop : p.prop_section = true) (h_lm : p.lastmod_section = true)
    (ht : pd (c_str cdata) ≠ -1) :
    (parserCdataCb pd p cdata).2._current_props.mtime = pd (c_str cdata) := by
  have e1 : (check_last_modified pd p (c_str cdata)).2._current_props.mtime
      = pd (c_str cdata) := by
    simp [check_last_modified, h_resp, h_ps, h_prop, h_lm, ht]
  unfold parserCdataCb
  refine report_error_rule (fun r => r.2._current_props.mtime = pd (c_str cdata)) _ _
    (fun _ => e1) (fun _ => ?_)
  refine report_error_rule (fun r => r.2._current_props.mtime = pd (c_str cdata)) _ _
    (fun _ => ?_) (fun _ => ?_)
  · simp [check_creation_date_mtime, e1]
  refine report_error_rule (fun r => r.2._current_props.mtime = pd (c_str cdata)) _ _
    (fun _ => ?_) (fun _ => ?_)
  · simp [check_creation_date_mtime, (check_content_length_dates _ _).1, e1]
  refine report_error_rule (fun r => r.2._current_props.mtime = pd (c_str cdata)) _ _
    (fun _ => ?_) (fun _ => ?_)
  · simp [check_creation_date_mtime, (check_content_length_dates _ _).1,
      (check_mode_ext_dates _ _).1, e1]
  refine report_error_rule (fun r => r.2._current_props.mtime = pd (c_str cdata)) _ _
    (fun _ => ?_) (fun _ => ?_)
  · simp [check_creation_date_mtime, (check_content_length_dates _ _).1,
      (check_mode_ext_dates _ _).1, (check_href_current _ _).1, e1]
  refine report_error_rule (fun r => r.2._current_props.mtime = pd (c_str cdata)) _ _
    (fun _ => ?_) (fun _ => ?_) <;>
  simp [check_creation_date_mtime, (check_content_length_dates _ _).1,
    (check_mode_ext_dates _ _).1, (check_href_current _ _).1, (check_status_dates _ _).1, e1]

/-- A date accepted inside an open creationdate, with no error pending, is the
ctime of the in-progress record when the character-data callback returns. -/
theorem parserCdataCb_ctime (pd : CStr → Int) (p : DavPropXMLParser) (cdata : List Char)
    (h_err : p.err = none)
    (h_resp : p.response_section = true) (h_ps : p.propname_section = true)
    (h_prop : p.prop_section = true) (h_cd : p.creatdate_section = true)
    (ht : pd (c_str cdata) ≠ -1) :
    (parserCdataCb pd p cdata).2._current_props.ctime = pd (c_str cdata) := by
  have k1 := check_last_modified_keeps pd p (c_str cdata)
  have n1 : (check_last_modified pd p (c_str cdata)).2.err = none := by
    unfold check_last_modified
    by_cases h1 : (p.response_section && p.prop_section && p.propname_section
        && p.lastmod_section) = true
    · simp [h1, ht, h_err]
    · simp [h1, h_err]
  unfold parserCdataCb
  obtain ⟨a1, a2, a3, _, a5, _⟩ := k1
  have e2 : (check_creation_date pd (check_last_modified pd p (c_str cdata)).2
      (c_str cdata)).2._current_props.ctime
      = pd (c_str cdata) := by
    simp [check_creation_date, a1, a2, a3, a5, h_resp, h_ps, h_prop, h_cd, ht]
  rw [report_error_of_none _ _ n1]
  refine report_error_rule (fun r => r.2._current_props.ctime = pd (c_str cdata)) _ _
    (fun _ => e2) (fun _ => ?_)
  refine report_error_rule (fun r => r.2._current_props.ctime = pd (c_str cdata)) _ _
    (fun _ => ?_) (fun _ => ?_)
  · simp [(check_content_length_dates _ _).2, e2]
  refine report_error_rule (fun r => r.2._current_props.ctime = pd (c_str cdata)) _ _
    (fun _ => ?_) (fun _ => ?_)
  · simp [(check_content_length_dates _ _).2, (check_mode_ext_dates _ _).2, e2]
  refine report_error_rule (fun r => r.2._current_props.ctime = pd (c_str cdata)) _ _
    (fun _ => ?_) (fun _ => ?_)
  · simp [(check_content_length_dates _ _).2, (check_mode_ext_dates _ _).2,
      (check_href_current _ _).1, e2]
  refine report_error_rule (fun r => r.2._current_props.ctime = pd (c_str cdata)) _ _
    (fun _ => ?_) (fun _ => ?_) <;>
  simp [(check_content_length_dates _ _).2, (check_mode_ext_dates _ _).2,
    (check_href_current _ _).1, (check_status_dates _ _).2.1, e2]

/-- A date rejected inside an open getlastmodified: the callback returns -1 at
its first statement, in every parser state; an error is in the slot afterwards
and nothing else has changed. When no error was pending the error is the one
of `check_last_modified`. -/
theorem parserCdataCb_mtime_rejected (pd : CStr → Int) (p : DavPropXMLParser)
    (cdata : List Char)
    (h_resp : p.response_section = true) (h_ps : p.propname_section = true)
    (h_prop : p.prop_section = true) (h_lm : p.lastmod_section = true)
    (ht : pd (c_str cdata) = -1) :
    (parserCdataCb pd p cdata).1 = -1 ∧
    (parserCdataCb pd p cdata).2.err.isSome = true ∧
    parserCdataCb pd p cdata = (-1, { p with err := (parserCdataCb pd p cdata).2.err }) ∧
    (p.err = none →
      (parserCdataCb pd p cdata).2.err
        = some { code := StatusCode.WebDavPropertiesParsingError,
                 msg := "Invalid last modified date format".toList }) := by
  have e1 : check_last_modified pd p (c_str cdata)
      = (-1, { p with err := setupError p.err StatusCode.WebDavPropertiesParsingError
                               "Invalid last modified date format".toList }) := by
    simp [check_last_modified, h_resp, h_ps, h_prop, h_lm, ht]
  have hs : (setupError p.err StatusCode.WebDavPropertiesParsingError
      "Invalid last modified date format".toList).isSome = true := rfl
  have key : parserCdataCb pd p cdata
      = (-1, { p with err := setupError p.err StatusCode.WebDavPropertiesParsingError
                               "Invalid last modified date format".toList }) := by
    unfold parserCdataCb
    simp only [e1]
    exact report_error_of_some _ _ hs
  rw [key]
  exact ⟨rfl, hs, rfl, fun h => by rw [h]; rfl⟩

/-- A date rejected inside an open creationdate, with no error pending: the
callback returns -1 with a properties-parsing error and leaves the in-progress
record and the result sequence as they were. -/
theorem parserCdataCb_ctime_rejected (pd : CStr → Int) (p : DavPropXMLParser)
    (cdata : List Char) (h_err : p.err = none)
    (h_resp : p.response_section = true) (h_ps : p.propname_section = true)
    (h_prop : p.prop_section = true) (h_cd : p.creatdate_section = true)
    (ht : pd (c_str cdata) = -1) :
    (parserCdataCb pd p cdata).1 = -1 ∧
    (∃ m, (parserCdataCb pd p cdata).2.err
      = some { code := StatusCode.WebDavPropertiesParsingError, msg := m }) ∧
    (parserCdataCb pd p cdata).2._current_props = p._current_props ∧
    (parserCdataCb pd p cdata).2._props = p._props := by
  by_cases h_lm : p.lastmod_section = true
  · have key := parserCdataCb_mtime_rejected pd p cdata h_resp h_ps h_prop h_lm ht
    refine ⟨key.1, ⟨_, key.2.2.2 h_err⟩, ?_, ?_⟩
    · rw [key.2.2.1]
    · rw [key.2.2.1]
  · have e1 : check_last_modified pd p (c_str cdata) = (0, p) := by
      simp [check_last_modified, h_lm]
    have e2 : check_creation_date pd p (c_str cdata)
        = (-1, { p with err := some { code := StatusCode.WebDavPropertiesParsingError,
                                      msg := "Invalid creation date format".toList } }) := by
      simp [check_creation_date, h_resp, h_ps, h_prop, h_cd, ht, setupError]
    unfold parserCdataCb
    simp only [e1]
    rw [report_error_pair_none _ _ _ h_err]
    simp only [e2]
    simp [DAVIX_XML_REPORT_ERROR]

/-! ### No callback stores -1 in a date -/

theorem add_scope_call_data (k : Scope) (p : DavPropXMLParser) (name : CStr) :
    (add_scope_call k p name).2._current_props = p._current_props ∧
    (add_scope_call k p name).2._props = p._props := by
  cases k <;> simp [add_scope_call, Scope.set_flag]

theorem remove_scope_call_data (k : Scope) (p : DavPropXMLParser) (name : CStr) :
    (remove_scope_call k p name).2._current_props = p._current_props ∧
    (remove_scope_call k p name).2._props = p._props := by
  cases k <;> simp [remove_scope_call, Scope.set_flag]

theorem dates_valid_of_eq (p q : DavPropXMLParser) (h1 : q._current_props.mtime = p._current_props.mtime)
    (h2 : q._current_props.ctime = p._current_props.ctime) (h3 : q._props = p._props)
    (hp : dates_valid p) : dates_valid q := by
  unfold dates_valid no_failed_date at *
  rw [h1, h2, h3]
  exact hp

theorem start_tail_dates_valid (q : DavPropXMLParser) (name : CStr) (new_prop : Bool)
    (h_err : q.err = none) (hq : dates_valid q) :
    dates_valid (start_tail q name new_prop).2 := by
  obtain ⟨m, hm⟩ := check_is_directory_mode q name h_err
  unfold start_tail
  rw [hm]
  have hq1 : dates_valid { q with _current_props := { q._current_props with mode := m } } :=
    dates_valid_of_eq q _ rfl rfl rfl hq
  cases new_prop with
  | false =>
    simp only [lt_self_iff_false, if_false, Bool.false_eq_true]
    exact hq1
  | true =>
    simp only [lt_self_iff_false, if_false, if_true]
    show dates_valid (compute_new_elem _).2
    unfold compute_new_elem
    split
    · exact ⟨by simp [no_failed_date, FileProperties.clear], hq.2⟩
    · exact hq1

theorem store_new_elem_dates_valid (q : DavPropXMLParser) (hq : dates_valid q) :
    dates_valid (store_new_elem q).2 := by
  unfold store_new_elem
  split
  · split
    · refine ⟨hq.1, fun r hr => ?_⟩
      rcases List.mem_append.1 hr with h | h
      · exact hq.2 r h
      · rw [List.mem_singleton.1 h]
        exact hq.1
    · exact hq
  · exact hq

theorem parserStartElemCb_dates_valid (p : DavPropXMLParser) (name : CStr)
    (hp : dates_valid p) : dates_valid (parserStartElemCb p name).2 := by
  rcases parserStartElemCb_frame dates_valid name
    (fun k q hq => dates_valid_of_eq q _ (by rw [(add_scope_call_data k q name).1])
      (by rw [(add_scope_call_data k q name).1]) (add_scope_call_data k q name).2 hq) p hp
    with h | ⟨q, np, hq, he, _, e⟩
  · exact h.2
  · rw [e]
    exact start_tail_dates_valid q name np he hq

theorem parserEndElemCb_dates_valid (p : DavPropXMLParser) (name : CStr)
    (hp : dates_valid p) : dates_valid (parserEndElemCb p name).2 := by
  rcases parserEndElemCb_frame dates_valid name
    (fun k q hq => dates_valid_of_eq q _ (by rw [(remove_scope_call_data k q name).1])
      (by rw [(remove_scope_call_data k q name).1]) (remove_scope_call_data k q name).2 hq) p hp
    with h | ⟨q, ep, hq, _, _, e⟩
  · exact h.2
  · rw [e]
    cases ep with
    | false => exact hq
    | true => exact store_new_elem_dates_valid q hq

theorem check_last_modified_dates_valid (pd : CStr → Int) (q : DavPropXMLParser) (s : CStr)
    (hq : dates_valid q) : dates_valid (check_last_modified pd q s).2 := by
  unfold check_last_modified
  by_cases h1 : (q.response_section && q.prop_section && q.propname_section
      && q.lastmod_section) = true
  · by_cases h2 : pd s = -1
    · simpa [h1, h2, dates_valid] using hq
    · simp only [h1, if_true, beq_iff_eq, h2, if_false]
      exact ⟨⟨h2, hq.1.2⟩, hq.2⟩
  · simpa [h1] using hq

theorem check_creation_date_dates_valid (pd : CStr → Int) (q : DavPropXMLParser) (s : CStr)
    (hq : dates_valid q) : dates_valid (check_creation_date pd q s).2 := by
  unfold check_creation_date
  by_cases h1 : (q.response_section && q.prop_section && q.propname_section
      && q.creatdate_section) = true
  · by_cases h2 : pd s = -1
    · simpa [h1, h2, dates_valid] using hq
    · simp only [h1, if_true, beq_iff_eq, h2, if_false]
      exact ⟨⟨hq.1.1, h2⟩, hq.2⟩
  · simpa [h1] using hq

theorem parserCdataCb_dates_valid (pd : CStr → Int) (p : DavPropXMLParser) (cdata : List Char)
    (hp : dates_valid p) : dates_valid (parserCdataCb pd p cdata).2 :=
  (parserCdataCb_frame dates_valid pd cdata
    (fun q hq => check_last_modified_dates_valid pd q _ hq)
    (fun q hq => check_creation_date_dates_valid pd q _ hq)
    (fun q hq => dates_valid_of_eq q _ (check_content_length_dates q _).1
      (check_content_length_dates q _).2 (check_content_length_keeps q _).2.2.2.2.2.2.2.2.2.2.1 hq)
    (fun q hq => dates_valid_of_eq q _ (check_mode_ext_dates q _).1
      (check_mode_ext_dates q _).2 (check_mode_ext_keeps q _).2.2.2.2.2.2.2.2.2.2.1 hq)
    (fun q hq => dates_valid_of_eq q _ (by rw [(check_href_current q _).1])
      (by rw [(check_href_current q _).1]) (check_href_current q _).2 hq)
    (fun q hq => dates_valid_of_eq q _ (check_status_dates q _).1
      (check_status_dates q _).2.1 (check_status_dates q _).2.2.2 hq)
    p hp).1

theorem run_events_dates_valid (pd : CStr → Int) (events : List Event) :
    ∀ (p q : DavPropXMLParser), dates_valid p → run_events pd p events = some q →
      dates_valid q := by
  induction events with
  | nil =>
    intro p q hp h
    simp only [run_events, Option.some.injEq] at h
    rw [← h]
    exact hp
  | cons e es ih =>
    intro p q hp h
    simp only [run_events] at h
    cases hf : feed pd p e with
    | none => rw [hf] at h; cases h
    | some p1 =>
      rw [hf] at h
      refine ih p1 q ?_ h
      cases e with
      | start_elem name =>
        simp only [feed] at hf
        split at hf
        · cases hf
        · cases hf
          exact parserStartElemCb_dates_valid p name hp
      | cdata text =>
        simp only [feed] at hf
        split at hf
        · cases hf
        · cases hf
          exact parserCdataCb_dates_valid pd p text hp
      | end_elem name =>
        simp only [feed] at hf
        split at hf
        · cases hf
        · cases hf
          exact parserEndElemCb_dates_valid p name hp

theorem dates_valid_new : dates_valid DavPropXMLParser.new :=
  ⟨by simp [no_failed_date, DavPropXMLParser.new, FileProperties.clear],
    fun r hr => by simp [DavPropXMLParser.new] at hr⟩

/-- C16, as stated, fails: inside `response/propstat/prop/creationdate`, after
a first chunk of character data that the date parser rejected, the four scopes
are still open and the date parser returns 1 for the text
`Thu, 01 Jan 1970 00:00:01 GMT`, yet the callback returns -1 and the ctime of
the in-progress record stays 0. -/
theorem creation_date_pending_error_counterexample :
    state_failed_in_creationdate.response_section = true ∧
    state_failed_in_creationdate.propname_section = true ∧
    state_failed_in_creationdate.prop_section = true ∧
    state_failed_in_creationdate.creatdate_section = true ∧
    sample_date (c_str "Thu, 01 Jan 1970 00:00:01 GMT".toList) = 1 ∧
    (parserCdataCb sample_date state_failed_in_creationdate
      "Thu, 01 Jan 1970 00:00:01 GMT".toList).1 = -1 ∧
    (parserCdataCb sample_date state_failed_in_creationdate
      "Thu, 01 Jan 1970 00:00:01 GMT".toList).2._current_props.ctime = 0 := by
  decide

/-- C16 (amended): for character data observed while the response, propstat
and prop scopes are open, with `t` the result of the date parser on the text.
Inside an open getlastmodified: if `t` is -1 the callback returns -1, an error
is in the slot afterwards (the properties-parsing error
`Invalid last modified date format` when none was pending) and nothing else
has changed (mtime included); otherwise mtime is `t` when the callback
returns. Inside an open creationdate, with no pending error: if `t` is -1 the
callback returns -1 with a properties-parsing error and leaves the in-progress
record (ctime included) and the result sequence unchanged; otherwise ctime is
`t` when the callback returns. And whatever the events, after a run of
callbacks from a fresh parser in which none failed, neither the in-progress
record nor a committed record has mtime or ctime equal to -1. -/
theorem date_fields (pd : CStr → Int) (p : DavPropXMLParser) (cdata : List Char)
    (h_resp : p.response_section = true) (h_ps : p.propname_section = true)
    (h_prop : p.prop_section = true) :
    (p.lastmod_section = true →
      (pd (c_str cdata) = -1 →
        (parserCdataCb pd p cdata).1 = -1 ∧
        (parserCdataCb pd p cdata).2.err.isSome = true ∧
        parserCdataCb pd p cdata = (-1, { p with err := (parserCdataCb pd p cdata).2.err }) ∧
        (p.err = none →
          (parserCdataCb pd p cdata).2.err
            = some { code := StatusCode.WebDavPropertiesParsingError,
                     msg := "Invalid last modified date format".toList })) ∧
      (pd (c_str cdata) ≠ -1 →
        (parserCdataCb pd p cdata).2._current_props.mtime = pd (c_str cdata))) ∧
    (p.creatdate_section = true → p.err = none →
      (pd (c_str cdata) = -1 →
        (parserCdataCb pd p cdata).1 = -1 ∧
        (∃ m, (parserCdataCb pd p cdata).2.err
          = some { code := StatusCode.WebDavPropertiesParsingError, msg := m }) ∧
        (parserCdataCb pd p cdata).2._current_props = p._current_props ∧
        (parserCdataCb pd p cdata).2._props = p._props) ∧
      (pd (c_str cdata) ≠ -1 →
        (parserCdataCb pd p cdata).2._current_props.ctime = pd (c_str cdata))) ∧
    (∀ (events : List Event) (q : DavPropXMLParser),
      run_events pd DavPropXMLParser.new events = some q →
        (q._current_props.mtime ≠ -1 ∧ q._current_props.ctime ≠ -1) ∧
        ∀ r ∈ q._props, r.mtime ≠ -1 ∧ r.ctime ≠ -1) :=
  ⟨fun h_lm =>
      ⟨parserCdataCb_mtime_rejected pd p cdata h_resp h_ps h_prop h_lm,
        parserCdataCb_mtime pd p cdata h_resp h_ps h_prop h_lm⟩,
    fun h_cd h_err =>
      ⟨parserCdataCb_ctime_rejected pd p cdata h_err h_resp h_ps h_prop h_cd,
        parserCdataCb_ctime pd p cdata h_err h_resp h_ps h_prop h_cd⟩,
    fun events q h => run_events_dates_valid pd events _ q dates_valid_new h⟩

/-- C16 (amended) on an example: inside `response/propstat/prop/creationdate`
the text `Thu, 01 Jan 1970 00:00:01 GMT`, for which the sample date parser
returns 1, gives ctime 1, and the text `yesterday`, which it rejects, fails
the callback. -/
theorem date_fields_witness :
    (parserCdataCb sample_date state_in_creationdate
      "Thu, 01 Jan 1970 00:00:01 GMT".toList).2._current_props.ctime = 1 ∧
    (parserCdataCb sample_date state_in_creationdate "yesterday".toList).1 = -1 :=
  ⟨((date_fields sample_date state_in_creationdate "Thu, 01 Jan 1970 00:00:01 GMT".toList
      (by decide) (by decide) (by decide)).2.1 (by decide) (by decide)).2 (by decide),
    (((date_fields sample_date state_in_creationdate "yesterday".toList
      (by decide) (by decide) (by decide)).2.1 (by decide) (by decide)).1 (by decide)).1⟩

/-! ## The mode extension -/

theorem is_octal_digit_bounds (c : Char) (h : is_octal_digit c = true) :
    48 ≤ c.toNat ∧ c.toNat ≤ 55 := by
  simpa [is_octal_digit] using h

theorem octal_digit_is_decimal (c : Char) (h : is_octal_digit c = true) :
    is_decimal_digit c = true := by
  have hb := is_octal_digit_bounds c h
  have h1 : c.toNat ≤ 57 := by omega
  simp [is_decimal_digit, hb.1, h1]

theorem strtoul_digits_octal (s : CStr) (acc : Nat) (any : Bool)
    (h : s.all is_octal_digit = true) :
    strtoul_digits 8 s acc any
      = (s.foldl (fun a c => a * 8 + (c.toNat - 48)) acc, any || !s.isEmpty) := by
  induction s generalizing acc any with
  | nil => simp [strtoul_digits]
  | cons c cs ih =>
    have hc : is_octal_digit c = true := by
      have := h
      simp only [List.all_cons, Bool.and_eq_true] at this
      exact this.1
    have hcs : cs.all is_octal_digit = true := by
      have := h
      simp only [List.all_cons, Bool.and_eq_true] at this
      exact this.2
    have hb := is_octal_digit_bounds c hc
    have hlt : c.toNat - 48 < 8 := by omega
    simp [strtoul_digits, digitValue_of_decimal_digit c (octal_digit_is_decimal c hc), hlt,
      ih _ _ hcs]

theorem octal_numeral_parts (s : CStr) (h : is_octal_numeral s = true) :
    s ≠ [] ∧ s.all is_octal_digit = true := by
  unfold is_octal_numeral at h
  simp only [Bool.and_eq_true, Bool.not_eq_true', List.isEmpty_eq_false] at h
  exact ⟨by simpa using h.1, h.2⟩

theorem octal_numeral_mem (s : CStr) (h : is_octal_numeral s = true) (c : Char)
    (hc : c ∈ s) : is_octal_digit c = true := by
  have := (octal_numeral_parts s h).2
  rw [List.all_eq_true] at this
  exact this c hc

/-- On an octal numeral `strtoul` in base 8 gives the numeral's value, or
`ULONG_MAX` when the value is larger. -/
theorem strtoul_octal (s : CStr) (h : is_octal_numeral s = true) :
    strtoul s 8 = if octal_value s > ULONG_MAX then ULONG_MAX else octal_value s := by
  obtain ⟨hne, hall⟩ := octal_numeral_parts s h
  cases s with
  | nil => exact absurd rfl hne
  | cons c cs =>
    have hc : is_decimal_digit c = true :=
      octal_digit_is_decimal c (octal_numeral_mem _ h c (List.mem_cons_self _ _))
    have h1 : (c :: cs).dropWhile isspace = c :: cs := by
      simp [List.dropWhile, isspace_of_decimal_digit c hc]
    have hm : c ≠ '-' := decimal_digit_ne c '-' hc (by decide)
    have hp : c ≠ '+' := decimal_digit_ne c '+' hc (by decide)
    unfold strtoul
    simp only [h1, List.head?_cons]
    have e1 : (some c == some '-') = false := by simpa using hm
    have e2 : (some c == some '+') = false := by simpa using hp
    simp only [e1, e2, Bool.or_self, Bool.false_eq_true, if_false]
    rw [strtoul_digits_octal _ _ _ hall]
    rfl

theorem c_str_octal (s : CStr) (h : is_octal_numeral s = true) : c_str s = s := by
  apply c_str_of_no_nul
  intro c hc
  have := is_octal_digit_bounds c (octal_numeral_mem s h c hc)
  omega

theorem error_frame_trans (p q r : DavPropXMLParser) (h1 : error_frame p q)
    (h2 : error_frame q r) : error_frame p r := by
  rcases h2 with h | h
  · rcases h1 with h' | h'
    · exact Or.inl (h.trans h')
    · exact Or.inr (by rw [h]; exact h')
  · exact Or.inr h

theorem check_last_modified_mode (pd : CStr → Int) (p : DavPropXMLParser) (s : CStr) :
    (check_last_modified pd p s).2._current_props.mode = p._current_props.mode ∧
    error_frame p (check_last_modified pd p s).2 := by
  unfold check_last_modified error_frame
  by_cases h1 : (p.response_section && p.prop_section && p.propname_section
      && p.lastmod_section) = true
  · by_cases h2 : pd s = -1 <;> simp [h1, h2, setupError]
  · simp [h1]

theorem check_creation_date_mode (pd : CStr → Int) (p : DavPropXMLParser) (s : CStr) :
    (check_creation_date pd p s).2._current_props.mode = p._current_props.mode ∧
    error_frame p (check_creation_date pd p s).2 := by
  unfold check_creation_date error_frame
  by_cases h1 : (p.response_section && p.prop_section && p.propname_section
      && p.creatdate_section) = true
  · by_cases h2 : pd s = -1 <;> simp [h1, h2, setupError]
  · simp [h1]

theorem check_content_length_mode (p : DavPropXMLParser) (s : CStr) :
    (check_content_length p s).2._current_props.mode = p._current_props.mode ∧
    error_frame p (check_content_length p s).2 := by
  unfold check_content_length error_frame
  by_cases h1 : (p.response_section && p.prop_section && p.propname_section
      && p.contentlength_section) = true
  · by_cases h2 : strtoul s 10 = ULONG_MAX <;> simp [h1, h2, setupError]
  · simp [h1]

theorem check_last_modified_closed (pd : CStr → Int) (p : DavPropXMLParser) (s : CStr)
    (h : p.lastmod_section = false) : check_last_modified pd p s = (0, p) := by
  simp [check_last_modified, h]

theorem check_creation_date_closed (pd : CStr → Int) (p : DavPropXMLParser) (s : CStr)
    (h : p.creatdate_section = false) : check_creation_date pd p s = (0, p) := by
  simp [check_creation_date, h]

theorem check_content_length_closed (p : DavPropXMLParser) (s : CStr)
    (h : p.contentlength_section = false) : check_content_length p s = (0, p) := by
  simp [check_content_length, h]

/-- An octal numeral above `ULONG_MAX` inside an open mode element fails the
character-data callback and leaves the mode as it was, in every parser
state. -/
theorem parserCdataCb_mode_overflow (pd : CStr → Int) (p : DavPropXMLParser) (s : CStr)
    (h_resp : p.response_section = true) (h_ps : p.propname_section = true)
    (h_prop : p.prop_section = true) (h_mode : p.mode_ext_section = true)
    (h_num : is_octal_numeral s = true) (h_val : ULONG_MAX < octal_value s) :
    (parserCdataCb pd p s).1 = -1 ∧
    (parserCdataCb pd p s).2._current_props.mode = p._current_props.mode ∧
    (parserCdataCb pd p s).2.err.isSome = true ∧
    (p.err = none → ∃ e, (parserCdataCb pd p s).2.err = some e ∧
      e.code = StatusCode.WebDavPropertiesParsingError) := by
  have hs : strtoul s 8 = ULONG_MAX := by
    rw [strtoul_octal s h_num]
    simp [h_val]
  have hfin : ∀ q : DavPropXMLParser, q.err.isSome = true →
      q._current_props.mode = p._current_props.mode → error_frame p q →
      (q._current_props.mode = p._current_props.mode ∧ q.err.isSome = true ∧
        (p.err = none → ∃ e, q.err = some e ∧
          e.code = StatusCode.WebDavPropertiesParsingError)) := by
    intro q hq hm hf
    refine ⟨hm, hq, fun hn => ?_⟩
    rcases hf with h | ⟨m, h⟩
    · rw [h, hn] at hq
      simp at hq
    · exact ⟨_, h, rfl⟩
  have f1 := check_last_modified_mode pd p s
  have k1 := check_last_modified_keeps pd p s
  have f2 := check_creation_date_mode pd (check_last_modified pd p s).2 s
  have k2 := check_creation_date_keeps pd (check_last_modified pd p s).2 s
  have f3 := check_content_length_mode
    (check_creation_date pd (check_last_modified pd p s).2 s).2 s
  have k3 := check_content_length_keeps
    (check_creation_date pd (check_last_modified pd p s).2 s).2 s
  have m2 := f2.1.trans f1.1
  have e2 := error_frame_trans _ _ _ f1.2 f2.2
  have m3 := f3.1.trans m2
  have e3 := error_frame_trans _ _ _ e2 f3.2
  unfold parserCdataCb
  simp only [c_str_octal s h_num]
  refine report_error_rule (fun r => r.1 = -1 ∧ r.2._current_props.mode = p._current_props.mode ∧
      r.2.err.isSome = true ∧ (p.err = none → ∃ e, r.2.err = some e ∧
        e.code = StatusCode.WebDavPropertiesParsingError)) _ _ (fun h => ?_) (fun _ => ?_)
  · exact ⟨rfl, hfin _ h f1.1 f1.2⟩
  refine report_error_rule (fun r => r.1 = -1 ∧ r.2._current_props.mode = p._current_props.mode ∧
      r.2.err.isSome = true ∧ (p.err = none → ∃ e, r.2.err = some e ∧
        e.code = StatusCode.WebDavPropertiesParsingError)) _ _ (fun h => ?_) (fun _ => ?_)
  · exact ⟨rfl, hfin _ h m2 e2⟩
  refine report_error_rule (fun r => r.1 = -1 ∧ r.2._current_props.mode = p._current_props.mode ∧
      r.2.err.isSome = true ∧ (p.err = none → ∃ e, r.2.err = some e ∧
        e.code = StatusCode.WebDavPropertiesParsingError)) _ _ (fun h => ?_) (fun _ => ?_)
  · exact ⟨rfl, hfin _ h m3 e3⟩
  generalize (check_content_length
    (check_creation_date pd (check_last_modified pd p s).2 s).2 s).2 = q at *
  obtain ⟨a1, a2, a3, _, _, _, a7, _⟩ := k1
  obtain ⟨b1, b2, b3, _, _, _, b7, _⟩ := k2
  obtain ⟨c1, c2, c3, _, _, _, c7, _⟩ := k3
  have hc : check_mode_ext q s
      = (-1, { q with err := some { code := StatusCode.WebDavPropertiesParsingError,
                                    msg := " Invalid mode_t value for the LCGDM extension".toList } }) := by
    simp [check_mode_ext, hs, c1, c2, c3, c7, b1, b2, b3, b7, a1, a2, a3, a7,
      h_resp, h_ps, h_prop, h_mode, setupError]
  rw [hc]
  refine report_error_rule (fun r => r.1 = -1 ∧ r.2._current_props.mode = p._current_props.mode ∧
      r.2.err.isSome = true ∧ (p.err = none → ∃ e, r.2.err = some e ∧
        e.code = StatusCode.WebDavPropertiesParsingError)) _ _ (fun _ => ?_) (fun h => ?_)
  · exact ⟨rfl, m3, rfl, fun _ => ⟨_, rfl, rfl⟩⟩
  · exact absurd h (by simp)

/-- An octal numeral below `ULONG_MAX` inside an open mode element, while no
date or content-length scope is open and no error is pending: the mode of the
in-progress record is the value converted to `mode_t`. -/
theorem parserCdataCb_mode_value (pd : CStr → Int) (p : DavPropXMLParser) (s : CStr)
    (h_err : p.err = none)
    (h_resp : p.response_section = true) (h_ps : p.propname_section = true)
    (h_prop : p.prop_section = true) (h_mode : p.mode_ext_section = true)
    (h_lm : p.lastmod_section = false) (h_cd : p.creatdate_section = false)
    (h_cl : p.contentlength_section = false)
    (h_num : is_octal_numeral s = true) (h_val : octal_value s < ULONG_MAX) :
    (parserCdataCb pd p s).2._current_props.mode = to_mode_t (octal_value s) ∧
    (p.status_section = false → (parserCdataCb pd p s).1 = 0) := by
  have hs : strtoul s 8 = octal_value s := by
    rw [strtoul_octal s h_num]
    have : ¬ octal_value s > ULONG_MAX := by omega
    simp [this]
  have hne : ¬ octal_value s = ULONG_MAX := by omega
  have hc : check_mode_ext p s
      = (0, { p with _current_props :=
                { p._current_props with mode := to_mode_t (octal_value s) } }) := by
    simp [check_mode_ext, hs, hne, h_resp, h_ps, h_prop, h_mode]
  obtain ⟨q, hq, hqe, hqm, hqs⟩ : ∃ q, check_mode_ext p s = (0, q) ∧ q.err = none ∧
      q._current_props.mode = to_mode_t (octal_value s) ∧
      q.status_section = p.status_section := ⟨_, hc, h_err, rfl, rfl⟩
  obtain ⟨q2, hq2, hqe2, hqm2, hqs2⟩ : ∃ q2, check_href q s = (0, q2) ∧ q2.err = none ∧
      q2._current_props.mode = to_mode_t (octal_value s) ∧
      q2.status_section = p.status_section := by
    obtain ⟨f, hf⟩ := check_href_frame q s
    exact ⟨_, hf, hqe, hqm, hqs⟩
  unfold parserCdataCb
  simp only [c_str_octal s h_num]
  rw [check_last_modified_closed pd p s h_lm, report_error_pair_none _ _ _ h_err,
    check_creation_date_closed pd p s h_cd, report_error_pair_none _ _ _ h_err,
    check_content_length_closed p s h_cl, report_error_pair_none _ _ _ h_err,
    hq, report_error_pair_none _ _ _ hqe, hq2, report_error_pair_none _ _ _ hqe2]
  constructor
  · refine report_error_rule
      (fun r => r.2._current_props.mode = to_mode_t (octal_value s)) _ _
      (fun _ => ?_) (fun _ => ?_) <;>
    · show (check_status _ s).2._current_props.mode = _
      rw [(check_status_dates _ s).2.2.1, hqm2]
  · intro h_st
    rw [check_status_closed _ s (hqs2.trans h_st), report_error_pair_none _ _ _ hqe2]

/-- C17, as stated, fails on numerals within the `unsigned long` range: inside
`response/propstat/prop/mode`, the octal numeral `40000000000` (2^32) makes
the callback succeed with mode 0, not 2^32, and the octal numeral
`1777777777777777777777` (2^64 - 1, the largest `unsigned long`) fails the
callback and leaves the default mode 0777. -/
theorem mode_ext_range_counterexample :
    is_octal_numeral "40000000000".toList = true ∧
    octal_value "40000000000".toList = 4294967296 ∧
    (parserCdataCb reject_date state_in_mode "40000000000".toList).1 = 0 ∧
    (parserCdataCb reject_date state_in_mode "40000000000".toList).2._current_props.mode = 0 ∧
    is_octal_numeral "1777777777777777777777".toList = true ∧
    octal_value "1777777777777777777777".toList = ULONG_MAX ∧
    (parserCdataCb reject_date state_in_mode "1777777777777777777777".toList).1 = -1 ∧
    (parserCdataCb reject_date state_in_mode
      "1777777777777777777777".toList).2._current_props.mode = 511 := by
  decide

/-- C17 (amended): for character data that is an octal numeral (digits `0` to
`7`), observed while the response, propstat, prop and mode scopes are open.
If the value is strictly below `ULONG_MAX`, no error is pending and the
getlastmodified, creationdate and getcontentlength scopes are closed, the
whole mode of the in-progress record is replaced by the value converted to
`mode_t` (the value modulo 2^32, so the value itself below 2^32), and the
callback returns 0 when the status scope is closed too. If the value is above
`ULONG_MAX`, in every parser state the callback returns -1, leaves the mode
unchanged and leaves an error in the slot, a properties-parsing error when
none was pending. -/
theorem mode_ext_value (pd : CStr → Int) (p : DavPropXMLParser) (s : CStr)
    (h_resp : p.response_section = true) (h_ps : p.propname_section = true)
    (h_prop : p.prop_section = true) (h_mode : p.mode_ext_section = true)
    (h_num : is_octal_numeral s = true) :
    (octal_value s < ULONG_MAX → p.err = none → p.lastmod_section = false →
      p.creatdate_section = false → p.contentlength_section = false →
      (parserCdataCb pd p s).2._current_props.mode = octal_value s % 2 ^ 32 ∧
      (octal_value s < 2 ^ 32 →
        (parserCdataCb pd p s).2._current_props.mode = octal_value s) ∧
      (p.status_section = false → (parserCdataCb pd p s).1 = 0)) ∧
    (ULONG_MAX < octal_value s →
      (parserCdataCb pd p s).1 = -1 ∧
      (parserCdataCb pd p s).2._current_props.mode = p._current_props.mode ∧
      (parserCdataCb pd p s).2.err.isSome = true ∧
      (p.err = none → ∃ e, (parserCdataCb pd p s).2.err = some e ∧
        e.code = StatusCode.WebDavPropertiesParsingError)) := by
  refine ⟨fun h_val h_err h_lm h_cd h_cl => ?_,
    parserCdataCb_mode_overflow pd p s h_resp h_ps h_prop h_mode h_num⟩
  have h := parserCdataCb_mode_value pd p s h_err h_resp h_ps h_prop h_mode h_lm h_cd h_cl
    h_num h_val
  refine ⟨h.1, fun hlt => ?_, h.2⟩
  rw [h.1]
  exact Nat.mod_eq_of_lt hlt

/-- C17 (amended) on the example: `755` gives mode 0755, 493 in decimal. -/
theorem mode_ext_value_witness :
    (parserCdataCb reject_date state_in_mode "755".toList).2._current_props.mode = 493 ∧
    (parserCdataCb reject_date state_in_mode "755".toList).1 = 0 :=
  ⟨((mode_ext_value reject_date state_in_mode "755".toList (by decide) (by decide) (by decide)
      (by decide) (by decide)).1 (by decide) (by decide) (by decide) (by decide)
      (by decide)).2.1 (by decide),
    ((mode_ext_value reject_date state_in_mode "755".toList (by decide) (by decide) (by decide)
      (by decide) (by decide)).1 (by decide) (by decide) (by decide) (by decide)
      (by decide)).2.2 (by decide)⟩

/-! ## Failure and the committed records -/

theorem start_tail_props (q : DavPropXMLParser) (name : CStr) (new_prop : Bool)
    (h_err : q.err = none) : (start_tail q name new_prop).2._props = q._props := by
  obtain ⟨m, hm⟩ := check_is_directory_mode q name h_err
  unfold start_tail
  rw [hm]
  cases new_prop with
  | false =>
    simp only [lt_self_iff_false, if_false, Bool.false_eq_true]
  | true =>
    simp only [lt_self_iff_false, if_false, if_true]
    show (compute_new_elem _).2._props = _
    unfold compute_new_elem
    split <;> rfl

/-- A start-element event never changes the result sequence. -/
theorem parserStartElemCb_props (p : DavPropXMLParser) (name : CStr) :
    (parserStartElemCb p name).2._props = p._props := by
  rcases parserStartElemCb_frame (fun q => q._props = p._props) name
    (fun k q hq => ((add_scope_call_data k q name).2).trans hq) p rfl
    with h | ⟨q, np, hq, he, _, e⟩
  · exact h.2
  · rw [e, start_tail_props q name np he]
    exact hq

/-- A character-data event never changes the result sequence. -/
theorem parserCdataCb_props (pd : CStr → Int) (p : DavPropXMLParser) (cdata : List Char) :
    (parserCdataCb pd p cdata).2._props = p._props :=
  (parserCdataCb_frame (fun q => q._props = p._props) pd cdata
    (fun q hq => (check_last_modified_keeps pd q _).2.2.2.2.2.2.2.2.2.2.1.trans hq)
    (fun q hq => (check_creation_date_keeps pd q _).2.2.2.2.2.2.2.2.2.2.1.trans hq)
    (fun q hq => (check_content_length_keeps q _).2.2.2.2.2.2.2.2.2.2.1.trans hq)
    (fun q hq => (check_mode_ext_keeps q _).2.2.2.2.2.2.2.2.2.2.1.trans hq)
    (fun q hq => (check_href_current q _).2.trans hq)
    (fun q hq => (check_status_dates q _).2.2.2.trans hq)
    p rfl).1

theorem store_new_elem_fst (q : DavPropXMLParser) : (store_new_elem q).1 = 0 := by
  unfold store_new_elem
  split
  · split <;> rfl
  · rfl

/-- An end-element event that fails leaves the result sequence as it was. -/
theorem parserEndElemCb_props_of_failure (p : DavPropXMLParser) (name : CStr)
    (h : (parserEndElemCb p name).1 ≠ 0) :
    (parserEndElemCb p name).2._props = p._props := by
  rcases parserEndElemCb_frame (fun q => q._props = p._props) name
    (fun k q hq => ((remove_scope_call_data k q name).2).trans hq) p rfl
    with h1 | ⟨q, ep, _, _, _, e⟩
  · exact h1.2
  · exfalso
    apply h
    rw [e]
    cases ep with
    | false => rfl
    | true => exact store_new_elem_fst q

set_option maxRecDepth 16000 in
/-- C18, as stated, fails: after one complete `propstat` of status 200 the
result sequence holds one record; a second end-element event `propstat` then
fails (-1, the parse is aborted), and after the failing callback the result
sequence still holds that record. -/
theorem failure_keeps_record_counterexample :
    state_one_committed._props.length = 1 ∧
    feed reject_date state_one_committed (Event.end_elem propstat_pattern) = none ∧
    (deliver reject_date state_one_committed (Event.end_elem propstat_pattern)).1 = -1 ∧
    (deliver reject_date state_one_committed (Event.end_elem propstat_pattern)).2._props
      = state_one_committed._props ∧
    (deliver reject_date state_one_committed (Event.end_elem propstat_pattern)).2._props
      ≠ [] := by
  decide

/-- C18 (amended): a failing callback leaves the committed records where they
are. For every parser state and every event whose callback fails (a negative
result of the start callback, a non-zero result of the others), the result
sequence after the failing callback is the result sequence before it: nothing
in the parser clears it. -/
theorem failure_keeps_records (pd : CStr → Int) (p : DavPropXMLParser) (e : Event)
    (h_fail : feed pd p e = none) :
    (deliver pd p e).2._props = p._props := by
  cases e with
  | start_elem name => exact parserStartElemCb_props p name
  | cdata text => exact parserCdataCb_props pd p text
  | end_elem name =>
    refine parserEndElemCb_props_of_failure p name (fun h0 => ?_)
    simp [feed, h0] at h_fail

set_option maxRecDepth 16000 in
/-- C18 (amended) on an example: the character data `HTTP/1.1` (a status line
without a space) inside a second `propstat/status`, after one committed
record, fails and leaves that record in the result sequence. -/
theorem failure_keeps_records_witness :
    (deliver reject_date
      (state_after [Event.start_elem response_pattern, Event.start_elem propstat_pattern,
        Event.start_elem prop_pattern, Event.end_elem prop_pattern,
        Event.start_elem status_pattern, Event.cdata "HTTP/1.1 200 OK".toList,
        Event.end_elem status_pattern, Event.end_elem propstat_pattern,
        Event.start_elem propstat_pattern, Event.start_elem status_pattern])
      (Event.cdata "HTTP/1.1".toList)).2._props
    = (state_after [Event.start_elem response_pattern, Event.start_elem propstat_pattern,
        Event.start_elem prop_pattern, Event.end_elem prop_pattern,
        Event.start_elem status_pattern, Event.cdata "HTTP/1.1 200 OK".toList,
        Event.end_elem status_pattern, Event.end_elem propstat_pattern,
        Event.start_elem propstat_pattern, Event.start_elem status_pattern])._props :=
  failure_keeps_records reject_date _ (Event.cdata "HTTP/1.1".toList) (by decide)

/-! ## Request parameters: X.509 sources and the state uid -/

/-- C19: exactly one X.509 credential source is active at a time. Whatever the
object `p` was before (so whatever the earlier calls and their order):
after `setClientCertCallbackX509(cb, ud)` the credential getter returns the
default (empty) credential and the callback getter returns `(cb, ud)`;
after `setClientCertX509(c)` the credential getter returns `c` and the
callback getter returns the null pair;
after `setClientCertFunctionX509(f)` the function getter returns `f`, the
credential getter the default credential and the callback getter the null
pair. In each case the X.509 data after the call is the same for every earlier
object, and the getters leave the object as it is. -/
theorem x509_source_exclusive (p : RequestParams) (state_value : Int) (cb ud : Nat)
    (c : X509Credential) (f : X509Fun) :
    ((RequestParams.getClientCertX509
        (RequestParams.setClientCertCallbackX509 p cb ud state_value).1).1
        = X509Credential.empty ∧
      (RequestParams.getClientCertCallbackX509
        (RequestParams.setClientCertCallbackX509 p cb ud state_value).1).1 = (cb, ud)) ∧
    ((RequestParams.getClientCertX509
        (RequestParams.setClientCertX509 p c state_value).1).1 = c ∧
      (RequestParams.getClientCertCallbackX509
        (RequestParams.setClientCertX509 p c state_value).1).1 = (0, 0)) ∧
    ((RequestParams.getClientCertFunctionX509
        (RequestParams.setClientCertFunctionX509 p f state_value).1).1 = f ∧
      (RequestParams.getClientCertX509
        (RequestParams.setClientCertFunctionX509 p f state_value).1).1
        = X509Credential.empty ∧
      (RequestParams.getClientCertCallbackX509
        (RequestParams.setClientCertFunctionX509 p f state_value).1).1 = (0, 0)) ∧
    (∀ (q : RequestParams) (sv : Int),
      (RequestParams.setClientCertCallbackX509 q cb ud sv).1.d_ptr._x509_data
        = (RequestParams.setClientCertCallbackX509 p cb ud state_value).1.d_ptr._x509_data ∧
      (RequestParams.setClientCertX509 q c sv).1.d_ptr._x509_data
        = (RequestParams.setClientCertX509 p c state_value).1.d_ptr._x509_data ∧
      (RequestParams.setClientCertFunctionX509 q f sv).1.d_ptr._x509_data
        = (RequestParams.setClientCertFunctionX509 p f state_value).1.d_ptr._x509_data) ∧
    ((RequestParams.getClientCertX509
        (RequestParams.setClientCertCallbackX509 p cb ud state_value).1).2
        = (RequestParams.setClientCertCallbackX509 p cb ud state_value).1 ∧
      (RequestParams.getClientCertCallbackX509
        (RequestParams.setClientCertX509 p c state_value).1).2
        = (RequestParams.setClientCertX509 p c state_value).1 ∧
      (RequestParams.getClientCertFunctionX509
        (RequestParams.setClientCertFunctionX509 p f state_value).1).2
        = (RequestParams.setClientCertFunctionX509 p f state_value).1) := by
  refine ⟨⟨rfl, rfl⟩, ⟨rfl, rfl⟩, ⟨rfl, rfl, rfl⟩, fun q sv => ⟨rfl, rfl, rfl⟩, rfl, rfl, rfl⟩

/-- C20 (the code departs from it): a default-constructed object and a copy of
it to which the header `X-Test: 1` was added, or whose proxy server was set,
report the same `getParmState` value although `getHeaders`, respectively
`getProxyServer`, differ: `addHeader` and `setProxyServer` do not regenerate
the state uid. -/
theorem same_state_uid_different_configuration :
    RequestParams.getParmState
        (RequestParams.addHeader (RequestParams.copy (RequestParams.new sample_constants 0).1)
          "X-Test" "1")
      = RequestParams.getParmState (RequestParams.new sample_constants 0).1 ∧
    RequestParams.getHeaders (RequestParams.new sample_constants 0).1 = [] ∧
    RequestParams.getHeaders
        (RequestParams.addHeader (RequestParams.copy (RequestParams.new sample_constants 0).1)
          "X-Test" "1") = [("X-Test", "1")] ∧
    RequestParams.getParmState
        (RequestParams.setProxyServer (RequestParams.copy (RequestParams.new sample_constants 0).1)
          "http://proxy.example:3128")
      = RequestParams.getParmState (RequestParams.new sample_constants 0).1 ∧
    RequestParams.getProxyServer (RequestParams.new sample_constants 0).1 = none ∧
    RequestParams.getProxyServer
        (RequestParams.setProxyServer (RequestParams.copy (RequestParams.new sample_constants 0).1)
          "http://proxy.example:3128") = some "http://proxy.example:3128" := by
  refine ⟨rfl, rfl, rfl, rfl, rfl, rfl⟩

/-! ## Invariants of the callbacks -/

theorem feed_eq_deliver (pd : CStr → Int) (p q : DavPropXMLParser) (e : Event)
    (h : feed pd p e = some q) : q = (deliver pd p e).2 := by
  cases e <;> simp only [feed] at h <;> split at h <;> first | (cases h; rfl) | cases h

theorem store_new_elem_props (q : DavPropXMLParser) :
    (store_new_elem q).2._props = q._props ∨
    (store_new_elem q).2._props = q._props ++ [q._current_props] := by
  unfold store_new_elem
  split
  · split
    · exact Or.inr rfl
    · exact Or.inl rfl
  · exact Or.inl rfl

/-- An end-element event leaves the result sequence as it was or appends one
record to it. -/
theorem parserEndElemCb_props_cases (p : DavPropXMLParser) (name : CStr) :
    (parserEndElemCb p name).2._props = p._props ∨
    ∃ r, (parserEndElemCb p name).2._props = p._props ++ [r] := by
  rcases parserEndElemCb_frame (fun q => q._props = p._props) name
    (fun k q hq => ((remove_scope_call_data k q name).2).trans hq) p rfl
    with h1 | ⟨q, ep, hq, _, _, e⟩
  · exact Or.inl h1.2
  · rw [e]
    cases ep with
    | false => exact Or.inl hq
    | true =>
      simp only [if_true]
      rcases store_new_elem_props q with h | h
      · exact Or.inl (h.trans hq)
      · exact Or.inr ⟨q._current_props, by rw [h, hq]⟩

/-- What one callback does to the result sequence: it appends at most one
record. -/
theorem deliver_props (pd : CStr → Int) (p : DavPropXMLParser) (e : Event) :
    ∃ extra : List FileProperties,
      (deliver pd p e).2._props = p._props ++ extra ∧ extra.length ≤ 1 := by
  cases e with
  | start_elem name => exact ⟨[], by simp [deliver, parserStartElemCb_props], by simp⟩
  | cdata text => exact ⟨[], by simp [deliver, parserCdataCb_props], by simp⟩
  | end_elem name =>
    rcases parserEndElemCb_props_cases p name with h | ⟨r, h⟩
    · exact ⟨[], by simp [deliver, h], by simp⟩
    · exact ⟨[r], by simp [deliver, h], by simp⟩

theorem run_events_props_prefix (pd : CStr → Int) (events : List Event) :
    ∀ (p q : DavPropXMLParser), run_events pd p events = some q → p._props <+: q._props := by
  induction events with
  | nil =>
    intro p q h
    simp only [run_events, Option.some.injEq] at h
    rw [h]
  | cons e es ih =>
    intro p q h
    simp only [run_events] at h
    cases hf : feed pd p e with
    | none => rw [hf] at h; cases h
    | some p1 =>
      rw [hf] at h
      obtain ⟨extra, he, _⟩ := deliver_props pd p e
      rw [← feed_eq_deliver pd p p1 e hf] at he
      have h1 : p._props <+: p1._props := ⟨extra, he.symm⟩
      exact List.IsPrefix.trans h1 (ih p1 q h)

/-- C24: committed records are never mutated. For every parser state and every
callback, succeeding or failing, the result sequence after the callback is the
result sequence before it followed by at most one record; hence along every
run of events the earlier result sequence is a prefix of the later one, and
the records are in the order of their commits. -/
theorem committed_records_never_mutated (pd : CStr → Int) (p : DavPropXMLParser) :
    (∀ e : Event, ∃ extra : List FileProperties,
      (deliver pd p e).2._props = p._props ++ extra ∧ extra.length ≤ 1) ∧
    (∀ (events : List Event) (q : DavPropXMLParser),
      run_events pd p events = some q → p._props <+: q._props) :=
  ⟨fun e => deliver_props pd p e, fun events q h => run_events_props_prefix pd events p q h⟩

set_option maxRecDepth 16000 in
/-- C24 on an example: the record committed by a first `propstat` is still the
first record after a second `propstat` of the same response. -/
theorem committed_records_never_mutated_witness :
    state_one_committed._props <+:
      (state_after [Event.start_elem response_pattern, Event.start_elem propstat_pattern,
        Event.start_elem prop_pattern, Event.end_elem prop_pattern,
        Event.start_elem status_pattern, Event.cdata "HTTP/1.1 200 OK".toList,
        Event.end_elem status_pattern, Event.end_elem propstat_pattern,
        Event.start_elem propstat_pattern, Event.start_elem prop_pattern,
        Event.end_elem prop_pattern, Event.start_elem status_pattern,
        Event.cdata "HTTP/1.1 200 OK".toList, Event.end_elem status_pattern,
        Event.end_elem propstat_pattern])._props :=
  (committed_records_never_mutated reject_date state_one_committed).2
    [Event.start_elem propstat_pattern, Event.start_elem prop_pattern,
      Event.end_elem prop_pattern, Event.start_elem status_pattern,
      Event.cdata "HTTP/1.1 200 OK".toList, Event.end_elem status_pattern,
      Event.end_elem propstat_pattern] _ (by decide)

/-! ### Scope flags -/

theorem Scope.flag_set_flag (j k : Scope) (p : DavPropXMLParser) (b : Bool) :
    k.flag (j.set_flag p b) = if j = k then b else k.flag p := by
  cases j <;> cases k <;> simp [Scope.flag, Scope.set_flag]

theorem Scope.flag_with_current (k : Scope) (p : DavPropXMLParser) (r : FileProperties) :
    k.flag { p with _current_props := r } = k.flag p := by
  cases k <;> rfl

theorem Scope.flag_with_filename (k : Scope) (p : DavPropXMLParser) (f : CStr) :
    k.flag { p with last_filename := f } = k.flag p := by
  cases k <;> rfl

theorem Scope.flag_with_props (k : Scope) (p : DavPropXMLParser) (X : List FileProperties) :
    k.flag { p with _props := X } = k.flag p := by
  cases k <;> rfl

theorem Scope.set_flag_self (k : Scope) (p : DavPropXMLParser) :
    k.set_flag p (k.flag p) = p := by
  cases k <;> rfl

/-- What one `add_scope` statement does to the parser object: nothing, an
error in the slot, or the flag of a matching element set. -/
theorem add_scope_call_cases (j : Scope) (p : DavPropXMLParser) (name : CStr) :
    (add_scope_call j p name).2 = p ∨
    (∃ e, (add_scope_call j p name).2 = { p with err := some e }) ∨
    (match_element name j.pattern = true ∧ j.flag p = false ∧
      (add_scope_call j p name).2 = j.set_flag p true) := by
  unfold add_scope_call add_scope
  by_cases hc : (j.enter_condition p && !j.skip_condition p && match_element name j.pattern) = true
  · simp only [hc, if_true]
    have hm : match_element name j.pattern = true := by
      simp only [Bool.and_eq_true] at hc
      exact hc.2
    cases hf : j.flag p with
    | true =>
      have hs : j.set_flag p true = p := by
        have := Scope.set_flag_self j p
        rwa [hf] at this
      refine Or.inr (Or.inl ⟨duplicate_error name, ?_⟩)
      simp [hs, setupError, duplicate_error]
    | false =>
      refine Or.inr (Or.inr ⟨hm, rfl, ?_⟩)
      simp only [Bool.false_eq_true, beq_iff_eq, if_false]
      cases j <;> rfl
  · simp only [hc, Bool.false_eq_true, if_false]
    rw [Scope.set_flag_self]
    exact Or.inl rfl

/-- What one `remove_scope` statement does to the parser object: nothing, an
error in the slot, or the flag of a matching element cleared. -/
theorem remove_scope_call_cases (j : Scope) (p : DavPropXMLParser) (name : CStr) :
    (remove_scope_call j p name).2 = p ∨
    (∃ e, (remove_scope_call j p name).2 = { p with err := some e }) ∨
    (match_element name j.pattern = true ∧ j.flag p = true ∧
      (remove_scope_call j p name).2 = j.set_flag p false) := by
  unfold remove_scope_call remove_scope
  by_cases hc : (j.enter_condition p && !j.skip_condition p && match_element name j.pattern) = true
  · simp only [hc, if_true]
    have hm : match_element name j.pattern = true := by
      simp only [Bool.and_eq_true] at hc
      exact hc.2
    cases hf : j.flag p with
    | false =>
      have hs : j.set_flag p false = p := by
        have := Scope.set_flag_self j p
        rwa [hf] at this
      refine Or.inr (Or.inl ⟨not_opened_error name, ?_⟩)
      simp [hs, setupError, not_opened_error]
    | true =>
      refine Or.inr (Or.inr ⟨hm, rfl, ?_⟩)
      simp only [Bool.true_eq_false, beq_iff_eq, if_false]
      cases j <;> rfl
  · simp only [hc, Bool.false_eq_true, if_false]
    rw [Scope.set_flag_self]
    exact Or.inl rfl

/-- The end of `parserStartElemCb` changes no scope flag. -/
theorem start_tail_flags (q : DavPropXMLParser) (name : CStr) (new_prop : Bool)
    (h_err : q.err = none) : same_flags q (start_tail q name new_prop).2 := by
  obtain ⟨m, hm⟩ := check_is_directory_mode q name h_err
  intro k
  unfold start_tail
  rw [hm]
  cases new_prop with
  | false =>
    simp only [lt_self_iff_false, if_false, Bool.false_eq_true]
    exact Scope.flag_with_current k q _
  | true =>
    simp only [lt_self_iff_false, if_false, if_true]
    show k.flag (compute_new_elem _).2 = _
    unfold compute_new_elem
    split
    · exact Scope.flag_with_current k q _
    · exact Scope.flag_with_current k q _

theorem store_new_elem_flags (q : DavPropXMLParser) : same_flags q (store_new_elem q).2 := by
  intro k
  unfold store_new_elem
  split
  · split
    · exact Scope.flag_with_props k q _
    · rfl
  · rfl

/-- A start-element event only sets flags, and only the flag of the element
named. -/
theorem parserStartElemCb_flags (p : DavPropXMLParser) (name : CStr) (k : Scope) :
    (k.flag p = true → k.flag (parserStartElemCb p name).2 = true) ∧
    (k.flag (parserStartElemCb p name).2 ≠ k.flag p → match_element name k.pattern = true) := by
  have hstep : ∀ (j : Scope) (q : DavPropXMLParser),
      ((k.flag p = true → k.flag q = true) ∧
        (k.flag q ≠ k.flag p → match_element name k.pattern = true)) →
      ((k.flag p = true → k.flag (add_scope_call j q name).2 = true) ∧
        (k.flag (add_scope_call j q name).2 ≠ k.flag p →
          match_element name k.pattern = true)) := by
    intro j q hq
    rcases add_scope_call_cases j q name with h | ⟨e, h⟩ | ⟨hm, _, h⟩
    · rw [h]; exact hq
    · have hk : k.flag (add_scope_call j q name).2 = k.flag q := by
        rw [h]
        exact Scope.flag_with_err k q _
      rw [hk]
      exact hq
    · by_cases hjk : j = k
      · subst hjk
        have hk : j.flag (add_scope_call j q name).2 = true := by
          rw [h, Scope.flag_set_flag]
          simp
        rw [hk]
        exact ⟨fun _ => rfl, fun _ => hm⟩
      · have hk : k.flag (add_scope_call j q name).2 = k.flag q := by
          rw [h, Scope.flag_set_flag]
          simp [hjk]
        rw [hk]
        exact hq
  rcases parserStartElemCb_frame
    (fun q => (k.flag p = true → k.flag q = true) ∧
      (k.flag q ≠ k.flag p → match_element name k.pattern = true)) name hstep p
    ⟨fun h => h, fun h => absurd rfl h⟩ with h | ⟨q, np, hq, he, _, e⟩
  · exact h.2
  · rw [e, start_tail_flags q name np he k]
    exact hq

/-- An end-element event only clears flags, and only the flag of the element
named. -/
theorem parserEndElemCb_flags (p : DavPropXMLParser) (name : CStr) (k : Scope) :
    (k.flag p = false → k.flag (parserEndElemCb p name).2 = false) ∧
    (k.flag (parserEndElemCb p name).2 ≠ k.flag p → match_element name k.pattern = true) := by
  have hstep : ∀ (j : Scope) (q : DavPropXMLParser),
      ((k.flag p = false → k.flag q = false) ∧
        (k.flag q ≠ k.flag p → match_element name k.pattern = true)) →
      ((k.flag p = false → k.flag (remove_scope_call j q name).2 = false) ∧
        (k.flag (remove_scope_call j q name).2 ≠ k.flag p →
          match_element name k.pattern = true)) := by
    intro j q hq
    rcases remove_scope_call_cases j q name with h | ⟨e, h⟩ | ⟨hm, _, h⟩
    · rw [h]; exact hq
    · have hk : k.flag (remove_scope_call j q name).2 = k.flag q := by
        rw [h]
        exact Scope.flag_with_err k q _
      rw [hk]
      exact hq
    · by_cases hjk : j = k
      · subst hjk
        have hk : j.flag (remove_scope_call j q name).2 = false := by
          rw [h, Scope.flag_set_flag]
          simp
        rw [hk]
        exact ⟨fun _ => rfl, fun _ => hm⟩
      · have hk : k.flag (remove_scope_call j q name).2 = k.flag q := by
          rw [h, Scope.flag_set_flag]
          simp [hjk]
        rw [hk]
        exact hq
  rcases parserEndElemCb_frame
    (fun q => (k.flag p = false → k.flag q = false) ∧
      (k.flag q ≠ k.flag p → match_element name k.pattern = true)) name hstep p
    ⟨fun h => h, fun h => absurd rfl h⟩ with h | ⟨q, ep, hq, _, _, e⟩
  · exact h.2
  · rw [e]
    cases ep with
    | false => exact hq
    | true =>
      simp only [if_true]
      rw [store_new_elem_flags q k]
      exact hq

theorem keeps_scopes_flags (p q : DavPropXMLParser) (h : keeps_scopes p q) : same_flags p q := by
  obtain ⟨h1, h2, h3, h4, h5, h6, h7, h8, h9, h10, _⟩ := h
  intro k
  cases k <;> assumption

theorem check_href_flags (p : DavPropXMLParser) (s : CStr) :
    same_flags p (check_href p s).2 := by
  obtain ⟨f, e⟩ := check_href_frame p s
  intro k
  rw [e]
  exact Scope.flag_with_filename k p f

theorem check_status_flags (p : DavPropXMLParser) (s : CStr) :
    same_flags p (check_status p s).2 := by
  intro k
  rcases check_status_cases p s with e | ⟨_, e⟩ | ⟨_, e⟩ <;> rw [e]
  · exact Scope.flag_with_err k p _
  · exact Scope.flag_with_current k p _

/-- A character-data event changes no scope flag. -/
theorem parserCdataCb_flags (pd : CStr → Int) (p : DavPropXMLParser) (cdata : List Char) :
    same_flags p (parserCdataCb pd p cdata).2 := by
  intro k
  exact (parserCdataCb_frame (fun q => k.flag q = k.flag p) pd cdata
    (fun q hq => (keeps_scopes_flags _ _ (check_last_modified_keeps pd q _) k).trans hq)
    (fun q hq => (keeps_scopes_flags _ _ (check_creation_date_keeps pd q _) k).trans hq)
    (fun q hq => (keeps_scopes_flags _ _ (check_content_length_keeps q _) k).trans hq)
    (fun q hq => (keeps_scopes_flags _ _ (check_mode_ext_keeps q _) k).trans hq)
    (fun q hq => (check_href_flags q _ k).trans hq)
    (fun q hq => (check_status_flags q _ k).trans hq)
    p rfl).1

/-- C25: scope flags move only in the direction of the event. For every parser
state, element name, text and flag: a start-element event leaves a true flag
true and an end-element event leaves a false flag false; a flag that either
event changes is the flag of the element named; a character-data event leaves
the flag as it is; and the flag is false in a freshly constructed parser. -/
theorem scope_flags_direction (pd : CStr → Int) (p : DavPropXMLParser) (name : CStr)
    (text : List Char) (k : Scope) :
    (k.flag p = true → k.flag (parserStartElemCb p name).2 = true) ∧
    (k.flag (parserStartElemCb p name).2 ≠ k.flag p → match_element name k.pattern = true) ∧
    (k.flag p = false → k.flag (parserEndElemCb p name).2 = false) ∧
    (k.flag (parserEndElemCb p name).2 ≠ k.flag p → match_element name k.pattern = true) ∧
    k.flag (parserCdataCb pd p text).2 = k.flag p ∧
    k.flag DavPropXMLParser.new = false := by
  refine ⟨(parserStartElemCb_flags p name k).1, (parserStartElemCb_flags p name k).2,
    (parserEndElemCb_flags p name k).1, (parserEndElemCb_flags p name k).2,
    parserCdataCb_flags pd p text k, ?_⟩
  cases k <;> rfl

/-- C25 on an example: inside `response/propstat/prop` the start of
`getcontentlength` leaves the response flag true, and the end of `prop` leaves
the status flag false. -/
theorem scope_flags_direction_witness :
    Scope.response_section.flag
      (parserStartElemCb state_in_prop getcontentlength_pattern).2 = true ∧
    Scope.status_section.flag (parserEndElemCb state_in_prop prop_pattern).2 = false :=
  ⟨(scope_flags_direction reject_date state_in_prop getcontentlength_pattern []
      Scope.response_section).1 (by decide),
    (scope_flags_direction reject_date state_in_prop prop_pattern []
      Scope.status_section).2.2.1 (by decide)⟩

/-! ## Text outside leaf scopes, and pending errors -/

theorem check_mode_ext_closed (p : DavPropXMLParser) (s : CStr)
    (h : p.mode_ext_section = false) : check_mode_ext p s = (0, p) := by
  simp [check_mode_ext, h]

/-- C26: text outside leaf scopes is harmless. In every parser state with no
pending error in which the getlastmodified, creationdate, getcontentlength,
mode, href and status flags are all false, the character-data callback returns
0 for every chunk and leaves the whole parser object unchanged: the
in-progress record, the remembered filename, the scope flags and the result
sequence. -/
theorem text_outside_leaf_scopes (pd : CStr → Int) (p : DavPropXMLParser) (cdata : List Char)
    (h_err : p.err = none) (h_lm : p.lastmod_section = false)
    (h_cd : p.creatdate_section = false) (h_cl : p.contentlength_section = false)
    (h_mode : p.mode_ext_section = false) (h_href : p.href_section = false)
    (h_st : p.status_section = false) :
    parserCdataCb pd p cdata = (0, p) := by
  unfold parserCdataCb
  simp only []
  rw [check_last_modified_closed pd p _ h_lm, report_error_pair_none _ _ _ h_err,
    check_creation_date_closed pd p _ h_cd, report_error_pair_none _ _ _ h_err,
    check_content_length_closed p _ h_cl, report_error_pair_none _ _ _ h_err,
    check_mode_ext_closed p _ h_mode, report_error_pair_none _ _ _ h_err,
    check_href_closed p _ h_href, report_error_pair_none _ _ _ h_err,
    check_status_closed p _ h_st, report_error_pair_none _ _ _ h_err]

/-- C26 on an example: white space between the elements inside
`response/propstat/prop`. -/
theorem text_outside_leaf_scopes_witness :
    parserCdataCb reject_date state_in_prop "\n    ".toList = (0, state_in_prop) :=
  text_outside_leaf_scopes reject_date state_in_prop "\n    ".toList (by decide) (by decide)
    (by decide) (by decide) (by decide) (by decide) (by decide)

theorem add_scope_call_err (k : Scope) (p : DavPropXMLParser) (name : CStr)
    (h : p.err.isSome = true) : (add_scope_call k p name).2.err.isSome = true := by
  rcases add_scope_call_cases k p name with e | ⟨_, e⟩ | ⟨_, _, e⟩ <;> rw [e]
  · exact h
  · rfl
  · rw [Scope.set_flag_err]
    exact h

theorem remove_scope_call_err (k : Scope) (p : DavPropXMLParser) (name : CStr)
    (h : p.err.isSome = true) : (remove_scope_call k p name).2.err.isSome = true := by
  rcases remove_scope_call_cases k p name with e | ⟨_, e⟩ | ⟨_, _, e⟩ <;> rw [e]
  · exact h
  · rfl
  · rw [Scope.set_flag_err]
    exact h

/-- With an error pending, `parserStartElemCb` returns after its first
statement. -/
theorem parserStartElemCb_of_pending (p : DavPropXMLParser) (name : CStr)
    (h : p.err.isSome = true) :
    parserStartElemCb p name = (-1, (add_scope_call Scope.propname_section p name).2) := by
  unfold parserStartElemCb
  rw [report_error_of_some _ _ (add_scope_call_err _ p name h)]

/-- With an error pending, `parserEndElemCb` returns after its first
statement. -/
theorem parserEndElemCb_of_pending (p : DavPropXMLParser) (name : CStr)
    (h : p.err.isSome = true) :
    parserEndElemCb p name = (-1, (remove_scope_call Scope.propname_section p name).2) := by
  unfold parserEndElemCb
  rw [report_error_of_some _ _ (remove_scope_call_err _ p name h)]

/-- What `check_last_modified` can do to the parser object: nothing, set the
error slot, or set the mtime of the in-progress record. -/
theorem check_last_modified_cases (pd : CStr → Int) (p : DavPropXMLParser) (s : CStr) :
    (check_last_modified pd p s).2 = p ∨
    (∃ e, (check_last_modified pd p s).2 = { p with err := some e }) ∨
    (check_last_modified pd p s).2
      = { p with _current_props := { p._current_props with mtime := pd s } } := by
  unfold check_last_modified
  by_cases h1 : (p.response_section && p.prop_section && p.propname_section
      && p.lastmod_section) = true
  · by_cases h2 : pd s = -1
    · exact Or.inr (Or.inl ⟨{ code := StatusCode.WebDavPropertiesParsingError,
                              msg := "Invalid last modified date format".toList },
        by simp [h1, h2, setupError]⟩)
    · exact Or.inr (Or.inr (by simp [h1, h2]))
  · exact Or.inl (by simp [h1])

/-- With an error pending, `parserCdataCb` returns after its first
statement. -/
theorem parserCdataCb_of_pending (pd : CStr → Int) (p : DavPropXMLParser) (cdata : List Char)
    (h : p.err.isSome = true) :
    parserCdataCb pd p cdata = (-1, (check_last_modified pd p (c_str cdata)).2) ∧
    (check_last_modified pd p (c_str cdata)).2.err.isSome = true := by
  have he : (check_last_modified pd p (c_str cdata)).2.err.isSome = true := by
    rcases check_last_modified_cases pd p (c_str cdata) with e | ⟨_, e⟩ | e <;> rw [e]
    · exact h
    · rfl
    · exact h
  refine ⟨?_, he⟩
  unfold parserCdataCb
  simp only []
  rw [report_error_of_some _ _ he]

/-- One callback on a parser with an error pending: it returns -1, the error
stays pending, and the result sequence is unchanged. -/
theorem deliver_pending (pd : CStr → Int) (p : DavPropXMLParser) (e : Event)
    (h : p.err.isSome = true) :
    (deliver pd p e).1 = -1 ∧ (deliver pd p e).2.err.isSome = true ∧
    (deliver pd p e).2._props = p._props := by
  cases e with
  | start_elem name =>
    simp only [deliver]
    rw [parserStartElemCb_of_pending p name h]
    exact ⟨rfl, add_scope_call_err _ p name h, (add_scope_call_data _ p name).2⟩
  | cdata text =>
    simp only [deliver]
    rw [(parserCdataCb_of_pending pd p text h).1]
    exact ⟨rfl, (parserCdataCb_of_pending pd p text h).2,
      (check_last_modified_keeps pd p _).2.2.2.2.2.2.2.2.2.2.1⟩
  | end_elem name =>
    simp only [deliver]
    rw [parserEndElemCb_of_pending p name h]
    exact ⟨rfl, remove_scope_call_err _ p name h, (remove_scope_call_data _ p name).2⟩

theorem deliver_all_pending (pd : CStr → Int) (events : List Event) :
    ∀ p : DavPropXMLParser, p.err.isSome = true →
      (∀ r ∈ (deliver_all pd p events).1, r = -1) ∧
      (deliver_all pd p events).1.length = events.length ∧
      (deliver_all pd p events).2.err.isSome = true ∧
      (deliver_all pd p events).2._props = p._props := by
  induction events with
  | nil =>
    intro p h
    exact ⟨fun r hr => by simp [deliver_all] at hr, rfl, h, rfl⟩
  | cons e es ih =>
    intro p h
    obtain ⟨d1, d2, d3⟩ := deliver_pending pd p e h
    obtain ⟨i1, i2, i3, i4⟩ := ih (deliver pd p e).2 d2
    simp only [deliver_all]
    refine ⟨fun r hr => ?_, by simp [i2], i3, i4.trans d3⟩
    rcases List.mem_cons.1 hr with hr | hr
    · rw [hr]; exact d1
    · exact i1 r hr

/-- C29: errors are sticky. On a parser whose error slot is set, the
start-element, character-data and end-element callbacks each return -1 and
leave the error slot set and the result sequence unchanged; the start and end
callbacks leave the in-progress record unchanged and the character-data
callback changes at most its mtime (no new record is started). Hence every
callback of every later sequence of events returns -1 and the result sequence
stays as it was when the error was recorded. -/
theorem errors_are_sticky (pd : CStr → Int) (p : DavPropXMLParser)
    (h_err : p.err.isSome = true) :
    (∀ name : CStr,
      (parserStartElemCb p name).1 = -1 ∧ (parserStartElemCb p name).2.err.isSome = true ∧
      (parserStartElemCb p name).2._props = p._props ∧
      (parserStartElemCb p name).2._current_props = p._current_props) ∧
    (∀ text : List Char,
      (parserCdataCb pd p text).1 = -1 ∧ (parserCdataCb pd p text).2.err.isSome = true ∧
      (parserCdataCb pd p text).2._props = p._props ∧
      ∃ m, (parserCdataCb pd p text).2._current_props = { p._current_props with mtime := m }) ∧
    (∀ name : CStr,
      (parserEndElemCb p name).1 = -1 ∧ (parserEndElemCb p name).2.err.isSome = true ∧
      (parserEndElemCb p name).2._props = p._props ∧
      (parserEndElemCb p name).2._current_props = p._current_props) ∧
    (∀ events : List Event,
      (∀ r ∈ (deliver_all pd p events).1, r = -1) ∧
      (deliver_all pd p events).1.length = events.length ∧
      (deliver_all pd p events).2.err.isSome = true ∧
      (deliver_all pd p events).2._props = p._props) := by
  refine ⟨fun name => ?_, fun text => ?_, fun name => ?_,
    fun events => deliver_all_pending pd events p h_err⟩
  · have h := deliver_pending pd p (Event.start_elem name) h_err
    refine ⟨h.1, h.2.1, h.2.2, ?_⟩
    rw [parserStartElemCb_of_pending p name h_err]
    exact (add_scope_call_data _ p name).1
  · have h := deliver_pending pd p (Event.cdata text) h_err
    refine ⟨h.1, h.2.1, h.2.2, ?_⟩
    rw [(parserCdataCb_of_pending pd p text h_err).1]
    rcases check_last_modified_cases pd p (c_str text) with e | ⟨_, e⟩ | e <;> rw [e]
    · exact ⟨p._current_props.mtime, rfl⟩
    · exact ⟨p._current_props.mtime, rfl⟩
    · exact ⟨_, rfl⟩
  · have h := deliver_pending pd p (Event.end_elem name) h_err
    refine ⟨h.1, h.2.1, h.2.2, ?_⟩
    rw [parserEndElemCb_of_pending p name h_err]
    exact (remove_scope_call_data _ p name).1

/-- C29 on an example: inside `response/propstat`, after a failed end-element
event `prop`, the start of `prop`, a status text and the end of `propstat` all
return -1 and no record is committed. -/
theorem errors_are_sticky_witness :
    (deliver_all reject_date state_failed_in_propstat
      [Event.start_elem prop_pattern, Event.cdata "HTTP/1.1 200 OK".toList,
        Event.end_elem propstat_pattern]).1.length = 3 ∧
    (∀ r ∈ (deliver_all reject_date state_failed_in_propstat
      [Event.start_elem prop_pattern, Event.cdata "HTTP/1.1 200 OK".toList,
        Event.end_elem propstat_pattern]).1, r = -1) ∧
    (deliver_all reject_date state_failed_in_propstat
      [Event.start_elem prop_pattern, Event.cdata "HTTP/1.1 200 OK".toList,
        Event.end_elem propstat_pattern]).2._props = state_failed_in_propstat._props :=
  ⟨((errors_are_sticky reject_date state_failed_in_propstat (by decide)).2.2.2 _).2.1,
    ((errors_are_sticky reject_date state_failed_in_propstat (by decide)).2.2.2 _).1,
    ((errors_are_sticky reject_date state_failed_in_propstat (by decide)).2.2.2 _).2.2.2⟩

/-! ## The directory bit -/

theorem check_is_directory_cases (p : DavPropXMLParser) (name : CStr) (h_err : p.err = none) :
    check_is_directory p name = (0, p) ∨
    check_is_directory p name
      = (0, { p with _current_props :=
                { p._current_props with mode := p._current_props.mode ||| S_IFDIR } }) := by
  by_cases hm : match_element name collection_patern = true
  · by_cases hc : (p.response_section && p.prop_section && p.propname_section
        && p.resource_type) = true
    · right
      have hn : name = collection_patern := by simpa [match_element] using hm
      simp only [Bool.and_eq_true] at hc
      rw [hn]
      exact check_is_directory_collection p h_err hc.1.1.1 hc.1.2 hc.1.1.2 hc.2
    · left
      simp [check_is_directory, hc]
  · left
    exact check_is_directory_no_match p name h_err (by simpa using hm)

theorem testBit_or_S_IFDIR (m : Nat) : Nat.testBit (m ||| S_IFDIR) 14 = true := by
  have hS : S_IFDIR = 2 ^ 14 := by decide
  rw [Nat.testBit_or, hS, Nat.testBit_two_pow_self]
  simp

theorem store_new_elem_current (q : DavPropXMLParser) :
    (store_new_elem q).2._current_props = q._current_props := by
  unfold store_new_elem
  split
  · split <;> rfl
  · rfl

/-- An end-element event never changes the in-progress record. -/
theorem parserEndElemCb_current (p : DavPropXMLParser) (name : CStr) :
    (parserEndElemCb p name).2._current_props = p._current_props := by
  rcases parserEndElemCb_frame (fun q => q._current_props = p._current_props) name
    (fun k q hq => ((remove_scope_call_data k q name).1).trans hq) p rfl
    with h1 | ⟨q, ep, hq, _, _, e⟩
  · exact h1.2
  · rw [e]
    cases ep with
    | false => exact hq
    | true =>
      simp only [if_true]
      rw [store_new_elem_current]
      exact hq

/-- A start-element event that succeeds and is not the start of `prop` leaves
a directory bit that is set in the in-progress record set. -/
theorem parserStartElemCb_keeps_dir (p : DavPropXMLParser) (name : CStr)
    (h_ok : ¬ (parserStartElemCb p name).1 < 0) (hn : name ≠ prop_pattern)
    (h_dir : Nat.testBit p._current_props.mode 14 = true) :
    Nat.testBit (parserStartElemCb p name).2._current_props.mode 14 = true := by
  rcases parserStartElemCb_frame
    (fun q => q._current_props = p._current_props) name
    (fun k q hq => ((add_scope_call_data k q name).1).trans hq) p rfl
    with h | ⟨q, np, hq, he, hnp, e⟩
  · exact absurd (by rw [h.1]; decide) h_ok
  · have hf : np = false := by
      cases np with
      | false => rfl
      | true =>
        exfalso
        apply hn
        simpa [match_element] using hnp rfl
    rw [e, hf]
    unfold start_tail
    rcases check_is_directory_cases q name he with hc | hc <;> rw [hc]
    · simp only [lt_self_iff_false, if_false, Bool.false_eq_true]
      rw [hq]
      exact h_dir
    · simp only [lt_self_iff_false, if_false, Bool.false_eq_true]
      exact testBit_or_S_IFDIR _

/-- Character data outside an open mode scope leaves the mode of the
in-progress record as it is. -/
theorem parserCdataCb_keeps_mode (pd : CStr → Int) (p : DavPropXMLParser) (cdata : List Char)
    (h : p.mode_ext_section = false) :
    (parserCdataCb pd p cdata).2._current_props.mode = p._current_props.mode :=
  ((parserCdataCb_frame
    (fun q => q.mode_ext_section = false ∧ q._current_props.mode = p._current_props.mode)
    pd cdata
    (fun q hq => ⟨(check_last_modified_keeps pd q _).2.2.2.2.2.2.1.trans hq.1,
      (check_last_modified_mode pd q _).1.trans hq.2⟩)
    (fun q hq => ⟨(check_creation_date_keeps pd q _).2.2.2.2.2.2.1.trans hq.1,
      (check_creation_date_mode pd q _).1.trans hq.2⟩)
    (fun q hq => ⟨(check_content_length_keeps q _).2.2.2.2.2.2.1.trans hq.1,
      (check_content_length_mode q _).1.trans hq.2⟩)
    (fun q hq => by rw [check_mode_ext_closed q _ hq.1]; exact hq)
    (fun q hq => ⟨(check_href_flags q _ Scope.mode_ext_section).trans hq.1,
      by rw [(check_href_current q _).1]; exact hq.2⟩)
    (fun q hq => ⟨(check_status_flags q _ Scope.mode_ext_section).trans hq.1,
      (check_status_dates q _).2.2.1.trans hq.2⟩)
    p ⟨h, rfl⟩).1).2

set_option maxRecDepth 16000 in
/-- C27, as stated, fails: inside `response/propstat/prop`, after a complete
`resourcetype` element holding `collection`, the directory bit is set (mode
040777); a `mode` element with the text `755` follows, every callback
succeeds, and the mode is 0755 with the directory bit cleared. -/
theorem directory_bit_overridden_counterexample :
    state_after_collection._current_props.mode = 0o40777 ∧
    Nat.testBit state_after_collection._current_props.mode 14 = true ∧
    (run_events reject_date state_after_collection
      [Event.start_elem mode_pattern, Event.cdata "755".toList,
        Event.end_elem mode_pattern]).isSome = true ∧
    ((run_events reject_date state_after_collection
      [Event.start_elem mode_pattern, Event.cdata "755".toList,
        Event.end_elem mode_pattern]).map (fun q => q._current_props.mode)) = some 0o755 ∧
    Nat.testBit 0o755 14 = false := by
  decide

/-- C27 (amended): once S_IFDIR is set in the in-progress record, every later
successful callback leaves it set, except character data observed while the
mode scope is open (`check_mode_ext` replaces the whole mode) and the start of
a new `prop` (which starts a new record): a `mode` element that follows the
resourcetype element overrides the directory bit. And in every state with no
pending error and the response, propstat, prop and resourcetype scopes open,
the start of `collection` sets S_IFDIR whatever the mode was, so a `mode`
element that precedes the resourcetype element keeps the directory bit. -/
theorem directory_bit_kept (pd : CStr → Int) (p q : DavPropXMLParser) (e : Event)
    (h_ok : feed pd p e = some q)
    (h_dir : Nat.testBit p._current_props.mode 14 = true)
    (h_not_prop : e ≠ Event.start_elem prop_pattern)
    (h_not_mode : p.mode_ext_section = false ∨ ∀ t, e ≠ Event.cdata t) :
    Nat.testBit q._current_props.mode 14 = true ∧
    (∀ r : DavPropXMLParser, r.err = none → r.response_section = true →
      r.propname_section = true → r.prop_section = true → r.resource_type = true →
      (parserStartElemCb r collection_patern).1 = 1 ∧
      Nat.testBit (parserStartElemCb r collection_patern).2._current_props.mode 14 = true) := by
  constructor
  · cases e with
    | start_elem name =>
      simp only [feed] at h_ok
      split at h_ok
      · cases h_ok
      · rename_i hlt
        cases h_ok
        exact parserStartElemCb_keeps_dir p name hlt
          (fun hn => h_not_prop (by rw [hn])) h_dir
    | cdata text =>
      have hm : p.mode_ext_section = false := by
        rcases h_not_mode with h | h
        · exact h
        · exact absurd rfl (h text)
      simp only [feed] at h_ok
      split at h_ok
      · cases h_ok
      · cases h_ok
        rw [parserCdataCb_keeps_mode pd p text hm]
        exact h_dir
    | end_elem name =>
      simp only [feed] at h_ok
      split at h_ok
      · cases h_ok
      · cases h_ok
        rw [parserEndElemCb_current]
        exact h_dir
  · intro r h_err h_resp h_ps h_prop h_rt
    have hc := check_is_directory_collection r h_err h_resp h_ps h_prop h_rt
    have hs : parserStartElemCb r collection_patern =
        (1, { r with _current_props :=
                { r._current_props with mode := r._current_props.mode ||| S_IFDIR } }) := by
      simp [parserStartElemCb, DAVIX_XML_REPORT_ERROR, add_scope_call_no_match,
        collection_no_scope, h_err, hc]
    rw [hs]
    exact ⟨rfl, testBit_or_S_IFDIR _⟩

set_option maxRecDepth 16000 in
/-- C27 (amended) on examples: after `resourcetype/collection`, a following
`getcontentlength` start leaves the directory bit set; and when `mode` with
the text `755` precedes the resourcetype element, `collection` gives mode
040755. -/
theorem directory_bit_kept_witness :
    Nat.testBit (parserStartElemCb state_after_collection
      getcontentlength_pattern).2._current_props.mode 14 = true ∧
    (parserStartElemCb state_mode_then_resourcetype collection_patern).2._current_props.mode
      = 0o40755 :=
  ⟨(directory_bit_kept reject_date state_after_collection
      (parserStartElemCb state_after_collection getcontentlength_pattern).2
      (Event.start_elem getcontentlength_pattern) (by decide) (by decide) (by decide)
      (Or.inl (by decide))).1,
    by decide⟩

/-! ## Balanced elements -/

theorem same_flags_refl (p : DavPropXMLParser) : same_flags p p := fun _ => rfl

theorem same_flags_trans (p q r : DavPropXMLParser) (h1 : same_flags p q)
    (h2 : same_flags q r) : same_flags p r := fun k => (h2 k).trans (h1 k)

/-- The enter and skip conditions depend on the scope flags only. -/
theorem Scope.conditions_congr (k : Scope) (p q : DavPropXMLParser) (h : same_flags p q) :
    k.enter_condition q = k.enter_condition p ∧ k.skip_condition q = k.skip_condition p := by
  have hR : q.response_section = p.response_section := h Scope.response_section
  have hS : q.propname_section = p.propname_section := h Scope.propname_section
  have hP : q.prop_section = p.prop_section := h Scope.prop_section
  cases k <;> simp [Scope.enter_condition, Scope.skip_condition, hR, hS, hP]

/-- The enter and skip conditions of a flag do not depend on the flag. -/
theorem Scope.conditions_set_flag (k : Scope) (p : DavPropXMLParser) (b : Bool) :
    k.enter_condition (k.set_flag p b) = k.enter_condition p ∧
    k.skip_condition (k.set_flag p b) = k.skip_condition p := by
  cases k <;> exact ⟨rfl, rfl⟩

theorem name_cases (name : CStr) :
    (∃ k : Scope, name = k.pattern) ∨ (∀ k : Scope, match_element name k.pattern = false) := by
  by_cases h : ∃ k : Scope, match_element name k.pattern = true
  · obtain ⟨k, hk⟩ := h
    exact Or.inl ⟨k, by simpa [match_element] using hk⟩
  · right
    intro k
    cases hm : match_element name k.pattern with
    | false => rfl
    | true => exact absurd ⟨k, hm⟩ h

theorem start_tail_err (q : DavPropXMLParser) (name : CStr) (new_prop : Bool)
    (h_err : q.err = none) : (start_tail q name new_prop).2.err = none := by
  obtain ⟨m, hm⟩ := check_is_directory_mode q name h_err
  unfold start_tail
  rw [hm]
  cases new_prop with
  | false =>
    simp only [lt_self_iff_false, if_false, Bool.false_eq_true]
    exact h_err
  | true =>
    simp only [lt_self_iff_false, if_false, if_true]
    show (compute_new_elem _).2.err = none
    unfold compute_new_elem
    split <;> exact h_err

/-- The end-element event of a scope element whose flag is false, with the
enter condition true and the skip condition false, returns -1. -/
theorem parserEndElemCb_missing (k : Scope) (p : DavPropXMLParser) (h_err : p.err = none)
    (h_flag : k.flag p = false) (h_enter : k.enter_condition p = true)
    (h_skip : k.skip_condition p = false) :
    (parserEndElemCb p k.pattern).1 = -1 := by
  have ho := remove_scope_call_missing k p h_flag h_enter h_skip
  cases k <;>
  simp [parserEndElemCb, DAVIX_XML_REPORT_ERROR, remove_scope_call_other, ho, h_err]

/-- Outcome of a successful start-element event on the scope flags: the name
is no scope element and the flags are kept, or the scope statement of the
element is skipped and nothing changes, or the flag of the element was false
and is set. -/
theorem feed_start_flags (pd : CStr → Int) (p q : DavPropXMLParser) (name : CStr)
    (h : feed pd p (Event.start_elem name) = some q) :
    q.err = none ∧
    (((∀ k : Scope, match_element name k.pattern = false) ∧ same_flags p q) ∨
      (∃ k : Scope, name = k.pattern ∧
        (k.enter_condition p = false ∨ k.skip_condition p = true) ∧ q = p) ∨
      (∃ k : Scope, name = k.pattern ∧ k.flag p = false ∧ k.enter_condition p = true ∧
        k.skip_condition p = false ∧ same_flags (k.set_flag p true) q)) := by
  simp only [feed] at h
  split at h
  · cases h
  rename_i hlt
  cases h
  have h_err : p.err = none := by
    cases he : p.err with
    | none => rfl
    | some e =>
      exfalso
      apply hlt
      rw [parserStartElemCb_of_pending p name (by simp [he])]
      simp
  rcases name_cases name with ⟨k, hk⟩ | hno
  · subst hk
    by_cases hsk : k.enter_condition p = false ∨ k.skip_condition p = true
    · rw [parserStartElemCb_skipped k p h_err hsk]
      exact ⟨h_err, Or.inr (Or.inl ⟨k, rfl, hsk, rfl⟩)⟩
    · have h_enter : k.enter_condition p = true := by
        cases hc : k.enter_condition p with
        | true => rfl
        | false => exact absurd (Or.inl hc) hsk
      have h_skip : k.skip_condition p = false := by
        cases hc : k.skip_condition p with
        | false => rfl
        | true => exact absurd (Or.inr hc) hsk
      cases h_flag : k.flag p with
      | true =>
        exfalso
        apply hlt
        rw [parserStartElemCb_duplicate k p h_flag h_enter h_skip]
        simp
      | false =>
        rw [parserStartElemCb_open k p h_err h_flag h_enter h_skip]
        have he : (k.set_flag p true).err = none := by rw [Scope.set_flag_err, h_err]
        refine ⟨?_, Or.inr (Or.inr ⟨k, rfl, h_flag, h_enter, h_skip, ?_⟩)⟩
        · show (if k = Scope.prop_section then (compute_new_elem (k.set_flag p true)).2
            else k.set_flag p true).err = none
          split
          · unfold compute_new_elem
            split <;> exact he
          · exact he
        · intro j
          show j.flag (if k = Scope.prop_section then (compute_new_elem (k.set_flag p true)).2
            else k.set_flag p true) = _
          split
          · unfold compute_new_elem
            split
            · exact Scope.flag_with_current j _ _
            · rfl
          · rfl
  · have hs : parserStartElemCb p name = start_tail p name false := by
      simp [parserStartElemCb, DAVIX_XML_REPORT_ERROR, add_scope_call_no_match, hno, h_err,
        start_tail]
    rw [hs]
    exact ⟨start_tail_err p name false h_err,
      Or.inl ⟨hno, start_tail_flags p name false h_err⟩⟩

/-- Outcome of a successful end-element event on the scope flags. -/
theorem feed_end_flags (pd : CStr → Int) (p q : DavPropXMLParser) (name : CStr)
    (h : feed pd p (Event.end_elem name) = some q) :
    p.err = none ∧
    (((∀ k : Scope, match_element name k.pattern = false) ∧ q = p) ∨
      (∃ k : Scope, name = k.pattern ∧
        (k.enter_condition p = false ∨ k.skip_condition p = true) ∧ q = p) ∨
      (∃ k : Scope, name = k.pattern ∧ k.flag p = true ∧ k.enter_condition p = true ∧
        k.skip_condition p = false ∧ same_flags (k.set_flag p false) q)) := by
  simp only [feed] at h
  split at h
  · cases h
  rename_i hne
  cases h
  have hz : (parserEndElemCb p name).1 = 0 := by simpa using hne
  have h_err : p.err = none := by
    cases he : p.err with
    | none => rfl
    | some e =>
      exfalso
      rw [parserEndElemCb_of_pending p name (by simp [he])] at hz
      simp at hz
  refine ⟨h_err, ?_⟩
  rcases name_cases name with ⟨k, hk⟩ | hno
  · subst hk
    by_cases hsk : k.enter_condition p = false ∨ k.skip_condition p = true
    · rw [parserEndElemCb_skipped k p h_err hsk]
      exact Or.inr (Or.inl ⟨k, rfl, hsk, rfl⟩)
    · have h_enter : k.enter_condition p = true := by
        cases hc : k.enter_condition p with
        | true => rfl
        | false => exact absurd (Or.inl hc) hsk
      have h_skip : k.skip_condition p = false := by
        cases hc : k.skip_condition p with
        | false => rfl
        | true => exact absurd (Or.inr hc) hsk
      cases h_flag : k.flag p with
      | false =>
        exfalso
        rw [parserEndElemCb_missing k p h_err h_flag h_enter h_skip] at hz
        simp at hz
      | true =>
        rw [parserEndElemCb_close k p h_err h_flag h_enter h_skip]
        refine Or.inr (Or.inr ⟨k, rfl, h_flag, h_enter, h_skip, ?_⟩)
        intro j
        split
        · exact store_new_elem_flags _ j
        · rfl
  · rw [parserEndElemCb_unknown p name h_err hno]
    exact Or.inl ⟨hno, rfl⟩

theorem feed_cdata_flags (pd : CStr → Int) (p q : DavPropXMLParser) (text : List Char)
    (h : feed pd p (Event.cdata text) = some q) : same_flags p q := by
  simp only [feed] at h
  split at h
  · cases h
  · cases h
    exact parserCdataCb_flags pd p text

/-- Properly nested events processed without error leave the scope flags as
they were. -/
theorem run_events_well_nested (pd : CStr → Int) (events : List Event)
    (h_nested : WellNested events) :
    ∀ (p q : DavPropXMLParser), run_events pd p events = some q → same_flags p q := by
  induction h_nested with
  | nil =>
    intro p q h
    simp only [run_events, Option.some.injEq] at h
    rw [h]
    exact same_flags_refl q
  | text t rest _ ih =>
    intro p q h
    simp only [run_events] at h
    cases hf : feed pd p (Event.cdata t) with
    | none => rw [hf] at h; cases h
    | some p1 =>
      rw [hf] at h
      exact same_flags_trans _ _ _ (feed_cdata_flags pd p p1 t hf) (ih p1 q h)
  | elem name inner rest _ _ ih_inner ih_rest =>
    intro p q h
    simp only [run_events] at h
    cases hf : feed pd p (Event.start_elem name) with
    | none => rw [hf] at h; cases h
    | some p1 =>
      simp only [hf, run_events_append] at h
      cases hi : run_events pd p1 inner with
      | none => simp [hi] at h
      | some p2 =>
        simp only [hi, run_events] at h
        cases he : feed pd p2 (Event.end_elem name) with
        | none => simp [he] at h
        | some p3 =>
          simp only [he] at h
          have f12 := ih_inner p1 p2 hi
          have f3q := ih_rest p3 q h
          refine same_flags_trans _ _ _ ?_ f3q
          obtain ⟨_, hs⟩ := feed_start_flags pd p p1 name hf
          obtain ⟨_, hend⟩ := feed_end_flags pd p2 p3 name he
          rcases hs with ⟨hno, fs⟩ | ⟨k, hk, hsk, e1⟩ | ⟨k, hk, hfl, hen, hsk, fs⟩
          · -- no scope element
            rcases hend with ⟨_, e3⟩ | ⟨j, hj, _, e3⟩ | ⟨j, hj, _⟩
            · rw [e3]
              exact same_flags_trans _ _ _ fs f12
            · rw [e3]
              exact same_flags_trans _ _ _ fs f12
            · exfalso
              have := hno j
              rw [hj, match_element_pattern] at this
              simp at this
          · -- skipped at the start
            subst e1
            rcases hend with ⟨_, e3⟩ | ⟨j, _, _, e3⟩ | ⟨j, hj, _, hje, hjs, _⟩
            · rw [e3]; exact f12
            · rw [e3]; exact f12
            · exfalso
              have hjk : j = k := by
                have : match_element k.pattern j.pattern = true := by
                  rw [← hk, hj]
                  simp [match_element]
                rw [match_element_pattern] at this
                exact (of_decide_eq_true this).symm
              subst hjk
              have hc := Scope.conditions_congr j p1 p2 f12
              rw [hc.1] at hje
              rw [hc.2] at hjs
              rcases hsk with h1 | h1
              · rw [h1] at hje; cases hje
              · rw [h1] at hjs; cases hjs
          · -- opened at the start
            have f02 : same_flags (k.set_flag p true) p2 := same_flags_trans _ _ _ fs f12
            have hc := Scope.conditions_congr k (k.set_flag p true) p2 f02
            have hs0 := Scope.conditions_set_flag k p true
            have hen2 : k.enter_condition p2 = true := by rw [hc.1, hs0.1, hen]
            have hsk2 : k.skip_condition p2 = false := by rw [hc.2, hs0.2, hsk]
            have hfl2 : k.flag p2 = true := by
              rw [f02 k, Scope.flag_set_flag]
              simp
            rcases hend with ⟨hno, _⟩ | ⟨j, hj, hjc, _⟩ | ⟨j, hj, _, _, _, fe⟩
            · exfalso
              have := hno k
              rw [hk, match_element_pattern] at this
              simp at this
            · exfalso
              have hjk : j = k := by
                have : match_element k.pattern j.pattern = true := by
                  rw [← hk, hj]
                  simp [match_element]
                rw [match_element_pattern] at this
                exact (of_decide_eq_true this).symm
              subst hjk
              rcases hjc with h1 | h1
              · rw [h1] at hen2; cases hen2
              · rw [h1] at hsk2; cases hsk2
            · have hjk : j = k := by
                have : match_element k.pattern j.pattern = true := by
                  rw [← hk, hj]
                  simp [match_element]
                rw [match_element_pattern] at this
                exact (of_decide_eq_true this).symm
              subst hjk
              intro i
              rw [fe i, Scope.flag_set_flag]
              by_cases hij : j = i
              · subst hij
                simp only [if_true]
                exact hfl.symm
              · simp only [hij, if_false]
                rw [f02 i, Scope.flag_set_flag]
                simp [hij]

/-- C28: balanced elements restore the scope state. For every parser state
and every properly nested sequence of events (text and complete elements: a
start event, properly nested content, the end event of the same name) that is
processed without a failing callback, the ten scope flags after the sequence
are the flags before it; in particular after one complete element. Hence
after a properly nested document processed without error by a fresh parser
every scope flag is false. -/
theorem balanced_elements_restore_flags (pd : CStr → Int) (p q : DavPropXMLParser)
    (events : List Event) (h_nested : WellNested events)
    (h_run : run_events pd p events = some q) :
    (∀ k : Scope, k.flag q = k.flag p) ∧
    (∀ (name : CStr) (inner : List Event) (r : DavPropXMLParser), WellNested inner →
      run_events pd p (Event.start_elem name :: (inner ++ [Event.end_elem name])) = some r →
      ∀ k : Scope, k.flag r = k.flag p) ∧
    (∀ (doc : List Event) (r : DavPropXMLParser), WellNested doc →
      run_events pd DavPropXMLParser.new doc = some r → ∀ k : Scope, k.flag r = false) := by
  refine ⟨run_events_well_nested pd events h_nested p q h_run, ?_, ?_⟩
  · intro name inner r hin hr
    exact run_events_well_nested pd _ (WellNested.elem name inner [] hin WellNested.nil) p r hr
  · intro doc r hd hr k
    rw [run_events_well_nested pd doc hd _ r hr k]
    cases k <;> rfl

/-- C28 on an example: inside `response/propstat/prop`, the complete element
`getcontentlength` with the text `12345` leaves the getcontentlength flag
false and the prop flag true, as they were. -/
theorem balanced_elements_restore_flags_witness :
    Scope.contentlength_section.flag ((run_events reject_date state_in_prop
        [Event.start_elem getcontentlength_pattern, Event.cdata "12345".toList,
          Event.end_elem getcontentlength_pattern]).getD DavPropXMLParser.new)
      = Scope.contentlength_section.flag state_in_prop ∧
    Scope.prop_section.flag ((run_events reject_date state_in_prop
        [Event.start_elem getcontentlength_pattern, Event.cdata "12345".toList,
          Event.end_elem getcontentlength_pattern]).getD DavPropXMLParser.new)
      = Scope.prop_section.flag state_in_prop :=
  ⟨(balanced_elements_restore_flags reject_date state_in_prop
      ((run_events reject_date state_in_prop
        [Event.start_elem getcontentlength_pattern, Event.cdata "12345".toList,
          Event.end_elem getcontentlength_pattern]).getD DavPropXMLParser.new)
      [Event.start_elem getcontentlength_pattern, Event.cdata "12345".toList,
        Event.end_elem getcontentlength_pattern]
      (WellNested.elem getcontentlength_pattern [Event.cdata "12345".toList] []
        (WellNested.text _ _ WellNested.nil) WellNested.nil)
      (by decide)).1 Scope.contentlength_section,
    (balanced_elements_restore_flags reject_date state_in_prop
      ((run_events reject_date state_in_prop
        [Event.start_elem getcontentlength_pattern, Event.cdata "12345".toList,
          Event.end_elem getcontentlength_pattern]).getD DavPropXMLParser.new)
      [Event.start_elem getcontentlength_pattern, Event.cdata "12345".toList,
        Event.end_elem getcontentlength_pattern]
      (WellNested.elem getcontentlength_pattern [Event.cdata "12345".toList] []
        (WellNested.text _ _ WellNested.nil) WellNested.nil)
      (by decide)).1 Scope.prop_section⟩

/-! ## Order of the scope statements -/

theorem add_scopes_before_event_no_match (p : DavPropXMLParser) (name : CStr)
    (h : ∀ k : Scope, match_element name k.pattern = false) :
    add_scopes_before_event p name = p := by
  cases p
  simp [add_scopes_before_event, scope_order, add_scope, h, Scope.set_flag, Scope.flag]

theorem remove_scopes_before_event_no_match (p : DavPropXMLParser) (name : CStr)
    (h : ∀ k : Scope, match_element name k.pattern = false) :
    remove_scopes_before_event p name = p := by
  cases p
  simp [remove_scopes_before_event, scope_order, remove_scope, h, Scope.set_flag, Scope.flag]

theorem add_scopes_before_event_match (k : Scope) (p : DavPropXMLParser) :
    add_scopes_before_event p k.pattern = (add_scope_call k p k.pattern).2 := by
  cases p
  cases k <;>
  simp [add_scopes_before_event, scope_order, add_scope_call, add_scope, match_element_pattern,
    Scope.set_flag, Scope.flag]

theorem remove_scopes_before_event_match (k : Scope) (p : DavPropXMLParser) :
    remove_scopes_before_event p k.pattern = (remove_scope_call k p k.pattern).2 := by
  cases p
  cases k <;>
  simp [remove_scopes_before_event, scope_order, remove_scope_call, remove_scope,
    match_element_pattern, Scope.set_flag, Scope.flag]

/-- The start callback on the name of a scope element, with no error pending:
the scope statement of that element decides, the nine others do nothing. -/
theorem parserStartElemCb_match (k : Scope) (p : DavPropXMLParser) (h_err : p.err = none) :
    parserStartElemCb p k.pattern =
      if (add_scope_call k p k.pattern).2.err.isSome then
        (-1, (add_scope_call k p k.pattern).2)
      else
        start_tail (add_scope_call k p k.pattern).2 k.pattern
          (if k = Scope.prop_section then (add_scope_call k p k.pattern).1 else false) := by
  cases k <;>
  simp only [parserStartElemCb, DAVIX_XML_REPORT_ERROR, add_scope_call_other, h_err, start_tail,
    ne_eq, reduceCtorEq, not_false_eq_true, Option.isSome_none, Bool.false_eq_true, if_false,
    if_true] <;>
  split <;> simp [*]

/-- The end callback on the name of a scope element, with no error pending. -/
theorem parserEndElemCb_match (k : Scope) (p : DavPropXMLParser) (h_err : p.err = none) :
    parserEndElemCb p k.pattern =
      if (remove_scope_call k p k.pattern).2.err.isSome then
        (-1, (remove_scope_call k p k.pattern).2)
      else if (if k = Scope.propname_section then (remove_scope_call k p k.pattern).1 else false)
      then store_new_elem (remove_scope_call k p k.pattern).2
      else (0, (remove_scope_call k p k.pattern).2) := by
  cases k <;>
  simp only [parserEndElemCb, DAVIX_XML_REPORT_ERROR, remove_scope_call_other, h_err,
    ne_eq, reduceCtorEq, not_false_eq_true, Option.isSome_none, Bool.false_eq_true, if_false,
    if_true] <;>
  split <;> simp [*]

theorem start_tail_fst (q : DavPropXMLParser) (name : CStr) (new_prop : Bool)
    (h_err : q.err = none) : (start_tail q name new_prop).1 = 1 := by
  obtain ⟨m, hm⟩ := check_is_directory_mode q name h_err
  unfold start_tail
  rw [hm]
  cases new_prop with
  | false => simp
  | true => simp [compute_new_elem_fst]

theorem store_new_elem_err (q : DavPropXMLParser) : (store_new_elem q).2.err = q.err := by
  unfold store_new_elem
  split
  · split <;> rfl
  · rfl

theorem parserStartElemCb_agrees (p : DavPropXMLParser) (name : CStr) (h_err : p.err = none) :
    scopes_agree (parserStartElemCb p name) (add_scopes_before_event p name) := by
  rcases name_cases name with ⟨k, hk⟩ | hno
  · subst hk
    rw [add_scopes_before_event_match, parserStartElemCb_match k p h_err]
    cases hx : (add_scope_call k p k.pattern).2.err with
    | some e =>
      simp only [Option.isSome_some, if_true]
      exact ⟨fun _ => rfl, rfl, by simp [hx]⟩
    | none =>
      simp only [Option.isSome_none, Bool.false_eq_true, if_false]
      refine ⟨fun j => start_tail_flags _ _ _ hx j, ?_, ?_⟩
      · rw [start_tail_err _ _ _ hx, hx]
      · rw [start_tail_fst _ _ _ hx]
        simp [hx]
  · rw [add_scopes_before_event_no_match p name hno]
    have hs : parserStartElemCb p name = start_tail p name false := by
      simp [parserStartElemCb, DAVIX_XML_REPORT_ERROR, add_scope_call_no_match, hno, h_err,
        start_tail]
    rw [hs]
    refine ⟨fun j => start_tail_flags _ _ _ h_err j, ?_, ?_⟩
    · rw [start_tail_err _ _ _ h_err, h_err]
    · rw [start_tail_fst _ _ _ h_err, h_err]
      simp

theorem parserEndElemCb_agrees (p : DavPropXMLParser) (name : CStr) (h_err : p.err = none) :
    scopes_agree (parserEndElemCb p name) (remove_scopes_before_event p name) := by
  rcases name_cases name with ⟨k, hk⟩ | hno
  · subst hk
    rw [remove_scopes_before_event_match, parserEndElemCb_match k p h_err]
    cases hx : (remove_scope_call k p k.pattern).2.err with
    | some e =>
      simp only [Option.isSome_some, if_true]
      exact ⟨fun _ => rfl, rfl, by simp [hx]⟩
    | none =>
      simp only [Option.isSome_none, Bool.false_eq_true, if_false]
      generalize (if k = Scope.propname_section then (remove_scope_call k p k.pattern).1
        else false) = b
      cases b with
      | true =>
        simp only [if_true]
        refine ⟨fun j => store_new_elem_flags _ j, ?_, ?_⟩
        · rw [store_new_elem_err]
        · rw [store_new_elem_fst]
          simp [hx]
      | false =>
        simp only [Bool.false_eq_true, if_false]
        exact ⟨fun _ => rfl, rfl, by simp [hx]⟩
  · rw [remove_scopes_before_event_no_match p name hno, parserEndElemCb_unknown p name h_err hno]
    exact ⟨fun _ => rfl, rfl, by simp [h_err]⟩

theorem pattern_injective (j k : Scope) (name : CStr)
    (hj : match_element name j.pattern = true) (hk : match_element name k.pattern = true) :
    j = k := by
  have e1 : name = j.pattern := by simpa [match_element] using hj
  have e2 : name = k.pattern := by simpa [match_element] using hk
  have : match_element j.pattern k.pattern = true := by
    rw [← e1, e2]
    simp [match_element]
  rw [match_element_pattern] at this
  exact of_decide_eq_true this

/-- C30, as stated, fails in a state with an error pending: inside
`response/propstat` after a failed end-element event `prop`, the start of
`prop` returns at the first statement and leaves the prop flag false, while
the ten statements evaluated on the flags as they were before the event set
the prop flag. -/
theorem scope_order_pending_error_counterexample :
    state_failed_in_propstat.err.isSome = true ∧
    Scope.prop_section.flag (parserStartElemCb state_failed_in_propstat prop_pattern).2
      = false ∧
    Scope.prop_section.flag (add_scopes_before_event state_failed_in_propstat prop_pattern)
      = true := by
  decide

/-- C30 (amended): the fixed evaluation order of the scope flags is not
observable when no error is pending. For every parser state with no pending
error and every element name, the ten `add_scope` statements of the start
callback (respectively the ten `remove_scope` statements of the end callback),
run in sequence with the error test after each, give the same ten flags, the
same error slot (so the same reported element) and the same success or failure
as the ten statements evaluated with every flag and its enter and skip
conditions read from the parser as it was before the event. And in every
parser state, at most one scope flag changes per start or end event. -/
theorem scope_order_not_observable (p : DavPropXMLParser) (name : CStr)
    (h_err : p.err = none) :
    ((∀ k : Scope, k.flag (parserStartElemCb p name).2
        = k.flag (add_scopes_before_event p name)) ∧
      (parserStartElemCb p name).2.err = (add_scopes_before_event p name).err ∧
      ((parserStartElemCb p name).1 = -1 ↔
        (add_scopes_before_event p name).err.isSome = true)) ∧
    ((∀ k : Scope, k.flag (parserEndElemCb p name).2
        = k.flag (remove_scopes_before_event p name)) ∧
      (parserEndElemCb p name).2.err = (remove_scopes_before_event p name).err ∧
      ((parserEndElemCb p name).1 = -1 ↔
        (remove_scopes_before_event p name).err.isSome = true)) ∧
    (∀ (q : DavPropXMLParser) (j k : Scope),
      j.flag (parserStartElemCb q name).2 ≠ j.flag q →
      k.flag (parserStartElemCb q name).2 ≠ k.flag q → j = k) ∧
    (∀ (q : DavPropXMLParser) (j k : Scope),
      j.flag (parserEndElemCb q name).2 ≠ j.flag q →
      k.flag (parserEndElemCb q name).2 ≠ k.flag q → j = k) :=
  ⟨parserStartElemCb_agrees p name h_err, parserEndElemCb_agrees p name h_err,
    fun q j k hj hk => pattern_injective j k name
      ((parserStartElemCb_flags q name j).2 hj) ((parserStartElemCb_flags q name k).2 hk),
    fun q j k hj hk => pattern_injective j k name
      ((parserEndElemCb_flags q name j).2 hj) ((parserEndElemCb_flags q name k).2 hk)⟩

/-- C30 (amended) on an example: the start of `prop` inside
`response/propstat` sets the prop flag in both evaluations and succeeds. -/
theorem scope_order_not_observable_witness :
    Scope.prop_section.flag (parserStartElemCb state_in_propstat prop_pattern).2
      = Scope.prop_section.flag (add_scopes_before_event state_in_propstat prop_pattern) ∧
    (add_scopes_before_event state_in_propstat prop_pattern).err = none :=
  ⟨(scope_order_not_observable state_in_propstat prop_pattern (by decide)).1.1
      Scope.prop_section,
    by decide⟩

/-! ## The state uid of the request parameters -/

theorem to_int_of_range (x : Int) (h1 : -2 ^ 31 ≤ x) (h2 : x < 2 ^ 31) : to_int x = x := by
  unfold to_int
  rw [Int.emod_eq_of_lt (by omega) (by omega)]
  omega

theorem get_requeste_uid_eq (state_value : Int) (h0 : 0 ≤ state_value)
    (h : state_value + 1 < 2 ^ 31) :
    get_requeste_uid state_value = (state_value + 1, state_value + 1) := by
  unfold get_requeste_uid
  simp only [to_int_of_range (state_value + 1) (by omega) h]

theorem regen_setter_uid (s : RegenSetter) (p : RequestParams) (state_value : Int) :
    (s.call p state_value).1.d_ptr._state_uid = (get_requeste_uid state_value).1 ∧
    (s.call p state_value).2 = (get_requeste_uid state_value).2 := by
  cases s with
  | setKeepAlive b => cases b <;> exact ⟨rfl, rfl⟩
  | _ => exact ⟨rfl, rfl⟩

theorem plain_setter_uid (s : PlainSetter) (p : RequestParams) :
    (s.call p).d_ptr._state_uid = p.d_ptr._state_uid := by
  cases s <;> rfl

theorem RequestParams.new_uid (c : BuildConstants) (state_value : Int) :
    (RequestParams.new c state_value).1.d_ptr._state_uid = (get_requeste_uid state_value).1 ∧
    (RequestParams.new c state_value).2 = (get_requeste_uid state_value).2 :=
  ⟨rfl, rfl⟩

theorem World.step_calls_le (c : BuildConstants) (w : World) (cmd : Command) :
    w.calls ≤ (World.step c w cmd).calls := by
  cases cmd with
  | construct => simp [World.step]
  | copy i => simp only [World.step]; split <;> simp
  | from_pointer i =>
    cases i with
    | none => simp [World.step]
    | some i => simp only [World.step]; split <;> simp
  | assign i j => simp only [World.step]; split <;> simp
  | regen i s => simp only [World.step]; split <;> simp
  | plain i s => simp only [World.step]; split <;> simp
  | get_x509 i => simp only [World.step]; split <;> simp
  | swap i j => simp only [World.step]; split <;> simp
  | destroy i => simp [World.step]

theorem World.run_calls_le (c : BuildConstants) (cmds : List Command) :
    ∀ w : World, w.calls ≤ (World.run c w cmds).calls := by
  induction cmds with
  | nil => intro w; exact Nat.le_refl _
  | cons cmd rest ih =>
    intro w
    exact Nat.le_trans (World.step_calls_le c w cmd) (ih (World.step c w cmd))

/-- The bounds on the state uids survive the objects being replaced by objects
with the state uid of an object that exists. -/
theorem uids_of_set (objects : List RequestParams) (i : Nat) (r : RequestParams) (sv : Int)
    (h : ∀ o ∈ objects, 1 ≤ o.d_ptr._state_uid ∧ o.d_ptr._state_uid ≤ sv)
    (hr : 1 ≤ r.d_ptr._state_uid ∧ r.d_ptr._state_uid ≤ sv) :
    ∀ o ∈ objects.set i r, 1 ≤ o.d_ptr._state_uid ∧ o.d_ptr._state_uid ≤ sv := by
  intro o ho
  rcases List.mem_or_eq_of_mem_set ho with h1 | h1
  · exact h o h1
  · rw [h1]; exact hr

theorem uids_of_append (objects : List RequestParams) (r : RequestParams) (sv : Int)
    (h : ∀ o ∈ objects, 1 ≤ o.d_ptr._state_uid ∧ o.d_ptr._state_uid ≤ sv)
    (hr : 1 ≤ r.d_ptr._state_uid ∧ r.d_ptr._state_uid ≤ sv) :
    ∀ o ∈ objects ++ [r], 1 ≤ o.d_ptr._state_uid ∧ o.d_ptr._state_uid ≤ sv := by
  intro o ho
  rcases List.mem_append.1 ho with h1 | h1
  · exact h o h1
  · rw [List.mem_singleton.1 h1]; exact hr

theorem World.step_uids_bounded (c : BuildConstants) (w : World) (cmd : Command)
    (h_calls : (World.step c w cmd).calls < 2 ^ 31) (hw : w.uids_bounded) :
    (World.step c w cmd).uids_bounded := by
  obtain ⟨hsv, hobj⟩ := hw
  have h0 : 0 ≤ w.state_value := by rw [hsv]; exact Int.ofNat_nonneg _
  have hup : ∀ sv' : Int, w.state_value ≤ sv' →
      ∀ o ∈ w.objects, 1 ≤ o.d_ptr._state_uid ∧ o.d_ptr._state_uid ≤ sv' :=
    fun sv' hs o ho => ⟨(hobj o ho).1, Int.le_trans (hobj o ho).2 hs⟩
  cases cmd with
  | construct =>
    simp only [World.step] at h_calls ⊢
    have hlt : w.state_value + 1 < 2 ^ 31 := by rw [hsv]; omega
    have hu := get_requeste_uid_eq w.state_value h0 hlt
    have hn := RequestParams.new_uid c w.state_value
    rw [hu] at hn
    refine ⟨?_, ?_⟩
    · show (RequestParams.new c w.state_value).2 = ((w.calls + 1 : Nat) : Int)
      rw [hn.2, hsv]
      push_cast
      rfl
    · intro o ho
      have key := uids_of_append w.objects (RequestParams.new c w.state_value).1
        (w.state_value + 1) (hup _ (by omega)) ⟨by rw [hn.1]; omega, by rw [hn.1]⟩ o ho
      have e2 : (RequestParams.new c w.state_value).2 = w.state_value + 1 := hn.2
      refine ⟨key.1, ?_⟩
      show o.d_ptr._state_uid ≤ (RequestParams.new c w.state_value).2
      rw [e2]
      exact key.2
  | copy i =>
    simp only [World.step]
    split
    · rename_i p hp
      exact ⟨hsv, uids_of_append _ _ _ hobj (hobj p (List.getElem?_mem hp))⟩
    · exact ⟨hsv, hobj⟩
  | from_pointer i =>
    cases i with
    | none =>
      simp only [World.step, RequestParams.from_pointer] at h_calls ⊢
      have hlt : w.state_value + 1 < 2 ^ 31 := by rw [hsv]; omega
      have hu := get_requeste_uid_eq w.state_value h0 hlt
      have hn := RequestParams.new_uid c w.state_value
      rw [hu] at hn
      refine ⟨?_, ?_⟩
      · show (RequestParams.new c w.state_value).2 = ((w.calls + 1 : Nat) : Int)
        rw [hn.2, hsv]
        push_cast
        rfl
      · intro o ho
        have key := uids_of_append w.objects (RequestParams.new c w.state_value).1
          (w.state_value + 1) (hup _ (by omega)) ⟨by rw [hn.1]; omega, by rw [hn.1]⟩ o ho
        have e2 : (RequestParams.new c w.state_value).2 = w.state_value + 1 := hn.2
        refine ⟨key.1, ?_⟩
        show o.d_ptr._state_uid ≤ (RequestParams.new c w.state_value).2
        rw [e2]
        exact key.2
    | some i =>
      simp only [World.step]
      split
      · rename_i p hp
        exact ⟨hsv, uids_of_append _ _ _ hobj (hobj p (List.getElem?_mem hp))⟩
      · exact ⟨hsv, hobj⟩
  | assign i j =>
    simp only [World.step]
    split
    · rename_i a b ha hb
      exact ⟨hsv, uids_of_set _ _ _ _ hobj (hobj b (List.getElem?_mem hb))⟩
    · exact ⟨hsv, hobj⟩
  | regen i s =>
    simp only [World.step] at h_calls ⊢
    split
    · rename_i p hp
      rw [hp] at h_calls
      simp only at h_calls
      have hlt : w.state_value + 1 < 2 ^ 31 := by rw [hsv]; omega
      have hu := get_requeste_uid_eq w.state_value h0 hlt
      have hn := regen_setter_uid s p w.state_value
      rw [hu] at hn
      refine ⟨?_, ?_⟩
      · show (s.call p w.state_value).2 = ((w.calls + 1 : Nat) : Int)
        rw [hn.2, hsv]
        push_cast
        rfl
      · intro o ho
        have key := uids_of_set w.objects i (s.call p w.state_value).1
          (w.state_value + 1) (hup _ (by omega)) ⟨by rw [hn.1]; omega, by rw [hn.1]⟩ o ho
        have e2 : (s.call p w.state_value).2 = w.state_value + 1 := hn.2
        refine ⟨key.1, ?_⟩
        show o.d_ptr._state_uid ≤ (s.call p w.state_value).2
        rw [e2]
        exact key.2
    · exact ⟨hsv, hobj⟩
  | plain i s =>
    simp only [World.step]
    split
    · rename_i p hp
      refine ⟨hsv, uids_of_set _ _ _ _ hobj ?_⟩
      rw [plain_setter_uid]
      exact hobj p (List.getElem?_mem hp)
    · exact ⟨hsv, hobj⟩
  | get_x509 i =>
    simp only [World.step]
    split
    · rename_i p hp
      exact ⟨hsv, uids_of_set _ _ _ _ hobj (hobj p (List.getElem?_mem hp))⟩
    · exact ⟨hsv, hobj⟩
  | swap i j =>
    simp only [World.step]
    split
    · rename_i a b ha hb
      exact ⟨hsv, uids_of_set _ _ _ _
        (uids_of_set _ _ _ _ hobj (hobj b (List.getElem?_mem hb)))
        (hobj a (List.getElem?_mem ha))⟩
    · exact ⟨hsv, hobj⟩
  | destroy i =>
    simp only [World.step]
    exact ⟨hsv, fun o ho => hobj o (List.mem_of_mem_eraseIdx ho)⟩

theorem World.run_uids_bounded (c : BuildConstants) (cmds : List Command) :
    ∀ w : World, (World.run c w cmds).calls < 2 ^ 31 → w.uids_bounded →
      (World.run c w cmds).uids_bounded := by
  induction cmds with
  | nil => intro w _ hw; exact hw
  | cons cmd rest ih =>
    intro w h hw
    have h1 : (World.step c w cmd).calls < 2 ^ 31 :=
      Nat.lt_of_le_of_lt (World.run_calls_le c rest (World.step c w cmd)) h
    exact ih (World.step c w cmd) h (World.step_uids_bounded c w cmd h1 hw)

theorem World.init_uids_bounded : World.init.uids_bounded :=
  ⟨rfl, fun o ho => by simp [World.init] at ho⟩


theorem getParmState_of_pos (p : RequestParams) (h0 : 0 ≤ p.d_ptr._state_uid)
    (h1 : p.d_ptr._state_uid < 2 ^ 31) :
    (RequestParams.getParmState p : Int) = p.d_ptr._state_uid := by
  unfold RequestParams.getParmState
  rw [Int.emod_eq_of_lt h0 (by omega)]
  exact Int.toNat_of_nonneg h0

theorem getParmState_ne (p q : RequestParams) (hp0 : 0 ≤ p.d_ptr._state_uid)
    (hp1 : p.d_ptr._state_uid < 2 ^ 31) (hq0 : 0 ≤ q.d_ptr._state_uid)
    (hq1 : q.d_ptr._state_uid < 2 ^ 31) (h : p.d_ptr._state_uid ≠ q.d_ptr._state_uid) :
    RequestParams.getParmState p ≠ RequestParams.getParmState q := by
  intro e
  apply h
  rw [← getParmState_of_pos p hp0 hp1, ← getParmState_of_pos q hq0 hq1, e]

theorem uid_sequence_increasing (n : Nat) :
    ∀ sv : Int, 0 ≤ sv → sv + n < 2 ^ 31 →
      (∀ v ∈ uid_sequence sv n, sv < v) ∧ List.Pairwise (fun a b => a < b) (uid_sequence sv n) := by
  induction n with
  | zero =>
    intro sv _ _
    exact ⟨fun v hv => by simp [uid_sequence] at hv, List.Pairwise.nil⟩
  | succ n ih =>
    intro sv h0 h
    have hu := get_requeste_uid_eq sv h0 (by push_cast at h; omega)
    obtain ⟨i1, i2⟩ := ih (sv + 1) (by omega) (by push_cast at h; omega)
    simp only [uid_sequence, hu]
    refine ⟨fun v hv => ?_, List.Pairwise.cons (fun v hv => i1 v hv) i2⟩
    rcases List.mem_cons.1 hv with e | e
    · rw [e]; omega
    · have := i1 v e
      omega

/-- C21: the generation counter is monotonically incrementing. As long as the
`int` does not overflow (fewer than 2^31 calls), the values returned by
successive calls of `get_requeste_uid` are strictly increasing. Hence in every
state a client program can reach from the start of the program by
constructing, copying, assigning, swapping, destroying objects and calling
setters and getters, if the next call does not overflow: the state uid of
every object that exists is below the value the next call returns; a
default-constructed object reports a `getParmState` value different from that
of every object that exists; and the object after any of the ten setters that
regenerate the state uid reports a `getParmState` value different from that of
every object that exists, its own previous value included. -/
theorem state_uid_fresh (c : BuildConstants) (cmds : List Command)
    (h_no_overflow : (World.run c World.init cmds).calls + 1 < 2 ^ 31) :
    (∀ n : Nat, (n : Int) < 2 ^ 31 →
      List.Pairwise (fun a b => a < b) (uid_sequence 0 n)) ∧
    (∀ o ∈ (World.run c World.init cmds).objects,
      o.d_ptr._state_uid < (get_requeste_uid (World.run c World.init cmds).state_value).1) ∧
    (∀ o ∈ (World.run c World.init cmds).objects,
      RequestParams.getParmState
          (RequestParams.new c (World.run c World.init cmds).state_value).1
        ≠ RequestParams.getParmState o) ∧
    (∀ (s : RegenSetter) (p : RequestParams), p ∈ (World.run c World.init cmds).objects →
      ∀ o ∈ (World.run c World.init cmds).objects,
        RequestParams.getParmState (s.call p (World.run c World.init cmds).state_value).1
          ≠ RequestParams.getParmState o) := by
  have hb := World.run_uids_bounded c cmds World.init (by omega) World.init_uids_bounded
  obtain ⟨hsv, hobj⟩ := hb
  have h0 : 0 ≤ (World.run c World.init cmds).state_value := by
    rw [hsv]; exact Int.ofNat_nonneg _
  have hlt : (World.run c World.init cmds).state_value + 1 < 2 ^ 31 := by rw [hsv]; omega
  have hu := get_requeste_uid_eq _ h0 hlt
  refine ⟨fun n hn => (uid_sequence_increasing n 0 (by decide) (by omega)).2, ?_, ?_, ?_⟩
  · intro o ho
    rw [hu]
    have := (hobj o ho).2
    show o.d_ptr._state_uid < (World.run c World.init cmds).state_value + 1
    omega
  · intro o ho
    have hn := (RequestParams.new_uid c (World.run c World.init cmds).state_value).1
    rw [hu] at hn
    have hn1 : (RequestParams.new c (World.run c World.init cmds).state_value).1.d_ptr._state_uid
        = (World.run c World.init cmds).state_value + 1 := hn
    have := hobj o ho
    exact getParmState_ne _ _ (by omega) (by omega) (by omega) (by omega) (by omega)
  · intro s p _ o ho
    have hn := (regen_setter_uid s p (World.run c World.init cmds).state_value).1
    rw [hu] at hn
    have hn1 : (s.call p (World.run c World.init cmds).state_value).1.d_ptr._state_uid
        = (World.run c World.init cmds).state_value + 1 := hn
    have := hobj o ho
    exact getParmState_ne _ _ (by omega) (by omega) (by omega) (by omega) (by omega)

/-- C21 on an example: after a default construction, a copy and
`setUserAgent` on the first object, the two objects report the states 2 and 1,
and a newly default-constructed object reports the state 3, different from
that of the first object. -/
theorem state_uid_fresh_witness :
    RequestParams.getParmState
        (RequestParams.new sample_constants (World.run sample_constants World.init
          [Command.construct, Command.copy 0,
            Command.regen 0 (RegenSetter.setUserAgent "agent")]).state_value).1
      ≠ RequestParams.getParmState
        (sample_world.objects.getD 0 (RequestParams.new sample_constants 0).1) ∧
    sample_world.objects.map RequestParams.getParmState = [2, 1] ∧
    RequestParams.getParmState (RequestParams.new sample_constants sample_world.state_value).1
      = 3 :=
  ⟨(state_uid_fresh sample_constants
      [Command.construct, Command.copy 0, Command.regen 0 (RegenSetter.setUserAgent "agent")]
      (by decide)).2.2.1 _ (by decide),
    by decide, by decide⟩

/-! ## Partial reads -/

theorem window_length (content : List Nat) (offset count : Nat) :
    (window content offset count).length = min count (content.length - offset) := by
  simp [window]

theorem window_getElem? (content : List Nat) (offset count i : Nat) (h : i < count) :
    (window content offset count)[i]? = content[offset + i]? := by
  unfold window
  rw [List.getElem?_take_of_lt h, List.getElem?_drop]

theorem take_window (content : List Nat) (offset count : Nat) :
    (window content offset count).take count = window content offset count := by
  unfold window
  rw [List.take_take, Nat.min_self]

/-- C22: the fallback of `readPartial` is content-transparent. Against a
server that answers 200 with the full content, `readPartial(offset, count)`
fills the buffer with the bytes at `[offset, offset + count)` of the content,
clipped at the end of the file (byte `i` of the buffer is byte `offset + i` of
the content, and there are `min count (length - offset)` of them), and returns
their number; a range-capable server that answers 206 (the offset lies in the
file) gives the same result and the same buffer. -/
theorem readPartial_fallback_transparent (content : List Nat) (offset count : Nat) :
    readPartial (plain_server content) count offset
      = (((window content offset count).length : Int), window content offset count) ∧
    (readPartial (plain_server content) count offset).2.length
      = min count (content.length - offset) ∧
    (∀ i : Nat, i < count →
      (readPartial (plain_server content) count offset).2[i]? = content[offset + i]?) ∧
    (offset < content.length →
      readPartial (range_server content) count offset
        = readPartial (plain_server content) count offset) := by
  have h1 : readPartial (plain_server content) count offset
      = (((window content offset count).length : Int), window content offset count) := by
    simp [readPartial, plain_server]
  refine ⟨h1, ?_, ?_, ?_⟩
  · rw [h1]
    exact window_length content offset count
  · intro i hi
    rw [h1]
    exact window_getElem? content offset count i hi
  · intro h
    rw [h1]
    simp [readPartial, range_server, h, take_window]

set_option maxRecDepth 100000 in
/-- C22 on the example: offset 100 and count 50 on a file of 200 bytes, byte
`i` being `i`, against a server that answers 200: the 50 bytes 100 to 149. -/
theorem readPartial_fallback_transparent_witness :
    readPartial (plain_server (List.range 200)) 50 100 = (50, List.range' 100 50) ∧
    readPartial (range_server (List.range 200)) 50 100 = (50, List.range' 100 50) := by
  have h := readPartial_fallback_transparent (List.range 200) 100 50
  refine ⟨?_, ?_⟩
  · rw [h.1]
    decide
  · rw [h.2.2.2 (by decide), h.1]
    decide

/-! ## Vector reads -/

theorem part_of_answers (content : List Nat) (x : DavIOVecInput) :
    (part_of content x).answers x = true := by
  simp [BytePart.answers, part_of, window_length]

theorem mem_multirange_parts (content : List Nat) (inputs : List DavIOVecInput)
    (part : BytePart) (h : part ∈ multirange_parts content inputs) :
    ∃ y ∈ inputs, y.diov_offset < content.length ∧ part = part_of content y := by
  unfold multirange_parts at h
  obtain ⟨y, hy, e⟩ := List.mem_map.1 h
  obtain ⟨h1, h2⟩ := List.mem_filter.1 hy
  exact ⟨y, h1, by simpa [DavIOVecInput.in_range] using h2, e.symm⟩

/-- A part that answers a chunk holds the bytes of the chunk's window. -/
theorem bytes_of_answer (content : List Nat) (x y : DavIOVecInput)
    (h : (part_of content y).answers x = true) :
    (part_of content y).bytes = window content x.diov_offset x.diov_size := by
  simp only [BytePart.answers, part_of, Bool.and_eq_true, beq_iff_eq, window_length] at h
  obtain ⟨h1, h2⟩ := h
  simp only [part_of, window, h1]
  rw [List.take_eq_take]
  simp only [List.length_drop]
  rw [h1] at h2
  omega

/-- With the parts of a multi-range server, in whatever order, each chunk gets
what it is owed. -/
theorem read_chunk_multipart (content : List Nat) (inputs : List DavIOVecInput)
    (parts : List BytePart) (h_parts : parts.Perm (multirange_parts content inputs))
    (server : Server) (x : DavIOVecInput) (hx : x ∈ inputs) :
    read_chunk (VectorResponse.multipart parts) server x = expected_chunk content x := by
  unfold read_chunk expected_chunk
  by_cases hr : x.diov_offset < content.length
  · have hin : part_of content x ∈ parts := by
      rw [h_parts.mem_iff]
      unfold multirange_parts
      exact List.mem_map.2 ⟨x, List.mem_filter.2 ⟨hx, by simp [DavIOVecInput.in_range, hr]⟩, rfl⟩
    have hsome : (parts.find? (fun part => part.answers x)).isSome = true :=
      List.find?_isSome.2 ⟨_, hin, part_of_answers content x⟩
    cases hf : parts.find? (fun part => part.answers x) with
    | none => rw [hf] at hsome; cases hsome
    | some part =>
      simp only []
      have ha : part.answers x = true :=
        @List.find?_some _ (fun part => part.answers x) part parts hf
      have hm : part ∈ multirange_parts content inputs :=
        h_parts.mem_iff.1 (List.mem_of_find?_eq_some hf)
      obtain ⟨y, _, _, e⟩ := mem_multirange_parts content inputs part hm
      rw [e] at ha
      have hb := bytes_of_answer content x y ha
      simp only [DavIOVecInput.in_range, hr, decide_True, if_true]
      rw [← hb, ← e, hf]
  · have hnone : parts.find? (fun part => part.answers x) = none := by
      rw [List.find?_eq_none]
      intro part hp ha
      obtain ⟨y, _, hy, e⟩ := mem_multirange_parts content inputs part (h_parts.mem_iff.1 hp)
      rw [e] at ha
      simp only [BytePart.answers, part_of, Bool.and_eq_true, beq_iff_eq] at ha
      omega
    simp only [hnone, DavIOVecInput.in_range, hr, decide_False, Bool.false_eq_true, if_false]

/-- Without multi-range support, the single-range path against a
range-capable server gives each chunk what it is owed. -/
theorem read_chunk_degraded (content : List Nat) (x : DavIOVecInput) :
    read_chunk VectorResponse.unsupported (range_server content) x
      = expected_chunk content x := by
  unfold read_chunk expected_chunk
  by_cases hr : x.diov_offset < content.length
  · simp [readPartial, range_server, hr, take_window, DavIOVecInput.in_range]
  · simp [readPartial, range_server, hr, DavIOVecInput.in_range]

theorem expected_chunk_out_of_range (content : List Nat) (x : DavIOVecInput)
    (h : content.length ≤ x.diov_offset) : expected_chunk content x = none := by
  have : ¬ x.diov_offset < content.length := by omega
  simp [expected_chunk, DavIOVecInput.in_range, this]

/-- The result of a vector read whose chunks get what they are owed. -/
theorem readPartialBufferVec_of_chunks (content : List Nat) (response : VectorResponse)
    (server : Server) (inputs : List DavIOVecInput)
    (h : ∀ x ∈ inputs, read_chunk response server x = expected_chunk content x) :
    (readPartialBufferVec response server inputs).2.2 = expected_outputs content inputs ∧
    ((∀ x ∈ inputs, x.in_range content.length = false) →
      (readPartialBufferVec response server inputs).1 = -1 ∧
      (readPartialBufferVec response server inputs).2.1 = some vector_read_error) ∧
    ((∃ x ∈ inputs, x.in_range content.length = true) →
      (readPartialBufferVec response server inputs).1
        = (((expected_outputs content inputs).map (fun o => o.diov_size)).sum : Nat) ∧
      (readPartialBufferVec response server inputs).2.1 = none) := by
  have e : inputs.map (read_chunk response server) = inputs.map (expected_chunk content) :=
    List.map_congr_left h
  have hall : (inputs.map (expected_chunk content)).all (fun o => o.isNone) = true ↔
      ∀ x ∈ inputs, x.in_range content.length = false := by
    rw [List.all_eq_true]
    constructor
    · intro hh x hx
      have := hh (expected_chunk content x) (List.mem_map.2 ⟨x, hx, rfl⟩)
      cases hc : x.in_range content.length with
      | false => rfl
      | true => simp [expected_chunk, hc] at this
    · intro hh o ho
      obtain ⟨x, hx, e1⟩ := List.mem_map.1 ho
      rw [← e1]
      simp [expected_chunk, hh x hx]
  unfold readPartialBufferVec
  simp only [e]
  refine ⟨?_, ?_, ?_⟩
  · split <;> simp [expected_outputs, List.map_map, Function.comp]
  · intro hh
    rw [if_pos (hall.2 hh)]
    exact ⟨rfl, rfl⟩
  · intro hh
    have hn : ¬ ((inputs.map (expected_chunk content)).all (fun o => o.isNone) = true) := by
      intro ha
      obtain ⟨x, hx, hr⟩ := hh
      have := hall.1 ha x hx
      rw [this] at hr
      cases hr
    rw [if_neg hn]
    exact ⟨by simp only [expected_outputs, List.map_map]; rfl, rfl⟩

theorem readPartialBufferVec_nonneg (content : List Nat) (response : VectorResponse)
    (server : Server) (inputs : List DavIOVecInput)
    (h : ∀ x ∈ inputs, read_chunk response server x = expected_chunk content x) :
    (readPartialBufferVec response server inputs).1 = -1 ↔
      ∀ x ∈ inputs, content.length ≤ x.diov_offset := by
  obtain ⟨_, h2, h3⟩ := readPartialBufferVec_of_chunks content response server inputs h
  constructor
  · intro hm x hx
    by_contra hlt
    have hin : x.in_range content.length = true := by
      simp only [DavIOVecInput.in_range, decide_eq_true_eq]
      omega
    have := (h3 ⟨x, hx, hin⟩).1
    rw [this] at hm
    have hnn : (0 : Int) ≤ (((expected_outputs content inputs).map
      (fun o => o.diov_size)).sum : Nat) := Int.ofNat_nonneg _
    omega
  · intro hall
    refine (h2 (fun x hx => ?_)).1
    have := hall x hx
    simp only [DavIOVecInput.in_range, decide_eq_false_iff_not]
    omega

/-- C23: vector read totals. For every file content, every list of chunks and
every order in which a multi-range server sends the parts of the chunks in
range: the output descriptors hold for each chunk the bytes of its window,
and length zero for a chunk whose offset lies beyond the end of the file;
`readPartialBufferVec` returns -1 exactly when every chunk fails, then with an
error record; otherwise it returns without error the sum of the bytes
delivered into the output buffers, which is not negative. Without multi-range
support, the single-range path against a range-capable server gives the same
result. -/
theorem vector_read_totals (content : List Nat) (inputs : List DavIOVecInput)
    (parts : List BytePart) (server : Server)
    (h_parts : parts.Perm (multirange_parts content inputs)) :
    (readPartialBufferVec (VectorResponse.multipart parts) server inputs).2.2
      = expected_outputs content inputs ∧
    ((readPartialBufferVec (VectorResponse.multipart parts) server inputs).1 = -1 ↔
      ∀ x ∈ inputs, content.length ≤ x.diov_offset) ∧
    ((readPartialBufferVec (VectorResponse.multipart parts) server inputs).1 = -1 →
      (readPartialBufferVec (VectorResponse.multipart parts) server inputs).2.1.isSome = true) ∧
    ((∃ x ∈ inputs, x.diov_offset < content.length) →
      (readPartialBufferVec (VectorResponse.multipart parts) server inputs).1
        = (((expected_outputs content inputs).map (fun o => o.diov_size)).sum : Nat) ∧
      0 ≤ (readPartialBufferVec (VectorResponse.multipart parts) server inputs).1 ∧
      (readPartialBufferVec (VectorResponse.multipart parts) server inputs).2.1 = none) ∧
    (∀ (i : Nat) (x : DavIOVecInput), inputs[i]? = some x → content.length ≤ x.diov_offset →
      (expected_outputs content inputs)[i]? = some { diov_buffer := [], diov_size := 0 }) ∧
    (readPartialBufferVec VectorResponse.unsupported (range_server content) inputs).1
      = (readPartialBufferVec (VectorResponse.multipart parts) server inputs).1 ∧
    (readPartialBufferVec VectorResponse.unsupported (range_server content) inputs).2.2
      = (readPartialBufferVec (VectorResponse.multipart parts) server inputs).2.2 := by
  have hm : ∀ x ∈ inputs, read_chunk (VectorResponse.multipart parts) server x
      = expected_chunk content x :=
    fun x hx => read_chunk_multipart content inputs parts h_parts server x hx
  have hd : ∀ x ∈ inputs, read_chunk VectorResponse.unsupported (range_server content) x
      = expected_chunk content x :=
    fun x _ => read_chunk_degraded content x
  obtain ⟨m1, m2, m3⟩ := readPartialBufferVec_of_chunks content _ server inputs hm
  obtain ⟨d1, d2, d3⟩ := readPartialBufferVec_of_chunks content _ (range_server content) inputs hd
  have hiff := readPartialBufferVec_nonneg content _ server inputs hm
  refine ⟨m1, hiff, ?_, ?_, ?_, ?_, d1.trans m1.symm⟩
  · intro h
    have hall := hiff.1 h
    rw [(m2 (fun x hx => by
      have := hall x hx
      simp only [DavIOVecInput.in_range, decide_eq_false_iff_not]
      omega)).2]
    rfl
  · rintro ⟨x, hx, hlt⟩
    have h3 := m3 ⟨x, hx, by simp [DavIOVecInput.in_range, hlt]⟩
    refine ⟨h3.1, ?_, h3.2⟩
    rw [h3.1]
    exact Int.ofNat_nonneg _
  · intro i x hi hx
    unfold expected_outputs
    rw [List.getElem?_map, hi]
    simp [expected_chunk_out_of_range content x hx]
  · by_cases hex : ∃ x ∈ inputs, x.in_range content.length = true
    · rw [(d3 hex).1, (m3 hex).1]
    · have hall : ∀ x ∈ inputs, x.in_range content.length = false := by
        intro x hx
        cases hc : x.in_range content.length with
        | false => rfl
        | true => exact absurd ⟨x, hx, hc⟩ hex
      rw [(d2 hall).1, (m2 hall).1]

set_option maxRecDepth 100000 in
/-- C23 on the example: three chunks of a file of 100 bytes, the first two
satisfied by a multipart response that sends the second range first, the third
beyond the end of the file: the result is 30, the sum of the two, and the
third output length is zero. -/
theorem vector_read_totals_witness :
    (readPartialBufferVec (VectorResponse.multipart sample_parts) (plain_server sample_file)
      sample_chunks).2.2 = expected_outputs sample_file sample_chunks ∧
    (readPartialBufferVec (VectorResponse.multipart sample_parts) (plain_server sample_file)
      sample_chunks).1 = 30 ∧
    (expected_outputs sample_file sample_chunks).map (fun o => o.diov_size) = [10, 20, 0] :=
  ⟨(vector_read_totals sample_file sample_chunks sample_parts (plain_server sample_file)
      (by decide)).1,
    by decide, by decide⟩

/-! ## Shape of the filename derived from an href -/

theorem dropWhile_head (q : Char → Bool) (l : List Char) (x : Char) (xs : List Char)
    (h : l.dropWhile q = x :: xs) : q x = false ∧ x ∈ l := by
  induction l with
  | nil => simp at h
  | cons y ys ih =>
    by_cases hy : q y = true
    · rw [List.dropWhile_cons_of_pos hy] at h
      exact ⟨(ih h).1, List.mem_cons_of_mem _ (ih h).2⟩
    · rw [List.dropWhile_cons_of_neg hy] at h
      cases h
      exact ⟨by simpa using hy, List.mem_cons_self _ _⟩

theorem last_path_segment_no_slash (s : CStr) : '/' ∉ last_path_segment s := by
  unfold last_path_segment
  intro h
  rw [List.mem_reverse] at h
  have := List.mem_takeWhile_imp h
  simp at this

theorem last_path_segment_suffix (s : CStr) : last_path_segment s <:+ s := by
  unfold last_path_segment
  have h := List.takeWhile_prefix (fun c => c != '/') (l := s.reverse)
  have h2 := List.reverse_suffix.2 h
  rw [List.reverse_reverse] at h2
  exact h2

/-- The filename of the specification is empty exactly for a text without any
character other than `/`. -/
theorem href_filename_eq_nil (s : CStr) : href_filename s = [] ↔ ∀ c ∈ s, c = '/' := by
  unfold href_filename last_path_segment strip_trailing_slashes
  rw [List.reverse_reverse]
  cases hr : s.reverse.dropWhile (fun c => c == '/') with
  | nil =>
    simp only [List.takeWhile_nil, List.reverse_nil, true_iff]
    intro c hc
    have := List.dropWhile_eq_nil_iff.1 hr c (List.mem_reverse.2 hc)
    simpa using this
  | cons x xs =>
    obtain ⟨hx, hmem⟩ := dropWhile_head _ _ x xs hr
    have hne : x ≠ '/' := by simpa using hx
    constructor
    · intro h
      exfalso
      have ht : List.takeWhile (fun c => c != '/') (x :: xs)
          = x :: List.takeWhile (fun c => c != '/') xs := by
        rw [List.takeWhile_cons_of_pos (by simpa using hne)]
      rw [ht] at h
      simp at h
    · intro h
      exact absurd (h x (List.mem_reverse.1 hmem)) hne

/-- C31: for every href text observed while the response and href scopes are
open, the filename `check_href` remembers holds no `/`, is a suffix of the
href with its trailing `/` characters removed, and is empty if and only if the
href is empty or made of `/` characters only. -/
theorem href_filename_shape (p : DavPropXMLParser) (c_name : CStr)
    (h_resp : p.response_section = true) (h_href : p.href_section = true) :
    '/' ∉ (check_href p c_name).2.last_filename ∧
    (check_href p c_name).2.last_filename <:+ strip_trailing_slashes c_name ∧
    ((check_href p c_name).2.last_filename = [] ↔ ∀ c ∈ c_name, c = '/') := by
  rw [check_href_eq p c_name h_resp h_href]
  exact ⟨last_path_segment_no_slash _, last_path_segment_suffix _, href_filename_eq_nil c_name⟩

/-- C31 on examples: `/a/b/c/` gives a filename without `/`, and `///` gives
the empty filename. -/
theorem href_filename_shape_witness :
    '/' ∉ (check_href state_in_href "/a/b/c/".toList).2.last_filename ∧
    (check_href state_in_href "///".toList).2.last_filename = [] :=
  ⟨(href_filename_shape state_in_href "/a/b/c/".toList (by decide) (by decide)).1,
    (href_filename_shape state_in_href "///".toList (by decide) (by decide)).2.2.2
      (by decide)⟩

/-! ## Default configuration and the keep-alive bit -/

theorem testBit_one_of_pos (i : Nat) (h : 0 < i) : Nat.testBit 1 i = false := by
  have : (1 : Nat) = 2 ^ 0 := rfl
  rw [this, Nat.testBit_two_pow]
  simp
  omega

theorem testBit_keep_alive_mask (i : Nat) (h0 : 0 < i) (h : i < 32) :
    Nat.testBit (2 ^ 32 - 1 - SESSION_FLAG_KEEP_ALIVE) i = true := by
  interval_cases i <;> decide

theorem keep_alive_set (x : Nat) : ((x ||| SESSION_FLAG_KEEP_ALIVE) &&& SESSION_FLAG_KEEP_ALIVE) = 1 := by
  have h : Nat.testBit (x ||| SESSION_FLAG_KEEP_ALIVE) 0 = true := by
    rw [Nat.testBit_or]
    simp [SESSION_FLAG_KEEP_ALIVE]
  rw [Nat.testBit_zero] at h
  have h1 : (x ||| SESSION_FLAG_KEEP_ALIVE) % 2 = 1 := by simpa using h
  show (x ||| SESSION_FLAG_KEEP_ALIVE) &&& 1 = 1
  rw [Nat.and_one_is_mod]
  exact h1

theorem keep_alive_cleared (x : Nat) :
    ((x &&& (2 ^ 32 - 1 - SESSION_FLAG_KEEP_ALIVE)) &&& SESSION_FLAG_KEEP_ALIVE) = 0 := by
  have h : Nat.testBit (x &&& (2 ^ 32 - 1 - SESSION_FLAG_KEEP_ALIVE)) 0 = false := by
    rw [Nat.testBit_and]
    have : Nat.testBit (2 ^ 32 - 1 - SESSION_FLAG_KEEP_ALIVE) 0 = false := by decide
    rw [this]
    simp
  rw [Nat.testBit_zero] at h
  have h1 : (x &&& (2 ^ 32 - 1 - SESSION_FLAG_KEEP_ALIVE)) % 2 = 0 := by
    have := Nat.mod_two_eq_zero_or_one (x &&& (2 ^ 32 - 1 - SESSION_FLAG_KEEP_ALIVE))
    rcases this with e | e
    · exact e
    · rw [e] at h
      simp at h
  show (x &&& (2 ^ 32 - 1 - SESSION_FLAG_KEEP_ALIVE)) &&& 1 = 0
  rw [Nat.and_one_is_mod]
  exact h1

/-- C33: a default-constructed `RequestParams` has SSL CA checking enabled,
transparent redirection enabled, keep-alive enabled, recursive mode disabled,
S3 max keys 10000, no CA path, no custom header, no proxy, protocol Auto,
metalink mode Auto and copy mode Push. On every object, `getKeepAlive` after
`setKeepAlive(b)` returns `b`, for both values of `b`, and of the 32 bits of
the session flag `setKeepAlive` changes none other than bit 0, the keep-alive
bit. -/
theorem default_configuration (c : BuildConstants) (state_value : Int) (p : RequestParams)
    (b : Bool) (sv : Int) :
    (RequestParams.getSSLCACheck (RequestParams.new c state_value).1 = true ∧
      RequestParams.getTransparentRedirectionSupport (RequestParams.new c state_value).1 = true ∧
      RequestParams.getKeepAlive (RequestParams.new c state_value).1 = true ∧
      RequestParams.getRecursiveMode (RequestParams.new c state_value).1 = false ∧
      RequestParams.getS3MaxKey (RequestParams.new c state_value).1 = 10000 ∧
      RequestParams.listCertificateAuthorityPath (RequestParams.new c state_value).1 = [] ∧
      RequestParams.getHeaders (RequestParams.new c state_value).1 = [] ∧
      RequestParams.getProxyServer (RequestParams.new c state_value).1 = none ∧
      RequestParams.getProtocol (RequestParams.new c state_value).1 = RequestProtocol.Auto ∧
      RequestParams.getMetalinkMode (RequestParams.new c state_value).1 = MetalinkMode.Auto ∧
      RequestParams.getCopyMode (RequestParams.new c state_value).1 = CopyMode.Push) ∧
    RequestParams.getKeepAlive (RequestParams.setKeepAlive p b sv).1 = b ∧
    (∀ i : Nat, 0 < i → i < 32 →
      Nat.testBit (RequestParams.setKeepAlive p b sv).1.d_ptr._session_flag i
        = Nat.testBit p.d_ptr._session_flag i) := by
  have hk : RequestParams.getKeepAlive (RequestParams.new c state_value).1 = true := by
    show ((SESSION_FLAG_KEEP_ALIVE &&& SESSION_FLAG_KEEP_ALIVE) != 0) = true
    decide
  refine ⟨⟨rfl, rfl, hk, rfl, rfl, rfl, rfl, rfl, rfl, rfl, rfl⟩, ?_, ?_⟩
  · cases b with
    | true =>
      show ((p.d_ptr._session_flag ||| SESSION_FLAG_KEEP_ALIVE) &&& SESSION_FLAG_KEEP_ALIVE != 0)
        = true
      rw [keep_alive_set]
      decide
    | false =>
      show ((p.d_ptr._session_flag &&& (2 ^ 32 - 1 - SESSION_FLAG_KEEP_ALIVE))
        &&& SESSION_FLAG_KEEP_ALIVE != 0) = false
      rw [keep_alive_cleared]
      decide
  · intro i h0 h
    cases b with
    | true =>
      show Nat.testBit (p.d_ptr._session_flag ||| SESSION_FLAG_KEEP_ALIVE) i = _
      rw [Nat.testBit_or]
      have : Nat.testBit SESSION_FLAG_KEEP_ALIVE i = false := testBit_one_of_pos i h0
      rw [this]
      simp
    | false =>
      show Nat.testBit (p.d_ptr._session_flag &&& (2 ^ 32 - 1 - SESSION_FLAG_KEEP_ALIVE)) i = _
      rw [Nat.testBit_and, testBit_keep_alive_mask i h0 h]
      simp

/-- C33 on an example: on a default-constructed object, whose session flag is
1, `setKeepAlive(false)` gives `getKeepAlive` false and the session flag 0,
and `setKeepAlive(true)` after it gives true and 1. -/
theorem default_configuration_witness :
    RequestParams.getKeepAlive
      (RequestParams.setKeepAlive (RequestParams.new sample_constants 0).1 false 1).1 = false ∧
    (RequestParams.setKeepAlive (RequestParams.new sample_constants 0).1 false 1).1.d_ptr._session_flag
      = 0 ∧
    RequestParams.getKeepAlive
      (RequestParams.setKeepAlive
        (RequestParams.setKeepAlive (RequestParams.new sample_constants 0).1 false 1).1
        true 2).1 = true :=
  ⟨(default_configuration sample_constants 0 (RequestParams.new sample_constants 0).1
      false 1).2.1,
    by decide,
    (default_configuration sample_constants 0
      (RequestParams.setKeepAlive (RequestParams.new sample_constants 0).1 false 1).1
      true 2).2.1⟩

/-! ## Copies of a `RequestParams` -/

theorem RequestParamsInternal.copy_internal_eq (d : RequestParamsInternal) :
    RequestParamsInternal.copy d = d := by
  cases d; rfl

theorem RequestParams.copy_eq (p : RequestParams) : RequestParams.copy p = p := by
  cases p; simp [RequestParams.copy, RequestParamsInternal.copy_internal_eq]

theorem RequestParams.from_pointer_some (c : BuildConstants) (p : RequestParams)
    (state_value : Int) :
    RequestParams.from_pointer c (some p) state_value = (p, state_value) := by
  cases p; simp [RequestParams.from_pointer, RequestParamsInternal.copy_internal_eq]

theorem RequestParams.assign_eq (q p : RequestParams) : RequestParams.assign q p = p := by
  cases p; simp [RequestParams.assign, RequestParamsInternal.copy_internal_eq]

theorem getElem?_append_of_some {α : Type} (l : List α) (x : α) (i : Nat) (a : α)
    (h : l[i]? = some a) : (l ++ [x])[i]? = some a := by
  have hi : i < l.length := by
    by_contra hn
    rw [List.getElem?_eq_none (by omega)] at h
    cases h
  rw [List.getElem?_append_left hi, h]

theorem World.step_copy_other (c : BuildConstants) (w : World) (i k : Nat) (p : RequestParams)
    (h : w.objects[i]? = some p) : (World.step c w (.copy k)).objects[i]? = some p := by
  simp only [World.step]
  split
  · exact getElem?_append_of_some _ _ _ _ h
  · exact h

theorem World.step_from_pointer_other (c : BuildConstants) (w : World) (i : Nat)
    (k : Option Nat) (p : RequestParams) (h : w.objects[i]? = some p) :
    (World.step c w (.from_pointer k)).objects[i]? = some p := by
  cases k with
  | none => exact getElem?_append_of_some _ _ _ _ h
  | some k =>
    simp only [World.step]
    split
    · exact getElem?_append_of_some _ _ _ _ h
    · exact h

theorem World.step_assign_other (c : BuildConstants) (w : World) (i j k : Nat)
    (hj : j ≠ i) : (World.step c w (.assign j k)).objects[i]? = w.objects[i]? := by
  simp only [World.step]
  split
  · exact List.getElem?_set_ne hj
  · rfl

theorem World.step_regen_other (c : BuildConstants) (w : World) (i j : Nat) (s : RegenSetter)
    (hj : j ≠ i) : (World.step c w (.regen j s)).objects[i]? = w.objects[i]? := by
  simp only [World.step]
  split
  · exact List.getElem?_set_ne hj
  · rfl

theorem World.step_plain_other (c : BuildConstants) (w : World) (i j : Nat) (s : PlainSetter)
    (hj : j ≠ i) : (World.step c w (.plain j s)).objects[i]? = w.objects[i]? := by
  simp only [World.step]
  split
  · exact List.getElem?_set_ne hj
  · rfl

theorem World.step_get_x509_other (c : BuildConstants) (w : World) (i j : Nat)
    (hj : j ≠ i) : (World.step c w (.get_x509 j)).objects[i]? = w.objects[i]? := by
  simp only [World.step]
  split
  · exact List.getElem?_set_ne hj
  · rfl

/-! ### The `X509Data` object shared by a copy -/

theorem X509Heap.read_alloc (h : X509Heap) (a : Nat) (ha : a ≤ h.cells.length) (ha0 : a ≠ 0) :
    h.alloc.2.read a = h.read a := by
  simp only [X509Heap.alloc, X509Heap.read, List.getD_eq_getElem?_getD]
  rw [List.getElem?_append_left (by omega)]

theorem X509Heap.read_write_other (h : X509Heap) (x a : Nat) (d : X509Data) (hne : x ≠ a)
    (hx0 : x ≠ 0) (ha0 : a ≠ 0) : (h.write x d).read a = h.read a := by
  simp only [X509Heap.write, X509Heap.read, List.getD_eq_getElem?_getD]
  rw [List.getElem?_set_ne (by omega)]

theorem X509Heap.read_write_same (h : X509Heap) (x : Nat) (d : X509Data) (hx0 : x ≠ 0)
    (hx : x ≤ h.cells.length) : (h.write x d).read x = d := by
  simp only [X509Heap.write, X509Heap.read, List.getD_eq_getElem?_getD]
  rw [List.getElem?_set_self (by omega)]
  rfl

theorem X509Heap.write_length (h : X509Heap) (x : Nat) (d : X509Data) :
    (h.write x d).cells.length = h.cells.length := by
  simp [X509Heap.write]

theorem X509Heap.alloc_length (h : X509Heap) : h.alloc.2.cells.length = h.cells.length + 1 := by
  simp [X509Heap.alloc]

theorem X509Heap.read_alloc_new (h : X509Heap) : h.alloc.2.read h.alloc.1 = X509Data.new := by
  simp [X509Heap.alloc, X509Heap.read, List.getD_eq_getElem?_getD]

theorem X509Heap.value_alloc (h : X509Heap) (a : Nat) (ha : a ≤ h.cells.length) :
    h.alloc.2.value a = h.value a := by
  unfold X509Heap.value
  by_cases h0 : a = 0
  · simp [h0]
  · simp only [beq_iff_eq, h0, if_false]
    rw [X509Heap.read_alloc h a ha h0]

theorem X509Heap.value_write_other (h : X509Heap) (x a : Nat) (d : X509Data) (hne : x ≠ a)
    (hx0 : x ≠ 0) : (h.write x d).value a = h.value a := by
  unfold X509Heap.value
  by_cases h0 : a = 0
  · simp [h0]
  · simp only [beq_iff_eq, h0, if_false]
    rw [X509Heap.read_write_other h x a d hne hx0 h0]

theorem X509Heap.value_write_same (h : X509Heap) (x : Nat) (d : X509Data) (hx0 : x ≠ 0)
    (hx : x ≤ h.cells.length) : (h.write x d).value x = some d := by
  unfold X509Heap.value
  simp only [beq_iff_eq, hx0, if_false]
  rw [X509Heap.read_write_same h x d hx0 hx]

theorem X509Heap.alloc_fst (h : X509Heap) : h.alloc.1 = h.cells.length + 1 := rfl

theorem setClientCertX509_at_other (h : X509Heap) (p_ptr copy_ptr : Nat)
    (cli_cert : X509Credential) (hp : p_ptr ≤ h.cells.length) :
    (setClientCertX509_at h copy_ptr cli_cert).2.value p_ptr = h.value p_ptr := by
  simp only [setClientCertX509_at, X509Data.reset_at]
  rw [X509Heap.value_write_other _ _ _ _ (by rw [X509Heap.alloc_fst]; omega)
      (by rw [X509Heap.alloc_fst]; omega),
    X509Heap.value_write_other _ _ _ _ (by rw [X509Heap.alloc_fst]; omega)
      (by rw [X509Heap.alloc_fst]; omega),
    X509Heap.value_alloc h p_ptr hp]

theorem setClientCertCallbackX509_at_other (h : X509Heap) (p_ptr copy_ptr : Nat)
    (callback userdata : Nat) (hp : p_ptr ≤ h.cells.length) :
    (setClientCertCallbackX509_at h copy_ptr callback userdata).2.value p_ptr
      = h.value p_ptr := by
  simp only [setClientCertCallbackX509_at, X509Data.reset_at]
  rw [X509Heap.value_write_other _ _ _ _ (by rw [X509Heap.alloc_fst]; omega)
      (by rw [X509Heap.alloc_fst]; omega),
    X509Heap.value_write_other _ _ _ _ (by rw [X509Heap.alloc_fst]; omega)
      (by rw [X509Heap.alloc_fst]; omega),
    X509Heap.value_alloc h p_ptr hp]

theorem setClientCertFunctionX509_at_other (h : X509Heap) (p_ptr copy_ptr : Nat)
    (callback : X509Fun) (hp : p_ptr ≤ h.cells.length) :
    (setClientCertFunctionX509_at h copy_ptr callback).2.value p_ptr = h.value p_ptr := by
  simp only [setClientCertFunctionX509_at, X509Data.reset_at]
  rw [X509Heap.value_write_other _ _ _ _ (by rw [X509Heap.alloc_fst]; omega)
      (by rw [X509Heap.alloc_fst]; omega),
    X509Heap.value_alloc h p_ptr hp]

theorem X509Data.instance_at_other (h : X509Heap) (p_ptr copy_ptr : Nat)
    (hp : p_ptr ≤ h.cells.length) :
    (X509Data.instance_at h copy_ptr).2.value p_ptr = h.value p_ptr := by
  unfold X509Data.instance_at
  split
  · exact X509Heap.value_alloc h p_ptr hp
  · rfl

/-- What `X509Data::instance` leaves behind the pointer is what the value-level
`X509Data.get_instance` returns. -/
theorem X509Data.instance_at_value (h : X509Heap) (cred_ptr : Nat)
    (hp : cred_ptr ≤ h.cells.length) :
    (X509Data.instance_at h cred_ptr).2.value (X509Data.instance_at h cred_ptr).1
        = some (X509Data.get_instance (h.value cred_ptr)).1 ∧
      (X509Data.instance_at h cred_ptr).2.read (X509Data.instance_at h cred_ptr).1
        = (X509Data.get_instance (h.value cred_ptr)).1 := by
  unfold X509Data.instance_at X509Heap.value
  by_cases h0 : cred_ptr = 0
  · subst h0
    simp [X509Heap.alloc, X509Heap.read, X509Data.get_instance, List.getD_eq_getElem?_getD]
  · simp [h0, X509Data.get_instance]

theorem setClientCertX509_at_value (h : X509Heap) (cred_ptr : Nat) (cli_cert : X509Credential)
    (p : RequestParams) (state_value : Int) :
    (setClientCertX509_at h cred_ptr cli_cert).2.value (setClientCertX509_at h cred_ptr cli_cert).1
      = (p.setClientCertX509 cli_cert state_value).1.d_ptr._x509_data := by
  simp only [setClientCertX509_at, X509Data.reset_at, RequestParams.setClientCertX509,
    X509Data.reset]
  rw [X509Heap.value_write_same _ _ _ (by rw [X509Heap.alloc_fst]; omega)
    (by rw [X509Heap.write_length, X509Heap.alloc_length, X509Heap.alloc_fst]),
    X509Heap.read_write_same _ _ _ (by rw [X509Heap.alloc_fst]; omega)
    (by rw [X509Heap.alloc_length, X509Heap.alloc_fst]), X509Heap.read_alloc_new]

theorem setClientCertCallbackX509_at_value (h : X509Heap) (cred_ptr : Nat)
    (callback userdata : Nat) (p : RequestParams) (state_value : Int) :
    (setClientCertCallbackX509_at h cred_ptr callback userdata).2.value
        (setClientCertCallbackX509_at h cred_ptr callback userdata).1
      = (p.setClientCertCallbackX509 callback userdata state_value).1.d_ptr._x509_data := by
  simp only [setClientCertCallbackX509_at, X509Data.reset_at,
    RequestParams.setClientCertCallbackX509, X509Data.reset]
  rw [X509Heap.value_write_same _ _ _ (by rw [X509Heap.alloc_fst]; omega)
    (by rw [X509Heap.write_length, X509Heap.alloc_length, X509Heap.alloc_fst]),
    X509Heap.read_write_same _ _ _ (by rw [X509Heap.alloc_fst]; omega)
    (by rw [X509Heap.alloc_length, X509Heap.alloc_fst]), X509Heap.read_alloc_new]

theorem setClientCertFunctionX509_at_value (h : X509Heap) (cred_ptr : Nat)
    (callback : X509Fun) (p : RequestParams) (state_value : Int) :
    (setClientCertFunctionX509_at h cred_ptr callback).2.value
        (setClientCertFunctionX509_at h cred_ptr callback).1
      = (p.setClientCertFunctionX509 callback state_value).1.d_ptr._x509_data := by
  simp only [setClientCertFunctionX509_at, X509Data.reset_at,
    RequestParams.setClientCertFunctionX509, X509Data.reset]
  rw [X509Heap.value_write_same _ _ _ (by rw [X509Heap.alloc_fst]; omega)
    (by rw [X509Heap.alloc_length, X509Heap.alloc_fst]), X509Heap.read_alloc_new]

/-- The getters on addresses return what the value-level getters return, when
the pointer of the object holds the value `p.d_ptr._x509_data`. -/
theorem x509_getters_at_value (h : X509Heap) (cred_ptr : Nat) (p : RequestParams)
    (hp : cred_ptr ≤ h.cells.length) (hv : h.value cred_ptr = p.d_ptr._x509_data) :
    (getClientCertX509_at h cred_ptr).1 = p.getClientCertX509.1 ∧
    (getClientCertFunctionX509_at h cred_ptr).1 = p.getClientCertFunctionX509.1 ∧
    (getClientCertCallbackX509_at h cred_ptr).1 = p.getClientCertCallbackX509.1 ∧
    (getClientCertX509_at h cred_ptr).2.2.value (getClientCertX509_at h cred_ptr).2.1
      = p.getClientCertX509.2.d_ptr._x509_data := by
  have key := X509Data.instance_at_value h cred_ptr hp
  rw [hv] at key
  simp only [getClientCertX509_at, getClientCertFunctionX509_at, getClientCertCallbackX509_at,
    RequestParams.getClientCertX509, RequestParams.getClientCertFunctionX509,
    RequestParams.getClientCertCallbackX509]
  rw [key.2, key.1]
  refine ⟨rfl, rfl, rfl, ?_⟩
  cases p.d_ptr._x509_data <;> rfl

/-- C32: a copy made by the copy constructor, by the pointer constructor with
a non-null argument, or by operator= is equal to the original `p` as a value,
so every getter (all of them are collected in `configuration`) returns on it
what it returns on `p`, and the pointer constructor with a null argument gives
the default-constructed object. The original is left unchanged: in a program
state where `p` is the object number `i`, creating a copy of any object,
assigning to another object, and calling any setter or X.509 getter on another
object (the copy is another object) leave the object number `i` equal to `p`.
The only data a copy shares with the original is the `X509Data` object behind
`_x509_data`: whatever address `copy_ptr` the copy holds, the X.509 setters
write to a newly allocated object only and the X.509 getters write nothing, so
the value behind the pointer `p_ptr` of the original is the same afterwards;
and the value left behind the pointer of the copy is the one of the value-level
setters used above. -/
theorem copy_preserves_configuration (c : BuildConstants) (p q : RequestParams)
    (state_value : Int) :
    (RequestParams.copy p = p ∧
      (RequestParams.from_pointer c (some p) state_value).1 = p ∧
      RequestParams.assign q p = p) ∧
    ((RequestParams.copy p).configuration = p.configuration ∧
      (RequestParams.from_pointer c (some p) state_value).1.configuration = p.configuration ∧
      (RequestParams.assign q p).configuration = p.configuration) ∧
    RequestParams.from_pointer c none state_value = RequestParams.new c state_value ∧
    (∀ (w : World) (i : Nat), w.objects[i]? = some p →
      (∀ k, (World.step c w (.copy k)).objects[i]? = some p) ∧
      (∀ k, (World.step c w (.from_pointer k)).objects[i]? = some p) ∧
      (∀ j k, j ≠ i → (World.step c w (.assign j k)).objects[i]? = some p) ∧
      (∀ j s, j ≠ i → (World.step c w (.regen j s)).objects[i]? = some p) ∧
      (∀ j s, j ≠ i → (World.step c w (.plain j s)).objects[i]? = some p) ∧
      (∀ j, j ≠ i → (World.step c w (.get_x509 j)).objects[i]? = some p)) ∧
    (∀ (h : X509Heap) (p_ptr copy_ptr : Nat), p_ptr ≤ h.cells.length →
      (∀ cli_cert, (setClientCertX509_at h copy_ptr cli_cert).2.value p_ptr = h.value p_ptr) ∧
      (∀ callback userdata,
        (setClientCertCallbackX509_at h copy_ptr callback userdata).2.value p_ptr
          = h.value p_ptr) ∧
      (∀ callback,
        (setClientCertFunctionX509_at h copy_ptr callback).2.value p_ptr = h.value p_ptr) ∧
      (getClientCertX509_at h copy_ptr).2.2.value p_ptr = h.value p_ptr ∧
      (getClientCertFunctionX509_at h copy_ptr).2.2.value p_ptr = h.value p_ptr ∧
      (getClientCertCallbackX509_at h copy_ptr).2.2.value p_ptr = h.value p_ptr) ∧
    (∀ (h : X509Heap) (copy_ptr : Nat),
      (∀ cli_cert,
        (setClientCertX509_at h copy_ptr cli_cert).2.value
            (setClientCertX509_at h copy_ptr cli_cert).1
          = ((RequestParams.copy p).setClientCertX509 cli_cert state_value).1.d_ptr._x509_data) ∧
      (∀ callback userdata,
        (setClientCertCallbackX509_at h copy_ptr callback userdata).2.value
            (setClientCertCallbackX509_at h copy_ptr callback userdata).1
          = ((RequestParams.copy p).setClientCertCallbackX509 callback userdata
              state_value).1.d_ptr._x509_data) ∧
      (∀ callback,
        (setClientCertFunctionX509_at h copy_ptr callback).2.value
            (setClientCertFunctionX509_at h copy_ptr callback).1
          = ((RequestParams.copy p).setClientCertFunctionX509 callback
              state_value).1.d_ptr._x509_data) ∧
      (copy_ptr ≤ h.cells.length → h.value copy_ptr = p.d_ptr._x509_data →
        (getClientCertX509_at h copy_ptr).1 = (RequestParams.copy p).getClientCertX509.1 ∧
        (getClientCertFunctionX509_at h copy_ptr).1
          = (RequestParams.copy p).getClientCertFunctionX509.1 ∧
        (getClientCertCallbackX509_at h copy_ptr).1
          = (RequestParams.copy p).getClientCertCallbackX509.1)) := by
  have e1 := RequestParams.copy_eq p
  have e2 : (RequestParams.from_pointer c (some p) state_value).1 = p := by
    rw [RequestParams.from_pointer_some]
  have e3 := RequestParams.assign_eq q p
  refine ⟨⟨e1, e2, e3⟩, ⟨by rw [e1], by rw [e2], by rw [e3]⟩, rfl, ?_, ?_, ?_⟩
  · intro w i hi
    refine ⟨fun k => World.step_copy_other c w i k p hi,
      fun k => World.step_from_pointer_other c w i k p hi,
      fun j k hj => by rw [World.step_assign_other c w i j k hj, hi],
      fun j s hj => by rw [World.step_regen_other c w i j s hj, hi],
      fun j s hj => by rw [World.step_plain_other c w i j s hj, hi],
      fun j hj => by rw [World.step_get_x509_other c w i j hj, hi]⟩
  · intro h p_ptr copy_ptr hp
    exact ⟨fun cli_cert => setClientCertX509_at_other h p_ptr copy_ptr cli_cert hp,
      fun callback userdata =>
        setClientCertCallbackX509_at_other h p_ptr copy_ptr callback userdata hp,
      fun callback => setClientCertFunctionX509_at_other h p_ptr copy_ptr callback hp,
      X509Data.instance_at_other h p_ptr copy_ptr hp,
      X509Data.instance_at_other h p_ptr copy_ptr hp,
      X509Data.instance_at_other h p_ptr copy_ptr hp⟩
  · intro h copy_ptr
    refine ⟨fun cli_cert => setClientCertX509_at_value h copy_ptr cli_cert _ state_value,
      fun callback userdata =>
        setClientCertCallbackX509_at_value h copy_ptr callback userdata _ state_value,
      fun callback => setClientCertFunctionX509_at_value h copy_ptr callback _ state_value,
      fun hp hv => ?_⟩
    rw [e1]
    have key := x509_getters_at_value h copy_ptr p hp hv
    exact ⟨key.1, key.2.1, key.2.2.1⟩

/-- A default-constructed object is copied and certificate checking is then
switched off on the copy: the original is as constructed and still checks.
A setter called through a pointer to the one object of `sample_heap` leaves
that object as it was, and the getter on addresses returns the certificate
that the value-level getter returns. -/
theorem copy_preserves_configuration_witness :
    (World.run sample_constants World.init
        [.construct, .copy 0, .regen 1 (.setSSLCAcheck false)]).objects[0]?
      = some (RequestParams.new sample_constants 0).1 ∧
    (World.run sample_constants World.init
        [.construct, .copy 0, .regen 1 (.setSSLCAcheck false)]).objects.map
        RequestParams.getSSLCACheck = [true, false] ∧
    (setClientCertX509_at sample_heap 1 X509Credential.empty).2.value 1
      = sample_heap.value 1 ∧
    (getClientCertX509_at sample_heap 1).1 = X509Credential.mk (some "user.pem") :=
  ⟨((copy_preserves_configuration sample_constants (RequestParams.new sample_constants 0).1
        (RequestParams.new sample_constants 0).1 0).2.2.2.1
      (World.run sample_constants World.init [.construct, .copy 0]) 0 rfl).2.2.2.1
      1 (.setSSLCAcheck false) (by decide),
    rfl,
    ((copy_preserves_configuration sample_constants (RequestParams.new sample_constants 0).1
        (RequestParams.new sample_constants 0).1 0).2.2.2.2.1
      sample_heap 1 1 (by decide)).1 X509Credential.empty,
    (((copy_preserves_configuration sample_constants
        ((RequestParams.new sample_constants 0).1.setClientCertX509
          (X509Credential.mk (some "user.pem")) 1).1
        (RequestParams.new sample_constants 0).1 0).2.2.2.2.2
      sample_heap 1).2.2.2 (by decide) rfl).1⟩

end Davix
